import Mathlib

/-!
# MeshRefiner (Plugin/MeshUtils/MeshRefiner.cpp): shallow embedding

Conventions of the embedding.

* A C++ `int` is a Lean `Int`; a container size is a `Nat` and is cast where the
  source writes `(int)x.size()`.  Buffers hold far fewer than `2^31` entries, so
  no wrap-around is modelled.
* `RawVector<T>` and the non-owning view `IArray<T>` are both `List T` (value
  semantics: a view is the list it looks at).
* `float2`, `float3`, `float4` and `Weights4` are type parameters `F2 F3 F4 W`;
  the vector predicate `near_equal` is a parameter (`NearEqual`).
* `xs[i]` is `elem xs i`: outside the buffer a read yields `default` and a write
  (`store`) is dropped.  On well-formed meshes the code never leaves a buffer.
-/

namespace mu

/-! ## Buffers -/

/-- Read `xs[i]` for an `int` index. -/
def elem {α : Type} [Inhabited α] (xs : List α) (i : Int) : α :=
  if i < 0 then default else xs.getD i.toNat default

/-- Write `xs[i] = v` for an `int` index. -/
def store {α : Type} (xs : List α) (i : Int) (v : α) : List α :=
  if i < 0 then xs else xs.set i.toNat v

/-- The container call `xs.resize(n, v)`: keeps the first `n` entries, pads with `v`. -/
def resize {α : Type} (xs : List α) (n : Nat) (v : α) : List α :=
  xs.take n ++ List.replicate (n - xs.length) v

/-- Copy `src` into `buf` starting at position `pos` (a raw pointer write loop). -/
def writeAt {α : Type} (buf : List α) (pos : Int) : List α → List α
  | [] => buf
  | x :: rest => writeAt (store buf pos x) (pos + 1) rest

/-! ## Records of MeshRefiner.h -/

/-- One split: counts of the items it owns. -/
structure Split where
  num_faces : Int := 0
  num_vertices : Int := 0
  num_indices : Int := 0
  num_indices_triangulated : Int := 0
  num_submeshes : Int := 0
  deriving DecidableEq, Repr, Inhabited

/-- One submesh; the pointer `faces_to_write` is an offset into `new_indices_submeshes`. -/
structure Submesh where
  materialID : Int := 0
  num_indices_tri : Int := 0
  faces_to_write : Int := 0
  deriving DecidableEq, Repr, Inhabited

/-- The vector predicate `near_equal` on 2-, 3- and 4-vectors (SIMD.h, not in this file). -/
structure NearEqual (F2 F3 F4 : Type) where
  near2 : F2 → F2 → Bool
  near3 : F3 → F3 → Bool
  near4 : F4 → F4 → Bool

/-- The state of a `MeshRefiner` instance. -/
structure MeshRefiner (F2 F3 F4 W : Type) where
  split_unit : Int := 0
  triangulate : Bool := true
  swap_faces : Bool := false
  counts : List Int := []
  indices : List Int := []
  points : List F3 := []
  npoints : List F3 := []
  normals : List F3 := []
  uv : List F2 := []
  colors : List F4 := []
  weights4 : List W := []
  submeshes : List Submesh := []
  splits : List Split := []
  counts_tmp : List Int := []
  offsets : List Int := []
  v2f_counts : List Int := []
  v2f_offsets : List Int := []
  shared_faces : List Int := []
  shared_indices : List Int := []
  face_normals : List F3 := []
  normals_tmp : List F3 := []
  tangents_tmp : List F4 := []
  new_points : List F3 := []
  new_normals : List F3 := []
  new_tangents : List F4 := []
  new_uv : List F2 := []
  new_colors : List F4 := []
  new_weights4 : List W := []
  new_indices : List Int := []
  new_indices_triangulated : List Int := []
  new_indices_submeshes : List Int := []
  old2new : List Int := []
  num_indices_tri : Int := 0

/-! ## Kernels of MeshUtils.h (not in the source tree) -/

/-- Modelled from the spec: `mu::CountIndices`, missing from the sources.  It returns
`offsets[f] = Σ_{g<f} counts[g]`, the total `Σ counts[f]` and the total
`Σ (counts[f] − 2)·3`, computed in a single pass over `counts`. -/
def CountIndices (counts : List Int) : List Int × Int × Int :=
  counts.foldl
    (fun (acc : List Int × Int × Int) (c : Int) => (acc.1 ++ [acc.2.1], acc.2.1 + c, acc.2.2 + (c - 2) * 3))
    ([], 0, 0)

/-- Modelled from the spec: the fan of one polygon `[c0,c1,…]` given as the corner `c0`
and the remaining corners: triangles `(c0,c1,c2), (c0,c2,c3), …`, each with reversed
winding `(c0,c2,c1)` when `swap_faces` is set. -/
def fanTriangles (swap_faces : Bool) (c0 : Int) : List Int → List Int
  | a :: b :: rest =>
      (if swap_faces then [c0, b, a] else [c0, a, b]) ++ fanTriangles swap_faces c0 (b :: rest)
  | _ => []

/-- Modelled from the spec: `mu::TriangulateWithIndices`, missing from the sources: the
fan triangulation of every face of `counts`, its corners read consecutively from
`indices`.  The result is the sequence written through the destination pointer. -/
def TriangulateWithIndices (swap_faces : Bool) : List Int → List Int → List Int
  | [], _ => []
  | c :: counts, indices =>
      (match indices.take c.toNat with
        | [] => []
        | c0 :: rest => fanTriangles swap_faces c0 rest)
      ++ TriangulateWithIndices swap_faces counts (indices.drop c.toNat)

/-- The view `IntrusiveArray<T>(xs + start, len)`. -/
def view {α : Type} (xs : List α) (start len : Int) : List α :=
  (xs.drop start.toNat).take len.toNat

section Refiner

variable {F2 F3 F4 W : Type} [Inhabited F2] [Inhabited F3] [Inhabited F4] [Inhabited W]

namespace MeshRefiner

/-! ## prepare -/

/-- The body of `MeshRefiner::prepare`. -/
def prepare (r : MeshRefiner F2 F3 F4 W) (counts_ indices_ : List Int) (points_ : List F3) :
    MeshRefiner F2 F3 F4 W :=
  let r1 : MeshRefiner F2 F3 F4 W :=
    { r with
      counts := counts_, indices := indices_, points := points_, npoints := points_,
      normals := [], uv := [], colors := [], weights4 := [],
      submeshes := [], splits := [],
      counts_tmp := [], offsets := [], v2f_counts := [], v2f_offsets := [],
      shared_faces := [], shared_indices := [], face_normals := [],
      normals_tmp := [], tangents_tmp := [],
      new_points := [], new_normals := [], new_uv := [], new_colors := [], new_weights4 := [],
      new_indices := [], new_indices_triangulated := [], new_indices_submeshes := [],
      old2new := [], num_indices_tri := 0 }
  if r1.counts.isEmpty then
    let num_indices : Int := r1.indices.length
    let num_faces : Int := num_indices / 3
    let counts_tmp := resize r1.counts_tmp num_faces.toNat 3
    let offsets := (List.range num_faces.toNat).foldl
      (fun (o : List Int) (i : Nat) => store o i ((i : Int) * 3)) (resize r1.offsets num_faces.toNat 0)
    { r1 with num_indices_tri := num_indices, counts_tmp := counts_tmp, offsets := offsets,
              counts := counts_tmp }
  else
    let ci := CountIndices r1.counts
    { r1 with offsets := ci.1, num_indices_tri := ci.2.2 }

/-! ## buildConnection -/

/-- First pass of `buildConnection`: `v2f_counts[idx[i]]++` for every corner, the read
pointer `idx` advancing by the face size. -/
def countPass (counts indices : List Int) (v2f_counts : List Int) : List Int × Int :=
  counts.foldl
    (fun (st : List Int × Int) (c : Int) =>
      ((List.range c.toNat).foldl
          (fun (vc : List Int) (i : Nat) =>
            store vc (elem indices (st.2 + i)) (elem vc (elem indices (st.2 + i)) + 1))
          st.1,
       st.2 + c))
    (v2f_counts, 0)

/-- Second pass of `buildConnection`: running sum of `v2f_counts` into `v2f_offsets`. -/
def offsetPass (num_points : Nat) (v2f_counts v2f_offsets : List Int) : List Int × Int :=
  (List.range num_points).foldl
    (fun (st : List Int × Int) (i : Nat) => (store st.1 i st.2, st.2 + elem v2f_counts i))
    (v2f_offsets, 0)

/-- Loop state of the third pass of `buildConnection`. -/
structure ScatterState where
  v2f_indices : List Int
  shared_faces : List Int
  shared_indices : List Int
  i : Int

/-- Third pass of `buildConnection`: every corner is filed under its point. -/
def scatterPass (counts indices v2f_offsets : List Int) (st0 : ScatterState) : ScatterState :=
  (List.range counts.length).foldl
    (fun (st : ScatterState) (fi : Nat) =>
      let c := elem counts fi
      let st1 := (List.range c.toNat).foldl
        (fun (s : ScatterState) (ci : Nat) =>
          let vi := elem indices (s.i + ci)
          let ti := elem v2f_offsets vi + elem s.v2f_indices vi
          { s with
            v2f_indices := store s.v2f_indices vi (elem s.v2f_indices vi + 1),
            shared_faces := store s.shared_faces ti fi,
            shared_indices := store s.shared_indices ti (s.i + ci) })
        st
      { st1 with i := st1.i + c })
    st0

/-- The body of `MeshRefiner::buildConnection`. -/
def buildConnection (r : MeshRefiner F2 F3 F4 W) : MeshRefiner F2 F3 F4 W :=
  if r.v2f_counts.length = r.points.length then r
  else
    let num_indices := r.indices.length
    let num_points := r.points.length
    let v2f_counts := (countPass r.counts r.indices (List.replicate num_points 0)).1
    let v2f_offsets := (offsetPass num_points v2f_counts (resize r.v2f_offsets num_points 0)).1
    let st := scatterPass r.counts r.indices v2f_offsets
      { v2f_indices := List.replicate num_points 0,
        shared_faces := resize r.shared_faces num_indices 0,
        shared_indices := resize r.shared_indices num_indices 0,
        i := 0 }
    { r with v2f_counts := v2f_counts, v2f_offsets := v2f_offsets,
             shared_faces := st.shared_faces, shared_indices := st.shared_indices }

/-! ## findOrAddVertex* -/

/-- The loop shared by the five `findOrAddVertex*` functions: walk the incidence list of
the point; `test ni` is the near-equality condition of the variant, `add` its run of
`push_back` calls.  The list holds the loop counter values `0 .. count-1`. -/
def findOrAddLoop (r : MeshRefiner F2 F3 F4 W) (offset : Int) (test : Int → Bool)
    (add : MeshRefiner F2 F3 F4 W → MeshRefiner F2 F3 F4 W) :
    List Nat → MeshRefiner F2 F3 F4 W × Int
  | [] => (r, 0)
  | ci :: rest =>
      let slot := elem r.shared_indices (offset + ci)
      let ni := elem r.old2new slot
      if (ni != -1 && test ni) = true then (r, ni)
      else if ni = -1 then
        (add { r with old2new := store r.old2new slot (r.new_points.length : Int) },
         (r.new_points.length : Int))
      else findOrAddLoop r offset test add rest

/-- The statement `if (!weights4.empty()) new_weights4.push_back(weights4[vi])`. -/
def pushWeights (r : MeshRefiner F2 F3 F4 W) (vi : Int) : List W :=
  if r.weights4.isEmpty then r.new_weights4 else r.new_weights4 ++ [elem r.weights4 vi]

/-- The body of `MeshRefiner::findOrAddVertexPNTUC`. -/
def findOrAddVertexPNTUC (K : NearEqual F2 F3 F4) (r : MeshRefiner F2 F3 F4 W) (vi : Int)
    (p n : F3) (t : F4) (u : F2) (c : F4) : MeshRefiner F2 F3 F4 W × Int :=
  findOrAddLoop r (elem r.v2f_offsets vi)
    (fun ni => K.near3 (elem r.new_points ni) p && K.near3 (elem r.new_normals ni) n
      && K.near2 (elem r.new_uv ni) u && K.near4 (elem r.new_colors ni) c)
    (fun s => { s with
      new_points := s.new_points ++ [p], new_normals := s.new_normals ++ [n],
      new_tangents := s.new_tangents ++ [t], new_uv := s.new_uv ++ [u],
      new_colors := s.new_colors ++ [c], new_weights4 := pushWeights s vi })
    (List.range (elem r.v2f_counts vi).toNat)

/-- The body of `MeshRefiner::findOrAddVertexPNTU`. -/
def findOrAddVertexPNTU (K : NearEqual F2 F3 F4) (r : MeshRefiner F2 F3 F4 W) (vi : Int)
    (p n : F3) (t : F4) (u : F2) : MeshRefiner F2 F3 F4 W × Int :=
  findOrAddLoop r (elem r.v2f_offsets vi)
    (fun ni => K.near3 (elem r.new_points ni) p && K.near3 (elem r.new_normals ni) n
      && K.near2 (elem r.new_uv ni) u)
    (fun s => { s with
      new_points := s.new_points ++ [p], new_normals := s.new_normals ++ [n],
      new_tangents := s.new_tangents ++ [t], new_uv := s.new_uv ++ [u],
      new_weights4 := pushWeights s vi })
    (List.range (elem r.v2f_counts vi).toNat)

/-- The body of `MeshRefiner::findOrAddVertexPNU`. -/
def findOrAddVertexPNU (K : NearEqual F2 F3 F4) (r : MeshRefiner F2 F3 F4 W) (vi : Int)
    (p n : F3) (u : F2) : MeshRefiner F2 F3 F4 W × Int :=
  findOrAddLoop r (elem r.v2f_offsets vi)
    (fun ni => K.near3 (elem r.new_points ni) p && K.near3 (elem r.new_normals ni) n
      && K.near2 (elem r.new_uv ni) u)
    (fun s => { s with
      new_points := s.new_points ++ [p], new_normals := s.new_normals ++ [n],
      new_uv := s.new_uv ++ [u], new_weights4 := pushWeights s vi })
    (List.range (elem r.v2f_counts vi).toNat)

/-- The body of `MeshRefiner::findOrAddVertexPN`. -/
def findOrAddVertexPN (K : NearEqual F2 F3 F4) (r : MeshRefiner F2 F3 F4 W) (vi : Int)
    (p n : F3) : MeshRefiner F2 F3 F4 W × Int :=
  findOrAddLoop r (elem r.v2f_offsets vi)
    (fun ni => K.near3 (elem r.new_points ni) p && K.near3 (elem r.new_normals ni) n)
    (fun s => { s with
      new_points := s.new_points ++ [p], new_normals := s.new_normals ++ [n],
      new_weights4 := pushWeights s vi })
    (List.range (elem r.v2f_counts vi).toNat)

/-- The body of `MeshRefiner::findOrAddVertexPU`. -/
def findOrAddVertexPU (K : NearEqual F2 F3 F4) (r : MeshRefiner F2 F3 F4 W) (vi : Int)
    (p : F3) (u : F2) : MeshRefiner F2 F3 F4 W × Int :=
  findOrAddLoop r (elem r.v2f_offsets vi)
    (fun ni => K.near3 (elem r.new_points ni) p && K.near2 (elem r.new_uv ni) u)
    (fun s => { s with
      new_points := s.new_points ++ [p], new_uv := s.new_uv ++ [u],
      new_weights4 := pushWeights s vi })
    (List.range (elem r.v2f_counts vi).toNat)

/-! ## doRefine -/

/-- The refiner together with the local variables of `doRefine`. -/
structure RefineLoop (F2 F3 F4 W : Type) where
  r : MeshRefiner F2 F3 F4 W
  offset_vertices : Int := 0
  offset_indices : Int := 0
  num_faces : Int := 0
  num_indices_triangulated : Int := 0

/-- The lambda `add_new_split` of `doRefine`. -/
def add_new_split (s : RefineLoop F2 F3 F4 W) : RefineLoop F2 F3 F4 W :=
  let split : Split :=
    { num_faces := s.num_faces,
      num_indices_triangulated := s.num_indices_triangulated,
      num_vertices := (s.r.new_points.length : Int) - s.offset_vertices,
      num_indices := (s.r.new_indices.length : Int) - s.offset_indices }
  { r := { s.r with splits := s.r.splits ++ [split] },
    offset_vertices := s.offset_vertices + split.num_vertices,
    offset_indices := s.offset_indices + split.num_indices,
    num_faces := 0,
    num_indices_triangulated := 0 }

/-- One corner of the inner loop of `doRefine`: `ni = body(vi, i)` and the push of the
split-local index. -/
def refineCorner (body : MeshRefiner F2 F3 F4 W → Int → Int → MeshRefiner F2 F3 F4 W × Int)
    (offset : Int) (s : RefineLoop F2 F3 F4 W) (ci : Nat) : RefineLoop F2 F3 F4 W :=
  let i := offset + ci
  let vi := elem s.r.indices i
  let res := body s.r vi i
  { s with r := { res.1 with new_indices := res.1.new_indices ++ [res.2 - s.offset_vertices] } }

/-- One iteration of the face loop of `doRefine`. -/
def refineFace (body : MeshRefiner F2 F3 F4 W → Int → Int → MeshRefiner F2 F3 F4 W × Int)
    (s : RefineLoop F2 F3 F4 W) (fi : Nat) : RefineLoop F2 F3 F4 W :=
  let offset := elem s.r.offsets fi
  let count := elem s.r.counts fi
  let s1 :=
    if s.r.split_unit > 0 ∧ (s.r.new_points.length : Int) - s.offset_vertices + count > s.r.split_unit
    then
      let s0 := add_new_split s
      { s0 with r := { s0.r with old2new := List.replicate s0.r.old2new.length (-1) } }
    else s
  let s2 := (List.range count.toNat).foldl (refineCorner body offset) s1
  { s2 with num_faces := s2.num_faces + 1,
            num_indices_triangulated := s2.num_indices_triangulated + (count - 2) * 3 }

/-- Cursor state of the triangulation loop of `doRefine`. -/
structure TriLoop where
  buf : List Int
  sub_indices : Int := 0
  n_counts : Int := 0
  n_indices : Int := 0

/-- The `if (triangulate)` block of `doRefine`. -/
def triangulateSplits (r : MeshRefiner F2 F3 F4 W) : MeshRefiner F2 F3 F4 W :=
  let nindices : Int := r.splits.foldl (fun (acc : Int) (split : Split) => acc + split.num_indices_triangulated) 0
  let st := r.splits.foldl
    (fun (st : TriLoop) (split : Split) =>
      { buf := writeAt st.buf st.sub_indices
          (TriangulateWithIndices r.swap_faces (view r.counts st.n_counts split.num_faces)
            (view r.new_indices st.n_indices split.num_indices)),
        sub_indices := st.sub_indices + split.num_indices_triangulated,
        n_counts := st.n_counts + split.num_faces,
        n_indices := st.n_indices + split.num_indices })
    { buf := resize r.new_indices_triangulated nindices.toNat 0 }
  { r with new_indices_triangulated := st.buf }

/-- The body of `MeshRefiner::doRefine`. -/
def doRefine (body : MeshRefiner F2 F3 F4 W → Int → Int → MeshRefiner F2 F3 F4 W × Int)
    (r : MeshRefiner F2 F3 F4 W) : MeshRefiner F2 F3 F4 W :=
  let r0 := buildConnection r
  let r1 := { r0 with old2new := resize r0.old2new r0.indices.length (-1) }
  let s := (List.range r1.counts.length).foldl (refineFace body) { r := r1 }
  let s := add_new_split s
  if s.r.triangulate then triangulateSplits s.r else s.r

/-! ## refineWithOptimization -/

/-- The body of `MeshRefiner::refineWithOptimization`. -/
def refineWithOptimization (K : NearEqual F2 F3 F4) (r : MeshRefiner F2 F3 F4 W) :
    MeshRefiner F2 F3 F4 W × Bool :=
  let num_points : Int := r.points.length
  let num_indices : Int := r.indices.length
  let num_normals : Int := r.normals.length
  let num_uv : Int := r.uv.length
  let num_colors : Int := r.colors.length
  let r :=
    if ¬ r.uv.isEmpty then
      if ¬ r.normals.isEmpty then
        if ¬ r.tangents_tmp.isEmpty then
          if ¬ r.colors.isEmpty then
            if num_normals = num_indices ∧ num_uv = num_indices ∧ num_colors = num_indices then
              doRefine (fun s vi i => findOrAddVertexPNTUC K s vi (elem s.points vi)
                (elem s.normals i) (elem s.tangents_tmp i) (elem s.uv i) (elem s.colors i)) r
            else if num_normals = num_indices ∧ num_uv = num_indices ∧ num_colors = num_points then
              doRefine (fun s vi i => findOrAddVertexPNTUC K s vi (elem s.points vi)
                (elem s.normals i) (elem s.tangents_tmp i) (elem s.uv i) (elem s.colors vi)) r
            else if num_normals = num_indices ∧ num_uv = num_points ∧ num_colors = num_indices then
              doRefine (fun s vi i => findOrAddVertexPNTUC K s vi (elem s.points vi)
                (elem s.normals i) (elem s.tangents_tmp i) (elem s.uv vi) (elem s.colors i)) r
            else if num_normals = num_indices ∧ num_uv = num_points ∧ num_colors = num_points then
              doRefine (fun s vi i => findOrAddVertexPNTUC K s vi (elem s.points vi)
                (elem s.normals i) (elem s.tangents_tmp i) (elem s.uv vi) (elem s.colors vi)) r
            else if num_normals = num_points ∧ num_uv = num_indices ∧ num_colors = num_indices then
              doRefine (fun s vi i => findOrAddVertexPNTUC K s vi (elem s.points vi)
                (elem s.normals vi) (elem s.tangents_tmp i) (elem s.uv i) (elem s.colors i)) r
            else if num_normals = num_points ∧ num_uv = num_indices ∧ num_colors = num_points then
              doRefine (fun s vi i => findOrAddVertexPNTUC K s vi (elem s.points vi)
                (elem s.normals vi) (elem s.tangents_tmp i) (elem s.uv i) (elem s.colors vi)) r
            else if num_normals = num_points ∧ num_uv = num_points ∧ num_colors = num_indices then
              doRefine (fun s vi i => findOrAddVertexPNTUC K s vi (elem s.points vi)
                (elem s.normals vi) (elem s.tangents_tmp vi) (elem s.uv vi) (elem s.colors i)) r
            else if num_normals = num_points ∧ num_uv = num_points ∧ num_colors = num_points then
              doRefine (fun s vi _ => findOrAddVertexPNTUC K s vi (elem s.points vi)
                (elem s.normals vi) (elem s.tangents_tmp vi) (elem s.uv vi) (elem s.colors vi)) r
            else r
          else
            if num_normals = num_indices ∧ num_uv = num_indices then
              doRefine (fun s vi i => findOrAddVertexPNTU K s vi (elem s.points vi)
                (elem s.normals i) (elem s.tangents_tmp i) (elem s.uv i)) r
            else if num_normals = num_indices ∧ num_uv = num_points then
              doRefine (fun s vi i => findOrAddVertexPNTU K s vi (elem s.points vi)
                (elem s.normals i) (elem s.tangents_tmp i) (elem s.uv vi)) r
            else if num_normals = num_points ∧ num_uv = num_indices then
              doRefine (fun s vi i => findOrAddVertexPNTU K s vi (elem s.points vi)
                (elem s.normals vi) (elem s.tangents_tmp i) (elem s.uv i)) r
            else if num_normals = num_points ∧ num_uv = num_points then
              doRefine (fun s vi _ => findOrAddVertexPNTU K s vi (elem s.points vi)
                (elem s.normals vi) (elem s.tangents_tmp vi) (elem s.uv vi)) r
            else r
        else
          if num_normals = num_indices ∧ num_uv = num_indices then
            doRefine (fun s vi i => findOrAddVertexPNU K s vi (elem s.points vi)
              (elem s.normals i) (elem s.uv i)) r
          else if num_normals = num_indices ∧ num_uv = num_points then
            doRefine (fun s vi i => findOrAddVertexPNU K s vi (elem s.points vi)
              (elem s.normals i) (elem s.uv vi)) r
          else if num_normals = num_points ∧ num_uv = num_indices then
            doRefine (fun s vi i => findOrAddVertexPNU K s vi (elem s.points vi)
              (elem s.normals vi) (elem s.uv i)) r
          else if num_normals = num_points ∧ num_uv = num_points then
            doRefine (fun s vi _ => findOrAddVertexPNU K s vi (elem s.points vi)
              (elem s.normals vi) (elem s.uv vi)) r
          else r
      else
        if num_uv = num_indices then
          doRefine (fun s vi i => findOrAddVertexPU K s vi (elem s.points vi) (elem s.uv i)) r
        else if num_uv = num_points then
          doRefine (fun s vi _ => findOrAddVertexPU K s vi (elem s.points vi) (elem s.uv vi)) r
        else r
    else
      if num_normals = num_indices then
        doRefine (fun s vi i => findOrAddVertexPN K s vi (elem s.points vi) (elem s.normals i)) r
      else if num_normals = num_points then
        doRefine (fun s vi _ => findOrAddVertexPN K s vi (elem s.points vi) (elem s.normals vi)) r
      else r
  (r, true)

/-! ## genSubmesh -/

/-- The `while (mid >= (int)sm.size())` loop of `genSubmesh`: buckets are appended, each
with `materialID = id - 1`, until bucket `mid` exists. -/
def growBuckets (sm : List Submesh) (mid : Int) : List Submesh :=
  sm ++ (List.range (mid + 1 - (sm.length : Int)).toNat).map
    (fun (j : Nat) => ({ materialID := ((sm.length + j : Nat) : Int) - 1 } : Submesh))

/-- The first face loop of `genSubmesh` ("count triangle indices") for one split. -/
def tallyBuckets (counts materialIDs : List Int) (offset_faces : Int) (num_faces : Int)
    (sm : List Submesh) : List Submesh :=
  (List.range num_faces.toNat).foldl
    (fun (sm : List Submesh) (fi : Nat) =>
      let mid := elem materialIDs (offset_faces + fi) + 1
      let sm := growBuckets sm mid
      store sm mid
        { elem sm mid with
          num_indices_tri := (elem sm mid).num_indices_tri + (elem counts fi - 2) * 3 })
    sm

/-- The loop of `genSubmesh` that hands every bucket its write cursor. -/
def assignCursors (sm : List Submesh) (faces_to_write : Int) : List Submesh × Int :=
  (List.range sm.length).foldl
    (fun (st : List Submesh × Int) (mi : Nat) =>
      (store st.1 mi { elem st.1 mi with faces_to_write := st.2 },
       st.2 + (elem st.1 mi).num_indices_tri))
    (sm, faces_to_write)

/-- Loop state of the second face loop of `genSubmesh` ("copy triangles"). -/
structure CopyLoop where
  sm : List Submesh
  dst : List Int
  faces_to_read : Int

/-- The second face loop of `genSubmesh` for one split. -/
def copyTriangles (counts materialIDs src : List Int) (offset_faces : Int) (num_faces : Int)
    (st0 : CopyLoop) : CopyLoop :=
  (List.range num_faces.toNat).foldl
    (fun (st : CopyLoop) (fi : Nat) =>
      let mid := elem materialIDs (offset_faces + fi) + 1
      let count := elem counts (offset_faces + fi)
      let nidx := (count - 2) * 3
      (List.range nidx.toNat).foldl
        (fun (st : CopyLoop) (_ : Nat) =>
          { sm := store st.sm mid
              { elem st.sm mid with faces_to_write := (elem st.sm mid).faces_to_write + 1 },
            dst := store st.dst (elem st.sm mid).faces_to_write (elem src st.faces_to_read),
            faces_to_read := st.faces_to_read + 1 })
        st)
    st0

/-- Loop state of the split loop of `genSubmesh`. -/
structure SubmeshLoop where
  splits : List Split
  submeshes : List Submesh
  dst : List Int
  faces_to_read : Int := 0
  faces_to_write : Int := 0
  offset_faces : Int := 0

/-- One iteration of the split loop of `genSubmesh`; `sm` is empty on entry because it
is cleared at the end of every iteration. -/
def submeshSplit (counts materialIDs src : List Int) (st : SubmeshLoop) (si : Nat) :
    SubmeshLoop :=
  let split := elem st.splits si
  let sm := tallyBuckets counts materialIDs st.offset_faces split.num_faces []
  let cur := assignCursors sm st.faces_to_write
  let cp := copyTriangles counts materialIDs src st.offset_faces split.num_faces
    { sm := cur.1, dst := st.dst, faces_to_read := st.faces_to_read }
  let emitted := (List.range cp.sm.length).foldl
    (fun (acc : Split × List Submesh) (mi : Nat) =>
      if (elem cp.sm mi).num_indices_tri > 0 then
        ({ acc.1 with num_submeshes := acc.1.num_submeshes + 1 }, acc.2 ++ [elem cp.sm mi])
      else acc)
    (split, st.submeshes)
  { splits := store st.splits si emitted.1,
    submeshes := emitted.2,
    dst := cp.dst,
    faces_to_read := cp.faces_to_read,
    faces_to_write := cur.2,
    offset_faces := st.offset_faces + split.num_faces }

/-- The body of `MeshRefiner::genSubmesh`. -/
def genSubmesh (r : MeshRefiner F2 F3 F4 W) (materialIDs : List Int) :
    MeshRefiner F2 F3 F4 W × Bool :=
  let r := { r with submeshes := [] }
  if materialIDs.length ≠ r.counts.length then (r, false)
  else
    let dst := resize r.new_indices_submeshes r.new_indices_triangulated.length 0
    let st := (List.range r.splits.length).foldl
      (submeshSplit r.counts materialIDs r.new_indices_triangulated)
      { splits := r.splits, submeshes := r.submeshes, dst := dst }
    ({ r with splits := st.splits, submeshes := st.submeshes, new_indices_submeshes := st.dst },
     true)

end MeshRefiner

end Refiner

end mu

namespace mu

/-! # Definitions used by the statements and the proofs -/

/-- The corners `k < n` that reference point `v`, in ascending order. -/
def cornersOf (indices : List Int) (n : Nat) (v : Int) : List Nat :=
  (List.range n).filter (fun k => decide (elem indices (k : Int) = v))

/-- Number of corners `k < n` that reference point `v`. -/
def occ (indices : List Int) (n : Nat) (v : Int) : Nat := (cornersOf indices n v).length

/-- Number of corners that reference a point below `v`. -/
def offOf (indices : List Int) (v : Nat) : Nat :=
  ((List.range v).map (fun (w : Nat) => occ indices indices.length (w : Int))).sum

/-- First corner of face `fi`, as a natural number. -/
def faceStart (counts : List Int) (fi : Nat) : Nat := ((counts.take fi).map Int.toNat).sum

/-- Well-formed topology: faces have at least three corners, the face sizes add up to
the index count and every index names a point. -/
def ValidTopology (counts indices : List Int) (numPoints : Nat) : Prop :=
  (∀ c ∈ counts, 3 ≤ c) ∧ counts.sum = (indices.length : Int) ∧
    ∀ v ∈ indices, 0 ≤ v ∧ v < (numPoints : Int)

instance (counts indices : List Int) (numPoints : Nat) :
    Decidable (ValidTopology counts indices numPoints) := by
  unfold ValidTopology; infer_instance

namespace MeshRefiner

/-- State of the scatter loop after the first `n` corners have been filed. -/
structure ScatterInv (counts indices : List Int) (numPoints : Nat) (n : Nat)
    (s : ScatterState) : Prop where
  len_bump : s.v2f_indices.length = numPoints
  len_si : s.shared_indices.length = indices.length
  len_sf : s.shared_faces.length = indices.length
  bump : ∀ v : Nat, v < numPoints → elem s.v2f_indices (v : Int) = (occ indices n (v : Int) : Int)
  slots : ∀ v : Nat, v < numPoints → ∀ c : Nat, c < occ indices n (v : Int) →
    elem s.shared_indices ((offOf indices v : Int) + c)
      = (((cornersOf indices indices.length (v : Int)).getD c 0 : Nat) : Int)
  faces : ∀ v : Nat, v < numPoints → ∀ c : Nat, c < occ indices n (v : Int) →
    ∃ f : Nat, elem s.shared_faces ((offOf indices v : Int) + c) = (f : Int) ∧
      f < counts.length ∧
      faceStart counts f ≤ (cornersOf indices indices.length (v : Int)).getD c 0 ∧
      (cornersOf indices indices.length (v : Int)).getD c 0 < faceStart counts (f + 1)

end MeshRefiner

section

variable {F2 F3 F4 W : Type} [Inhabited F2] [Inhabited F3] [Inhabited F4] [Inhabited W]

namespace MeshRefiner

/-- What a lambda handed to `doRefine` compares or copies.  For normals, uv, colours
and tangents: `none` when the variant ignores the attribute, `some true` when it is
read per corner (`attr[i]`), `some false` when it is read per point (`attr[vi]`). -/
structure Profile where
  n : Option Bool
  u : Option Bool
  c : Option Bool
  t : Option Bool
  deriving DecidableEq, Repr

/-- The index a lambda uses for an attribute: the corner `i` or the point `vi`. -/
def pick (perCorner : Bool) (vi i : Int) : Int := if perCorner then i else vi

/-- The near-equality condition of a variant, for candidate output vertex `ni`. -/
def Profile.test (K : NearEqual F2 F3 F4) (d : Profile) (r : MeshRefiner F2 F3 F4 W)
    (vi i ni : Int) : Bool :=
  K.near3 (elem r.new_points ni) (elem r.points vi)
  && (match d.n with
      | some b => K.near3 (elem r.new_normals ni) (elem r.normals (pick b vi i))
      | none => true)
  && (match d.u with
      | some b => K.near2 (elem r.new_uv ni) (elem r.uv (pick b vi i))
      | none => true)
  && (match d.c with
      | some b => K.near4 (elem r.new_colors ni) (elem r.colors (pick b vi i))
      | none => true)

/-- The `push_back` run of a variant; the pushed values are read from `r`. -/
def Profile.add (d : Profile) (r : MeshRefiner F2 F3 F4 W) (vi i : Int)
    (s : MeshRefiner F2 F3 F4 W) : MeshRefiner F2 F3 F4 W :=
  { s with
    new_points := s.new_points ++ [elem r.points vi],
    new_normals := (match d.n with
      | some b => s.new_normals ++ [elem r.normals (pick b vi i)]
      | none => s.new_normals),
    new_tangents := (match d.t with
      | some b => s.new_tangents ++ [elem r.tangents_tmp (pick b vi i)]
      | none => s.new_tangents),
    new_uv := (match d.u with
      | some b => s.new_uv ++ [elem r.uv (pick b vi i)]
      | none => s.new_uv),
    new_colors := (match d.c with
      | some b => s.new_colors ++ [elem r.colors (pick b vi i)]
      | none => s.new_colors),
    new_weights4 := pushWeights s vi }

/-- The lambda handed to `doRefine`, for a given profile. -/
def Profile.body (K : NearEqual F2 F3 F4) (d : Profile) (r : MeshRefiner F2 F3 F4 W)
    (vi i : Int) : MeshRefiner F2 F3 F4 W × Int :=
  findOrAddLoop r (elem r.v2f_offsets vi) (d.test K r vi i) (d.add r vi i)
    (List.range (elem r.v2f_counts vi).toNat)

/-- The profile `refineWithOptimization` selects, `none` when no branch applies. -/
def dispatch (r : MeshRefiner F2 F3 F4 W) : Option Profile :=
  let num_points : Int := r.points.length
  let num_indices : Int := r.indices.length
  let num_normals : Int := r.normals.length
  let num_uv : Int := r.uv.length
  let num_colors : Int := r.colors.length
  if ¬ r.uv.isEmpty then
    if ¬ r.normals.isEmpty then
      if ¬ r.tangents_tmp.isEmpty then
        if ¬ r.colors.isEmpty then
          if num_normals = num_indices ∧ num_uv = num_indices ∧ num_colors = num_indices then
            some ⟨some true, some true, some true, some true⟩
          else if num_normals = num_indices ∧ num_uv = num_indices ∧ num_colors = num_points then
            some ⟨some true, some true, some false, some true⟩
          else if num_normals = num_indices ∧ num_uv = num_points ∧ num_colors = num_indices then
            some ⟨some true, some false, some true, some true⟩
          else if num_normals = num_indices ∧ num_uv = num_points ∧ num_colors = num_points then
            some ⟨some true, some false, some false, some true⟩
          else if num_normals = num_points ∧ num_uv = num_indices ∧ num_colors = num_indices then
            some ⟨some false, some true, some true, some true⟩
          else if num_normals = num_points ∧ num_uv = num_indices ∧ num_colors = num_points then
            some ⟨some false, some true, some false, some true⟩
          else if num_normals = num_points ∧ num_uv = num_points ∧ num_colors = num_indices then
            some ⟨some false, some false, some true, some false⟩
          else if num_normals = num_points ∧ num_uv = num_points ∧ num_colors = num_points then
            some ⟨some false, some false, some false, some false⟩
          else none
        else
          if num_normals = num_indices ∧ num_uv = num_indices then
            some ⟨some true, some true, none, some true⟩
          else if num_normals = num_indices ∧ num_uv = num_points then
            some ⟨some true, some false, none, some true⟩
          else if num_normals = num_points ∧ num_uv = num_indices then
            some ⟨some false, some true, none, some true⟩
          else if num_normals = num_points ∧ num_uv = num_points then
            some ⟨some false, some false, none, some false⟩
          else none
      else
        if num_normals = num_indices ∧ num_uv = num_indices then
          some ⟨some true, some true, none, none⟩
        else if num_normals = num_indices ∧ num_uv = num_points then
          some ⟨some true, some false, none, none⟩
        else if num_normals = num_points ∧ num_uv = num_indices then
          some ⟨some false, some true, none, none⟩
        else if num_normals = num_points ∧ num_uv = num_points then
          some ⟨some false, some false, none, none⟩
        else none
    else
      if num_uv = num_indices then some ⟨none, some true, none, none⟩
      else if num_uv = num_points then some ⟨none, some false, none, none⟩
      else none
  else
    if num_normals = num_indices then some ⟨some true, none, none, none⟩
    else if num_normals = num_points then some ⟨some false, none, none, none⟩
    else none

end MeshRefiner

end

section

variable {F2 F3 F4 W : Type} [Inhabited F2] [Inhabited F3] [Inhabited F4] [Inhabited W]

namespace MeshRefiner

set_option linter.unusedSectionVars false

/-- The assignment `ni = (int)new_points.size()` through the reference into `old2new`. -/
def recordAt (r : MeshRefiner F2 F3 F4 W) (slot : Int) : MeshRefiner F2 F3 F4 W :=
  { r with old2new := store r.old2new slot (r.new_points.length : Int) }

end MeshRefiner

end

section

variable {F2 F3 F4 W : Type} [Inhabited F2] [Inhabited F3] [Inhabited F4] [Inhabited W]

namespace MeshRefiner

set_option linter.unusedSectionVars false

/-- The point-to-corner index is in place: for every point the incidence list is the
ascending list of the corners that reference it. -/
structure Connected (r : MeshRefiner F2 F3 F4 W) : Prop where
  counts_eq : ∀ v : Nat, v < r.points.length →
    elem r.v2f_counts (v : Int) = (occ r.indices r.indices.length (v : Int) : Int)
  offsets_eq : ∀ v : Nat, v < r.points.length →
    elem r.v2f_offsets (v : Int) = (offOf r.indices v : Int)
  slots : ∀ v : Nat, v < r.points.length → ∀ c : Nat, c < occ r.indices r.indices.length (v : Int) →
    elem r.shared_indices ((offOf r.indices v : Int) + c)
      = (((cornersOf r.indices r.indices.length (v : Int)).getD c 0 : Nat) : Int)
  faces : ∀ v : Nat, v < r.points.length → ∀ c : Nat, c < occ r.indices r.indices.length (v : Int) →
    ∃ f : Nat, elem r.shared_faces ((offOf r.indices v : Int) + c) = (f : Int) ∧
      f < r.counts.length ∧
      faceStart r.counts f ≤ (cornersOf r.indices r.indices.length (v : Int)).getD c 0 ∧
      (cornersOf r.indices r.indices.length (v : Int)).getD c 0 < faceStart r.counts (f + 1)

end MeshRefiner

end

section

variable {F2 F3 F4 W : Type} [Inhabited F2] [Inhabited F3] [Inhabited F4] [Inhabited W]

namespace MeshRefiner

set_option linter.unusedSectionVars false

/-- State `r` has the inputs, options and connection index of state `r0`. -/
structure SameInputs (r r0 : MeshRefiner F2 F3 F4 W) : Prop where
  split_unit : r.split_unit = r0.split_unit
  triangulate : r.triangulate = r0.triangulate
  swap_faces : r.swap_faces = r0.swap_faces
  counts : r.counts = r0.counts
  indices : r.indices = r0.indices
  points : r.points = r0.points
  normals : r.normals = r0.normals
  uv : r.uv = r0.uv
  colors : r.colors = r0.colors
  weights4 : r.weights4 = r0.weights4
  tangents_tmp : r.tangents_tmp = r0.tangents_tmp
  offsets : r.offsets = r0.offsets
  v2f_counts : r.v2f_counts = r0.v2f_counts
  v2f_offsets : r.v2f_offsets = r0.v2f_offsets
  shared_faces : r.shared_faces = r0.shared_faces
  shared_indices : r.shared_indices = r0.shared_indices

/-- Point index of corner `k`. -/
def idx (r0 : MeshRefiner F2 F3 F4 W) (k : Nat) : Int := elem r0.indices (k : Int)

/-- Position handed to `findOrAddVertex*` for corner `k`. -/
def keyP (r0 : MeshRefiner F2 F3 F4 W) (k : Nat) : F3 := elem r0.points (idx r0 k)

/-- Normal handed to `findOrAddVertex*` for corner `k` (`b`: read per corner). -/
def keyN (r0 : MeshRefiner F2 F3 F4 W) (b : Bool) (k : Nat) : F3 :=
  elem r0.normals (pick b (idx r0 k) k)

/-- Texture coordinate handed to `findOrAddVertex*` for corner `k`. -/
def keyU (r0 : MeshRefiner F2 F3 F4 W) (b : Bool) (k : Nat) : F2 :=
  elem r0.uv (pick b (idx r0 k) k)

/-- Colour handed to `findOrAddVertex*` for corner `k`. -/
def keyC (r0 : MeshRefiner F2 F3 F4 W) (b : Bool) (k : Nat) : F4 :=
  elem r0.colors (pick b (idx r0 k) k)

/-- Tangent copied by `findOrAddVertex*` for corner `k`. -/
def keyT (r0 : MeshRefiner F2 F3 F4 W) (b : Bool) (k : Nat) : F4 :=
  elem r0.tangents_tmp (pick b (idx r0 k) k)

/-- Weights copied by `findOrAddVertex*` for corner `k`. -/
def keyW (r0 : MeshRefiner F2 F3 F4 W) (k : Nat) : W := elem r0.weights4 (idx r0 k)

/-- The test of a variant, applied to the values of corner `j` (stored) and corner `k`. -/
def Profile.same (K : NearEqual F2 F3 F4) (d : Profile) (r0 : MeshRefiner F2 F3 F4 W)
    (j k : Nat) : Bool :=
  K.near3 (keyP r0 j) (keyP r0 k)
  && (match d.n with
      | some b => K.near3 (keyN r0 b j) (keyN r0 b k)
      | none => true)
  && (match d.u with
      | some b => K.near2 (keyU r0 b j) (keyU r0 b k)
      | none => true)
  && (match d.c with
      | some b => K.near4 (keyC r0 b j) (keyC r0 b k)
      | none => true)

/-- The output buffers hold the values of the corners `a`, in this order; a buffer the
variant does not push to is as it was in `r0`, and tangents and weights are appended to
what `r0` held. -/
structure Rep (d : Profile) (r0 r : MeshRefiner F2 F3 F4 W) (a : List Nat) : Prop where
  points : r.new_points = a.map (keyP r0)
  normals : ∀ b, d.n = some b → r.new_normals = a.map (keyN r0 b)
  uv : ∀ b, d.u = some b → r.new_uv = a.map (keyU r0 b)
  colors : ∀ b, d.c = some b → r.new_colors = a.map (keyC r0 b)
  normals_off : d.n = none → r.new_normals = r0.new_normals
  uv_off : d.u = none → r.new_uv = r0.new_uv
  colors_off : d.c = none → r.new_colors = r0.new_colors
  tangents : ∀ b, d.t = some b → r.new_tangents = r0.new_tangents ++ a.map (keyT r0 b)
  tangents_off : d.t = none → r.new_tangents = r0.new_tangents
  weights : r.new_weights4
    = r0.new_weights4 ++ (if r0.weights4.isEmpty then [] else a.map (keyW r0))

end MeshRefiner

end

section

variable {F2 F3 F4 W : Type} [Inhabited F2] [Inhabited F3] [Inhabited F4] [Inhabited W]

namespace MeshRefiner

set_option linter.unusedSectionVars false

/-- State of the corner loop after `n` corners: `a` lists the corners that allocated an
output vertex, `st` is the first corner and `ov` the first vertex of the current split. -/
structure CornerInv (K : NearEqual F2 F3 F4) (d : Profile) (r0 : MeshRefiner F2 F3 F4 W)
    (st ov n : Nat) (a : List Nat) (r : MeshRefiner F2 F3 F4 W) : Prop where
  inputs : SameInputs r r0
  rep : Rep d r0 r a
  len_ni : r.new_indices.length = n
  len_o2n : r.old2new.length = r0.indices.length
  ov_le : ov ≤ a.length
  st_le : st ≤ n
  sorted : a.Pairwise (· < ·)
  alloc_lt : ∀ k ∈ a, k < n
  alloc_cur : ∀ m : Nat, ov ≤ m → m < a.length → st ≤ a.getD m 0
  cache : ∀ k : Nat, k < r0.indices.length → elem r.old2new (k : Int) = -1 ∨
    ∃ m : Nat, elem r.old2new (k : Int) = (m : Int) ∧ ov ≤ m ∧ m < a.length ∧
      idx r0 (a.getD m 0) = idx r0 k
  pref : ∀ v : Nat, v < r0.points.length →
    ∃ q : Nat, q + occ r0.indices st (v : Int) ≤ occ r0.indices n (v : Int) ∧
      ∀ c : Nat, c < occ r0.indices r0.indices.length (v : Int) →
        (elem r.old2new (((cornersOf r0.indices r0.indices.length (v : Int)).getD c 0 : Nat) : Int)
            ≠ -1 ↔ c < q)
  recorded : ∀ m : Nat, ov ≤ m → m < a.length →
    ∃ k : Nat, k < r0.indices.length ∧ elem r.old2new (k : Int) = (m : Int)
  out : ∀ k : Nat, st ≤ k → k < n →
    ∃ g : Nat, elem r.new_indices (k : Int) = (g : Int) - (ov : Int) ∧ ov ≤ g ∧ g < a.length ∧
      idx r0 (a.getD g 0) = idx r0 k ∧ a.getD g 0 ≤ k ∧
      (a.getD g 0 = k ∨ d.same K r0 (a.getD g 0) k = true)
  greedy : ∀ k : Nat, st ≤ k → k < n →
    (k ∈ a ↔ ∀ m : Nat, ov ≤ m → m < a.length → a.getD m 0 < k →
      idx r0 (a.getD m 0) = idx r0 k → d.same K r0 (a.getD m 0) k = false)

end MeshRefiner

end

/-- Number of faces owned by the splits before split `t`. -/
def faceBase (splits : List Split) (t : Nat) : Int :=
  ((splits.take t).map (fun sp => sp.num_faces)).sum

/-- Number of `new_indices` entries owned by the splits before split `t`. -/
def indexBase (splits : List Split) (t : Nat) : Int :=
  ((splits.take t).map (fun sp => sp.num_indices)).sum

/-- Number of output vertices owned by the splits before split `t`. -/
def vertexBase (splits : List Split) (t : Nat) : Int :=
  ((splits.take t).map (fun sp => sp.num_vertices)).sum

/-- Number of triangulated indices owned by the splits before split `t`. -/
def triBase (splits : List Split) (t : Nat) : Int :=
  ((splits.take t).map (fun sp => sp.num_indices_triangulated)).sum

/-- Triangulated index count of the first `f` faces: `Σ (counts[g] - 2) * 3`. -/
def triTotal (counts : List Int) (f : Nat) : Int :=
  ((counts.take f).map (fun c => (c - 2) * 3)).sum

section

variable {F2 F3 F4 W : Type} [Inhabited F2] [Inhabited F3] [Inhabited F4] [Inhabited W]

namespace MeshRefiner

set_option linter.unusedSectionVars false

/-- A closed split is consistent with the output: it owns the corners of its faces, and
each of its `new_indices` entries names, relative to the split's first vertex, a vertex
that was allocated for the same point by a corner that is this corner or matches it. -/
structure SplitOK (K : NearEqual F2 F3 F4) (d : Profile) (r0 : MeshRefiner F2 F3 F4 W)
    (a : List Nat) (newIdx : List Int) (fb vb : Nat) (sp : Split) : Prop where
  shape : ∃ nf nv : Nat, sp.num_faces = (nf : Int) ∧ sp.num_vertices = (nv : Int) ∧
    fb + nf ≤ r0.counts.length ∧
    sp.num_indices = (faceStart r0.counts (fb + nf) : Int) - (faceStart r0.counts fb : Int) ∧
    sp.num_indices_triangulated = triTotal r0.counts (fb + nf) - triTotal r0.counts fb ∧
    vb + nv ≤ a.length ∧ faceStart r0.counts (fb + nf) ≤ newIdx.length ∧
    ∀ k : Nat, faceStart r0.counts fb ≤ k → k < faceStart r0.counts (fb + nf) →
      ∃ g : Nat, elem newIdx (k : Int) = (g : Int) - (vb : Int) ∧ vb ≤ g ∧ g < vb + nv ∧
        idx r0 (a.getD g 0) = idx r0 k ∧ (a.getD g 0 = k ∨ d.same K r0 (a.getD g 0) k = true)
  budget : 0 < r0.split_unit → 0 < r0.counts.length → (∀ c ∈ r0.counts, c ≤ r0.split_unit) →
    sp.num_vertices ≤ r0.split_unit ∧ 1 ≤ sp.num_faces

end MeshRefiner

end

section

variable {F2 F3 F4 W : Type} [Inhabited F2] [Inhabited F3] [Inhabited F4] [Inhabited W]

namespace MeshRefiner

set_option linter.unusedSectionVars false

/-- State of the face loop before face `fi`: `fst` is the first face and `ov` the first
vertex of the current split, `a` lists the allocating corners. -/
structure FaceInv (K : NearEqual F2 F3 F4) (d : Profile) (r0 : MeshRefiner F2 F3 F4 W)
    (fi fst ov : Nat) (a : List Nat) (s : RefineLoop F2 F3 F4 W) : Prop where
  corner : CornerInv K d r0 (faceStart r0.counts fst) ov (faceStart r0.counts fi) a s.r
  fst_le : fst ≤ fi
  off_v : s.offset_vertices = (ov : Int)
  off_i : s.offset_indices = (faceStart r0.counts fst : Int)
  nfaces : s.num_faces = (fi : Int) - (fst : Int)
  ntri : s.num_indices_triangulated = triTotal r0.counts fi - triTotal r0.counts fst
  fbase : faceBase s.r.splits s.r.splits.length = (fst : Int)
  ibase : indexBase s.r.splits s.r.splits.length = (faceStart r0.counts fst : Int)
  vbase : vertexBase s.r.splits s.r.splits.length = (ov : Int)
  tbase : triBase s.r.splits s.r.splits.length = triTotal r0.counts fst
  closed : ∀ t : Nat, t < s.r.splits.length → ∃ fb vb : Nat,
    faceBase s.r.splits t = (fb : Int) ∧
    indexBase s.r.splits t = (faceStart r0.counts fb : Int) ∧
    vertexBase s.r.splits t = (vb : Int) ∧
    triBase s.r.splits t = triTotal r0.counts fb ∧
    SplitOK K d r0 a s.r.new_indices fb vb (s.r.splits.getD t default)
  budget : 0 < r0.split_unit → (∀ c ∈ r0.counts, c ≤ r0.split_unit) →
    (a.length : Int) - (ov : Int) ≤ r0.split_unit
  start : fi = 0 → a = []
  nosplit : r0.split_unit ≤ 0 → fst = 0 ∧ ov = 0 ∧ s.r.splits = []

/-- The split record that `add_new_split` pushes. -/
def closingSplit (s : RefineLoop F2 F3 F4 W) : Split :=
  { num_faces := s.num_faces,
    num_indices_triangulated := s.num_indices_triangulated,
    num_vertices := (s.r.new_points.length : Int) - s.offset_vertices,
    num_indices := (s.r.new_indices.length : Int) - s.offset_indices }

end MeshRefiner

end

section

variable {F2 F3 F4 W : Type} [Inhabited F2] [Inhabited F3] [Inhabited F4] [Inhabited W]

namespace MeshRefiner

set_option linter.unusedSectionVars false

/-- Inner-loop state of one face: the corner invariant, with everything the corner loop
leaves alone. -/
structure InnerInv (K : NearEqual F2 F3 F4) (d : Profile) (r0 : MeshRefiner F2 F3 F4 W)
    (fi fst ov : Nat) (a : List Nat) (s1 : RefineLoop F2 F3 F4 W) (ci : Nat) (a' : List Nat)
    (s : RefineLoop F2 F3 F4 W) : Prop where
  corner : CornerInv K d r0 (faceStart r0.counts fst) ov (faceStart r0.counts fi + ci) a' s.r
  ext : ∃ e : List Nat, a' = a ++ e ∧ e.length ≤ ci
  splits : s.r.splits = s1.r.splits
  off_v : s.offset_vertices = s1.offset_vertices
  off_i : s.offset_indices = s1.offset_indices
  nfaces : s.num_faces = s1.num_faces
  ntri : s.num_indices_triangulated = s1.num_indices_triangulated
  newidx : ∃ ys : List Int, s.r.new_indices = s1.r.new_indices ++ ys

end MeshRefiner

end

section

variable {F2 F3 F4 W : Type} [Inhabited F2] [Inhabited F3] [Inhabited F4] [Inhabited W]

namespace MeshRefiner

set_option linter.unusedSectionVars false

/-- The part of the state that `prepare` leaves behind and `doRefine` relies on: no
splits, empty output buffers, empty vertex cache, the face offsets computed from
`counts`, and a connection index that is either not built yet or already built for this
mesh (as `genNormals(smooth_angle)` does before refine). -/
structure Fresh (r : MeshRefiner F2 F3 F4 W) : Prop where
  splits : r.splits = []
  new_points : r.new_points = []
  new_normals : r.new_normals = []
  new_uv : r.new_uv = []
  new_colors : r.new_colors = []
  new_indices : r.new_indices = []
  old2new : r.old2new = []
  csr : r.v2f_counts = [] ∨ (r.v2f_counts.length = r.points.length ∧ Connected r)
  offsets : r.offsets = (CountIndices r.counts).1

/-- The state in which the face loop of `doRefine` starts. -/
def refineStart (r : MeshRefiner F2 F3 F4 W) : MeshRefiner F2 F3 F4 W :=
  { buildConnection r with
    old2new := resize (buildConnection r).old2new (buildConnection r).indices.length (-1) }

end MeshRefiner

end

section

variable {F2 F3 F4 W : Type} [Inhabited F2] [Inhabited F3] [Inhabited F4] [Inhabited W]

namespace MeshRefiner

set_option linter.unusedSectionVars false

/-- What `doRefine` leaves behind: `a` lists, in order, the corners whose values fill
the output buffers; the split records account for all faces, corners and vertices. -/
structure Refined (K : NearEqual F2 F3 F4) (d : Profile) (r rf : MeshRefiner F2 F3 F4 W)
    (a : List Nat) : Prop where
  points : rf.new_points = a.map (keyP r)
  normals : ∀ b, d.n = some b → rf.new_normals = a.map (keyN r b)
  uv : ∀ b, d.u = some b → rf.new_uv = a.map (keyU r b)
  colors : ∀ b, d.c = some b → rf.new_colors = a.map (keyC r b)
  len_ni : rf.new_indices.length = r.indices.length
  sorted : a.Pairwise (· < ·)
  alloc_lt : ∀ k ∈ a, k < r.indices.length
  faces_total : faceBase rf.splits rf.splits.length = (r.counts.length : Int)
  indices_total : indexBase rf.splits rf.splits.length = (r.indices.length : Int)
  vertices_total : vertexBase rf.splits rf.splits.length = (a.length : Int)
  tri_total : triBase rf.splits rf.splits.length = triTotal r.counts r.counts.length
  closed : ∀ t : Nat, t < rf.splits.length → ∃ fb vb : Nat,
    faceBase rf.splits t = (fb : Int) ∧
    indexBase rf.splits t = (faceStart r.counts fb : Int) ∧
    vertexBase rf.splits t = (vb : Int) ∧
    triBase rf.splits t = triTotal r.counts fb ∧
    SplitOK K d r a rf.new_indices fb vb (rf.splits.getD t default)
  single : r.split_unit ≤ 0 →
    (∀ k : Nat, k < r.indices.length →
      (k ∈ a ↔ ∀ m : Nat, m < a.length → a.getD m 0 < k →
        idx r (a.getD m 0) = idx r k → d.same K r (a.getD m 0) k = false)) ∧
    (∀ k : Nat, k < r.indices.length →
      ∃ g : Nat, g < a.length ∧ idx r (a.getD g 0) = idx r k ∧ a.getD g 0 ≤ k ∧
        (a.getD g 0 = k ∨ d.same K r (a.getD g 0) k = true))
  frame : rf.counts = r.counts ∧ rf.indices = r.indices ∧ rf.points = r.points ∧
    rf.split_unit = r.split_unit ∧ rf.triangulate = r.triangulate ∧ rf.swap_faces = r.swap_faces
  normals_off : d.n = none → rf.new_normals = r.new_normals
  uv_off : d.u = none → rf.new_uv = r.new_uv
  colors_off : d.c = none → rf.new_colors = r.new_colors
  tangents : ∀ b, d.t = some b → rf.new_tangents = r.new_tangents ++ a.map (keyT r b)
  tangents_off : d.t = none → rf.new_tangents = r.new_tangents
  weights : rf.new_weights4
    = r.new_weights4 ++ (if r.weights4.isEmpty then [] else a.map (keyW r))
  one : r.split_unit ≤ 0 → rf.splits.length = 1
  single_out : r.split_unit ≤ 0 → ∀ k : Nat, k < r.indices.length →
    ∃ g : Nat, elem rf.new_indices (k : Int) = (g : Int) ∧ g < a.length ∧
      idx r (a.getD g 0) = idx r k ∧ a.getD g 0 ≤ k ∧
      (a.getD g 0 = k ∨ d.same K r (a.getD g 0) k = true)
  tri : rf.triangulate = true → ∃ old : List Int,
    rf.new_indices_triangulated
      = (triangulateSplits { rf with new_indices_triangulated := old }).new_indices_triangulated

end MeshRefiner

end

section

variable {F2 F3 F4 W : Type} [Inhabited F2] [Inhabited F3] [Inhabited F4] [Inhabited W]

namespace MeshRefiner

set_option linter.unusedSectionVars false

/-- The mesh handed to refine is well formed and carries normals or texture
coordinates: faces have at least three corners, the face sizes add up to the number of
indices, and every index names a point. -/
def ValidMesh (r : MeshRefiner F2 F3 F4 W) : Prop :=
  ValidTopology r.counts r.indices r.points.length ∧ (r.normals ≠ [] ∨ r.uv ≠ [])

/-- Every attribute buffer that is present is per-vertex (length `P`) or per-corner
(length `I`). -/
def AttrsValid (r : MeshRefiner F2 F3 F4 W) : Prop :=
  (r.normals = [] ∨ r.normals.length = r.points.length ∨ r.normals.length = r.indices.length) ∧
  (r.uv = [] ∨ r.uv.length = r.points.length ∨ r.uv.length = r.indices.length) ∧
  (r.colors = [] ∨ r.colors.length = r.points.length ∨ r.colors.length = r.indices.length)

/-- The index at which the lambdas of `refineWithOptimization` read an attribute buffer
of length `len` for corner `k`: the corner itself when the buffer has one entry per
index, the point of the corner otherwise. -/
def cornerIndex (len : Nat) (r : MeshRefiner F2 F3 F4 W) (k : Nat) : Int :=
  if (len : Int) = (r.indices.length : Int) then (k : Int) else elem r.indices (k : Int)

/-- Normal of corner `k`. -/
def cornerNormal (r : MeshRefiner F2 F3 F4 W) (k : Nat) : F3 :=
  elem r.normals (cornerIndex r.normals.length r k)

/-- Texture coordinate of corner `k`. -/
def cornerUV (r : MeshRefiner F2 F3 F4 W) (k : Nat) : F2 :=
  elem r.uv (cornerIndex r.uv.length r k)

/-- Colour of corner `k`. -/
def cornerColor (r : MeshRefiner F2 F3 F4 W) (k : Nat) : F4 :=
  elem r.colors (cornerIndex r.colors.length r k)

/-- Colours take part in the comparison only in the variant `findOrAddVertexPNTUC`,
selected when uv, normals, generated tangents and colours are all present. -/
def comparesColors (r : MeshRefiner F2 F3 F4 W) : Bool :=
  !r.uv.isEmpty && !r.normals.isEmpty && !r.tangents_tmp.isEmpty && !r.colors.isEmpty

end MeshRefiner

end

section

variable {F2 F3 F4 W : Type} [Inhabited F2] [Inhabited F3] [Inhabited F4] [Inhabited W]

namespace MeshRefiner

set_option linter.unusedSectionVars false

/-- The compared attributes of corners `j` and `k` are pairwise `near_equal`: normals
when present, texture coordinates when present, colours when they are compared. -/
def attrsNear (K : NearEqual F2 F3 F4) (r : MeshRefiner F2 F3 F4 W) (j k : Nat) : Bool :=
  (r.normals.isEmpty || K.near3 (cornerNormal r j) (cornerNormal r k))
  && (r.uv.isEmpty || K.near2 (cornerUV r j) (cornerUV r k))
  && (!comparesColors r || K.near4 (cornerColor r j) (cornerColor r k))

end MeshRefiner

end

/-- Exact equality as the `near_equal` predicate, on integer vectors. -/
def exactNear : NearEqual (Int × Int) (Int × Int × Int) (Int × Int × Int × Int) :=
  { near2 := fun a b => a == b, near3 := fun a b => a == b, near4 := fun a b => a == b }

/-- A refiner with default options before its first `prepare`. -/
def emptyRefiner : MeshRefiner (Int × Int) (Int × Int × Int) (Int × Int × Int × Int) Int := {}

/-- A unit cube: 8 points, 6 quads, one face normal per corner. -/
def cubeMesh : MeshRefiner (Int × Int) (Int × Int × Int) (Int × Int × Int × Int) Int :=
  { MeshRefiner.prepare emptyRefiner [4, 4, 4, 4, 4, 4]
      [0, 1, 2, 3, 4, 5, 6, 7, 0, 1, 5, 4, 2, 3, 7, 6, 0, 3, 7, 4, 1, 2, 6, 5]
      [(0, 0, 0), (1, 0, 0), (1, 1, 0), (0, 1, 0), (0, 0, 1), (1, 0, 1), (1, 1, 1), (0, 1, 1)] with
    normals := [(0, 0, -1), (0, 0, -1), (0, 0, -1), (0, 0, -1), (0, 0, 1), (0, 0, 1), (0, 0, 1),
      (0, 0, 1), (0, -1, 0), (0, -1, 0), (0, -1, 0), (0, -1, 0), (0, 1, 0), (0, 1, 0), (0, 1, 0),
      (0, 1, 0), (-1, 0, 0), (-1, 0, 0), (-1, 0, 0), (-1, 0, 0), (1, 0, 0), (1, 0, 0), (1, 0, 0),
      (1, 0, 0)] }

/-- Three separate faces (triangle, quad, triangle) on ten points, with a vertex budget
of four per split and one normal per point. -/
def threeFaceMesh : MeshRefiner (Int × Int) (Int × Int × Int) (Int × Int × Int × Int) Int :=
  { MeshRefiner.prepare { emptyRefiner with split_unit := 4 } [3, 4, 3]
      [0, 1, 2, 3, 4, 5, 6, 7, 8, 9]
      [(0, 0, 0), (1, 0, 0), (2, 0, 0), (3, 0, 0), (4, 0, 0), (5, 0, 0), (6, 0, 0), (7, 0, 0),
        (8, 0, 0), (9, 0, 0)] with
    normals := [(0, 0, 1), (0, 0, 1), (0, 0, 1), (0, 0, 1), (0, 0, 1), (0, 0, 1), (0, 0, 1),
      (0, 0, 1), (0, 0, 1), (0, 0, 1)] }

/-- One triangle on three points, without normals and without texture coordinates. -/
def bareTriangle : MeshRefiner (Int × Int) (Int × Int × Int) (Int × Int × Int × Int) Int :=
  MeshRefiner.prepare emptyRefiner [3] [0, 1, 2] [(0, 0, 0), (1, 0, 0), (0, 1, 0)]

/-- One point with its normal and no face, with a vertex budget of four per split. -/
def pointOnlyMesh : MeshRefiner (Int × Int) (Int × Int × Int) (Int × Int × Int × Int) Int :=
  { MeshRefiner.prepare { emptyRefiner with split_unit := 4 } [] [] [(0, 0, 0)] with
    normals := [(0, 0, 1)] }

section

variable {F2 F3 F4 W : Type} [Inhabited F2] [Inhabited F3] [Inhabited F4] [Inhabited W]

namespace MeshRefiner

set_option linter.unusedSectionVars false

/-- Corners `j` and `k` carry the same (point index, compared attributes) tuple: the
same point, and all compared attributes of the active profile `near_equal`. -/
def sameTuple (K : NearEqual F2 F3 F4) (r : MeshRefiner F2 F3 F4 W) (j k : Nat) : Bool :=
  decide (elem r.indices (j : Int) = elem r.indices (k : Int)) && attrsNear K r j k

/-- Number of distinct tuples over all corners: the corners whose tuple differs from
the tuple of every earlier corner (one per class when `sameTuple` is an equivalence). -/
def distinctTuples (K : NearEqual F2 F3 F4) (r : MeshRefiner F2 F3 F4 W) : Nat :=
  ((List.range r.indices.length).filter
    (fun k => (List.range k).all (fun j => !sameTuple K r j k))).length

/-- `near_equal` is an equivalence on the values present: it is reflexive on the
positions of the mesh, and `sameTuple` is reflexive, symmetric and transitive on the
corners of the mesh. -/
def NearEquivalence (K : NearEqual F2 F3 F4) (r : MeshRefiner F2 F3 F4 W) : Prop :=
  (∀ k : Nat, k < r.indices.length →
    K.near3 (elem r.points (elem r.indices (k : Int))) (elem r.points (elem r.indices (k : Int)))
      = true) ∧
  (∀ k : Nat, k < r.indices.length → sameTuple K r k k = true) ∧
  (∀ j : Nat, j < r.indices.length → ∀ k : Nat, k < r.indices.length →
    sameTuple K r j k = true → sameTuple K r k j = true) ∧
  (∀ j : Nat, j < r.indices.length → ∀ k : Nat, k < r.indices.length →
    ∀ l : Nat, l < r.indices.length →
      sameTuple K r j k = true → sameTuple K r k l = true → sameTuple K r j l = true)

end MeshRefiner

end

/-- One triangle on four points, the fourth point unused, one normal per point. -/
def looseMesh : MeshRefiner (Int × Int) (Int × Int × Int) (Int × Int × Int × Int) Int :=
  { MeshRefiner.prepare emptyRefiner [3] [0, 1, 2]
      [(0, 0, 0), (1, 0, 0), (0, 1, 0), (5, 5, 5)] with
    normals := [(0, 0, 1), (0, 0, 1), (0, 0, 1), (0, 0, 1)] }

/-- A quad on four points, one normal per point (scenario 1 of the specification). -/
def quadMesh : MeshRefiner (Int × Int) (Int × Int × Int) (Int × Int × Int × Int) Int :=
  { MeshRefiner.prepare emptyRefiner [4] [0, 1, 2, 3]
      [(0, 0, 0), (1, 0, 0), (1, 1, 0), (0, 1, 0)] with
    normals := [(0, 0, 1), (0, 0, 1), (0, 0, 1), (0, 0, 1)] }

section

variable {F2 F3 F4 W : Type} [Inhabited F2] [Inhabited F3] [Inhabited F4] [Inhabited W]

namespace MeshRefiner

set_option linter.unusedSectionVars false

/-- Every attribute buffer that is present has one entry per point. -/
def PerVertexAttrs (r : MeshRefiner F2 F3 F4 W) : Prop :=
  (r.normals = [] ∨ r.normals.length = r.points.length) ∧
  (r.uv = [] ∨ r.uv.length = r.points.length) ∧
  (r.colors = [] ∨ r.colors.length = r.points.length)

/-- Every point is referenced by at least one corner. -/
def EveryPointUsed (r : MeshRefiner F2 F3 F4 W) : Prop :=
  ∀ v : Nat, v < r.points.length → ∃ k : Nat, k < r.indices.length ∧ elem r.indices (k : Int) = (v : Int)

instance (r : MeshRefiner F2 F3 F4 W) : Decidable (EveryPointUsed r) := by
  unfold EveryPointUsed; infer_instance

/-- `near_equal` is reflexive on the values held by the input buffers. -/
def NearReflexive (K : NearEqual F2 F3 F4) (r : MeshRefiner F2 F3 F4 W) : Prop :=
  (∀ x ∈ r.points, K.near3 x x = true) ∧ (∀ x ∈ r.normals, K.near3 x x = true) ∧
  (∀ x ∈ r.uv, K.near2 x x = true) ∧ (∀ x ∈ r.colors, K.near4 x x = true)

end MeshRefiner

end

section

variable {F2 F3 F4 W : Type} [Inhabited F2] [Inhabited F3] [Inhabited F4] [Inhabited W]

/-- The body of `MeshRefiner::genTangents`.  The kernel `mu::GenerateTangents` is not in
the source tree and works on floats; it is a parameter that receives the resized
destination buffer followed by the six inputs and returns the filled buffer. -/
def MeshRefiner.genTangents
    (GenerateTangents :
      List F4 → List F3 → List F3 → List F2 → List Int → List Int → List Int → List F4)
    (r : MeshRefiner F2 F3 F4 W) : MeshRefiner F2 F3 F4 W :=
  { r with
    tangents_tmp := GenerateTangents
      (resize r.tangents_tmp (max r.normals.length r.uv.length) default)
      r.points r.normals r.uv r.counts r.offsets r.indices }

end

/-- The part of an index buffer that belongs to split `t`: the run of
`num_indices_triangulated` entries after the runs of the earlier splits. -/
def splitRun (buf : List Int) (splits : List Split) (t : Nat) : List Int :=
  view buf (triBase splits t) (splits.getD t default).num_indices_triangulated

/-- A stand-in for the tangent kernel that leaves the destination buffer as it is. -/
def keepTangents (dst : List (Int × Int × Int × Int)) (_ : List (Int × Int × Int))
    (_ : List (Int × Int × Int)) (_ : List (Int × Int)) (_ _ _ : List Int) :
    List (Int × Int × Int × Int) := dst

/-- One prepare / set attributes / genTangents / refine cycle of a refiner on the quad
with one normal and one texture coordinate per point. -/
def quadCycle (r : MeshRefiner (Int × Int) (Int × Int × Int) (Int × Int × Int × Int) Int) :
    MeshRefiner (Int × Int) (Int × Int × Int) (Int × Int × Int × Int) Int :=
  (MeshRefiner.refineWithOptimization exactNear
    (MeshRefiner.genTangents keepTangents
      { MeshRefiner.prepare r [4] [0, 1, 2, 3] [(0, 0, 0), (1, 0, 0), (1, 1, 0), (0, 1, 0)] with
        normals := [(0, 0, 1), (0, 0, 1), (0, 0, 1), (0, 0, 1)],
        uv := [(0, 0), (1, 0), (1, 1), (0, 1)] })).1

/-- Four triangles in a fan on six points, one normal per point (scenario 4 of the
specification, before materials are assigned). -/
def fanMesh : MeshRefiner (Int × Int) (Int × Int × Int) (Int × Int × Int × Int) Int :=
  { MeshRefiner.prepare emptyRefiner [3, 3, 3, 3] [0, 1, 2, 0, 2, 3, 0, 3, 4, 0, 4, 5]
      [(0, 0, 0), (1, 0, 0), (2, 0, 0), (3, 0, 0), (4, 0, 0), (5, 0, 0)] with
    normals := [(0, 0, 1), (0, 0, 1), (0, 0, 1), (0, 0, 1), (0, 0, 1), (0, 0, 1)] }

/-- Modelled from the spec: `mu::CopyWithIndices`, missing from the sources: the gather
`dst[k] = src[indices[k]]` for every `k ∈ [0, |indices|)`, written into `dst`. -/
def CopyWithIndices {α : Type} [Inhabited α] (dst src : List α) (indices : List Int) : List α :=
  (List.range indices.length).foldl
    (fun (d : List α) (k : Nat) => store d k (elem src (elem indices k))) dst

/-- Modelled from the spec: `mu::Triangulate`, missing from the sources: the fan
triangulation of every face of `counts` over the identity mapping, the corners of the
faces being numbered consecutively from `0`. -/
def Triangulate (swap_faces : Bool) (counts : List Int) : List Int :=
  TriangulateWithIndices swap_faces counts
    ((List.range (counts.map Int.toNat).sum).map (fun (k : Nat) => (k : Int)))

/-- Modelled from the spec: the walker of `mu::Split`, missing from the sources: greedy
grouping of consecutive faces by running vertex count.  A face joins the current group
`(num_faces, num_vertices, num_indices_triangulated)` while the running vertex count does
not exceed `split_unit`; otherwise the group is handed to the callback and the face
starts the next group.  The last group is handed over at the end. -/
def splitWalk (split_unit : Int) : List Int → Int × Int × Int → List (Int × Int × Int)
  | [], g => if g.1 > 0 then [g] else []
  | c :: rest, g =>
      if g.1 > 0 ∧ g.2.1 + c > split_unit then
        g :: splitWalk split_unit rest (1, c, (c - 2) * 3)
      else splitWalk split_unit rest (g.1 + 1, g.2.1 + c, g.2.2 + (c - 2) * 3)

/-- Modelled from the spec: `mu::Split(counts, split_unit, callback)`, missing from the
sources, as the list of the arguments `(num_faces, num_vertices,
num_indices_triangulated)` of the successive callback invocations. -/
def SplitGroups (counts : List Int) (split_unit : Int) : List (Int × Int × Int) :=
  splitWalk split_unit counts (0, 0, 0)

section

variable {F2 F3 F4 W : Type} [Inhabited F2] [Inhabited F3] [Inhabited F4] [Inhabited W]

namespace MeshRefiner

/-- Lines 224-228 of `refineDumb`: the points are gathered into `new_points`, and
`points` then views the result. -/
def flattenPoints (r : MeshRefiner F2 F3 F4 W) : MeshRefiner F2 F3 F4 W :=
  let new_points := CopyWithIndices (resize r.new_points r.indices.length default) r.points r.indices
  { r with new_points := new_points, points := new_points }

/-- Lines 229-233 of `refineDumb`. -/
def flattenNormals (r : MeshRefiner F2 F3 F4 W) : MeshRefiner F2 F3 F4 W :=
  if ¬ r.normals.isEmpty ∧ (r.normals.length : Int) ≠ (r.indices.length : Int) then
    let new_normals :=
      CopyWithIndices (resize r.new_normals r.indices.length default) r.normals r.indices
    { r with new_normals := new_normals, normals := new_normals }
  else r

/-- Lines 234-238 of `refineDumb`. -/
def flattenUV (r : MeshRefiner F2 F3 F4 W) : MeshRefiner F2 F3 F4 W :=
  if ¬ r.uv.isEmpty ∧ (r.uv.length : Int) ≠ (r.indices.length : Int) then
    let new_uv := CopyWithIndices (resize r.new_uv r.indices.length default) r.uv r.indices
    { r with new_uv := new_uv, uv := new_uv }
  else r

/-- Lines 239-243 of `refineDumb`; the last statement is `colors = colors`. -/
def flattenColors (r : MeshRefiner F2 F3 F4 W) : MeshRefiner F2 F3 F4 W :=
  if ¬ r.colors.isEmpty ∧ (r.colors.length : Int) ≠ (r.indices.length : Int) then
    let new_colors :=
      CopyWithIndices (resize r.new_colors r.indices.length default) r.colors r.indices
    { r with new_colors := new_colors, colors := r.colors }
  else r

/-- Lines 244-248 of `refineDumb`. -/
def flattenWeights (r : MeshRefiner F2 F3 F4 W) : MeshRefiner F2 F3 F4 W :=
  if ¬ r.weights4.isEmpty ∧ (r.weights4.length : Int) ≠ (r.indices.length : Int) then
    let new_weights4 :=
      CopyWithIndices (resize r.new_weights4 r.indices.length default) r.weights4 r.indices
    { r with new_weights4 := new_weights4, weights4 := new_weights4 }
  else r

/-- The `flatten` block of `MeshRefiner::refineDumb` (lines 219-250); the second
component is the local `flattened`. -/
def flatten (r : MeshRefiner F2 F3 F4 W) : MeshRefiner F2 F3 F4 W × Bool :=
  let num_indices : Int := r.indices.length
  if (r.points.length : Int) > r.split_unit ∨ (r.normals.length : Int) = num_indices
      ∨ (r.uv.length : Int) = num_indices then
    (flattenWeights (flattenColors (flattenUV (flattenNormals (flattenPoints r)))), true)
  else (r, false)

/-- Loop state of the callback handed to `mu::Split` in `refineDumb`. -/
structure WalkLoop where
  buf : List Int
  splits : List Split
  sub_indices : Int := 0
  offset_faces : Int := 0
  offset_vertices : Int := 0

/-- The lambda handed to `mu::Split` in `refineDumb`, called with
`(num_faces, num_vertices, num_indices_triangulated)`. -/
def walkCallback (counts : List Int) (swap_faces : Bool) (st : WalkLoop) (g : Int × Int × Int) :
    WalkLoop :=
  { buf := writeAt st.buf st.sub_indices (Triangulate swap_faces (view counts st.offset_faces g.1)),
    sub_indices := st.sub_indices + g.2.2,
    offset_faces := st.offset_faces + g.1,
    offset_vertices := st.offset_vertices + g.2.1,
    splits := st.splits ++
      [{ num_faces := g.1, num_vertices := g.2.1, num_indices := g.2.1,
         num_indices_triangulated := g.2.2 }] }

/-- The "split & triangulate" block of `MeshRefiner::refineDumb` (lines 253-287), given
the local `flattened`. -/
def splitAndTriangulate (r : MeshRefiner F2 F3 F4 W) (flattened : Bool) :
    MeshRefiner F2 F3 F4 W :=
  let r := { r with
    splits := [],
    new_indices_triangulated := resize r.new_indices_triangulated r.num_indices_tri.toNat 0 }
  if (r.points.length : Int) > r.split_unit then
    let st := (SplitGroups r.counts r.split_unit).foldl (walkCallback r.counts r.swap_faces)
      { buf := r.new_indices_triangulated, splits := r.splits }
    { r with new_indices_triangulated := st.buf, splits := st.splits }
  else if r.triangulate then
    let tri :=
      if flattened then writeAt r.new_indices_triangulated 0 (Triangulate r.swap_faces r.counts)
      else writeAt r.new_indices_triangulated 0
        (TriangulateWithIndices r.swap_faces r.counts r.indices)
    let r := { r with new_indices_triangulated := tri }
    { r with splits := r.splits ++
        [{ num_faces := r.counts.length, num_vertices := r.points.length,
           num_indices := r.indices.length,
           num_indices_triangulated := r.new_indices_triangulated.length }] }
  else r

/-- The body of `MeshRefiner::refineDumb`. -/
def refineDumb (r : MeshRefiner F2 F3 F4 W) : MeshRefiner F2 F3 F4 W × Bool :=
  let fl := flatten r
  (splitAndTriangulate fl.1 fl.2, true)

/-- The body of `MeshRefiner::refine`. -/
def refine (K : NearEqual F2 F3 F4) (r : MeshRefiner F2 F3 F4 W) (optimize : Bool) :
    MeshRefiner F2 F3 F4 W × Bool :=
  if optimize then refineWithOptimization K r else refineDumb r

/-- The seven caller-owned destination buffers of `swapNewData`. -/
structure SwapTargets (F2 F3 F4 W : Type) where
  p : List F3
  n : List F3
  t : List F4
  u : List F2
  c : List F4
  w : List W
  idx : List Int

/-- Line 510 of `swapNewData`: `if (!new_points.empty()) p.swap(new_points)`. -/
def swapPoints (s : MeshRefiner F2 F3 F4 W × SwapTargets F2 F3 F4 W) :
    MeshRefiner F2 F3 F4 W × SwapTargets F2 F3 F4 W :=
  if ¬ s.1.new_points.isEmpty then
    ({ s.1 with new_points := s.2.p }, { s.2 with p := s.1.new_points })
  else s

/-- Lines 512-513 of `swapNewData`: normals from refine, else from synthesis. -/
def swapNormals (s : MeshRefiner F2 F3 F4 W × SwapTargets F2 F3 F4 W) :
    MeshRefiner F2 F3 F4 W × SwapTargets F2 F3 F4 W :=
  if ¬ s.1.new_normals.isEmpty then
    ({ s.1 with new_normals := s.2.n }, { s.2 with n := s.1.new_normals })
  else if ¬ s.1.normals_tmp.isEmpty then
    ({ s.1 with normals_tmp := s.2.n }, { s.2 with n := s.1.normals_tmp })
  else s

/-- Lines 515-516 of `swapNewData`: tangents from refine, else from synthesis. -/
def swapTangents (s : MeshRefiner F2 F3 F4 W × SwapTargets F2 F3 F4 W) :
    MeshRefiner F2 F3 F4 W × SwapTargets F2 F3 F4 W :=
  if ¬ s.1.new_tangents.isEmpty then
    ({ s.1 with new_tangents := s.2.t }, { s.2 with t := s.1.new_tangents })
  else if ¬ s.1.tangents_tmp.isEmpty then
    ({ s.1 with tangents_tmp := s.2.t }, { s.2 with t := s.1.tangents_tmp })
  else s

/-- Line 518 of `swapNewData`. -/
def swapUV (s : MeshRefiner F2 F3 F4 W × SwapTargets F2 F3 F4 W) :
    MeshRefiner F2 F3 F4 W × SwapTargets F2 F3 F4 W :=
  if ¬ s.1.new_uv.isEmpty then
    ({ s.1 with new_uv := s.2.u }, { s.2 with u := s.1.new_uv })
  else s

/-- Line 519 of `swapNewData`. -/
def swapColors (s : MeshRefiner F2 F3 F4 W × SwapTargets F2 F3 F4 W) :
    MeshRefiner F2 F3 F4 W × SwapTargets F2 F3 F4 W :=
  if ¬ s.1.new_colors.isEmpty then
    ({ s.1 with new_colors := s.2.c }, { s.2 with c := s.1.new_colors })
  else s

/-- Line 520 of `swapNewData`. -/
def swapWeights (s : MeshRefiner F2 F3 F4 W × SwapTargets F2 F3 F4 W) :
    MeshRefiner F2 F3 F4 W × SwapTargets F2 F3 F4 W :=
  if ¬ s.1.new_weights4.isEmpty then
    ({ s.1 with new_weights4 := s.2.w }, { s.2 with w := s.1.new_weights4 })
  else s

/-- Lines 522-523 of `swapNewData`: the submesh-ordered indices, else the triangulated
ones. -/
def swapIndices (s : MeshRefiner F2 F3 F4 W × SwapTargets F2 F3 F4 W) :
    MeshRefiner F2 F3 F4 W × SwapTargets F2 F3 F4 W :=
  if ¬ s.1.new_indices_submeshes.isEmpty then
    ({ s.1 with new_indices_submeshes := s.2.idx }, { s.2 with idx := s.1.new_indices_submeshes })
  else if ¬ s.1.new_indices_triangulated.isEmpty then
    ({ s.1 with new_indices_triangulated := s.2.idx },
     { s.2 with idx := s.1.new_indices_triangulated })
  else s

/-- The body of `MeshRefiner::swapNewData`: each `swap` exchanges the contents of a
destination and of a refiner buffer. -/
def swapNewData (r : MeshRefiner F2 F3 F4 W) (d : SwapTargets F2 F3 F4 W) :
    MeshRefiner F2 F3 F4 W × SwapTargets F2 F3 F4 W :=
  swapIndices (swapWeights (swapColors (swapUV (swapTangents (swapNormals (swapPoints (r, d)))))))

end MeshRefiner

end

section

variable {F2 F3 F4 W : Type} [Inhabited F2] [Inhabited F3] [Inhabited F4] [Inhabited W]

namespace MeshRefiner

set_option linter.unusedSectionVars false

/-- The connection index has not been built: its four arrays are empty, as `prepare`
leaves them. -/
def Unconnected (r : MeshRefiner F2 F3 F4 W) : Prop :=
  r.v2f_counts = [] ∧ r.v2f_offsets = [] ∧ r.shared_faces = [] ∧ r.shared_indices = []

end MeshRefiner

end

section

variable {F2 F3 F4 W : Type} [Inhabited F2] [Inhabited F3] [Inhabited F4] [Inhabited W]

namespace MeshRefiner

set_option linter.unusedSectionVars false

/-- The condition under which `refineDumb` flattens. -/
def flattenCond (r : MeshRefiner F2 F3 F4 W) : Prop :=
  (r.points.length : Int) > r.split_unit ∨ (r.normals.length : Int) = (r.indices.length : Int)
    ∨ (r.uv.length : Int) = (r.indices.length : Int)

instance (r : MeshRefiner F2 F3 F4 W) : Decidable (flattenCond r) := by
  unfold flattenCond; infer_instance

/-- The gathered per-corner copy of an attribute buffer. -/
def gathered {α : Type} [Inhabited α] (old src : List α) (indices : List Int) : List α :=
  CopyWithIndices (resize old indices.length default) src indices

/-- An attribute buffer is expanded by the flatten step: it is neither empty nor of
per-corner length. -/
def expands {α : Type} (attr : List α) (indices : List Int) : Prop :=
  ¬ attr.isEmpty ∧ (attr.length : Int) ≠ (indices.length : Int)

instance {α : Type} (attr : List α) (indices : List Int) : Decidable (expands attr indices) := by
  unfold expands; infer_instance

end MeshRefiner

end

/-- Two triangles on four points with one normal per corner and `split_unit = 4`: the
point count is within the budget, the corner count is not. -/
def seamQuad : MeshRefiner (Int × Int) (Int × Int × Int) (Int × Int × Int × Int) Int :=
  { MeshRefiner.prepare { emptyRefiner with split_unit := 4 } [3, 3] [0, 1, 2, 0, 2, 3]
      [(0, 0, 0), (1, 0, 0), (1, 1, 0), (0, 1, 0)] with
    normals := [(0, 0, 1), (0, 0, 1), (0, 0, 1), (0, 0, 1), (0, 0, 1), (0, 0, 1)] }

/-- One triangle whose corners name the points `1, 2, 0`, with one weight per point and
`split_unit = 0`: `P = I = 3` and the index buffer is not the identity. -/
def tieWeights : MeshRefiner (Int × Int) (Int × Int × Int) (Int × Int × Int × Int) Int :=
  { MeshRefiner.prepare emptyRefiner [3] [1, 2, 0] [(0, 0, 0), (1, 0, 0), (0, 1, 0)] with
    weights4 := [10, 11, 12] }

/-- One triangle on three points with a normals buffer of two entries, a length that is
neither `P = 3` nor `I = 3`. -/
def shortNormals : MeshRefiner (Int × Int) (Int × Int × Int) (Int × Int × Int × Int) Int :=
  { MeshRefiner.prepare emptyRefiner [3] [0, 1, 2] [(0, 0, 0), (1, 0, 0), (0, 1, 0)] with
    normals := [(0, 0, 1), (0, 0, 1)] }

/-- The split record that the callback of `mu::Split` and the per-corner layout give for
a group `(num_faces, num_vertices, num_indices_triangulated)`. -/
def groupRecord (g : Int × Int × Int) : Split :=
  { num_faces := g.1, num_vertices := g.2.1, num_indices := g.2.1,
    num_indices_triangulated := g.2.2 }

section

variable {F2 F3 F4 W : Type} [Inhabited F2] [Inhabited F3] [Inhabited F4] [Inhabited W]

namespace MeshRefiner

set_option linter.unusedSectionVars false

/-- No two corners of the mesh reference the same point. -/
def NoSharedVertices (r : MeshRefiner F2 F3 F4 W) : Prop :=
  ∀ j : Nat, j < r.indices.length → ∀ k : Nat, k < r.indices.length →
    elem r.indices (j : Int) = elem r.indices (k : Int) → j = k

instance (r : MeshRefiner F2 F3 F4 W) : Decidable (NoSharedVertices r) := by
  unfold NoSharedVertices; infer_instance

end MeshRefiner

end

section

variable {F2 F3 F4 W : Type} [Inhabited F2] [Inhabited F3] [Inhabited F4] [Inhabited W]

namespace MeshRefiner

set_option linter.unusedSectionVars false

/-- The face loop of `doRefine` and the walker of `mu::Split` agree on a mesh without
shared vertices: what the loop has pushed, followed by what the walker still emits from
the current group, is the walker's complete output. -/
structure WalkInv (K : NearEqual F2 F3 F4) (d : Profile) (r0 : MeshRefiner F2 F3 F4 W)
    (fi : Nat) (s : RefineLoop F2 F3 F4 W) : Prop where
  face : ∃ (fst ov : Nat) (a : List Nat), FaceInv K d r0 fi fst ov a s ∧ (0 < fi → fst < fi)
  walk : s.r.splits ++
      (splitWalk r0.split_unit (r0.counts.drop fi)
        (s.num_faces, (s.r.new_points.length : Int) - s.offset_vertices,
          s.num_indices_triangulated)).map groupRecord
    = (SplitGroups r0.counts r0.split_unit).map groupRecord

end MeshRefiner

end

/-- Scenario 3 of the specification: 100 independent triangles on 300 points, one normal
per point, `split_unit = 90`. -/
def hundredTriangles : MeshRefiner (Int × Int) (Int × Int × Int) (Int × Int × Int × Int) Int :=
  { MeshRefiner.prepare { emptyRefiner with split_unit := 90 } (List.replicate 100 3)
      ((List.range 300).map (fun (k : Nat) => (k : Int)))
      ((List.range 300).map (fun (k : Nat) => ((k : Int), 0, 0))) with
    normals := List.replicate 300 (0, 0, 1) }

/-- Restricted growth relative to the values `seen` so far: an entry exceeds only
non-negative numbers that were seen or occur earlier in the list. -/
def Grows (seen : List Int) : List Int → Prop
  | [] => True
  | x :: xs => (∀ v : Int, 0 ≤ v → v < x → v ∈ seen) ∧ Grows (x :: seen) xs

/-- The values seen so far are closed downwards. -/
def DownClosed (seen : List Int) : Prop :=
  ∀ x ∈ seen, ∀ v : Int, 0 ≤ v → v < x → v ∈ seen

/-- The triangles emitted for one face, given as the list of its corners. -/
def faceFan (swap_faces : Bool) : List Int → List Int
  | [] => []
  | c0 :: rest => fanTriangles swap_faces c0 rest

section

variable {F2 F3 F4 W : Type} [Inhabited F2] [Inhabited F3] [Inhabited F4] [Inhabited W]

namespace MeshRefiner

set_option linter.unusedSectionVars false

/-- A prepared triangle mesh in the form a run with `split_unit = 0` and
`triangulate = true` leaves behind: every attribute buffer that is present has one entry
per point, every point is used, the index buffer numbers the points in the order of
their first use, and `near_equal` is reflexive on the values held. -/
structure RefinedForm (K : NearEqual F2 F3 F4) (r : MeshRefiner F2 F3 F4 W) : Prop where
  topo : ValidTopology r.counts r.indices r.points.length
  fresh : Fresh r
  triangles : ∃ n : Nat, r.counts = List.replicate n 3
  attrs : PerVertexAttrs r
  used : EveryPointUsed r
  near : NearReflexive K r
  grows : Grows [] r.indices
  active : 0 < r.points.length → r.normals ≠ [] ∨ r.uv ≠ []
  colors : r.colors ≠ [] → comparesColors r = true
  tangents : r.tangents_tmp = [] ∨
    (r.tangents_tmp.length = r.points.length ∧ r.uv ≠ [] ∧ r.normals ≠ [])
  weights : r.weights4 = [] ∨ r.weights4.length = r.points.length
  new_tangents : r.new_tangents = []
  new_weights4 : r.new_weights4 = []
  split_unit : r.split_unit ≤ 0
  triangulate : r.triangulate = true
  swap_faces : r.swap_faces = false

end MeshRefiner

end

section

variable {F2 F3 F4 W : Type} [Inhabited F2] [Inhabited F3] [Inhabited F4] [Inhabited W]

namespace MeshRefiner

set_option linter.unusedSectionVars false

/-- The result `rf` of a run, handed to a second run on the refiner `s`: `prepare` with
no face sizes (every face is a triangle), the triangulated indices and the output
vertices, then the attribute buffers set to the output attributes of `rf`. -/
def refinedAsInput (s rf : MeshRefiner F2 F3 F4 W) : MeshRefiner F2 F3 F4 W :=
  { prepare s [] rf.new_indices_triangulated rf.new_points with
    normals := rf.new_normals, uv := rf.new_uv, colors := rf.new_colors,
    weights4 := rf.new_weights4, tangents_tmp := rf.new_tangents }

end MeshRefiner

end

/-- One triangle on three points with one normal each, to be refined with
`swap_faces = true`. -/
def swapTriangle : MeshRefiner (Int × Int) (Int × Int × Int) (Int × Int × Int × Int) Int :=
  { MeshRefiner.prepare { emptyRefiner with swap_faces := true } [3] [0, 1, 2]
      [(0, 0, 0), (1, 0, 0), (0, 1, 0)] with
    normals := [(0, 0, 1), (0, 0, 1), (0, 0, 1)] }

section

variable {F2 F3 F4 W : Type} [Inhabited F2] [Inhabited F3] [Inhabited F4] [Inhabited W]

open MeshRefiner

set_option linter.unusedSectionVars false

/-- Optimized refine of `r`, then `prepare` on the refiner `s` with the output read as a
triangle mesh, then optimized refine again. -/
def refineTwice (K : NearEqual F2 F3 F4) (s r : MeshRefiner F2 F3 F4 W) :
    MeshRefiner F2 F3 F4 W :=
  (refineWithOptimization K (refinedAsInput s (refineWithOptimization K r).1)).1

end

/-- Two triangles on four points with one colour per point, `split_unit = 0`. -/
def colorQuad : MeshRefiner (Int × Int) (Int × Int × Int) (Int × Int × Int × Int) Int :=
  { MeshRefiner.prepare emptyRefiner [3, 3] [0, 1, 2, 0, 2, 3]
      [(0, 0, 0), (1, 0, 0), (1, 1, 0), (0, 1, 0)] with
    colors := [(1, 0, 0, 1), (0, 1, 0, 1), (0, 0, 1, 1), (1, 1, 1, 1)] }

/-- One triangle whose corners name the points `1, 2, 0`, with three distinct normals:
`P = I = 3` and the index buffer is not the identity. -/
def turnedTriangle : MeshRefiner (Int × Int) (Int × Int × Int) (Int × Int × Int × Int) Int :=
  { MeshRefiner.prepare emptyRefiner [3] [1, 2, 0] [(0, 0, 0), (1, 0, 0), (0, 1, 0)] with
    normals := [(1, 0, 0), (0, 1, 0), (0, 0, 1)] }

/-- Two triangles on four points with one normal and one colour per point and no
generated tangents. -/
def paintedQuad : MeshRefiner (Int × Int) (Int × Int × Int) (Int × Int × Int × Int) Int :=
  { MeshRefiner.prepare emptyRefiner [3, 3] [0, 1, 2, 0, 2, 3]
      [(0, 0, 0), (1, 0, 0), (1, 1, 0), (0, 1, 0)] with
    normals := [(0, 0, 1), (0, 0, 1), (0, 0, 1), (0, 0, 1)],
    colors := [(1, 0, 0, 1), (0, 1, 0, 1), (0, 0, 1, 1), (1, 1, 1, 1)] }

section

variable {F2 F3 F4 W : Type} [Inhabited F2] [Inhabited F3] [Inhabited F4] [Inhabited W]

namespace MeshRefiner

set_option linter.unusedSectionVars false

/-- The budget test at the head of the face loop of `doRefine` (lines 330 to 335): the
state in which the corner loop of face `fi` starts. -/
def openFace (s : RefineLoop F2 F3 F4 W) (fi : Nat) : RefineLoop F2 F3 F4 W :=
  let count := elem s.r.counts fi
  if s.r.split_unit > 0 ∧ (s.r.new_points.length : Int) - s.offset_vertices + count > s.r.split_unit
  then
    let s0 := add_new_split s
    { s0 with r := { s0.r with old2new := List.replicate s0.r.old2new.length (-1) } }
  else s

/-- The state of `doRefine` before face `fi`. -/
def faceState (body : MeshRefiner F2 F3 F4 W → Int → Int → MeshRefiner F2 F3 F4 W × Int)
    (r : MeshRefiner F2 F3 F4 W) (fi : Nat) : RefineLoop F2 F3 F4 W :=
  (List.range fi).foldl (refineFace body) { r := refineStart r }

/-- The state of `doRefine` when the lambda is called for corner `ci` of face `fi`. -/
def cornerState (body : MeshRefiner F2 F3 F4 W → Int → Int → MeshRefiner F2 F3 F4 W × Int)
    (r : MeshRefiner F2 F3 F4 W) (fi ci : Nat) : RefineLoop F2 F3 F4 W :=
  (List.range ci).foldl (refineCorner body (elem (faceState body r fi).r.offsets fi))
    (openFace (faceState body r fi) fi)

/-- The corner `i = offset + ci` handed to the lambda in that call. -/
def calledCorner (body : MeshRefiner F2 F3 F4 W → Int → Int → MeshRefiner F2 F3 F4 W × Int)
    (r : MeshRefiner F2 F3 F4 W) (fi ci : Nat) : Int :=
  elem (faceState body r fi).r.offsets fi + ci

/-- The point `vi = indices[i]` handed to the lambda in that call. -/
def calledPoint (body : MeshRefiner F2 F3 F4 W → Int → Int → MeshRefiner F2 F3 F4 W × Int)
    (r : MeshRefiner F2 F3 F4 W) (fi ci : Nat) : Int :=
  elem (cornerState body r fi ci).r.indices (calledCorner body r fi ci)

/-- Whether the loop of a `findOrAddVertex*` function runs to its end, so that the
function leaves through the final `return 0`: neither `return` inside the loop is
taken.  The list holds the loop counter values. -/
def reachesReturn0 (r : MeshRefiner F2 F3 F4 W) (offset : Int) (test : Int → Bool) :
    List Nat → Bool
  | [] => true
  | ci :: rest =>
      let slot := elem r.shared_indices (offset + ci)
      let ni := elem r.old2new slot
      if (ni != -1 && test ni) = true then false
      else if ni = -1 then false
      else reachesReturn0 r offset test rest

end MeshRefiner

end

/-- A face of five corners that all name point 0, followed by a triangle, with one
normal per point and `split_unit = 4`. -/
def foldedFace : MeshRefiner (Int × Int) (Int × Int × Int) (Int × Int × Int × Int) Int :=
  { MeshRefiner.prepare { emptyRefiner with split_unit := 4 } [5, 3] [0, 0, 0, 0, 0, 1, 2, 3]
      [(0, 0, 0), (1, 0, 0), (1, 1, 0), (0, 1, 0)] with
    normals := [(0, 0, 1), (0, 0, 1), (0, 0, 1), (0, 0, 1)] }

/-- A pentagon followed by a triangle on seven points, with one normal per point and
`split_unit = 4`. -/
def pentagonMesh : MeshRefiner (Int × Int) (Int × Int × Int) (Int × Int × Int × Int) Int :=
  { MeshRefiner.prepare { emptyRefiner with split_unit := 4 } [5, 3] [0, 1, 2, 3, 4, 0, 5, 6]
      [(0, 0, 0), (2, 0, 0), (3, 2, 0), (1, 3, 0), (-1, 2, 0), (0, -1, 0), (2, -1, 0)] with
    normals := [(0, 0, 1), (0, 0, 1), (0, 0, 1), (0, 0, 1), (0, 0, 1), (0, 0, 1), (0, 0, 1)] }

section

variable {F2 F3 F4 W : Type} [Inhabited F2] [Inhabited F3] [Inhabited F4] [Inhabited W]

namespace MeshRefiner

set_option linter.unusedSectionVars false

/-- The corners of face `f` name pairwise distinct points. -/
def DistinctCorners (r : MeshRefiner F2 F3 F4 W) (f : Nat) : Prop :=
  ∀ i : Nat, i < (elem r.counts (f : Int)).toNat → ∀ j : Nat, j < (elem r.counts (f : Int)).toNat →
    elem r.indices ((faceStart r.counts f + i : Nat) : Int)
      = elem r.indices ((faceStart r.counts f + j : Nat) : Int) → i = j

instance (r : MeshRefiner F2 F3 F4 W) (f : Nat) : Decidable (DistinctCorners r f) := by
  unfold DistinctCorners; infer_instance

end MeshRefiner

end

/-! # Theorems -/

section

variable {α : Type}

theorem elem_nat [Inhabited α] (xs : List α) (k : Nat) : elem xs (k : Int) = xs.getD k default := by
  simp [elem]

theorem elem_of_lt [Inhabited α] (xs : List α) (k : Nat) (h : k < xs.length) :
    elem xs (k : Int) = xs[k] := by
  simp [elem, List.getD_eq_getElem?_getD, List.getElem?_eq_getElem h]

theorem elem_toNat [Inhabited α] (xs : List α) (i : Int) (h : 0 ≤ i) :
    elem xs i = xs.getD i.toNat default := by
  simp [elem, not_lt.mpr h]

theorem length_store (xs : List α) (i : Int) (v : α) : (store xs i v).length = xs.length := by
  unfold store; split <;> simp

theorem elem_store_same [Inhabited α] (xs : List α) (i : Int) (v : α) (h0 : 0 ≤ i)
    (h1 : i < xs.length) : elem (store xs i v) i = v := by
  have h2 : i.toNat < xs.length := by omega
  simp [elem, store, not_lt.mpr h0, List.getD_eq_getElem?_getD, h2]

theorem elem_store_other [Inhabited α] (xs : List α) (i j : Int) (v : α) (h : i ≠ j) :
    elem (store xs i v) j = elem xs j := by
  unfold elem store
  by_cases hj : j < 0
  · simp [hj]
  · by_cases hi : i < 0
    · simp [hi]
    · have hne : i.toNat ≠ j.toNat := by omega
      simp [hi, hj, List.getD_eq_getElem?_getD, List.getElem?_set_ne hne]

theorem elem_append_left [Inhabited α] (xs ys : List α) (i : Int) (h1 : i < xs.length) :
    elem (xs ++ ys) i = elem xs i := by
  unfold elem
  by_cases hi : i < 0
  · simp [hi]
  · have h2 : i.toNat < xs.length := by omega
    simp [hi, List.getD_eq_getElem?_getD, List.getElem?_append_left h2]

theorem elem_append_length [Inhabited α] (xs : List α) (a : α) :
    elem (xs ++ [a]) (xs.length : Int) = a := by
  simp [elem, List.getD_eq_getElem?_getD]

theorem elem_map_nat {β : Type} [Inhabited β] (f : Nat → β) (a : List Nat) (m : Nat)
    (h : m < a.length) : elem (a.map f) (m : Int) = f (a.getD m 0) := by
  simp [elem, List.getD_eq_getElem?_getD, List.getElem?_eq_getElem h]

theorem length_resize (xs : List α) (n : Nat) (v : α) : (resize xs n v).length = n := by
  simp [resize]; omega

theorem resize_nil (n : Nat) (v : α) : resize ([] : List α) n v = List.replicate n v := by
  simp [resize]

theorem elem_replicate [Inhabited α] (n : Nat) (v : α) (k : Nat) (h : k < n) :
    elem (List.replicate n v) (k : Int) = v := by
  simp [elem, List.getD_eq_getElem?_getD, List.getElem?_replicate, h]

end

/-- Invariant rule for a counted loop `for (i = 0; i < len; ++i)`. -/
theorem foldl_range_inv {σ : Type} (Q : Nat → σ → Prop) (f : σ → Nat → σ) (len : Nat) (s0 : σ)
    (h0 : Q 0 s0) (hstep : ∀ s i, i < len → Q i s → Q (i + 1) (f s i)) :
    Q len ((List.range len).foldl f s0) := by
  induction len with
  | zero => simpa using h0
  | succ n ih =>
    rw [List.range_succ, List.foldl_append]
    simp only [List.foldl_cons, List.foldl_nil]
    exact hstep _ n (Nat.lt_succ_self n) (ih (fun s i hi hq => hstep s i (Nat.lt_succ_of_lt hi) hq))

/-- Invariant rule for a range-based loop over a container. -/
theorem foldl_list_inv {σ β : Type} [Inhabited β] (Q : Nat → σ → Prop) (f : σ → β → σ)
    (l : List β) (s0 : σ) (h0 : Q 0 s0)
    (hstep : ∀ s i, i < l.length → Q i s → Q (i + 1) (f s (l.getD i default))) :
    Q l.length (l.foldl f s0) := by
  induction l generalizing Q s0 with
  | nil => simpa using h0
  | cons x xs ih =>
    simp only [List.foldl_cons, List.length_cons]
    apply ih (fun n s => Q (n + 1) s)
    · simpa using hstep s0 0 (by simp) h0
    · intro s i hi hq
      simpa using hstep s (i + 1) (by simpa using hi) hq

theorem cornersOf_succ (indices : List Int) (n : Nat) (v : Int) :
    cornersOf indices (n + 1) v
      = cornersOf indices n v ++ (if elem indices (n : Int) = v then [n] else []) := by
  unfold cornersOf
  rw [List.range_succ, List.filter_append]
  by_cases h : elem indices (n : Int) = v <;> simp [h]

theorem occ_succ (indices : List Int) (n : Nat) (v : Int) :
    occ indices (n + 1) v = occ indices n v + (if elem indices (n : Int) = v then 1 else 0) := by
  unfold occ
  rw [cornersOf_succ]
  by_cases h : elem indices (n : Int) = v <;> simp [h]

theorem occ_mono (indices : List Int) (v : Int) {n m : Nat} (h : n ≤ m) :
    occ indices n v ≤ occ indices m v := by
  induction m with
  | zero => simp at h; subst h; exact le_refl _
  | succ m ih =>
    rcases Nat.lt_or_ge n (m + 1) with h1 | h1
    · have := ih (Nat.lt_succ_iff.mp h1)
      rw [occ_succ]; omega
    · have : n = m + 1 := by omega
      subst this; exact le_refl _

theorem occ_lt_of_corner (indices : List Int) (v : Int) {n m : Nat} (h : n < m)
    (hv : elem indices (n : Int) = v) : occ indices n v < occ indices m v := by
  have h1 : occ indices (n + 1) v ≤ occ indices m v := occ_mono indices v h
  rw [occ_succ] at h1
  simp [hv] at h1
  omega

theorem cornersOf_extends (indices : List Int) (v : Int) {n m : Nat} (h : n ≤ m) :
    ∃ t, cornersOf indices m v = cornersOf indices n v ++ t := by
  induction m with
  | zero => simp at h; subst h; exact ⟨[], by simp⟩
  | succ m ih =>
    rcases Nat.lt_or_ge n (m + 1) with h1 | h1
    · obtain ⟨t, ht⟩ := ih (Nat.lt_succ_iff.mp h1)
      refine ⟨t ++ (if elem indices (m : Int) = v then [m] else []), ?_⟩
      rw [cornersOf_succ, ht, List.append_assoc]
    · have : n = m + 1 := by omega
      subst this; exact ⟨[], by simp⟩

theorem cornersOf_getD_stable (indices : List Int) (v : Int) {n m : Nat} (h : n ≤ m) (c : Nat)
    (hc : c < occ indices n v) :
    (cornersOf indices m v).getD c 0 = (cornersOf indices n v).getD c 0 := by
  obtain ⟨t, ht⟩ := cornersOf_extends indices v h
  unfold occ at hc
  rw [ht]
  simp [List.getD_eq_getElem?_getD, List.getElem?_append_left hc]

theorem mem_cornersOf (indices : List Int) (n : Nat) (v : Int) (k : Nat) :
    k ∈ cornersOf indices n v ↔ k < n ∧ elem indices (k : Int) = v := by
  simp [cornersOf]

theorem cornersOf_sorted (indices : List Int) (n : Nat) (v : Int) :
    (cornersOf indices n v).Pairwise (· < ·) := by
  unfold cornersOf
  exact List.Pairwise.sublist (List.filter_sublist _) (List.pairwise_lt_range n)

theorem cornersOf_nodup (indices : List Int) (n : Nat) (v : Int) :
    (cornersOf indices n v).Nodup :=
  List.Nodup.sublist (List.filter_sublist _) (List.nodup_range n)

theorem offOf_succ (indices : List Int) (v : Nat) :
    offOf indices (v + 1) = offOf indices v + occ indices indices.length (v : Int) := by
  simp [offOf, List.range_succ]

theorem offOf_mono (indices : List Int) {v w : Nat} (h : v ≤ w) :
    offOf indices v ≤ offOf indices w := by
  induction w with
  | zero => simp at h; subst h; exact le_refl _
  | succ w ih =>
    rcases Nat.lt_or_ge v (w + 1) with h1 | h1
    · have := ih (Nat.lt_succ_iff.mp h1)
      rw [offOf_succ]; omega
    · have : v = w + 1 := by omega
      subst this; exact le_refl _

theorem offOf_succ_le (indices : List Int) {v w : Nat} (h : v < w) :
    offOf indices v + occ indices indices.length (v : Int) ≤ offOf indices w := by
  rw [← offOf_succ]; exact offOf_mono indices h

/-- Counting every corner under its point counts every corner once. -/
theorem sum_occ_eq (indices : List Int) (numPoints : Nat)
    (h : ∀ v ∈ indices, 0 ≤ v ∧ v < (numPoints : Int)) (n : Nat) (hn : n ≤ indices.length) :
    ((List.range numPoints).map (fun (w : Nat) => occ indices n (w : Int))).sum = n := by
  induction n with
  | zero => simp [occ, cornersOf]
  | succ n ih =>
    have hlt : n < indices.length := hn
    have hmem : elem indices (n : Int) ∈ indices := by
      rw [elem_of_lt indices n hlt]; exact List.getElem_mem _
    obtain ⟨h0, h1⟩ := h _ hmem
    have hsplit : ∀ w : Nat, occ indices (n + 1) (w : Int)
        = occ indices n (w : Int) + (if w = (elem indices (n : Int)).toNat then 1 else 0) := by
      intro w
      rw [occ_succ]
      congr 1
      by_cases hw : w = (elem indices (n : Int)).toNat
      · have : elem indices (n : Int) = (w : Int) := by omega
        rw [if_pos this, if_pos hw]
      · have : ¬ elem indices (n : Int) = (w : Int) := by omega
        rw [if_neg this, if_neg hw]
    have hfun : (fun w : Nat => occ indices (n + 1) (w : Int))
        = fun w : Nat => occ indices n (w : Int)
            + (if w = (elem indices (n : Int)).toNat then 1 else 0) := funext hsplit
    rw [hfun, List.sum_map_add]
    rw [ih (Nat.le_of_lt hlt)]
    congr 1
    have hP : (elem indices (n : Int)).toNat < numPoints := by omega
    generalize (elem indices (n : Int)).toNat = j at hP
    clear hsplit hmem h0 h1 ih h hfun
    induction numPoints with
    | zero => omega
    | succ p ihp =>
      rw [List.range_succ, List.map_append, List.sum_append]
      by_cases hj : j = p
      · subst hj
        have : ((List.range j).map (fun (w : Nat) => if w = j then 1 else 0)).sum = 0 := by
          apply List.sum_eq_zero
          intro x hx
          simp only [List.mem_map, List.mem_range] at hx
          obtain ⟨w, hw, rfl⟩ := hx
          simp [Nat.ne_of_lt hw]
        simp [this]
      · have hjp : j < p := by omega
        have := ihp hjp
        simp [this, Ne.symm hj]

theorem offOf_total (indices : List Int) (numPoints : Nat)
    (h : ∀ v ∈ indices, 0 ≤ v ∧ v < (numPoints : Int)) :
    offOf indices numPoints = indices.length :=
  sum_occ_eq indices numPoints h indices.length (le_refl _)

theorem faceStart_succ (counts : List Int) (fi : Nat) (h : fi < counts.length) :
    faceStart counts (fi + 1) = faceStart counts fi + (elem counts (fi : Int)).toNat := by
  unfold faceStart
  rw [List.take_succ, List.map_append, List.sum_append, elem_of_lt counts fi h]
  simp [List.getElem?_eq_getElem h]

theorem faceStart_length (counts : List Int) (h : ∀ c ∈ counts, 0 ≤ c) :
    (faceStart counts counts.length : Int) = counts.sum := by
  unfold faceStart
  rw [List.take_length]
  induction counts with
  | nil => simp
  | cons c cs ih =>
    have hc : 0 ≤ c := h c (by simp)
    have := ih (fun x hx => h x (by simp [hx]))
    simp only [List.map_cons, List.sum_cons, Nat.cast_add]
    rw [this, Int.toNat_of_nonneg hc]

theorem faceStart_int (counts : List Int) (h : ∀ c ∈ counts, 0 ≤ c) (fi : Nat) :
    (faceStart counts fi : Int) = (counts.take fi).sum := by
  have := faceStart_length (counts.take fi) (fun c hc => h c (List.mem_of_mem_take hc))
  unfold faceStart at *
  rw [List.take_length] at this
  rw [← this]

theorem faceStart_mono (counts : List Int) (fi : Nat) :
    faceStart counts (fi + 1) ≤ faceStart counts counts.length := by
  unfold faceStart
  rw [List.take_length]
  conv_rhs => rw [← List.take_append_drop (fi + 1) counts]
  rw [List.map_append, List.sum_append]
  omega

theorem ValidTopology.nonneg {counts indices : List Int} {numPoints : Nat}
    (h : ValidTopology counts indices numPoints) : ∀ c ∈ counts, 0 ≤ c :=
  fun c hc => by have := h.1 c hc; omega

theorem ValidTopology.total {counts indices : List Int} {numPoints : Nat}
    (h : ValidTopology counts indices numPoints) :
    faceStart counts counts.length = indices.length := by
  have := faceStart_length counts h.nonneg
  have := h.2.1
  omega

theorem ValidTopology.index_range {counts indices : List Int} {numPoints : Nat}
    (h : ValidTopology counts indices numPoints) (k : Nat) (hk : k < indices.length) :
    0 ≤ elem indices (k : Int) ∧ elem indices (k : Int) < (numPoints : Int) := by
  apply h.2.2
  rw [elem_of_lt indices k hk]; exact List.getElem_mem _

theorem ValidTopology.corner_lt {counts indices : List Int} {numPoints : Nat}
    (h : ValidTopology counts indices numPoints) (fi : Nat) (hfi : fi < counts.length)
    (i : Nat) (hi : i < (elem counts (fi : Int)).toNat) :
    faceStart counts fi + i < indices.length := by
  have h1 := faceStart_succ counts fi hfi
  have h2 := faceStart_mono counts fi
  have h3 := h.total
  omega

namespace MeshRefiner

theorem countPass_spec (counts indices : List Int) (numPoints : Nat)
    (h : ValidTopology counts indices numPoints) :
    (countPass counts indices (List.replicate numPoints 0)).1.length = numPoints ∧
    ∀ v : Nat, v < numPoints →
      elem (countPass counts indices (List.replicate numPoints 0)).1 (v : Int)
        = (occ indices indices.length (v : Int) : Int) := by
  have key := foldl_list_inv
    (fun fi (st : List Int × Int) => st.2 = (faceStart counts fi : Int) ∧ st.1.length = numPoints ∧
      ∀ v : Nat, v < numPoints → elem st.1 (v : Int) = (occ indices (faceStart counts fi) (v : Int) : Int))
    (fun (st : List Int × Int) (c : Int) =>
      ((List.range c.toNat).foldl
          (fun (vc : List Int) (i : Nat) =>
            store vc (elem indices (st.2 + i)) (elem vc (elem indices (st.2 + i)) + 1))
          st.1,
       st.2 + c))
    counts (List.replicate numPoints 0, 0)
    (by
      refine ⟨by simp [faceStart], by simp, ?_⟩
      intro v hv
      rw [elem_replicate _ _ _ hv]
      simp [faceStart, occ, cornersOf])
    (by
      intro st fi hfi ⟨h2, hlen, hocc⟩
      have hget : counts.getD fi default = elem counts (fi : Int) := by rw [elem_nat]
      rw [hget]
      have hc0 : 0 ≤ elem counts (fi : Int) := by
        apply h.nonneg; rw [elem_of_lt counts fi hfi]; exact List.getElem_mem _
      have hsucc := faceStart_succ counts fi hfi
      have inner := foldl_range_inv
        (fun i (vc : List Int) => vc.length = numPoints ∧
          ∀ v : Nat, v < numPoints →
            elem vc (v : Int) = (occ indices (faceStart counts fi + i) (v : Int) : Int))
        (fun (vc : List Int) (i : Nat) =>
            store vc (elem indices (st.2 + i)) (elem vc (elem indices (st.2 + i)) + 1))
        (elem counts (fi : Int)).toNat st.1
        (by simpa using ⟨hlen, hocc⟩)
        (by
          intro vc i hi ⟨hl, ho⟩
          have hk := h.corner_lt fi hfi i hi
          have hst : st.2 + (i : Int) = ((faceStart counts fi + i : Nat) : Int) := by
            rw [h2]; push_cast; rfl
          simp only [hst]
          obtain ⟨hj0, hj1⟩ := h.index_range _ hk
          refine ⟨by rw [length_store]; exact hl, ?_⟩
          intro v hv
          rw [← Nat.add_assoc, occ_succ]
          by_cases hvj : elem indices ((faceStart counts fi + i : Nat) : Int) = (v : Int)
          · rw [if_pos hvj, hvj, elem_store_same _ _ _ (by omega) (by omega), ho v hv]
            push_cast; rfl
          · rw [if_neg hvj, elem_store_other _ _ _ _ hvj, ho v hv]
            rfl)
      refine ⟨?_, inner.1, ?_⟩
      · show st.2 + elem counts (fi : Int) = _
        rw [hsucc, h2]; push_cast; omega
      · intro v hv
        rw [hsucc]; exact inner.2 v hv)
  unfold countPass
  simp only [h.total] at key
  exact ⟨key.2.1, key.2.2⟩

theorem offsetPass_spec (indices : List Int) (numPoints : Nat) (vc off0 : List Int)
    (hlen : off0.length = numPoints)
    (hvc : ∀ v : Nat, v < numPoints → elem vc (v : Int) = (occ indices indices.length (v : Int) : Int)) :
    (offsetPass numPoints vc off0).1.length = numPoints ∧
    ∀ v : Nat, v < numPoints →
      elem (offsetPass numPoints vc off0).1 (v : Int) = (offOf indices v : Int) := by
  have key := foldl_range_inv
    (fun i (st : List Int × Int) => st.2 = (offOf indices i : Int) ∧ st.1.length = numPoints ∧
      ∀ v : Nat, v < i → elem st.1 (v : Int) = (offOf indices v : Int))
    (fun (st : List Int × Int) (i : Nat) => (store st.1 i st.2, st.2 + elem vc i))
    numPoints (off0, 0)
    (by refine ⟨by simp [offOf], hlen, ?_⟩; intro v hv; omega)
    (by
      intro st i hi ⟨h2, hl, ho⟩
      refine ⟨?_, by simp [length_store, hl], ?_⟩
      · show st.2 + elem vc (i : Int) = _
        rw [offOf_succ, h2, hvc i hi]; push_cast; rfl
      · intro v hv
        show elem (store st.1 (i : Int) st.2) (v : Int) = _
        by_cases hvi : v = i
        · subst hvi
          rw [elem_store_same _ _ _ (by omega) (by omega), h2]
        · rw [elem_store_other _ _ _ _ (by omega)]
          exact ho v (by omega))
  unfold offsetPass
  exact ⟨key.2.1, fun v hv => key.2.2 v hv⟩

theorem cornersOf_last (indices : List Int) (k : Nat) (hk : k < indices.length) :
    (cornersOf indices indices.length (elem indices (k : Int))).getD
      (occ indices k (elem indices (k : Int))) 0 = k := by
  have h1 : occ indices k (elem indices (k : Int)) < occ indices (k + 1) (elem indices (k : Int)) := by
    rw [occ_succ]; simp
  rw [cornersOf_getD_stable indices _ (Nat.succ_le_of_lt hk) _ h1, cornersOf_succ]
  simp [occ, List.getD_eq_getElem?_getD]

theorem scatter_step (counts indices v2f_offsets : List Int) (numPoints : Nat)
    (h : ValidTopology counts indices numPoints)
    (hoff : ∀ v : Nat, v < numPoints → elem v2f_offsets (v : Int) = (offOf indices v : Int))
    (fi : Nat) (hfi : fi < counts.length) (ci : Nat) (hci : ci < (elem counts (fi : Int)).toNat)
    (s : ScatterState) (hi : s.i = (faceStart counts fi : Int))
    (hs : ScatterInv counts indices numPoints (faceStart counts fi + ci) s) :
    ScatterInv counts indices numPoints (faceStart counts fi + ci + 1)
      { s with
        v2f_indices := store s.v2f_indices (elem indices (s.i + ci))
          (elem s.v2f_indices (elem indices (s.i + ci)) + 1),
        shared_faces := store s.shared_faces
          (elem v2f_offsets (elem indices (s.i + ci)) + elem s.v2f_indices (elem indices (s.i + ci)))
          fi,
        shared_indices := store s.shared_indices
          (elem v2f_offsets (elem indices (s.i + ci)) + elem s.v2f_indices (elem indices (s.i + ci)))
          (s.i + ci) } := by
  have hk := h.corner_lt fi hfi ci hci
  have hst : s.i + (ci : Int) = ((faceStart counts fi + ci : Nat) : Int) := by
    rw [hi]; push_cast; rfl
  rw [hst]
  generalize hkdef : faceStart counts fi + ci = k at *
  obtain ⟨hj0, hj1⟩ := h.index_range k hk
  -- the point of corner `k`, as a natural number
  obtain ⟨j, hj⟩ : ∃ j : Nat, elem indices (k : Int) = (j : Int) := ⟨_, (Int.toNat_of_nonneg hj0).symm⟩
  have hjP : j < numPoints := by omega
  rw [hj, hoff j hjP, hs.bump j hjP]
  have hocc_lt : occ indices k (j : Int) < occ indices indices.length (j : Int) :=
    occ_lt_of_corner indices _ hk hj
  have htotal := offOf_total indices numPoints h.2.2
  have hend : offOf indices j + occ indices indices.length (j : Int) ≤ indices.length := by
    have := offOf_succ_le indices hjP; omega
  have hti0 : (0 : Int) ≤ (offOf indices j : Int) + (occ indices k (j : Int) : Int) := by omega
  have hocc_other : ∀ v : Nat, v ≠ j → occ indices (k + 1) (v : Int) = occ indices k (v : Int) := by
    intro v hv
    rw [occ_succ, hj]
    have : ¬ ((j : Int) = (v : Int)) := by omega
    simp [this]
  have hocc_j : occ indices (k + 1) (j : Int) = occ indices k (j : Int) + 1 := by
    rw [occ_succ, hj]; simp
  have hdisj : ∀ v : Nat, v < numPoints → v ≠ j → ∀ c : Nat, c < occ indices k (v : Int) →
      (offOf indices j : Int) + (occ indices k (j : Int) : Int) ≠ (offOf indices v : Int) + c := by
    intro v hv hvj c hc
    have hcv : c < occ indices indices.length (v : Int) :=
      lt_of_lt_of_le hc (occ_mono indices _ (Nat.le_of_lt hk))
    rcases Nat.lt_or_gt_of_ne hvj with h1 | h1
    · have := offOf_succ_le indices h1; omega
    · have := offOf_succ_le indices h1; omega
  have hlast := cornersOf_last indices k hk
  rw [hj] at hlast
  constructor
  · simp [length_store, hs.len_bump]
  · simp [length_store, hs.len_si]
  · simp [length_store, hs.len_sf]
  · intro v hv
    dsimp only
    by_cases hvj : v = j
    · subst hvj
      rw [elem_store_same _ _ _ (by omega) (by have := hs.len_bump; omega), hocc_j]
      push_cast; rfl
    · rw [elem_store_other _ _ _ _ (by omega), hocc_other v hvj]
      exact hs.bump v hv
  · intro v hv c hc
    dsimp only
    by_cases hvj : v = j
    · subst hvj
      rw [hocc_j] at hc
      by_cases hcl : c = occ indices k (v : Int)
      · subst hcl
        rw [elem_store_same _ _ _ hti0 (by have := hs.len_si; omega), hlast]
      · rw [elem_store_other _ _ _ _ (by omega)]
        exact hs.slots v hv c (by omega)
    · rw [hocc_other v hvj] at hc
      rw [elem_store_other _ _ _ _ (hdisj v hv hvj c hc)]
      exact hs.slots v hv c hc
  · intro v hv c hc
    dsimp only
    by_cases hvj : v = j
    · subst hvj
      rw [hocc_j] at hc
      by_cases hcl : c = occ indices k (v : Int)
      · subst hcl
        refine ⟨fi, ?_, hfi, ?_, ?_⟩
        · rw [elem_store_same _ _ _ hti0 (by have := hs.len_sf; omega)]
        · rw [hlast]; omega
        · rw [hlast, faceStart_succ counts fi hfi]; omega
      · rw [elem_store_other _ _ _ _ (by omega)]
        exact hs.faces v hv c (by omega)
    · rw [hocc_other v hvj] at hc
      rw [elem_store_other _ _ _ _ (hdisj v hv hvj c hc)]
      exact hs.faces v hv c hc

theorem scatterPass_spec (counts indices v2f_offsets : List Int) (numPoints : Nat)
    (h : ValidTopology counts indices numPoints)
    (hoff : ∀ v : Nat, v < numPoints → elem v2f_offsets (v : Int) = (offOf indices v : Int))
    (sf si : List Int) (hsf : sf.length = indices.length) (hsi : si.length = indices.length) :
    ScatterInv counts indices numPoints indices.length
      (scatterPass counts indices v2f_offsets
        { v2f_indices := List.replicate numPoints 0, shared_faces := sf, shared_indices := si,
          i := 0 }) := by
  have key := foldl_range_inv
    (fun fi (st : ScatterState) => st.i = (faceStart counts fi : Int) ∧
      ScatterInv counts indices numPoints (faceStart counts fi) st)
    (fun (st : ScatterState) (fi : Nat) =>
      let c := elem counts fi
      let st1 := (List.range c.toNat).foldl
        (fun (s : ScatterState) (ci : Nat) =>
          let vi := elem indices (s.i + ci)
          let ti := elem v2f_offsets vi + elem s.v2f_indices vi
          { s with
            v2f_indices := store s.v2f_indices vi (elem s.v2f_indices vi + 1),
            shared_faces := store s.shared_faces ti fi,
            shared_indices := store s.shared_indices ti (s.i + ci) })
        st
      { st1 with i := st1.i + c })
    counts.length
    { v2f_indices := List.replicate numPoints 0, shared_faces := sf, shared_indices := si, i := 0 }
    (by
      refine ⟨by simp [faceStart], ?_⟩
      constructor
      · simp
      · exact hsi
      · exact hsf
      · intro v hv
        rw [elem_replicate _ _ _ hv]
        simp [faceStart, occ, cornersOf]
      · intro v _ c hc
        simp [faceStart, occ, cornersOf] at hc
      · intro v _ c hc
        simp [faceStart, occ, cornersOf] at hc)
    (by
      intro st fi hfi ⟨hi, hinv⟩
      have hc0 : 0 ≤ elem counts (fi : Int) := by
        apply h.nonneg; rw [elem_of_lt counts fi hfi]; exact List.getElem_mem _
      have hsucc := faceStart_succ counts fi hfi
      have inner := foldl_range_inv
        (fun ci (s : ScatterState) => s.i = (faceStart counts fi : Int) ∧
          ScatterInv counts indices numPoints (faceStart counts fi + ci) s)
        (fun (s : ScatterState) (ci : Nat) =>
          let vi := elem indices (s.i + ci)
          let ti := elem v2f_offsets vi + elem s.v2f_indices vi
          { s with
            v2f_indices := store s.v2f_indices vi (elem s.v2f_indices vi + 1),
            shared_faces := store s.shared_faces ti fi,
            shared_indices := store s.shared_indices ti (s.i + ci) })
        (elem counts (fi : Int)).toNat st ⟨hi, by simpa using hinv⟩
        (by
          intro s ci hci ⟨hsi', hs⟩
          exact ⟨hsi', scatter_step counts indices v2f_offsets numPoints h hoff fi hfi ci hci s hsi' hs⟩)
      obtain ⟨hi2, hinv2⟩ := inner
      refine ⟨?_, ?_⟩
      · show _ + elem counts (fi : Int) = _
        rw [hi2, hsucc]; push_cast; omega
      · rw [hsucc]
        exact ⟨hinv2.len_bump, hinv2.len_si, hinv2.len_sf, hinv2.bump, hinv2.slots, hinv2.faces⟩)
  unfold scatterPass
  simp only [h.total] at key
  exact key.2

end MeshRefiner

section

variable {F2 F3 F4 W : Type} [Inhabited F2] [Inhabited F3] [Inhabited F4] [Inhabited W]

namespace MeshRefiner

theorem body_PNTUC (K : NearEqual F2 F3 F4) (bn bu bc bt : Bool) :
    (fun (s : MeshRefiner F2 F3 F4 W) vi i => findOrAddVertexPNTUC K s vi (elem s.points vi)
      (elem s.normals (pick bn vi i)) (elem s.tangents_tmp (pick bt vi i))
      (elem s.uv (pick bu vi i)) (elem s.colors (pick bc vi i)))
    = Profile.body K ⟨some bn, some bu, some bc, some bt⟩ := by
  funext s vi i
  rfl

theorem body_PNTU (K : NearEqual F2 F3 F4) (bn bu bt : Bool) :
    (fun (s : MeshRefiner F2 F3 F4 W) vi i => findOrAddVertexPNTU K s vi (elem s.points vi)
      (elem s.normals (pick bn vi i)) (elem s.tangents_tmp (pick bt vi i))
      (elem s.uv (pick bu vi i)))
    = Profile.body K ⟨some bn, some bu, none, some bt⟩ := by
  funext s vi i
  unfold findOrAddVertexPNTU Profile.body
  congr 1
  funext ni
  simp [Profile.test]

theorem body_PNU (K : NearEqual F2 F3 F4) (bn bu : Bool) :
    (fun (s : MeshRefiner F2 F3 F4 W) vi i => findOrAddVertexPNU K s vi (elem s.points vi)
      (elem s.normals (pick bn vi i)) (elem s.uv (pick bu vi i)))
    = Profile.body K ⟨some bn, some bu, none, none⟩ := by
  funext s vi i
  unfold findOrAddVertexPNU Profile.body
  congr 1
  funext ni
  simp [Profile.test]

theorem body_PN (K : NearEqual F2 F3 F4) (bn : Bool) :
    (fun (s : MeshRefiner F2 F3 F4 W) vi i => findOrAddVertexPN K s vi (elem s.points vi)
      (elem s.normals (pick bn vi i)))
    = Profile.body K ⟨some bn, none, none, none⟩ := by
  funext s vi i
  unfold findOrAddVertexPN Profile.body
  congr 1
  funext ni
  simp [Profile.test]

theorem body_PU (K : NearEqual F2 F3 F4) (bu : Bool) :
    (fun (s : MeshRefiner F2 F3 F4 W) vi i => findOrAddVertexPU K s vi (elem s.points vi)
      (elem s.uv (pick bu vi i)))
    = Profile.body K ⟨none, some bu, none, none⟩ := by
  funext s vi i
  unfold findOrAddVertexPU Profile.body
  congr 1
  funext ni
  simp [Profile.test]

set_option maxHeartbeats 800000 in
/-- `refineWithOptimization` runs `doRefine` with the lambda of the selected profile, or
does nothing when no branch applies; it reports success either way. -/
theorem refineWithOptimization_eq (K : NearEqual F2 F3 F4) (r : MeshRefiner F2 F3 F4 W) :
    refineWithOptimization K r
      = (match dispatch r with
          | some d => doRefine (d.body K) r
          | none => r, true) := by
  unfold refineWithOptimization dispatch
  dsimp only
  by_cases hU : ¬ r.uv.isEmpty = true
  · rw [if_pos hU, if_pos hU]
    by_cases hN : ¬ r.normals.isEmpty = true
    · rw [if_pos hN, if_pos hN]
      by_cases hT : ¬ r.tangents_tmp.isEmpty = true
      · rw [if_pos hT, if_pos hT]
        by_cases hC : ¬ r.colors.isEmpty = true
        · rw [if_pos hC, if_pos hC]
          by_cases h : (r.normals.length : Int) = (r.indices.length : Int) ∧ (r.uv.length : Int) = (r.indices.length : Int) ∧ (r.colors.length : Int) = (r.indices.length : Int)
          · rw [if_pos h, if_pos h]
            rfl
          · rw [if_neg h, if_neg h]
            by_cases h : (r.normals.length : Int) = (r.indices.length : Int) ∧ (r.uv.length : Int) = (r.indices.length : Int) ∧ (r.colors.length : Int) = (r.points.length : Int)
            · rw [if_pos h, if_pos h]
              rfl
            · rw [if_neg h, if_neg h]
              by_cases h : (r.normals.length : Int) = (r.indices.length : Int) ∧ (r.uv.length : Int) = (r.points.length : Int) ∧ (r.colors.length : Int) = (r.indices.length : Int)
              · rw [if_pos h, if_pos h]
                rfl
              · rw [if_neg h, if_neg h]
                by_cases h : (r.normals.length : Int) = (r.indices.length : Int) ∧ (r.uv.length : Int) = (r.points.length : Int) ∧ (r.colors.length : Int) = (r.points.length : Int)
                · rw [if_pos h, if_pos h]
                  rfl
                · rw [if_neg h, if_neg h]
                  by_cases h : (r.normals.length : Int) = (r.points.length : Int) ∧ (r.uv.length : Int) = (r.indices.length : Int) ∧ (r.colors.length : Int) = (r.indices.length : Int)
                  · rw [if_pos h, if_pos h]
                    rfl
                  · rw [if_neg h, if_neg h]
                    by_cases h : (r.normals.length : Int) = (r.points.length : Int) ∧ (r.uv.length : Int) = (r.indices.length : Int) ∧ (r.colors.length : Int) = (r.points.length : Int)
                    · rw [if_pos h, if_pos h]
                      rfl
                    · rw [if_neg h, if_neg h]
                      by_cases h : (r.normals.length : Int) = (r.points.length : Int) ∧ (r.uv.length : Int) = (r.points.length : Int) ∧ (r.colors.length : Int) = (r.indices.length : Int)
                      · rw [if_pos h, if_pos h]
                        rfl
                      · rw [if_neg h, if_neg h]
                        by_cases h : (r.normals.length : Int) = (r.points.length : Int) ∧ (r.uv.length : Int) = (r.points.length : Int) ∧ (r.colors.length : Int) = (r.points.length : Int)
                        · rw [if_pos h, if_pos h]
                          rfl
                        · rw [if_neg h, if_neg h]
        · rw [if_neg hC, if_neg hC]
          by_cases h : (r.normals.length : Int) = (r.indices.length : Int) ∧ (r.uv.length : Int) = (r.indices.length : Int)
          · rw [if_pos h, if_pos h]
            exact congrArg (fun b => (doRefine b r, true)) (body_PNTU K true true true)
          · rw [if_neg h, if_neg h]
            by_cases h : (r.normals.length : Int) = (r.indices.length : Int) ∧ (r.uv.length : Int) = (r.points.length : Int)
            · rw [if_pos h, if_pos h]
              exact congrArg (fun b => (doRefine b r, true)) (body_PNTU K true false true)
            · rw [if_neg h, if_neg h]
              by_cases h : (r.normals.length : Int) = (r.points.length : Int) ∧ (r.uv.length : Int) = (r.indices.length : Int)
              · rw [if_pos h, if_pos h]
                exact congrArg (fun b => (doRefine b r, true)) (body_PNTU K false true true)
              · rw [if_neg h, if_neg h]
                by_cases h : (r.normals.length : Int) = (r.points.length : Int) ∧ (r.uv.length : Int) = (r.points.length : Int)
                · rw [if_pos h, if_pos h]
                  exact congrArg (fun b => (doRefine b r, true)) (body_PNTU K false false false)
                · rw [if_neg h, if_neg h]
      · rw [if_neg hT, if_neg hT]
        by_cases h : (r.normals.length : Int) = (r.indices.length : Int) ∧ (r.uv.length : Int) = (r.indices.length : Int)
        · rw [if_pos h, if_pos h]
          exact congrArg (fun b => (doRefine b r, true)) (body_PNU K true true)
        · rw [if_neg h, if_neg h]
          by_cases h : (r.normals.length : Int) = (r.indices.length : Int) ∧ (r.uv.length : Int) = (r.points.length : Int)
          · rw [if_pos h, if_pos h]
            exact congrArg (fun b => (doRefine b r, true)) (body_PNU K true false)
          · rw [if_neg h, if_neg h]
            by_cases h : (r.normals.length : Int) = (r.points.length : Int) ∧ (r.uv.length : Int) = (r.indices.length : Int)
            · rw [if_pos h, if_pos h]
              exact congrArg (fun b => (doRefine b r, true)) (body_PNU K false true)
            · rw [if_neg h, if_neg h]
              by_cases h : (r.normals.length : Int) = (r.points.length : Int) ∧ (r.uv.length : Int) = (r.points.length : Int)
              · rw [if_pos h, if_pos h]
                exact congrArg (fun b => (doRefine b r, true)) (body_PNU K false false)
              · rw [if_neg h, if_neg h]
    · rw [if_neg hN, if_neg hN]
      by_cases h : (r.uv.length : Int) = (r.indices.length : Int)
      · rw [if_pos h, if_pos h]
        exact congrArg (fun b => (doRefine b r, true)) (body_PU K true)
      · rw [if_neg h, if_neg h]
        by_cases h : (r.uv.length : Int) = (r.points.length : Int)
        · rw [if_pos h, if_pos h]
          exact congrArg (fun b => (doRefine b r, true)) (body_PU K false)
        · rw [if_neg h, if_neg h]
  · rw [if_neg hU, if_neg hU]
    by_cases h : (r.normals.length : Int) = (r.indices.length : Int)
    · rw [if_pos h, if_pos h]
      exact congrArg (fun b => (doRefine b r, true)) (body_PN K true)
    · rw [if_neg h, if_neg h]
      by_cases h : (r.normals.length : Int) = (r.points.length : Int)
      · rw [if_pos h, if_pos h]
        exact congrArg (fun b => (doRefine b r, true)) (body_PN K false)
      · rw [if_neg h, if_neg h]

end MeshRefiner

end

section

variable {F2 F3 F4 W : Type} [Inhabited F2] [Inhabited F3] [Inhabited F4] [Inhabited W]

namespace MeshRefiner

set_option linter.unusedSectionVars false

theorem findOrAddLoop_from (r : MeshRefiner F2 F3 F4 W) (off : Int) (test : Int → Bool)
    (add : MeshRefiner F2 F3 F4 W → MeshRefiner F2 F3 F4 W) (q : Nat)
    (hass : ∀ c : Nat, c < q → elem r.old2new (elem r.shared_indices (off + c)) ≠ -1)
    (hun : elem r.old2new (elem r.shared_indices (off + q)) = -1) :
    ∀ (g b len : Nat), g = q - b → b ≤ q → q < b + len →
    (∀ c : Nat, c < b → test (elem r.old2new (elem r.shared_indices (off + c))) = false) →
    (∃ c : Nat, c < q ∧ test (elem r.old2new (elem r.shared_indices (off + c))) = true ∧
        findOrAddLoop r off test add (List.range' b len)
          = (r, elem r.old2new (elem r.shared_indices (off + c))))
    ∨ ((∀ c : Nat, c < q → test (elem r.old2new (elem r.shared_indices (off + c))) = false) ∧
        findOrAddLoop r off test add (List.range' b len)
          = (add (recordAt r (elem r.shared_indices (off + q))), (r.new_points.length : Int))) := by
  intro g
  induction g with
  | zero =>
    intro b len hg hb hlen hpre
    have hbq : b = q := by omega
    subst hbq
    obtain ⟨len', rfl⟩ : ∃ len', len = len' + 1 := ⟨len - 1, by omega⟩
    right
    refine ⟨hpre, ?_⟩
    rw [List.range'_succ]
    simp [findOrAddLoop, hun, recordAt]
  | succ g ih =>
    intro b len hg hb hlen hpre
    have hbq : b < q := by omega
    obtain ⟨len', rfl⟩ : ∃ len', len = len' + 1 := ⟨len - 1, by omega⟩
    rw [List.range'_succ]
    have hne := hass b hbq
    by_cases ht : test (elem r.old2new (elem r.shared_indices (off + b))) = true
    · left
      refine ⟨b, hbq, ht, ?_⟩
      simp [findOrAddLoop, hne, ht]
    · have ht' : test (elem r.old2new (elem r.shared_indices (off + b))) = false := by
        simpa using ht
      have hrec := ih (b + 1) len' (by omega) (by omega) (by omega)
        (by
          intro c hc
          rcases Nat.lt_succ_iff_lt_or_eq.mp hc with h1 | h1
          · exact hpre c h1
          · subst h1; exact ht')
      have hstep : findOrAddLoop r off test add (b :: List.range' (b + 1) len')
          = findOrAddLoop r off test add (List.range' (b + 1) len') := by
        simp [findOrAddLoop, hne, ht']
      rw [hstep]
      exact hrec

/-- Outcome of the incidence walk when the first `q` slots are assigned and slot `q` is
free: either an assigned slot matches and its vertex is reused, or none matches and a
new vertex is recorded in slot `q`.  The walk never reaches `return 0`. -/
theorem findOrAddLoop_run (r : MeshRefiner F2 F3 F4 W) (off : Int) (test : Int → Bool)
    (add : MeshRefiner F2 F3 F4 W → MeshRefiner F2 F3 F4 W) (cnt q : Nat) (hq : q < cnt)
    (hass : ∀ c : Nat, c < q → elem r.old2new (elem r.shared_indices (off + c)) ≠ -1)
    (hun : elem r.old2new (elem r.shared_indices (off + q)) = -1) :
    (∃ c : Nat, c < q ∧ test (elem r.old2new (elem r.shared_indices (off + c))) = true ∧
        findOrAddLoop r off test add (List.range cnt)
          = (r, elem r.old2new (elem r.shared_indices (off + c))))
    ∨ ((∀ c : Nat, c < q → test (elem r.old2new (elem r.shared_indices (off + c))) = false) ∧
        findOrAddLoop r off test add (List.range cnt)
          = (add (recordAt r (elem r.shared_indices (off + q))), (r.new_points.length : Int))) := by
  rw [List.range_eq_range']
  exact findOrAddLoop_from r off test add q hass hun (q - 0) 0 cnt rfl (Nat.zero_le _)
    (by omega) (by intro c hc; omega)

end MeshRefiner

end

section

variable {F2 F3 F4 W : Type} [Inhabited F2] [Inhabited F3] [Inhabited F4] [Inhabited W]

namespace MeshRefiner

set_option linter.unusedSectionVars false

@[simp] theorem buildConnection_split_unit (r : MeshRefiner F2 F3 F4 W) :
    (buildConnection r).split_unit = r.split_unit := by
  unfold buildConnection; split <;> rfl

@[simp] theorem buildConnection_triangulate (r : MeshRefiner F2 F3 F4 W) :
    (buildConnection r).triangulate = r.triangulate := by
  unfold buildConnection; split <;> rfl

@[simp] theorem buildConnection_swap_faces (r : MeshRefiner F2 F3 F4 W) :
    (buildConnection r).swap_faces = r.swap_faces := by
  unfold buildConnection; split <;> rfl

@[simp] theorem buildConnection_counts (r : MeshRefiner F2 F3 F4 W) :
    (buildConnection r).counts = r.counts := by
  unfold buildConnection; split <;> rfl

@[simp] theorem buildConnection_indices (r : MeshRefiner F2 F3 F4 W) :
    (buildConnection r).indices = r.indices := by
  unfold buildConnection; split <;> rfl

@[simp] theorem buildConnection_points (r : MeshRefiner F2 F3 F4 W) :
    (buildConnection r).points = r.points := by
  unfold buildConnection; split <;> rfl

@[simp] theorem buildConnection_npoints (r : MeshRefiner F2 F3 F4 W) :
    (buildConnection r).npoints = r.npoints := by
  unfold buildConnection; split <;> rfl

@[simp] theorem buildConnection_normals (r : MeshRefiner F2 F3 F4 W) :
    (buildConnection r).normals = r.normals := by
  unfold buildConnection; split <;> rfl

@[simp] theorem buildConnection_uv (r : MeshRefiner F2 F3 F4 W) :
    (buildConnection r).uv = r.uv := by
  unfold buildConnection; split <;> rfl

@[simp] theorem buildConnection_colors (r : MeshRefiner F2 F3 F4 W) :
    (buildConnection r).colors = r.colors := by
  unfold buildConnection; split <;> rfl

@[simp] theorem buildConnection_weights4 (r : MeshRefiner F2 F3 F4 W) :
    (buildConnection r).weights4 = r.weights4 := by
  unfold buildConnection; split <;> rfl

@[simp] theorem buildConnection_submeshes (r : MeshRefiner F2 F3 F4 W) :
    (buildConnection r).submeshes = r.submeshes := by
  unfold buildConnection; split <;> rfl

@[simp] theorem buildConnection_splits (r : MeshRefiner F2 F3 F4 W) :
    (buildConnection r).splits = r.splits := by
  unfold buildConnection; split <;> rfl

@[simp] theorem buildConnection_counts_tmp (r : MeshRefiner F2 F3 F4 W) :
    (buildConnection r).counts_tmp = r.counts_tmp := by
  unfold buildConnection; split <;> rfl

@[simp] theorem buildConnection_offsets (r : MeshRefiner F2 F3 F4 W) :
    (buildConnection r).offsets = r.offsets := by
  unfold buildConnection; split <;> rfl

@[simp] theorem buildConnection_face_normals (r : MeshRefiner F2 F3 F4 W) :
    (buildConnection r).face_normals = r.face_normals := by
  unfold buildConnection; split <;> rfl

@[simp] theorem buildConnection_normals_tmp (r : MeshRefiner F2 F3 F4 W) :
    (buildConnection r).normals_tmp = r.normals_tmp := by
  unfold buildConnection; split <;> rfl

@[simp] theorem buildConnection_tangents_tmp (r : MeshRefiner F2 F3 F4 W) :
    (buildConnection r).tangents_tmp = r.tangents_tmp := by
  unfold buildConnection; split <;> rfl

@[simp] theorem buildConnection_new_points (r : MeshRefiner F2 F3 F4 W) :
    (buildConnection r).new_points = r.new_points := by
  unfold buildConnection; split <;> rfl

@[simp] theorem buildConnection_new_normals (r : MeshRefiner F2 F3 F4 W) :
    (buildConnection r).new_normals = r.new_normals := by
  unfold buildConnection; split <;> rfl

@[simp] theorem buildConnection_new_tangents (r : MeshRefiner F2 F3 F4 W) :
    (buildConnection r).new_tangents = r.new_tangents := by
  unfold buildConnection; split <;> rfl

@[simp] theorem buildConnection_new_uv (r : MeshRefiner F2 F3 F4 W) :
    (buildConnection r).new_uv = r.new_uv := by
  unfold buildConnection; split <;> rfl

@[simp] theorem buildConnection_new_colors (r : MeshRefiner F2 F3 F4 W) :
    (buildConnection r).new_colors = r.new_colors := by
  unfold buildConnection; split <;> rfl

@[simp] theorem buildConnection_new_weights4 (r : MeshRefiner F2 F3 F4 W) :
    (buildConnection r).new_weights4 = r.new_weights4 := by
  unfold buildConnection; split <;> rfl

@[simp] theorem buildConnection_new_indices (r : MeshRefiner F2 F3 F4 W) :
    (buildConnection r).new_indices = r.new_indices := by
  unfold buildConnection; split <;> rfl

@[simp] theorem buildConnection_new_indices_triangulated (r : MeshRefiner F2 F3 F4 W) :
    (buildConnection r).new_indices_triangulated = r.new_indices_triangulated := by
  unfold buildConnection; split <;> rfl

@[simp] theorem buildConnection_new_indices_submeshes (r : MeshRefiner F2 F3 F4 W) :
    (buildConnection r).new_indices_submeshes = r.new_indices_submeshes := by
  unfold buildConnection; split <;> rfl

@[simp] theorem buildConnection_old2new (r : MeshRefiner F2 F3 F4 W) :
    (buildConnection r).old2new = r.old2new := by
  unfold buildConnection; split <;> rfl

@[simp] theorem buildConnection_num_indices_tri (r : MeshRefiner F2 F3 F4 W) :
    (buildConnection r).num_indices_tri = r.num_indices_tri := by
  unfold buildConnection; split <;> rfl

/-- On a well-formed mesh whose connection index has not been built, `buildConnection`
builds it. -/
theorem buildConnection_connected (r : MeshRefiner F2 F3 F4 W)
    (h : ValidTopology r.counts r.indices r.points.length)
    (hfresh : r.v2f_counts = []) :
    Connected (buildConnection r) := by
  by_cases hP : r.points.length = 0
  · constructor <;> intro v hv <;> simp [hP] at hv
  · have hne : ¬ r.v2f_counts.length = r.points.length := by
      rw [hfresh]; simpa using Ne.symm hP
    have hc := countPass_spec r.counts r.indices r.points.length h
    have ho := offsetPass_spec r.indices r.points.length
      (countPass r.counts r.indices (List.replicate r.points.length 0)).1
      (resize r.v2f_offsets r.points.length 0) (length_resize _ _ _) hc.2
    have hs := scatterPass_spec r.counts r.indices
      (offsetPass r.points.length
        (countPass r.counts r.indices (List.replicate r.points.length 0)).1
        (resize r.v2f_offsets r.points.length 0)).1
      r.points.length h ho.2
      (resize r.shared_faces r.indices.length 0) (resize r.shared_indices r.indices.length 0)
      (length_resize _ _ _) (length_resize _ _ _)
    unfold buildConnection
    rw [if_neg hne]
    exact ⟨hc.2, ho.2, hs.slots, hs.faces⟩

end MeshRefiner

end

section

variable {F2 F3 F4 W : Type} [Inhabited F2] [Inhabited F3] [Inhabited F4] [Inhabited W]

namespace MeshRefiner

set_option linter.unusedSectionVars false

theorem SameInputs.rfl' (r : MeshRefiner F2 F3 F4 W) : SameInputs r r :=
  ⟨rfl, rfl, rfl, rfl, rfl, rfl, rfl, rfl, rfl, rfl, rfl, rfl, rfl, rfl, rfl, rfl⟩

theorem SameInputs.of_recordAt {r r0 : MeshRefiner F2 F3 F4 W} (h : SameInputs r r0)
    (slot : Int) : SameInputs (recordAt r slot) r0 :=
  ⟨h.1, h.2, h.3, h.4, h.5, h.6, h.7, h.8, h.9, h.10, h.11, h.12, h.13, h.14, h.15, h.16⟩

theorem SameInputs.of_add {s r0 : MeshRefiner F2 F3 F4 W} (h : SameInputs s r0)
    (d : Profile) (r : MeshRefiner F2 F3 F4 W) (vi i : Int) : SameInputs (d.add r vi i s) r0 :=
  ⟨h.1, h.2, h.3, h.4, h.5, h.6, h.7, h.8, h.9, h.10, h.11, h.12, h.13, h.14, h.15, h.16⟩

theorem SameInputs.of_new_indices {r r0 : MeshRefiner F2 F3 F4 W} (h : SameInputs r r0)
    (x : List Int) : SameInputs { r with new_indices := x } r0 :=
  ⟨h.1, h.2, h.3, h.4, h.5, h.6, h.7, h.8, h.9, h.10, h.11, h.12, h.13, h.14, h.15, h.16⟩

theorem SameInputs.of_old2new {r r0 : MeshRefiner F2 F3 F4 W} (h : SameInputs r r0)
    (x : List Int) : SameInputs { r with old2new := x } r0 :=
  ⟨h.1, h.2, h.3, h.4, h.5, h.6, h.7, h.8, h.9, h.10, h.11, h.12, h.13, h.14, h.15, h.16⟩

theorem SameInputs.of_splits {r r0 : MeshRefiner F2 F3 F4 W} (h : SameInputs r r0)
    (x : List Split) : SameInputs { r with splits := x } r0 :=
  ⟨h.1, h.2, h.3, h.4, h.5, h.6, h.7, h.8, h.9, h.10, h.11, h.12, h.13, h.14, h.15, h.16⟩

theorem Rep.length {d : Profile} {r0 r : MeshRefiner F2 F3 F4 W} {a : List Nat}
    (h : Rep d r0 r a) : r.new_points.length = a.length := by
  rw [h.points, List.length_map]

theorem Rep.test_eq {K : NearEqual F2 F3 F4} {d : Profile} {r0 r : MeshRefiner F2 F3 F4 W}
    {a : List Nat} (h : Rep d r0 r a) (hin : SameInputs r r0) (m : Nat) (hm : m < a.length)
    (k : Nat) :
    d.test K r (idx r0 k) (k : Int) (m : Int) = d.same K r0 (a.getD m 0) k := by
  unfold Profile.test Profile.same
  rw [hin.points, hin.normals, hin.uv, hin.colors, h.points, elem_map_nat _ _ _ hm]
  have hn := h.normals
  have hu := h.uv
  have hc := h.colors
  rcases d with ⟨dn, du, dc, dt⟩
  simp only at hn hu hc ⊢
  cases dn <;> cases du <;> cases dc <;> simp only [] <;>
    (try rw [hn _ rfl]) <;> (try rw [hu _ rfl]) <;> (try rw [hc _ rfl]) <;>
    (try simp only [elem_map_nat _ _ _ hm]) <;> rfl

theorem Rep.of_push {d : Profile} {r0 r s : MeshRefiner F2 F3 F4 W} {a : List Nat}
    (h : Rep d r0 s a) (hin : SameInputs r r0) (hsw : s.weights4 = r0.weights4) (k : Nat) :
    Rep d r0 (d.add r (idx r0 k) (k : Int) s) (a ++ [k]) := by
  constructor
  · simp [Profile.add, h.points, hin.points, keyP]
  · intro b hb
    simp [Profile.add, hb, h.normals b hb, hin.normals, keyN]
  · intro b hb
    simp [Profile.add, hb, h.uv b hb, hin.uv, keyU]
  · intro b hb
    simp [Profile.add, hb, h.colors b hb, hin.colors, keyC]
  · intro hb
    simp [Profile.add, hb, h.normals_off hb]
  · intro hb
    simp [Profile.add, hb, h.uv_off hb]
  · intro hb
    simp [Profile.add, hb, h.colors_off hb]
  · intro b hb
    simp [Profile.add, hb, h.tangents b hb, hin.tangents_tmp, keyT]
  · intro hb
    simp [Profile.add, hb, h.tangents_off hb]
  · show pushWeights s (idx r0 k) = _
    unfold pushWeights
    rw [hsw, h.weights]
    by_cases hw : r0.weights4.isEmpty = true
    · simp [hw]
    · simp [hw, keyW]

theorem Rep.of_buffers {d : Profile} {r0 r s : MeshRefiner F2 F3 F4 W} {a : List Nat}
    (h : Rep d r0 r a) (hp : s.new_points = r.new_points) (hn : s.new_normals = r.new_normals)
    (hu : s.new_uv = r.new_uv) (hc : s.new_colors = r.new_colors)
    (ht : s.new_tangents = r.new_tangents) (hw : s.new_weights4 = r.new_weights4) :
    Rep d r0 s a :=
  ⟨hp ▸ h.points, fun b hb => hn ▸ h.normals b hb, fun b hb => hu ▸ h.uv b hb,
    fun b hb => hc ▸ h.colors b hb, fun hb => hn ▸ h.normals_off hb,
    fun hb => hu ▸ h.uv_off hb, fun hb => hc ▸ h.colors_off hb,
    fun b hb => ht ▸ h.tangents b hb, fun hb => ht ▸ h.tangents_off hb, hw ▸ h.weights⟩

end MeshRefiner

end

section

variable {F2 F3 F4 W : Type} [Inhabited F2] [Inhabited F3] [Inhabited F4] [Inhabited W]

namespace MeshRefiner

set_option linter.unusedSectionVars false

theorem getD_cornersOf_mem (indices : List Int) (n : Nat) (v : Int) (c : Nat)
    (hc : c < occ indices n v) :
    (cornersOf indices n v).getD c 0 < n ∧
      elem indices (((cornersOf indices n v).getD c 0 : Nat) : Int) = v := by
  have hmem : (cornersOf indices n v).getD c 0 ∈ cornersOf indices n v := by
    unfold occ at hc
    rw [List.getD_eq_getElem _ _ hc]
    exact List.getElem_mem _
  exact (mem_cornersOf indices n v _).mp hmem

theorem exists_getD_cornersOf (indices : List Int) (n : Nat) (v : Int) (k : Nat)
    (hk : k < n) (hv : elem indices (k : Int) = v) :
    ∃ c : Nat, c < occ indices n v ∧ (cornersOf indices n v).getD c 0 = k := by
  have hmem : k ∈ cornersOf indices n v := (mem_cornersOf indices n v k).mpr ⟨hk, hv⟩
  obtain ⟨c, hc, hck⟩ := List.mem_iff_getElem.mp hmem
  exact ⟨c, hc, by rw [List.getD_eq_getElem _ _ hc]; exact hck⟩

theorem getD_cornersOf_inj (indices : List Int) (n : Nat) (v : Int) (c c' : Nat)
    (hc : c < occ indices n v) (hc' : c' < occ indices n v)
    (h : (cornersOf indices n v).getD c 0 = (cornersOf indices n v).getD c' 0) : c = c' := by
  unfold occ at hc hc'
  rw [List.getD_eq_getElem _ _ hc, List.getD_eq_getElem _ _ hc'] at h
  exact (List.Nodup.getElem_inj_iff (cornersOf_nodup indices n v)).mp h

/-- What one call of the lambda does, given the invariant: it reuses the vertex of an
earlier matching corner of the same point or records a new vertex in the first free
slot of the point. -/
theorem body_outcome (K : NearEqual F2 F3 F4) (d : Profile) (r0 : MeshRefiner F2 F3 F4 W)
    (hv : ValidTopology r0.counts r0.indices r0.points.length) (hc : Connected r0)
    (st ov n : Nat) (a : List Nat) (r : MeshRefiner F2 F3 F4 W)
    (hn : n < r0.indices.length) (h : CornerInv K d r0 st ov n a r) :
    ∃ (vn q : Nat), idx r0 n = (vn : Int) ∧ vn < r0.points.length ∧
      q + occ r0.indices st (vn : Int) ≤ occ r0.indices n (vn : Int) ∧
      q < occ r0.indices r0.indices.length (vn : Int) ∧
      (∀ c : Nat, c < occ r0.indices r0.indices.length (vn : Int) →
        (elem r.old2new (((cornersOf r0.indices r0.indices.length (vn : Int)).getD c 0 : Nat) : Int)
            ≠ -1 ↔ c < q)) ∧
      ((∃ c : Nat, c < q ∧
          d.test K r (idx r0 n) (n : Int)
            (elem r.old2new (((cornersOf r0.indices r0.indices.length (vn : Int)).getD c 0 : Nat) : Int))
            = true ∧
          d.body K r (elem r.indices (n : Int)) (n : Int)
            = (r, elem r.old2new
                (((cornersOf r0.indices r0.indices.length (vn : Int)).getD c 0 : Nat) : Int)))
       ∨ ((∀ c : Nat, c < q →
          d.test K r (idx r0 n) (n : Int)
            (elem r.old2new (((cornersOf r0.indices r0.indices.length (vn : Int)).getD c 0 : Nat) : Int))
            = false) ∧
          d.body K r (elem r.indices (n : Int)) (n : Int)
            = (d.add r (idx r0 n) (n : Int)
                (recordAt r (((cornersOf r0.indices r0.indices.length (vn : Int)).getD q 0 : Nat) : Int)),
               (a.length : Int)))) := by
  obtain ⟨hv0, hv1⟩ := hv.index_range n hn
  obtain ⟨vn, hvn⟩ : ∃ vn : Nat, idx r0 n = (vn : Int) :=
    ⟨_, (Int.toNat_of_nonneg hv0).symm⟩
  have hvP : vn < r0.points.length := by unfold idx at hvn; omega
  obtain ⟨q, hq1, hq2⟩ := h.pref vn hvP
  have hocc : occ r0.indices n (vn : Int) < occ r0.indices r0.indices.length (vn : Int) :=
    occ_lt_of_corner r0.indices _ hn hvn
  have hq : q < occ r0.indices r0.indices.length (vn : Int) := by omega
  refine ⟨vn, q, hvn, hvP, hq1, hq, hq2, ?_⟩
  have hidx : elem r.indices (n : Int) = (vn : Int) := by rw [h.inputs.indices]; exact hvn
  have hslot : ∀ c : Nat, c < occ r0.indices r0.indices.length (vn : Int) →
      elem r.shared_indices ((offOf r0.indices vn : Int) + c)
        = (((cornersOf r0.indices r0.indices.length (vn : Int)).getD c 0 : Nat) : Int) := by
    intro c hcl
    rw [h.inputs.shared_indices]; exact hc.slots vn hvP c hcl
  have hrun := findOrAddLoop_run r (offOf r0.indices vn : Int) (d.test K r (idx r0 n) (n : Int))
    (d.add r (idx r0 n) (n : Int)) (occ r0.indices r0.indices.length (vn : Int)) q hq
    (by intro c hcq; rw [hslot c (by omega)]; exact (hq2 c (by omega)).mpr hcq)
    (by
      rw [hslot q hq]
      by_contra hne
      exact absurd ((hq2 q hq).mp hne) (lt_irrefl q))
  have hbody : d.body K r (elem r.indices (n : Int)) (n : Int)
      = findOrAddLoop r (offOf r0.indices vn : Int) (d.test K r (idx r0 n) (n : Int))
          (d.add r (idx r0 n) (n : Int)) (List.range (occ r0.indices r0.indices.length (vn : Int))) := by
    unfold Profile.body
    rw [hidx, h.inputs.v2f_offsets, h.inputs.v2f_counts, hc.offsets_eq vn hvP, hc.counts_eq vn hvP,
      hvn]
    simp
  rw [hbody]
  rcases hrun with ⟨c, hcq, ht, hres⟩ | ⟨hall, hres⟩
  · left
    refine ⟨c, hcq, ?_, ?_⟩
    · rw [← hslot c (by omega)]; exact ht
    · rw [hres, hslot c (by omega)]
  · right
    refine ⟨?_, ?_⟩
    · intro c hcq
      rw [← hslot c (by omega)]; exact hall c hcq
    · rw [hres, hslot q hq, h.rep.length]

end MeshRefiner

end

theorem getD_append_lt (a : List Nat) (x m : Nat) (h : m < a.length) :
    (a ++ [x]).getD m 0 = a.getD m 0 := by
  simp [List.getD_eq_getElem?_getD, List.getElem?_append_left h]

theorem getD_append_len (a : List Nat) (x : Nat) : (a ++ [x]).getD a.length 0 = x := by
  simp [List.getD_eq_getElem?_getD]

theorem getD_mem_of_lt (a : List Nat) (m : Nat) (h : m < a.length) : a.getD m 0 ∈ a := by
  rw [List.getD_eq_getElem _ _ h]; exact List.getElem_mem _

section

variable {F2 F3 F4 W : Type} [Inhabited F2] [Inhabited F3] [Inhabited F4] [Inhabited W]

namespace MeshRefiner

set_option linter.unusedSectionVars false

/-- The corner loop keeps its invariant when the lambda reuses vertex `m`. -/
theorem corner_step_reuse (K : NearEqual F2 F3 F4) (d : Profile) (r0 : MeshRefiner F2 F3 F4 W)
    (st ov n : Nat) (a : List Nat) (r : MeshRefiner F2 F3 F4 W)
    (h : CornerInv K d r0 st ov n a r) (m : Nat) (hm0 : ov ≤ m) (hm1 : m < a.length)
    (hidx : idx r0 (a.getD m 0) = idx r0 n) (hsame : d.same K r0 (a.getD m 0) n = true) :
    CornerInv K d r0 st ov (n + 1) a
      { r with new_indices := r.new_indices ++ [(m : Int) - (ov : Int)] } := by
  have hlt : a.getD m 0 < n := h.alloc_lt _ (getD_mem_of_lt a m hm1)
  constructor
  · exact h.inputs.of_new_indices _
  · exact h.rep.of_buffers rfl rfl rfl rfl rfl rfl
  · simp [h.len_ni]
  · exact h.len_o2n
  · exact h.ov_le
  · exact Nat.le_succ_of_le h.st_le
  · exact h.sorted
  · intro k hk; exact Nat.lt_succ_of_lt (h.alloc_lt k hk)
  · exact h.alloc_cur
  · exact h.cache
  · intro v hv
    obtain ⟨q, hq1, hq2⟩ := h.pref v hv
    exact ⟨q, le_trans hq1 (occ_mono _ _ (Nat.le_succ n)), hq2⟩
  · exact h.recorded
  · intro k hk0 hk1
    show ∃ g : Nat, elem (r.new_indices ++ [(m : Int) - (ov : Int)]) (k : Int) = _ ∧ _
    rcases Nat.lt_succ_iff_lt_or_eq.mp hk1 with hk | hk
    · obtain ⟨g, hg⟩ := h.out k hk0 hk
      refine ⟨g, ?_, hg.2⟩
      rw [elem_append_left _ _ _ (by rw [h.len_ni]; exact_mod_cast hk)]
      exact hg.1
    · subst hk
      refine ⟨m, ?_, hm0, hm1, hidx, Nat.le_of_lt hlt, Or.inr hsame⟩
      have := elem_append_length r.new_indices ((m : Int) - (ov : Int))
      rw [h.len_ni] at this
      exact this
  · intro k hk0 hk1
    rcases Nat.lt_succ_iff_lt_or_eq.mp hk1 with hk | hk
    · exact h.greedy k hk0 hk
    · subst hk
      constructor
      · intro hmem
        exact absurd (h.alloc_lt k hmem) (lt_irrefl k)
      · intro hall
        have := hall m hm0 hm1 hlt hidx
        rw [hsame] at this
        exact absurd this (by simp)

end MeshRefiner

end

section

variable {F2 F3 F4 W : Type} [Inhabited F2] [Inhabited F3] [Inhabited F4] [Inhabited W]

namespace MeshRefiner

set_option linter.unusedSectionVars false

/-- The corner loop keeps its invariant when the lambda records a new vertex. -/
theorem corner_step_alloc (K : NearEqual F2 F3 F4) (d : Profile) (r0 : MeshRefiner F2 F3 F4 W)
    (st ov n : Nat) (a : List Nat) (r : MeshRefiner F2 F3 F4 W)
    (h : CornerInv K d r0 st ov n a r) (vn q : Nat)
    (hvn : idx r0 n = (vn : Int)) (hvP : vn < r0.points.length)
    (hq1 : q + occ r0.indices st (vn : Int) ≤ occ r0.indices n (vn : Int))
    (hq : q < occ r0.indices r0.indices.length (vn : Int))
    (hq2 : ∀ c : Nat, c < occ r0.indices r0.indices.length (vn : Int) →
        (elem r.old2new (((cornersOf r0.indices r0.indices.length (vn : Int)).getD c 0 : Nat) : Int)
            ≠ -1 ↔ c < q))
    (hall : ∀ c : Nat, c < q →
          d.test K r (idx r0 n) (n : Int)
            (elem r.old2new (((cornersOf r0.indices r0.indices.length (vn : Int)).getD c 0 : Nat) : Int))
            = false) :
    ∀ (next : MeshRefiner F2 F3 F4 W), SameInputs next r0 → Rep d r0 next (a ++ [n]) →
      next.old2new = store r.old2new
        (((cornersOf r0.indices r0.indices.length (vn : Int)).getD q 0 : Nat) : Int)
        (a.length : Int) →
      next.new_indices = r.new_indices ++ [(a.length : Int) - (ov : Int)] →
      CornerInv K d r0 st ov (n + 1) (a ++ [n]) next := by
  intro next hin hrep ho hni
  obtain ⟨hkqI, hkqv⟩ := getD_cornersOf_mem r0.indices r0.indices.length (vn : Int) q hq
  generalize hkq : (cornersOf r0.indices r0.indices.length (vn : Int)).getD q 0 = kq at *
  have hfree : elem r.old2new (kq : Int) = -1 := by
    have := hq2 q hq
    rw [hkq] at this
    by_contra hne
    exact absurd (this.mp hne) (lt_irrefl q)
  have hlen_kq : (kq : Int) < (r.old2new.length : Int) := by rw [h.len_o2n]; exact_mod_cast hkqI
  have hlenapp : (a ++ [n]).length = a.length + 1 := by simp
  constructor
  · exact hin
  · exact hrep
  · rw [hni]; simp [h.len_ni]
  · rw [ho, length_store]; exact h.len_o2n
  · rw [hlenapp]; exact Nat.le_succ_of_le h.ov_le
  · exact Nat.le_succ_of_le h.st_le
  · rw [List.pairwise_append]
    refine ⟨h.sorted, by simp, ?_⟩
    intro x hx y hy
    simp only [List.mem_singleton] at hy
    subst hy
    exact h.alloc_lt x hx
  · intro k hk
    rcases List.mem_append.mp hk with hk | hk
    · exact Nat.lt_succ_of_lt (h.alloc_lt k hk)
    · simp only [List.mem_singleton] at hk; omega
  · intro m hm0 hm1
    rw [hlenapp] at hm1
    rcases Nat.lt_succ_iff_lt_or_eq.mp hm1 with hm | hm
    · rw [getD_append_lt a n m hm]; exact h.alloc_cur m hm0 hm
    · subst hm; rw [getD_append_len]; exact h.st_le
  · intro k hk
    rw [ho]
    by_cases hkk : k = kq
    · subst hkk
      right
      refine ⟨a.length, ?_, h.ov_le, by rw [hlenapp]; exact Nat.lt_succ_self _, ?_⟩
      · rw [elem_store_same _ _ _ (by omega) hlen_kq]
      · rw [getD_append_len, hvn]; unfold idx; exact hkqv.symm
    · rw [elem_store_other _ _ _ _ (by omega)]
      rcases h.cache k hk with h1 | ⟨m, hm1, hm2, hm3, hm4⟩
      · exact Or.inl h1
      · right
        refine ⟨m, hm1, hm2, by rw [hlenapp]; exact Nat.lt_succ_of_lt hm3, ?_⟩
        rw [getD_append_lt a n m hm3]; exact hm4
  · intro v hv
    rw [ho]
    by_cases hvv : v = vn
    · subst hvv
      refine ⟨q + 1, ?_, ?_⟩
      · rw [occ_succ]
        have : elem r0.indices (n : Int) = (v : Int) := hvn
        simp only [this, if_true]
        omega
      · intro c hcl
        by_cases hcq : c = q
        · subst hcq
          rw [hkq, elem_store_same _ _ _ (by omega) hlen_kq]
          constructor
          · intro _; exact Nat.lt_succ_self _
          · intro _; omega
        · have hne : (cornersOf r0.indices r0.indices.length (v : Int)).getD c 0 ≠ kq := by
            intro heq
            rw [← hkq] at heq
            exact hcq (getD_cornersOf_inj _ _ _ _ _ hcl hq heq)
          rw [elem_store_other _ _ _ _ (by omega)]
          rw [hq2 c hcl]
          omega
    · obtain ⟨q', hq1', hq2'⟩ := h.pref v hv
      refine ⟨q', ?_, ?_⟩
      · rw [occ_succ]
        have : ¬ elem r0.indices (n : Int) = (v : Int) := by
          have : elem r0.indices (n : Int) = (vn : Int) := hvn
          omega
        simp only [this, if_false]
        omega
      · intro c hcl
        have hne : (cornersOf r0.indices r0.indices.length (v : Int)).getD c 0 ≠ kq := by
          intro heq
          have h1 := (getD_cornersOf_mem r0.indices r0.indices.length (v : Int) c hcl).2
          rw [heq, hkqv] at h1
          omega
        rw [elem_store_other _ _ _ _ (by omega)]
        exact hq2' c hcl
  · intro m hm0 hm1
    rw [ho]
    rw [hlenapp] at hm1
    rcases Nat.lt_succ_iff_lt_or_eq.mp hm1 with hm | hm
    · obtain ⟨k, hk, hkm⟩ := h.recorded m hm0 hm
      refine ⟨k, hk, ?_⟩
      have hne : k ≠ kq := by
        intro heq; subst heq; rw [hfree] at hkm; omega
      rw [elem_store_other _ _ _ _ (by omega)]
      exact hkm
    · subst hm
      exact ⟨kq, hkqI, elem_store_same _ _ _ (by omega) hlen_kq⟩
  · intro k hk0 hk1
    rw [hni]
    rcases Nat.lt_succ_iff_lt_or_eq.mp hk1 with hk | hk
    · obtain ⟨g, hg1, hg2, hg3, hg4, hg5, hg6⟩ := h.out k hk0 hk
      refine ⟨g, ?_, hg2, by rw [hlenapp]; exact Nat.lt_succ_of_lt hg3, ?_⟩
      · rw [elem_append_left _ _ _ (by rw [h.len_ni]; exact_mod_cast hk)]
        exact hg1
      · rw [getD_append_lt a n g hg3]
        exact ⟨hg4, hg5, hg6⟩
    · subst hk
      refine ⟨a.length, ?_, h.ov_le, by rw [hlenapp]; exact Nat.lt_succ_self _, ?_⟩
      · have := elem_append_length r.new_indices ((a.length : Int) - (ov : Int))
        rw [h.len_ni] at this
        exact this
      · rw [getD_append_len]
        exact ⟨rfl, le_refl _, Or.inl rfl⟩
  · intro k hk0 hk1
    rw [hlenapp]
    rcases Nat.lt_succ_iff_lt_or_eq.mp hk1 with hk | hk
    · have hkn : k ≠ n := by omega
      have hmem : k ∈ a ++ [n] ↔ k ∈ a := by simp [hkn]
      rw [hmem, h.greedy k hk0 hk]
      constructor
      · intro hold m hm0 hm1 hlt
        rcases Nat.lt_succ_iff_lt_or_eq.mp hm1 with hm | hm
        · rw [getD_append_lt a n m hm] at hlt ⊢
          exact hold m hm0 hm hlt
        · subst hm
          rw [getD_append_len] at hlt
          omega
      · intro hnew m hm0 hm1 hlt
        have := hnew m hm0 (Nat.lt_succ_of_lt hm1)
        rw [getD_append_lt a n m hm1] at this
        exact this hlt
    · subst hk
      constructor
      · intro _ m hm0 hm1 hlt hidx
        rcases Nat.lt_succ_iff_lt_or_eq.mp hm1 with hm | hm
        · rw [getD_append_lt a k m hm] at hlt hidx ⊢
          obtain ⟨k', hk'I, hk'm⟩ := h.recorded m hm0 hm
          have hk'idx : idx r0 (a.getD m 0) = idx r0 k' := by
            rcases h.cache k' hk'I with h1 | ⟨m', hm'1, _, _, hm'4⟩
            · rw [h1] at hk'm; omega
            · have : m' = m := by omega
              subst this; exact hm'4
          have hk'v : elem r0.indices (k' : Int) = (vn : Int) := by
            have : idx r0 k' = (vn : Int) := by rw [← hk'idx, hidx, hvn]
            exact this
          obtain ⟨c, hcl, hck⟩ := exists_getD_cornersOf r0.indices r0.indices.length _ k' hk'I hk'v
          have hcq : c < q := by
            apply (hq2 c hcl).mp
            rw [hck, hk'm]; omega
          have htest := hall c hcq
          rw [hck, hk'm, h.rep.test_eq h.inputs m hm k] at htest
          exact htest
        · subst hm
          rw [getD_append_len] at hlt
          omega
      · intro _
        simp

end MeshRefiner

end

section

variable {F2 F3 F4 W : Type} [Inhabited F2] [Inhabited F3] [Inhabited F4] [Inhabited W]

namespace MeshRefiner

set_option linter.unusedSectionVars false

/-- One corner of `doRefine` keeps the corner invariant; the list of allocating corners
either stays or gains the corner just processed. -/
theorem refineCorner_spec (K : NearEqual F2 F3 F4) (d : Profile) (r0 : MeshRefiner F2 F3 F4 W)
    (hv : ValidTopology r0.counts r0.indices r0.points.length) (hc : Connected r0)
    (st ov n : Nat) (a : List Nat) (s : RefineLoop F2 F3 F4 W) (offset : Int) (ci : Nat)
    (hoff : offset + (ci : Int) = (n : Int)) (hov : s.offset_vertices = (ov : Int))
    (hn : n < r0.indices.length) (h : CornerInv K d r0 st ov n a s.r) :
    ∃ a' : List Nat,
      CornerInv K d r0 st ov (n + 1) a' (refineCorner (d.body K) offset s ci).r ∧
      (a' = a ∨ a' = a ++ [n]) ∧
      (refineCorner (d.body K) offset s ci).r.splits = s.r.splits ∧
      (refineCorner (d.body K) offset s ci).offset_vertices = s.offset_vertices ∧
      (refineCorner (d.body K) offset s ci).offset_indices = s.offset_indices ∧
      (refineCorner (d.body K) offset s ci).num_faces = s.num_faces ∧
      (refineCorner (d.body K) offset s ci).num_indices_triangulated
        = s.num_indices_triangulated ∧
      ∃ x : Int, (refineCorner (d.body K) offset s ci).r.new_indices = s.r.new_indices ++ [x] := by
  obtain ⟨vn, q, hvn, hvP, hq1, hq, hq2, hcase⟩ := body_outcome K d r0 hv hc st ov n a s.r hn h
  unfold refineCorner
  simp only [hoff]
  rcases hcase with ⟨c, hcq, ht, hres⟩ | ⟨hall, hres⟩
  · -- reuse
    obtain ⟨hkI, hkv⟩ := getD_cornersOf_mem r0.indices r0.indices.length (vn : Int) c (by omega)
    have hassigned := (hq2 c (by omega)).mpr hcq
    rcases h.cache _ hkI with h1 | ⟨m, hm1, hm2, hm3, hm4⟩
    · exact absurd h1 hassigned
    · have hidx : idx r0 (a.getD m 0) = idx r0 n := by
        rw [hm4, hvn]; exact hkv
      rw [hm1, h.rep.test_eq h.inputs m hm3 n] at ht
      rw [hres, hm1, hov]
      exact ⟨a, corner_step_reuse K d r0 st ov n a s.r h m hm2 hm3 hidx ht, Or.inl rfl, rfl,
        trivial, trivial, trivial, trivial, _, rfl⟩
  · -- allocation
    rw [hres, hov]
    refine ⟨a ++ [n], ?_, Or.inr rfl, rfl, trivial, trivial, trivial, trivial, _, rfl⟩
    apply corner_step_alloc K d r0 st ov n a s.r h vn q hvn hvP hq1 hq hq2 hall
    · exact ((h.inputs.of_recordAt _).of_add d s.r _ _).of_new_indices _
    · exact ((h.rep.of_buffers (s := recordAt s.r _) rfl rfl rfl rfl rfl rfl).of_push h.inputs
        h.inputs.weights4 n).of_buffers rfl rfl rfl rfl rfl rfl
    · dsimp only [Profile.add, recordAt]
      rw [h.rep.length]
    · rfl

end MeshRefiner

end

theorem faceBase_append_le (splits : List Split) (sp : Split) (t : Nat) (h : t ≤ splits.length) :
    faceBase (splits ++ [sp]) t = faceBase splits t := by
  unfold faceBase; rw [List.take_append_of_le_length h]

theorem indexBase_append_le (splits : List Split) (sp : Split) (t : Nat) (h : t ≤ splits.length) :
    indexBase (splits ++ [sp]) t = indexBase splits t := by
  unfold indexBase; rw [List.take_append_of_le_length h]

theorem vertexBase_append_le (splits : List Split) (sp : Split) (t : Nat)
    (h : t ≤ splits.length) : vertexBase (splits ++ [sp]) t = vertexBase splits t := by
  unfold vertexBase; rw [List.take_append_of_le_length h]

theorem triBase_append_le (splits : List Split) (sp : Split) (t : Nat) (h : t ≤ splits.length) :
    triBase (splits ++ [sp]) t = triBase splits t := by
  unfold triBase; rw [List.take_append_of_le_length h]

theorem faceBase_append_all (splits : List Split) (sp : Split) :
    faceBase (splits ++ [sp]) (splits ++ [sp]).length
      = faceBase splits splits.length + sp.num_faces := by
  unfold faceBase; simp [List.take_length]

theorem indexBase_append_all (splits : List Split) (sp : Split) :
    indexBase (splits ++ [sp]) (splits ++ [sp]).length
      = indexBase splits splits.length + sp.num_indices := by
  unfold indexBase; simp [List.take_length]

theorem vertexBase_append_all (splits : List Split) (sp : Split) :
    vertexBase (splits ++ [sp]) (splits ++ [sp]).length
      = vertexBase splits splits.length + sp.num_vertices := by
  unfold vertexBase; simp [List.take_length]

theorem triBase_append_all (splits : List Split) (sp : Split) :
    triBase (splits ++ [sp]) (splits ++ [sp]).length
      = triBase splits splits.length + sp.num_indices_triangulated := by
  unfold triBase; simp [List.take_length]

theorem triTotal_succ (counts : List Int) (f : Nat) (h : f < counts.length) :
    triTotal counts (f + 1) = triTotal counts f + (elem counts (f : Int) - 2) * 3 := by
  unfold triTotal
  rw [List.take_succ, List.map_append, List.sum_append, elem_of_lt counts f h]
  simp [List.getElem?_eq_getElem h]

section

variable {F2 F3 F4 W : Type} [Inhabited F2] [Inhabited F3] [Inhabited F4] [Inhabited W]

namespace MeshRefiner

set_option linter.unusedSectionVars false

theorem SplitOK.mono {K : NearEqual F2 F3 F4} {d : Profile} {r0 : MeshRefiner F2 F3 F4 W}
    {a : List Nat} {newIdx : List Int} {fb vb : Nat} {sp : Split}
    (h : SplitOK K d r0 a newIdx fb vb sp) (a2 : List Nat) (x2 : List Int) :
    SplitOK K d r0 (a ++ a2) (newIdx ++ x2) fb vb sp := by
  obtain ⟨nf, nv, h1, h2, h3, h4, h5, h6, h7, h8⟩ := h.shape
  refine ⟨⟨nf, nv, h1, h2, h3, h4, h5, ?_, ?_, ?_⟩, h.budget⟩
  · rw [List.length_append]; omega
  · rw [List.length_append]; omega
  · intro k hk0 hk1
    obtain ⟨g, hg1, hg2, hg3, hg4⟩ := h8 k hk0 hk1
    refine ⟨g, ?_, hg2, hg3, ?_⟩
    · rw [elem_append_left _ _ _ (by omega)]; exact hg1
    · have : (a ++ a2).getD g 0 = a.getD g 0 := by
        simp [List.getD_eq_getElem?_getD, List.getElem?_append_left (show g < a.length by omega)]
      rw [this]; exact hg4

/-- Clearing the vertex cache at a split boundary starts a fresh current split. -/
theorem CornerInv.reset {K : NearEqual F2 F3 F4} {d : Profile} {r0 : MeshRefiner F2 F3 F4 W}
    {st ov n : Nat} {a : List Nat} {r : MeshRefiner F2 F3 F4 W}
    (h : CornerInv K d r0 st ov n a r) (splits : List Split) :
    CornerInv K d r0 n a.length n a
      { r with splits := splits, old2new := List.replicate r.old2new.length (-1) } := by
  have hfree : ∀ k : Nat, k < r0.indices.length →
      elem (List.replicate r.old2new.length (-1 : Int)) (k : Int) = -1 := by
    intro k hk
    exact elem_replicate _ _ _ (by rw [h.len_o2n]; exact hk)
  constructor
  · exact ⟨h.inputs.1, h.inputs.2, h.inputs.3, h.inputs.4, h.inputs.5, h.inputs.6, h.inputs.7,
      h.inputs.8, h.inputs.9, h.inputs.10, h.inputs.11, h.inputs.12, h.inputs.13, h.inputs.14,
      h.inputs.15, h.inputs.16⟩
  · exact h.rep.of_buffers rfl rfl rfl rfl rfl rfl
  · exact h.len_ni
  · show (List.replicate _ _).length = _
    rw [List.length_replicate]; exact h.len_o2n
  · exact le_refl _
  · exact le_refl _
  · exact h.sorted
  · exact h.alloc_lt
  · intro m hm0 hm1; omega
  · intro k hk; exact Or.inl (hfree k hk)
  · intro v _
    refine ⟨0, by omega, ?_⟩
    intro c hcl
    have := (getD_cornersOf_mem r0.indices r0.indices.length (v : Int) c hcl).1
    show elem (List.replicate r.old2new.length (-1 : Int)) _ ≠ -1 ↔ _
    rw [hfree _ this]
    simp
  · intro m hm0 hm1; omega
  · intro k hk0 hk1; omega
  · intro k hk0 hk1; omega

end MeshRefiner

end

section

variable {F2 F3 F4 W : Type} [Inhabited F2] [Inhabited F3] [Inhabited F4] [Inhabited W]

namespace MeshRefiner

set_option linter.unusedSectionVars false

theorem add_new_split_eq (s : RefineLoop F2 F3 F4 W) :
    add_new_split s =
      { r := { s.r with splits := s.r.splits ++ [closingSplit s] },
        offset_vertices := s.offset_vertices + (closingSplit s).num_vertices,
        offset_indices := s.offset_indices + (closingSplit s).num_indices,
        num_faces := 0,
        num_indices_triangulated := 0 } := rfl

/-- The record pushed by `add_new_split` describes the current split, and the records
pushed earlier keep describing theirs. -/
theorem closed_after_add (K : NearEqual F2 F3 F4) (d : Profile) (r0 : MeshRefiner F2 F3 F4 W)
    (fi fst ov : Nat) (a : List Nat) (s : RefineLoop F2 F3 F4 W)
    (h : FaceInv K d r0 fi fst ov a s) (hfi : fi ≤ r0.counts.length)
    (hnf : 0 < r0.split_unit → 0 < r0.counts.length → (∀ c ∈ r0.counts, c ≤ r0.split_unit) →
      fst < fi) :
    faceBase (s.r.splits ++ [closingSplit s]) (s.r.splits ++ [closingSplit s]).length = (fi : Int) ∧
    indexBase (s.r.splits ++ [closingSplit s]) (s.r.splits ++ [closingSplit s]).length
      = (faceStart r0.counts fi : Int) ∧
    vertexBase (s.r.splits ++ [closingSplit s]) (s.r.splits ++ [closingSplit s]).length
      = (a.length : Int) ∧
    triBase (s.r.splits ++ [closingSplit s]) (s.r.splits ++ [closingSplit s]).length
      = triTotal r0.counts fi ∧
    ∀ t : Nat, t < (s.r.splits ++ [closingSplit s]).length → ∃ fb vb : Nat,
      faceBase (s.r.splits ++ [closingSplit s]) t = (fb : Int) ∧
      indexBase (s.r.splits ++ [closingSplit s]) t = (faceStart r0.counts fb : Int) ∧
      vertexBase (s.r.splits ++ [closingSplit s]) t = (vb : Int) ∧
      triBase (s.r.splits ++ [closingSplit s]) t = triTotal r0.counts fb ∧
      SplitOK K d r0 a s.r.new_indices fb vb ((s.r.splits ++ [closingSplit s]).getD t default) := by
  have hnv : (closingSplit s).num_vertices = (a.length : Int) - (ov : Int) := by
    simp [closingSplit, h.corner.rep.length, h.off_v]
  have hni : (closingSplit s).num_indices
      = (faceStart r0.counts fi : Int) - (faceStart r0.counts fst : Int) := by
    simp [closingSplit, h.corner.len_ni, h.off_i]
  have hnfaces : (closingSplit s).num_faces = (fi : Int) - (fst : Int) := h.nfaces
  have hntri : (closingSplit s).num_indices_triangulated
      = triTotal r0.counts fi - triTotal r0.counts fst := h.ntri
  refine ⟨?_, ?_, ?_, ?_, ?_⟩
  · rw [faceBase_append_all, h.fbase, hnfaces]; omega
  · rw [indexBase_append_all, h.ibase, hni]; omega
  · rw [vertexBase_append_all, h.vbase, hnv]; omega
  · rw [triBase_append_all, h.tbase, hntri]; omega
  · intro t ht
    rw [List.length_append, List.length_singleton] at ht
    rcases Nat.lt_succ_iff_lt_or_eq.mp ht with ht' | ht'
    · obtain ⟨fb, vb, h1, h2, h3, h4, h5⟩ := h.closed t ht'
      refine ⟨fb, vb, ?_, ?_, ?_, ?_, ?_⟩
      · rw [faceBase_append_le _ _ _ (Nat.le_of_lt ht')]; exact h1
      · rw [indexBase_append_le _ _ _ (Nat.le_of_lt ht')]; exact h2
      · rw [vertexBase_append_le _ _ _ (Nat.le_of_lt ht')]; exact h3
      · rw [triBase_append_le _ _ _ (Nat.le_of_lt ht')]; exact h4
      · have : (s.r.splits ++ [closingSplit s]).getD t default = s.r.splits.getD t default := by
          simp [List.getD_eq_getElem?_getD, List.getElem?_append_left ht']
        rw [this]; exact h5
    · subst ht'
      refine ⟨fst, ov, ?_, ?_, ?_, ?_, ?_⟩
      · rw [faceBase_append_le _ _ _ (le_refl _)]; exact h.fbase
      · rw [indexBase_append_le _ _ _ (le_refl _)]; exact h.ibase
      · rw [vertexBase_append_le _ _ _ (le_refl _)]; exact h.vbase
      · rw [triBase_append_le _ _ _ (le_refl _)]; exact h.tbase
      · have hget : (s.r.splits ++ [closingSplit s]).getD s.r.splits.length default
            = closingSplit s := by
          simp [List.getD_eq_getElem?_getD]
        rw [hget]
        have hfst := h.fst_le
        have hov := h.corner.ov_le
        have hfs : fst + (fi - fst) = fi := by omega
        constructor
        · refine ⟨fi - fst, a.length - ov, ?_, ?_, ?_, ?_, ?_, ?_, ?_, ?_⟩
          · rw [hnfaces]; omega
          · rw [hnv]; omega
          · omega
          · rw [hfs]; exact hni
          · rw [hfs]; exact hntri
          · omega
          · rw [hfs, h.corner.len_ni]
          · rw [hfs]
            intro k hk0 hk1
            obtain ⟨g, hg1, hg2, hg3, hg4, _, hg6⟩ := h.corner.out k hk0 hk1
            exact ⟨g, hg1, hg2, by omega, hg4, hg6⟩
        · intro hsu hF hall
          have hb := h.budget hsu hall
          have hlt := hnf hsu hF hall
          rw [hnv, hnfaces]
          exact ⟨hb, by omega⟩

end MeshRefiner

end

section

variable {F2 F3 F4 W : Type} [Inhabited F2] [Inhabited F3] [Inhabited F4] [Inhabited W]

namespace MeshRefiner

set_option linter.unusedSectionVars false

/-- Closing the current split before face `fi` (the budget test fired). -/
theorem close_spec (K : NearEqual F2 F3 F4) (d : Profile) (r0 : MeshRefiner F2 F3 F4 W)
    (fi fst ov : Nat) (a : List Nat) (s : RefineLoop F2 F3 F4 W)
    (h : FaceInv K d r0 fi fst ov a s) (hfi : fi < r0.counts.length)
    (hlt : 0 < fi → fst < fi) (hsu : 0 < r0.split_unit)
    (hcond : (a.length : Int) - (ov : Int) + elem r0.counts (fi : Int) > r0.split_unit) :
    FaceInv K d r0 fi fi a.length a
      { add_new_split s with
        r := { (add_new_split s).r with
               old2new := List.replicate (add_new_split s).r.old2new.length (-1) } } := by
  have hmem : elem r0.counts (fi : Int) ∈ r0.counts := by
    rw [elem_of_lt r0.counts fi hfi]; exact List.getElem_mem _
  have hnf : 0 < r0.split_unit → 0 < r0.counts.length → (∀ c ∈ r0.counts, c ≤ r0.split_unit) →
      fst < fi := by
    intro _ _ hall
    have hc := hall _ hmem
    apply hlt
    rcases Nat.eq_zero_or_pos fi with h0 | h0
    · have := h.start h0
      rw [this] at hcond
      simp at hcond
      omega
    · exact h0
  obtain ⟨hb1, hb2, hb3, hb4, hb5⟩ := closed_after_add K d r0 fi fst ov a s h (Nat.le_of_lt hfi) hnf
  have hnv : (closingSplit s).num_vertices = (a.length : Int) - (ov : Int) := by
    simp [closingSplit, h.corner.rep.length, h.off_v]
  have hni : (closingSplit s).num_indices
      = (faceStart r0.counts fi : Int) - (faceStart r0.counts fst : Int) := by
    simp [closingSplit, h.corner.len_ni, h.off_i]
  rw [add_new_split_eq]
  constructor
  · exact h.corner.reset (s.r.splits ++ [closingSplit s])
  · exact le_refl _
  · show s.offset_vertices + (closingSplit s).num_vertices = _
    rw [hnv, h.off_v]; omega
  · show s.offset_indices + (closingSplit s).num_indices = _
    rw [hni, h.off_i]; omega
  · show (0 : Int) = _
    omega
  · show (0 : Int) = _
    omega
  · exact hb1
  · exact hb2
  · exact hb3
  · exact hb4
  · exact hb5
  · intro _ _; omega
  · exact h.start
  · intro hle; omega

theorem face_corners (K : NearEqual F2 F3 F4) (d : Profile) (r0 : MeshRefiner F2 F3 F4 W)
    (hv : ValidTopology r0.counts r0.indices r0.points.length) (hc : Connected r0)
    (fi fst ov : Nat) (a : List Nat) (s1 : RefineLoop F2 F3 F4 W)
    (h : FaceInv K d r0 fi fst ov a s1) (hfi : fi < r0.counts.length) :
    ∃ a' : List Nat, InnerInv K d r0 fi fst ov a s1 (elem r0.counts (fi : Int)).toNat a'
      ((List.range (elem r0.counts (fi : Int)).toNat).foldl
        (refineCorner (d.body K) (faceStart r0.counts fi : Int)) s1) := by
  apply foldl_range_inv
    (fun ci s => ∃ a' : List Nat, InnerInv K d r0 fi fst ov a s1 ci a' s)
    (refineCorner (d.body K) (faceStart r0.counts fi : Int))
  · exact ⟨a, ⟨by simpa using h.corner, ⟨[], by simp, by simp⟩, rfl, rfl, rfl, rfl, rfl,
      ⟨[], by simp⟩⟩⟩
  · intro s ci hci ⟨a', hinv⟩
    have hn := hv.corner_lt fi hfi ci hci
    obtain ⟨a2, h1, h2, h3, h4, h5, h6, h7, x, h8⟩ :=
      refineCorner_spec K d r0 hv hc (faceStart r0.counts fst) ov (faceStart r0.counts fi + ci) a'
        s (faceStart r0.counts fi : Int) ci (by push_cast; rfl)
        (by rw [hinv.off_v]; exact h.off_v) hn hinv.corner
    obtain ⟨e, he1, he2⟩ := hinv.ext
    obtain ⟨ys, hys⟩ := hinv.newidx
    refine ⟨a2, ⟨h1, ?_, ?_, ?_, ?_, ?_, ?_, ?_⟩⟩
    · rcases h2 with h2 | h2
      · exact ⟨e, by rw [h2, he1], Nat.le_succ_of_le he2⟩
      · refine ⟨e ++ [faceStart r0.counts fi + ci], ?_, ?_⟩
        · rw [h2, he1, List.append_assoc]
        · simp; omega
    · rw [h3]; exact hinv.splits
    · rw [h4]; exact hinv.off_v
    · rw [h5]; exact hinv.off_i
    · rw [h6]; exact hinv.nfaces
    · rw [h7]; exact hinv.ntri
    · exact ⟨ys ++ [x], by rw [h8, hys, List.append_assoc]⟩

end MeshRefiner

end

section

variable {F2 F3 F4 W : Type} [Inhabited F2] [Inhabited F3] [Inhabited F4] [Inhabited W]

namespace MeshRefiner

set_option linter.unusedSectionVars false

theorem CornerInv.congr {K : NearEqual F2 F3 F4} {d : Profile} {r0 : MeshRefiner F2 F3 F4 W}
    {st ov n : Nat} {a : List Nat} {r r' : MeshRefiner F2 F3 F4 W}
    (h : CornerInv K d r0 st ov n a r) (hin : SameInputs r' r0)
    (hp : r'.new_points = r.new_points) (hn : r'.new_normals = r.new_normals)
    (hu : r'.new_uv = r.new_uv) (hc : r'.new_colors = r.new_colors)
    (ht : r'.new_tangents = r.new_tangents) (hw : r'.new_weights4 = r.new_weights4)
    (hni : r'.new_indices = r.new_indices) (ho : r'.old2new = r.old2new) :
    CornerInv K d r0 st ov n a r' := by
  constructor
  · exact hin
  · exact h.rep.of_buffers hp hn hu hc ht hw
  · rw [hni]; exact h.len_ni
  · rw [ho]; exact h.len_o2n
  · exact h.ov_le
  · exact h.st_le
  · exact h.sorted
  · exact h.alloc_lt
  · exact h.alloc_cur
  · rw [ho]; exact h.cache
  · rw [ho]; exact h.pref
  · rw [ho]; exact h.recorded
  · rw [hni]; exact h.out
  · exact h.greedy

/-- The corners of face `fi` and the face counters, once the budget test is done. -/
theorem finish_face (K : NearEqual F2 F3 F4) (d : Profile) (r0 : MeshRefiner F2 F3 F4 W)
    (hv : ValidTopology r0.counts r0.indices r0.points.length) (hc : Connected r0)
    (fi fst ov : Nat) (a : List Nat) (s1 : RefineLoop F2 F3 F4 W)
    (h : FaceInv K d r0 fi fst ov a s1) (hfi : fi < r0.counts.length)
    (hb : 0 < r0.split_unit → (∀ c ∈ r0.counts, c ≤ r0.split_unit) →
      (a.length : Int) - (ov : Int) + elem r0.counts (fi : Int) ≤ r0.split_unit) :
    ∃ a' : List Nat, FaceInv K d r0 (fi + 1) fst ov a'
      { (List.range (elem r0.counts (fi : Int)).toNat).foldl
          (refineCorner (d.body K) (faceStart r0.counts fi : Int)) s1 with
        num_faces := ((List.range (elem r0.counts (fi : Int)).toNat).foldl
          (refineCorner (d.body K) (faceStart r0.counts fi : Int)) s1).num_faces + 1,
        num_indices_triangulated := ((List.range (elem r0.counts (fi : Int)).toNat).foldl
          (refineCorner (d.body K) (faceStart r0.counts fi : Int)) s1).num_indices_triangulated
            + (elem r0.counts (fi : Int) - 2) * 3 } := by
  obtain ⟨a', hin⟩ := face_corners K d r0 hv hc fi fst ov a s1 h hfi
  generalize (List.range (elem r0.counts (fi : Int)).toNat).foldl
          (refineCorner (d.body K) (faceStart r0.counts fi : Int)) s1 = s2 at hin ⊢
  obtain ⟨e, he1, he2⟩ := hin.ext
  obtain ⟨ys, hys⟩ := hin.newidx
  have hsucc := faceStart_succ r0.counts fi hfi
  have hmem : elem r0.counts (fi : Int) ∈ r0.counts := by
    rw [elem_of_lt r0.counts fi hfi]; exact List.getElem_mem _
  have hc3 : 3 ≤ elem r0.counts (fi : Int) := hv.1 _ hmem
  refine ⟨a', ?_⟩
  constructor
  · show CornerInv K d r0 _ ov (faceStart r0.counts (fi + 1)) a' s2.r
    rw [hsucc]; exact hin.corner
  · exact Nat.le_succ_of_le h.fst_le
  · show s2.offset_vertices = _
    rw [hin.off_v]; exact h.off_v
  · show s2.offset_indices = _
    rw [hin.off_i]; exact h.off_i
  · show s2.num_faces + 1 = _
    rw [hin.nfaces, h.nfaces]; push_cast; omega
  · show s2.num_indices_triangulated + _ = _
    rw [hin.ntri, h.ntri, triTotal_succ r0.counts fi hfi]; omega
  · show faceBase s2.r.splits s2.r.splits.length = _
    rw [hin.splits]; exact h.fbase
  · show indexBase s2.r.splits s2.r.splits.length = _
    rw [hin.splits]; exact h.ibase
  · show vertexBase s2.r.splits s2.r.splits.length = _
    rw [hin.splits]; exact h.vbase
  · show triBase s2.r.splits s2.r.splits.length = _
    rw [hin.splits]; exact h.tbase
  · show ∀ t : Nat, t < s2.r.splits.length → ∃ fb vb : Nat,
      faceBase s2.r.splits t = (fb : Int) ∧
      indexBase s2.r.splits t = (faceStart r0.counts fb : Int) ∧
      vertexBase s2.r.splits t = (vb : Int) ∧
      triBase s2.r.splits t = triTotal r0.counts fb ∧
      SplitOK K d r0 a' s2.r.new_indices fb vb (s2.r.splits.getD t default)
    rw [hin.splits, hys, he1]
    intro t ht
    obtain ⟨fb, vb, h1, h2, h3, h4, h5⟩ := h.closed t ht
    exact ⟨fb, vb, h1, h2, h3, h4, h5.mono e ys⟩
  · intro hsu hall
    have := hb hsu hall
    have hlen : a'.length ≤ a.length + (elem r0.counts (fi : Int)).toNat := by
      rw [he1, List.length_append]; omega
    omega
  · intro h0; omega
  · show r0.split_unit ≤ 0 → fst = 0 ∧ ov = 0 ∧ s2.r.splits = []
    rw [hin.splits]; exact h.nosplit

/-- One iteration of the face loop of `doRefine` keeps the face invariant. -/
theorem refineFace_spec (K : NearEqual F2 F3 F4) (d : Profile) (r0 : MeshRefiner F2 F3 F4 W)
    (hv : ValidTopology r0.counts r0.indices r0.points.length) (hc : Connected r0)
    (hoffs : ∀ f : Nat, f < r0.counts.length →
      elem r0.offsets (f : Int) = (faceStart r0.counts f : Int))
    (fi fst ov : Nat) (a : List Nat) (s : RefineLoop F2 F3 F4 W)
    (h : FaceInv K d r0 fi fst ov a s) (hfi : fi < r0.counts.length)
    (hlt : 0 < fi → fst < fi) :
    ∃ (fst' ov' : Nat) (a' : List Nat),
      FaceInv K d r0 (fi + 1) fst' ov' a' (refineFace (d.body K) s fi) ∧ fst' < fi + 1 := by
  unfold refineFace
  simp only [h.corner.inputs.offsets, h.corner.inputs.counts, h.corner.inputs.split_unit,
    hoffs fi hfi, h.corner.rep.length, h.off_v]
  by_cases hcond : r0.split_unit > 0 ∧
      (a.length : Int) - (ov : Int) + elem r0.counts (fi : Int) > r0.split_unit
  · rw [if_pos hcond]
    have h1 := close_spec K d r0 fi fst ov a s h hfi hlt hcond.1 hcond.2
    obtain ⟨a', h2⟩ := finish_face K d r0 hv hc fi fi a.length a _ h1 hfi
      (by
        intro hsu hall
        have hmem : elem r0.counts (fi : Int) ∈ r0.counts := by
          rw [elem_of_lt r0.counts fi hfi]; exact List.getElem_mem _
        have := hall _ hmem
        omega)
    exact ⟨fi, a.length, a', h2, Nat.lt_succ_self _⟩
  · rw [if_neg hcond]
    obtain ⟨a', h2⟩ := finish_face K d r0 hv hc fi fst ov a s h hfi
      (by
        intro hsu _
        by_contra hgt
        exact hcond ⟨hsu, by omega⟩)
    exact ⟨fst, ov, a', h2, Nat.lt_succ_of_le h.fst_le⟩

end MeshRefiner

end

theorem CountIndices_spec (counts : List Int) :
    (CountIndices counts).1 = (List.range counts.length).map (fun (f : Nat) => (counts.take f).sum)
    ∧ (CountIndices counts).2.1 = counts.sum
    ∧ (CountIndices counts).2.2 = triTotal counts counts.length := by
  have key := foldl_list_inv
    (fun i (acc : List Int × Int × Int) =>
      acc.1 = (List.range i).map (fun (f : Nat) => (counts.take f).sum)
      ∧ acc.2.1 = (counts.take i).sum ∧ acc.2.2 = triTotal counts i)
    (fun (acc : List Int × Int × Int) (c : Int) =>
      (acc.1 ++ [acc.2.1], acc.2.1 + c, acc.2.2 + (c - 2) * 3))
    counts ([], 0, 0)
    (by simp [triTotal])
    (by
      intro acc i hi ⟨h1, h2, h3⟩
      have hget : counts.getD i default = elem counts (i : Int) := by rw [elem_nat]
      refine ⟨?_, ?_, ?_⟩
      · simp only [h1, h2, List.range_succ, List.map_append, List.map_cons, List.map_nil]
      · simp only [h2, List.take_succ, List.sum_append]
        simp [List.getD_eq_getElem?_getD, List.getElem?_eq_getElem hi]
      · simp only [h3, hget]
        rw [triTotal_succ counts i hi])
  unfold CountIndices
  simp only [List.take_length] at key
  exact key

theorem CountIndices_offsets (counts : List Int) (h : ∀ c ∈ counts, 0 ≤ c) (f : Nat)
    (hf : f < counts.length) :
    elem (CountIndices counts).1 (f : Int) = (faceStart counts f : Int) := by
  rw [(CountIndices_spec counts).1, faceStart_int counts h f]
  rw [elem_of_lt _ f (by simpa using hf)]
  simp

section

variable {F2 F3 F4 W : Type} [Inhabited F2] [Inhabited F3] [Inhabited F4] [Inhabited W]

namespace MeshRefiner

set_option linter.unusedSectionVars false

theorem refineStart_inputs (r : MeshRefiner F2 F3 F4 W) :
    SameInputs (refineStart r) (buildConnection r) :=
  ⟨rfl, rfl, rfl, rfl, rfl, rfl, rfl, rfl, rfl, rfl, rfl, rfl, rfl, rfl, rfl, rfl⟩

theorem faceInv_start (K : NearEqual F2 F3 F4) (d : Profile) (r : MeshRefiner F2 F3 F4 W)
    (hf : Fresh r) :
    FaceInv K d (buildConnection r) 0 0 0 [] { r := refineStart r } := by
  have ho : (refineStart r).old2new = List.replicate r.indices.length (-1) := by
    simp [refineStart, hf.old2new, resize_nil]
  have hfree : ∀ k : Nat, k < r.indices.length → elem (refineStart r).old2new (k : Int) = -1 := by
    intro k hk; rw [ho]; exact elem_replicate _ _ _ hk
  have hsp : (refineStart r).splits = [] := by simp [refineStart, hf.splits]
  constructor
  · constructor
    · exact refineStart_inputs r
    · constructor
      · simp [refineStart, hf.new_points]
      · intro b _; simp [refineStart, hf.new_normals]
      · intro b _; simp [refineStart, hf.new_uv]
      · intro b _; simp [refineStart, hf.new_colors]
      · intro _; rfl
      · intro _; rfl
      · intro _; rfl
      · intro b _; simp [refineStart]
      · intro _; rfl
      · by_cases hw : (buildConnection r).weights4.isEmpty = true <;> simp [refineStart, hw]
    · simp [refineStart, hf.new_indices, faceStart]
    · rw [ho]; simp
    · simp
    · simp [faceStart]
    · simp
    · intro k hk; simp at hk
    · intro m _ hm; simp at hm
    · intro k hk
      left
      exact hfree k (by simpa using hk)
    · intro v _
      refine ⟨0, by simp [faceStart], ?_⟩
      intro c hcl
      have := (getD_cornersOf_mem _ _ _ c hcl).1
      rw [hfree _ (by simpa using this)]
      simp
    · intro m _ hm; simp at hm
    · intro k _ hk; simp [faceStart] at hk
    · intro k _ hk; simp [faceStart] at hk
  · exact le_refl _
  · rfl
  · simp [faceStart]
  · simp
  · simp
  · show faceBase (refineStart r).splits _ = _
    rw [hsp]; simp [faceBase]
  · show indexBase (refineStart r).splits _ = _
    rw [hsp]; simp [indexBase, faceStart]
  · show vertexBase (refineStart r).splits _ = _
    rw [hsp]; simp [vertexBase]
  · show triBase (refineStart r).splits _ = _
    rw [hsp]; simp [triBase, triTotal]
  · intro t ht
    have : (refineStart r).splits.length = 0 := by rw [hsp]; rfl
    change t < (refineStart r).splits.length at ht
    omega
  · intro hsu _; simp at hsu ⊢; omega
  · intro _; rfl
  · intro _; exact ⟨rfl, rfl, hsp⟩

/-- The face loop of `doRefine`, run to the end. -/
theorem faceLoop_spec (K : NearEqual F2 F3 F4) (d : Profile) (r : MeshRefiner F2 F3 F4 W)
    (hv : ValidTopology r.counts r.indices r.points.length) (hf : Fresh r) :
    ∃ (fst ov : Nat) (a : List Nat),
      FaceInv K d (buildConnection r) r.counts.length fst ov a
        ((List.range r.counts.length).foldl (refineFace (d.body K)) { r := refineStart r }) ∧
      (0 < r.counts.length → fst < r.counts.length) := by
  have hv' : ValidTopology (buildConnection r).counts (buildConnection r).indices
      (buildConnection r).points.length := by simpa using hv
  have hc : Connected (buildConnection r) := by
    rcases hf.csr with h0 | ⟨h1, h2⟩
    · exact buildConnection_connected r hv h0
    · have : buildConnection r = r := by unfold buildConnection; rw [if_pos h1]
      rw [this]; exact h2
  have hoffs : ∀ f : Nat, f < (buildConnection r).counts.length →
      elem (buildConnection r).offsets (f : Int) = (faceStart (buildConnection r).counts f : Int) := by
    intro f hfl
    simp only [buildConnection_offsets, buildConnection_counts] at hfl ⊢
    rw [hf.offsets]
    exact CountIndices_offsets r.counts hv.nonneg f hfl
  have key := foldl_range_inv
    (fun fi (s : RefineLoop F2 F3 F4 W) => ∃ (fst ov : Nat) (a : List Nat),
      FaceInv K d (buildConnection r) fi fst ov a s ∧ (0 < fi → fst < fi))
    (refineFace (d.body K)) r.counts.length { r := refineStart r }
    ⟨0, 0, [], faceInv_start K d r hf, by intro h; omega⟩
    (by
      intro s fi hfi ⟨fst, ov, a, hinv, hlt⟩
      obtain ⟨fst', ov', a', h1, h2⟩ := refineFace_spec K d (buildConnection r) hv' hc hoffs
        fi fst ov a s hinv (by simpa using hfi) hlt
      exact ⟨fst', ov', a', h1, fun _ => h2⟩)
  exact key

end MeshRefiner

end

section

variable {F2 F3 F4 W : Type} [Inhabited F2] [Inhabited F3] [Inhabited F4] [Inhabited W]

namespace MeshRefiner

set_option linter.unusedSectionVars false

theorem idx_congr {r0 r : MeshRefiner F2 F3 F4 W} (hi : r0.indices = r.indices) :
    idx r0 = idx r := by
  funext k; simp [idx, hi]

theorem same_congr (K : NearEqual F2 F3 F4) (d : Profile) {r0 r : MeshRefiner F2 F3 F4 W}
    (hi : r0.indices = r.indices) (hp : r0.points = r.points) (hn : r0.normals = r.normals)
    (hu : r0.uv = r.uv) (hc : r0.colors = r.colors) : d.same K r0 = d.same K r := by
  funext j k
  simp [Profile.same, keyP, keyN, keyU, keyC, idx, hi, hp, hn, hu, hc]

theorem SplitOK.transfer {K : NearEqual F2 F3 F4} {d : Profile} {r0 r : MeshRefiner F2 F3 F4 W}
    {a : List Nat} {newIdx : List Int} {fb vb : Nat} {sp : Split}
    (h : SplitOK K d r0 a newIdx fb vb sp)
    (hcn : r0.counts = r.counts) (hsu : r0.split_unit = r.split_unit)
    (hi : r0.indices = r.indices) (hp : r0.points = r.points) (hn : r0.normals = r.normals)
    (hu : r0.uv = r.uv) (hc : r0.colors = r.colors) : SplitOK K d r a newIdx fb vb sp := by
  have e1 := idx_congr hi
  have e2 := same_congr K d hi hp hn hu hc
  have hs := h.shape
  have hb := h.budget
  rw [hcn, e1, e2] at hs
  rw [hcn, hsu] at hb
  exact ⟨hs, hb⟩

theorem triangulateSplits_frame (r : MeshRefiner F2 F3 F4 W) :
    ∃ x : List Int, triangulateSplits r = { r with new_indices_triangulated := x } :=
  ⟨_, rfl⟩

/-- `doRefine` on a freshly prepared, well-formed mesh. -/
theorem doRefine_spec (K : NearEqual F2 F3 F4) (d : Profile) (r : MeshRefiner F2 F3 F4 W)
    (hv : ValidTopology r.counts r.indices r.points.length) (hf : Fresh r) :
    ∃ a : List Nat, Refined K d r (doRefine (d.body K) r) a := by
  obtain ⟨fst, ov, a, hinv, hlt⟩ := faceLoop_spec K d r hv hf
  have hstart : (List.range (refineStart r).counts.length).foldl (refineFace (d.body K))
      ({ r := refineStart r } : RefineLoop F2 F3 F4 W)
      = (List.range r.counts.length).foldl (refineFace (d.body K)) { r := refineStart r } := by
    simp [refineStart]
  have hdo : doRefine (d.body K) r
      = (if (add_new_split ((List.range r.counts.length).foldl (refineFace (d.body K))
            { r := refineStart r })).r.triangulate
         then triangulateSplits (add_new_split ((List.range r.counts.length).foldl
            (refineFace (d.body K)) { r := refineStart r })).r
         else (add_new_split ((List.range r.counts.length).foldl (refineFace (d.body K))
            { r := refineStart r })).r) := by
    rw [← hstart]; rfl
  generalize (List.range r.counts.length).foldl (refineFace (d.body K))
    ({ r := refineStart r } : RefineLoop F2 F3 F4 W) = s at hinv hdo
  have hin := hinv.corner.inputs
  have hcl := closed_after_add K d (buildConnection r) r.counts.length fst ov a s hinv
    (by simp) (by intro _ hF _; exact hlt (by simpa using hF))
  obtain ⟨hb1, hb2, hb3, hb4, hb5⟩ := hcl
  have htot := hv.total
  -- facts about the state after the last `add_new_split`
  have hres : ∀ x' : List Int,
      ((add_new_split s).r.triangulate = true → ∃ old : List Int,
        x' = (triangulateSplits
          { (add_new_split s).r with new_indices_triangulated := old }).new_indices_triangulated) →
      Refined K d r { (add_new_split s).r with new_indices_triangulated := x' } a := by
    intro x' htri
    rw [add_new_split_eq] at htri ⊢
    have e1 : idx (buildConnection r) = idx r := idx_congr (by simp)
    have e2 : d.same K (buildConnection r) = d.same K r :=
      same_congr K d (by simp) (by simp) (by simp) (by simp) (by simp)
    have ekp : keyP (buildConnection r) = keyP r := by funext k; simp [keyP, idx]
    have ekn : keyN (buildConnection r) = keyN r := by funext b k; simp [keyN, idx]
    have eku : keyU (buildConnection r) = keyU r := by funext b k; simp [keyU, idx]
    have ekc : keyC (buildConnection r) = keyC r := by funext b k; simp [keyC, idx]
    have ekt : keyT (buildConnection r) = keyT r := by funext b k; simp [keyT, idx]
    have ekw : keyW (buildConnection r) = keyW r := by funext k; simp [keyW, idx]
    constructor
    · show s.r.new_points = _
      rw [hinv.corner.rep.points, ekp]
    · intro b hb; show s.r.new_normals = _
      rw [hinv.corner.rep.normals b hb, ekn]
    · intro b hb; show s.r.new_uv = _
      rw [hinv.corner.rep.uv b hb, eku]
    · intro b hb; show s.r.new_colors = _
      rw [hinv.corner.rep.colors b hb, ekc]
    · show s.r.new_indices.length = _
      rw [hinv.corner.len_ni]; simpa using htot
    · exact hinv.corner.sorted
    · intro k hk
      have := hinv.corner.alloc_lt k hk
      simp only [buildConnection_counts] at this
      omega
    · simpa using hb1
    · rw [hb2]; simp only [buildConnection_counts]; exact_mod_cast htot
    · exact hb3
    · simpa using hb4
    · intro t ht
      obtain ⟨fb, vb, h1, h2, h3, h4, h5⟩ := hb5 t ht
      refine ⟨fb, vb, h1, by simpa using h2, h3, by simpa using h4, ?_⟩
      exact h5.transfer (by simp) (by simp) (by simp) (by simp) (by simp) (by simp) (by simp)
    · intro hsu
      obtain ⟨hfst, hov, _⟩ := hinv.nosplit (by simpa using hsu)
      subst hfst; subst hov
      have hI : faceStart (buildConnection r).counts r.counts.length = r.indices.length := by
        simpa using htot
      refine ⟨?_, ?_⟩
      · intro k hk
        have := hinv.corner.greedy k (by simp [faceStart]) (by rw [hI]; exact hk)
        rw [e1, e2] at this
        rw [this]
        constructor
        · intro h m hm; exact h m (Nat.zero_le _) hm
        · intro h m _ hm; exact h m hm
      · intro k hk
        obtain ⟨g, _, _, hg3, hg4, hg5, hg6⟩ :=
          hinv.corner.out k (by simp [faceStart]) (by rw [hI]; exact hk)
        rw [e1] at hg4
        rw [e2] at hg6
        exact ⟨g, hg3, hg4, hg5, hg6⟩
    · exact ⟨by simpa using hin.counts, by simpa using hin.indices, by simpa using hin.points,
        by simpa using hin.split_unit, by simpa using hin.triangulate,
        by simpa using hin.swap_faces⟩
    · intro hb; show s.r.new_normals = _
      rw [hinv.corner.rep.normals_off hb]; simp
    · intro hb; show s.r.new_uv = _
      rw [hinv.corner.rep.uv_off hb]; simp
    · intro hb; show s.r.new_colors = _
      rw [hinv.corner.rep.colors_off hb]; simp
    · intro b hb; show s.r.new_tangents = _
      rw [hinv.corner.rep.tangents b hb, ekt]; simp
    · intro hb; show s.r.new_tangents = _
      rw [hinv.corner.rep.tangents_off hb]; simp
    · show s.r.new_weights4 = _
      rw [hinv.corner.rep.weights, ekw, buildConnection_new_weights4, buildConnection_weights4]
    · intro hsu
      obtain ⟨_, _, hnil⟩ := hinv.nosplit (by simpa using hsu)
      show (s.r.splits ++ [closingSplit s]).length = 1
      rw [hnil]; rfl
    · intro hsu k hk
      obtain ⟨hfst, hov, _⟩ := hinv.nosplit (by simpa using hsu)
      subst hfst; subst hov
      have hI : faceStart (buildConnection r).counts r.counts.length = r.indices.length := by
        simpa using htot
      obtain ⟨g, hg1, _, hg3, hg4, hg5, hg6⟩ :=
        hinv.corner.out k (by simp [faceStart]) (by rw [hI]; exact hk)
      rw [e1] at hg4
      rw [e2] at hg6
      refine ⟨g, ?_, hg3, hg4, hg5, hg6⟩
      show elem s.r.new_indices (k : Int) = _
      rw [hg1]; simp
    · exact htri
  rw [hdo]
  refine ⟨a, ?_⟩
  split
  · obtain ⟨x, hx⟩ := triangulateSplits_frame (add_new_split s).r
    rw [hx]
    exact hres x (fun _ => ⟨(add_new_split s).r.new_indices_triangulated, by
      show x = (triangulateSplits (add_new_split s).r).new_indices_triangulated
      rw [hx]⟩)
  · next hno =>
    exact hres (add_new_split s).r.new_indices_triangulated (fun h => absurd h hno)

end MeshRefiner

end

section

variable {F2 F3 F4 W : Type} [Inhabited F2] [Inhabited F3] [Inhabited F4] [Inhabited W]

namespace MeshRefiner

set_option linter.unusedSectionVars false

theorem dispatch_spec (r : MeshRefiner F2 F3 F4 W) (d : Profile) (h : dispatch r = some d)
    (hne : r.normals ≠ [] ∨ r.uv ≠ []) :
    d.n = (if r.normals.isEmpty then none
           else some (decide ((r.normals.length : Int) = (r.indices.length : Int)))) ∧
    d.u = (if r.uv.isEmpty then none
           else some (decide ((r.uv.length : Int) = (r.indices.length : Int)))) ∧
    d.c = (if comparesColors r
           then some (decide ((r.colors.length : Int) = (r.indices.length : Int))) else none) := by
  unfold dispatch at h
  unfold comparesColors
  dsimp only at h
  have hUe : r.uv.isEmpty = true ↔ r.uv = [] := List.isEmpty_iff
  have hNe : r.normals.isEmpty = true ↔ r.normals = [] := List.isEmpty_iff
  by_cases hU : ¬ r.uv.isEmpty = true
  · rw [if_pos hU] at h
    by_cases hN : ¬ r.normals.isEmpty = true
    · rw [if_pos hN] at h
      by_cases hT : ¬ r.tangents_tmp.isEmpty = true
      · rw [if_pos hT] at h
        by_cases hC : ¬ r.colors.isEmpty = true
        · rw [if_pos hC] at h
          by_cases h0 : (r.normals.length : Int) = (r.indices.length : Int) ∧ (r.uv.length : Int) = (r.indices.length : Int) ∧ (r.colors.length : Int) = (r.indices.length : Int)
          · rw [if_pos h0] at h
            (injection h with h; subst h; simp_all)
          · rw [if_neg h0] at h
            by_cases h1 : (r.normals.length : Int) = (r.indices.length : Int) ∧ (r.uv.length : Int) = (r.indices.length : Int) ∧ (r.colors.length : Int) = (r.points.length : Int)
            · rw [if_pos h1] at h
              (injection h with h; subst h; simp_all)
            · rw [if_neg h1] at h
              by_cases h2 : (r.normals.length : Int) = (r.indices.length : Int) ∧ (r.uv.length : Int) = (r.points.length : Int) ∧ (r.colors.length : Int) = (r.indices.length : Int)
              · rw [if_pos h2] at h
                (injection h with h; subst h; simp_all)
              · rw [if_neg h2] at h
                by_cases h3 : (r.normals.length : Int) = (r.indices.length : Int) ∧ (r.uv.length : Int) = (r.points.length : Int) ∧ (r.colors.length : Int) = (r.points.length : Int)
                · rw [if_pos h3] at h
                  (injection h with h; subst h; simp_all)
                · rw [if_neg h3] at h
                  by_cases h4 : (r.normals.length : Int) = (r.points.length : Int) ∧ (r.uv.length : Int) = (r.indices.length : Int) ∧ (r.colors.length : Int) = (r.indices.length : Int)
                  · rw [if_pos h4] at h
                    (injection h with h; subst h; simp_all)
                  · rw [if_neg h4] at h
                    by_cases h5 : (r.normals.length : Int) = (r.points.length : Int) ∧ (r.uv.length : Int) = (r.indices.length : Int) ∧ (r.colors.length : Int) = (r.points.length : Int)
                    · rw [if_pos h5] at h
                      (injection h with h; subst h; simp_all)
                    · rw [if_neg h5] at h
                      by_cases h6 : (r.normals.length : Int) = (r.points.length : Int) ∧ (r.uv.length : Int) = (r.points.length : Int) ∧ (r.colors.length : Int) = (r.indices.length : Int)
                      · rw [if_pos h6] at h
                        (injection h with h; subst h; simp_all)
                      · rw [if_neg h6] at h
                        by_cases h7 : (r.normals.length : Int) = (r.points.length : Int) ∧ (r.uv.length : Int) = (r.points.length : Int) ∧ (r.colors.length : Int) = (r.points.length : Int)
                        · rw [if_pos h7] at h
                          (injection h with h; subst h; simp_all)
                        · rw [if_neg h7] at h
                          exact absurd h (by simp)
        · rw [if_neg hC] at h
          by_cases h0 : (r.normals.length : Int) = (r.indices.length : Int) ∧ (r.uv.length : Int) = (r.indices.length : Int)
          · rw [if_pos h0] at h
            (injection h with h; subst h; simp_all)
          · rw [if_neg h0] at h
            by_cases h1 : (r.normals.length : Int) = (r.indices.length : Int) ∧ (r.uv.length : Int) = (r.points.length : Int)
            · rw [if_pos h1] at h
              (injection h with h; subst h; simp_all)
            · rw [if_neg h1] at h
              by_cases h2 : (r.normals.length : Int) = (r.points.length : Int) ∧ (r.uv.length : Int) = (r.indices.length : Int)
              · rw [if_pos h2] at h
                (injection h with h; subst h; simp_all)
              · rw [if_neg h2] at h
                by_cases h3 : (r.normals.length : Int) = (r.points.length : Int) ∧ (r.uv.length : Int) = (r.points.length : Int)
                · rw [if_pos h3] at h
                  (injection h with h; subst h; simp_all)
                · rw [if_neg h3] at h
                  exact absurd h (by simp)
      · rw [if_neg hT] at h
        by_cases h0 : (r.normals.length : Int) = (r.indices.length : Int) ∧ (r.uv.length : Int) = (r.indices.length : Int)
        · rw [if_pos h0] at h
          (injection h with h; subst h; simp_all)
        · rw [if_neg h0] at h
          by_cases h1 : (r.normals.length : Int) = (r.indices.length : Int) ∧ (r.uv.length : Int) = (r.points.length : Int)
          · rw [if_pos h1] at h
            (injection h with h; subst h; simp_all)
          · rw [if_neg h1] at h
            by_cases h2 : (r.normals.length : Int) = (r.points.length : Int) ∧ (r.uv.length : Int) = (r.indices.length : Int)
            · rw [if_pos h2] at h
              (injection h with h; subst h; simp_all)
            · rw [if_neg h2] at h
              by_cases h3 : (r.normals.length : Int) = (r.points.length : Int) ∧ (r.uv.length : Int) = (r.points.length : Int)
              · rw [if_pos h3] at h
                (injection h with h; subst h; simp_all)
              · rw [if_neg h3] at h
                exact absurd h (by simp)
    · rw [if_neg hN] at h
      by_cases h0 : (r.uv.length : Int) = (r.indices.length : Int)
      · rw [if_pos h0] at h
        (injection h with h; subst h; simp_all)
      · rw [if_neg h0] at h
        by_cases h1 : (r.uv.length : Int) = (r.points.length : Int)
        · rw [if_pos h1] at h
          (injection h with h; subst h; simp_all)
        · rw [if_neg h1] at h
          exact absurd h (by simp)
  · rw [if_neg hU] at h
    by_cases h0 : (r.normals.length : Int) = (r.indices.length : Int)
    · rw [if_pos h0] at h
      (injection h with h; subst h; simp_all)
    · rw [if_neg h0] at h
      by_cases h1 : (r.normals.length : Int) = (r.points.length : Int)
      · rw [if_pos h1] at h
        (injection h with h; subst h; simp_all)
      · rw [if_neg h1] at h
        exact absurd h (by simp)

theorem dispatch_active (r : MeshRefiner F2 F3 F4 W) (hav : AttrsValid r)
    (hne : r.normals ≠ [] ∨ r.uv ≠ []) : ∃ d : Profile, dispatch r = some d := by
  have hnv : r.normals = [] ∨ (r.normals.length : Int) = (r.points.length : Int) ∨
      (r.normals.length : Int) = (r.indices.length : Int) := by
    rcases hav.1 with h | h | h
    · exact Or.inl h
    · exact Or.inr (Or.inl (by exact_mod_cast h))
    · exact Or.inr (Or.inr (by exact_mod_cast h))
  have huv : r.uv = [] ∨ (r.uv.length : Int) = (r.points.length : Int) ∨
      (r.uv.length : Int) = (r.indices.length : Int) := by
    rcases hav.2.1 with h | h | h
    · exact Or.inl h
    · exact Or.inr (Or.inl (by exact_mod_cast h))
    · exact Or.inr (Or.inr (by exact_mod_cast h))
  have hcv : r.colors = [] ∨ (r.colors.length : Int) = (r.points.length : Int) ∨
      (r.colors.length : Int) = (r.indices.length : Int) := by
    rcases hav.2.2 with h | h | h
    · exact Or.inl h
    · exact Or.inr (Or.inl (by exact_mod_cast h))
    · exact Or.inr (Or.inr (by exact_mod_cast h))
  unfold dispatch
  dsimp only
  by_cases hU : ¬ r.uv.isEmpty = true
  · rw [if_pos hU]
    have hu2 := huv.resolve_left (fun e => hU (by simp [e]))
    by_cases hN : ¬ r.normals.isEmpty = true
    · rw [if_pos hN]
      have hn2 := hnv.resolve_left (fun e => hN (by simp [e]))
      by_cases hT : ¬ r.tangents_tmp.isEmpty = true
      · rw [if_pos hT]
        by_cases hC : ¬ r.colors.isEmpty = true
        · rw [if_pos hC]
          have hc2 := hcv.resolve_left (fun e => hC (by simp [e]))
          by_cases h0 : (r.normals.length : Int) = (r.indices.length : Int) ∧ (r.uv.length : Int) = (r.indices.length : Int) ∧ (r.colors.length : Int) = (r.indices.length : Int)
          · rw [if_pos h0]; exact ⟨_, rfl⟩
          · rw [if_neg h0]
            by_cases h1 : (r.normals.length : Int) = (r.indices.length : Int) ∧ (r.uv.length : Int) = (r.indices.length : Int) ∧ (r.colors.length : Int) = (r.points.length : Int)
            · rw [if_pos h1]; exact ⟨_, rfl⟩
            · rw [if_neg h1]
              by_cases h2 : (r.normals.length : Int) = (r.indices.length : Int) ∧ (r.uv.length : Int) = (r.points.length : Int) ∧ (r.colors.length : Int) = (r.indices.length : Int)
              · rw [if_pos h2]; exact ⟨_, rfl⟩
              · rw [if_neg h2]
                by_cases h3 : (r.normals.length : Int) = (r.indices.length : Int) ∧ (r.uv.length : Int) = (r.points.length : Int) ∧ (r.colors.length : Int) = (r.points.length : Int)
                · rw [if_pos h3]; exact ⟨_, rfl⟩
                · rw [if_neg h3]
                  by_cases h4 : (r.normals.length : Int) = (r.points.length : Int) ∧ (r.uv.length : Int) = (r.indices.length : Int) ∧ (r.colors.length : Int) = (r.indices.length : Int)
                  · rw [if_pos h4]; exact ⟨_, rfl⟩
                  · rw [if_neg h4]
                    by_cases h5 : (r.normals.length : Int) = (r.points.length : Int) ∧ (r.uv.length : Int) = (r.indices.length : Int) ∧ (r.colors.length : Int) = (r.points.length : Int)
                    · rw [if_pos h5]; exact ⟨_, rfl⟩
                    · rw [if_neg h5]
                      by_cases h6 : (r.normals.length : Int) = (r.points.length : Int) ∧ (r.uv.length : Int) = (r.points.length : Int) ∧ (r.colors.length : Int) = (r.indices.length : Int)
                      · rw [if_pos h6]; exact ⟨_, rfl⟩
                      · rw [if_neg h6]
                        by_cases h7 : (r.normals.length : Int) = (r.points.length : Int) ∧ (r.uv.length : Int) = (r.points.length : Int) ∧ (r.colors.length : Int) = (r.points.length : Int)
                        · rw [if_pos h7]; exact ⟨_, rfl⟩
                        · rw [if_neg h7]
                          exfalso
                          rcases hn2 with e1 | e1 <;> rcases hu2 with e2 | e2 <;> rcases hc2 with e3 | e3 <;>
                            first | exact h0 ⟨e1, e2, e3⟩ | exact h1 ⟨e1, e2, e3⟩ | exact h2 ⟨e1, e2, e3⟩ | exact h3 ⟨e1, e2, e3⟩ | exact h4 ⟨e1, e2, e3⟩ | exact h5 ⟨e1, e2, e3⟩ | exact h6 ⟨e1, e2, e3⟩ | exact h7 ⟨e1, e2, e3⟩
        · rw [if_neg hC]
          by_cases h0 : (r.normals.length : Int) = (r.indices.length : Int) ∧ (r.uv.length : Int) = (r.indices.length : Int)
          · rw [if_pos h0]; exact ⟨_, rfl⟩
          · rw [if_neg h0]
            by_cases h1 : (r.normals.length : Int) = (r.indices.length : Int) ∧ (r.uv.length : Int) = (r.points.length : Int)
            · rw [if_pos h1]; exact ⟨_, rfl⟩
            · rw [if_neg h1]
              by_cases h2 : (r.normals.length : Int) = (r.points.length : Int) ∧ (r.uv.length : Int) = (r.indices.length : Int)
              · rw [if_pos h2]; exact ⟨_, rfl⟩
              · rw [if_neg h2]
                by_cases h3 : (r.normals.length : Int) = (r.points.length : Int) ∧ (r.uv.length : Int) = (r.points.length : Int)
                · rw [if_pos h3]; exact ⟨_, rfl⟩
                · rw [if_neg h3]
                  exfalso
                  rcases hn2 with e1 | e1 <;> rcases hu2 with e2 | e2 <;>
                    first | exact h0 ⟨e1, e2⟩ | exact h1 ⟨e1, e2⟩ | exact h2 ⟨e1, e2⟩ | exact h3 ⟨e1, e2⟩
      · rw [if_neg hT]
        by_cases h0 : (r.normals.length : Int) = (r.indices.length : Int) ∧ (r.uv.length : Int) = (r.indices.length : Int)
        · rw [if_pos h0]; exact ⟨_, rfl⟩
        · rw [if_neg h0]
          by_cases h1 : (r.normals.length : Int) = (r.indices.length : Int) ∧ (r.uv.length : Int) = (r.points.length : Int)
          · rw [if_pos h1]; exact ⟨_, rfl⟩
          · rw [if_neg h1]
            by_cases h2 : (r.normals.length : Int) = (r.points.length : Int) ∧ (r.uv.length : Int) = (r.indices.length : Int)
            · rw [if_pos h2]; exact ⟨_, rfl⟩
            · rw [if_neg h2]
              by_cases h3 : (r.normals.length : Int) = (r.points.length : Int) ∧ (r.uv.length : Int) = (r.points.length : Int)
              · rw [if_pos h3]; exact ⟨_, rfl⟩
              · rw [if_neg h3]
                exfalso
                rcases hn2 with e1 | e1 <;> rcases hu2 with e2 | e2 <;>
                  first | exact h0 ⟨e1, e2⟩ | exact h1 ⟨e1, e2⟩ | exact h2 ⟨e1, e2⟩ | exact h3 ⟨e1, e2⟩
    · rw [if_neg hN]
      by_cases h0 : (r.uv.length : Int) = (r.indices.length : Int)
      · rw [if_pos h0]; exact ⟨_, rfl⟩
      · rw [if_neg h0]
        by_cases h1 : (r.uv.length : Int) = (r.points.length : Int)
        · rw [if_pos h1]; exact ⟨_, rfl⟩
        · rw [if_neg h1]
          exfalso
          rcases hu2 with e2 | e2 <;> first | exact h0 e2 | exact h1 e2
  · rw [if_neg hU]
    have hne2 : r.normals ≠ [] := hne.resolve_right (fun e => e (by simpa using hU))
    have hn2 := hnv.resolve_left hne2
    by_cases h0 : (r.normals.length : Int) = (r.indices.length : Int)
    · rw [if_pos h0]; exact ⟨_, rfl⟩
    · rw [if_neg h0]
      by_cases h1 : (r.normals.length : Int) = (r.points.length : Int)
      · rw [if_pos h1]; exact ⟨_, rfl⟩
      · rw [if_neg h1]
        exfalso
        rcases hn2 with e1 | e1 <;> first | exact h0 e1 | exact h1 e1

end MeshRefiner

end

section

variable {F2 F3 F4 W : Type} [Inhabited F2] [Inhabited F3] [Inhabited F4] [Inhabited W]

namespace MeshRefiner

set_option linter.unusedSectionVars false

theorem pick_decide (c : Prop) [Decidable c] (vi i : Int) :
    pick (decide c) vi i = if c then i else vi := by
  unfold pick; by_cases h : c <;> simp [h]

theorem same_eq (K : NearEqual F2 F3 F4) (r : MeshRefiner F2 F3 F4 W) (d : Profile)
    (hd : dispatch r = some d) (hne : r.normals ≠ [] ∨ r.uv ≠ []) (j k : Nat) :
    d.same K r j k = (K.near3 (keyP r j) (keyP r k) && attrsNear K r j k) := by
  obtain ⟨h1, h2, h3⟩ := dispatch_spec r d hd hne
  rcases d with ⟨dn, du, dc, dt⟩
  simp only at h1 h2 h3
  subst h1 h2 h3
  unfold Profile.same attrsNear
  simp only [Bool.and_assoc]
  congr 1
  congr 1
  · by_cases hn : r.normals.isEmpty = true
    · simp [hn]
    · simp [hn, keyN, cornerNormal, cornerIndex, pick_decide, idx]
  · congr 1
    · by_cases hu : r.uv.isEmpty = true
      · simp [hu]
      · simp [hu, keyU, cornerUV, cornerIndex, pick_decide, idx]
    · by_cases hc : comparesColors r = true
      · simp [hc, keyC, cornerColor, cornerIndex, pick_decide, idx]
      · simp [hc]

theorem refine_inactive (K : NearEqual F2 F3 F4) (r : MeshRefiner F2 F3 F4 W)
    (hd : dispatch r = none) : (refineWithOptimization K r).1 = r := by
  rw [refineWithOptimization_eq, hd]

/-- `refineWithOptimization` on a freshly prepared, well-formed mesh for which a branch
applies. -/
theorem refine_spec (K : NearEqual F2 F3 F4) (r : MeshRefiner F2 F3 F4 W)
    (hv : ValidTopology r.counts r.indices r.points.length) (hf : Fresh r) (d : Profile)
    (hd : dispatch r = some d) : ∃ a : List Nat, Refined K d r (refineWithOptimization K r).1 a := by
  rw [refineWithOptimization_eq, hd]
  exact doRefine_spec K d r hv hf

/-- Every `new_indices` entry of a split, read relative to the first vertex of the
split, names a vertex allocated for the same point by this corner or by a corner whose
values pass the test against this corner's. -/
theorem refine_corner (K : NearEqual F2 F3 F4) (r : MeshRefiner F2 F3 F4 W) (d : Profile)
    (a : List Nat) (h : Refined K d r (refineWithOptimization K r).1 a) (t k : Nat)
    (ht : t < (refineWithOptimization K r).1.splits.length)
    (hk0 : indexBase (refineWithOptimization K r).1.splits t ≤ (k : Int))
    (hk1 : (k : Int) < indexBase (refineWithOptimization K r).1.splits t
      + ((refineWithOptimization K r).1.splits.getD t default).num_indices) :
    ∃ g : Nat, vertexBase (refineWithOptimization K r).1.splits t
        + elem (refineWithOptimization K r).1.new_indices (k : Int) = (g : Int) ∧
      0 ≤ elem (refineWithOptimization K r).1.new_indices (k : Int) ∧
      elem (refineWithOptimization K r).1.new_indices (k : Int)
        < ((refineWithOptimization K r).1.splits.getD t default).num_vertices ∧
      g < a.length ∧ idx r (a.getD g 0) = idx r k ∧
      (a.getD g 0 = k ∨ d.same K r (a.getD g 0) k = true) ∧ k < r.indices.length := by
  obtain ⟨fb, vb, h1, h2, h3, h4, h5⟩ := h.closed t ht
  obtain ⟨nf, nv, s1, s2, s3, s4, s5, s6, s7, s8⟩ := h5.shape
  rw [h2] at hk0 hk1
  rw [s4] at hk1
  obtain ⟨g, hg1, hg2, hg3, hg4, hg5⟩ := s8 k (by omega) (by omega)
  have hkI : k < r.indices.length := by have := h.len_ni; omega
  refine ⟨g, ?_, ?_, ?_, by omega, hg4, hg5, hkI⟩
  · rw [h3, hg1]; omega
  · rw [hg1]; omega
  · rw [hg1, s2]; omega

end MeshRefiner

end

section

variable {F2 F3 F4 W : Type} [Inhabited F2] [Inhabited F3] [Inhabited F4] [Inhabited W]

open MeshRefiner

set_option linter.unusedSectionVars false

theorem keyN_eq_cornerNormal (r : MeshRefiner F2 F3 F4 W) (k : Nat) :
    keyN r (decide ((r.normals.length : Int) = (r.indices.length : Int))) k = cornerNormal r k := by
  simp [keyN, cornerNormal, cornerIndex, pick_decide, idx]

theorem keyU_eq_cornerUV (r : MeshRefiner F2 F3 F4 W) (k : Nat) :
    keyU r (decide ((r.uv.length : Int) = (r.indices.length : Int))) k = cornerUV r k := by
  simp [keyU, cornerUV, cornerIndex, pick_decide, idx]

theorem keyC_eq_cornerColor (r : MeshRefiner F2 F3 F4 W) (k : Nat) :
    keyC r (decide ((r.colors.length : Int) = (r.indices.length : Int))) k = cornerColor r k := by
  simp [keyC, cornerColor, cornerIndex, pick_decide, idx]

/-- C1. Optimized refine preserves every corner: on a freshly prepared valid mesh, for
every corner `k` lying in split `t`, the output vertex `v = vertexBase t + new_indices[k]`
holds exactly the position of the corner's point, and each compared attribute stored at
`v` (normal, uv, colour of the active profile) is `near_equal` to the attribute of corner
`k`.  `near_equal` is taken to be reflexive on the attribute values of the mesh. -/
theorem C1_refine_preserves_corners (K : NearEqual F2 F3 F4) (r : MeshRefiner F2 F3 F4 W)
    (hv : ValidMesh r) (hf : Fresh r)
    (hreflN : ∀ k : Nat, k < r.indices.length →
      K.near3 (cornerNormal r k) (cornerNormal r k) = true)
    (hreflU : ∀ k : Nat, k < r.indices.length → K.near2 (cornerUV r k) (cornerUV r k) = true)
    (hreflC : ∀ k : Nat, k < r.indices.length →
      K.near4 (cornerColor r k) (cornerColor r k) = true)
    (t k : Nat) (ht : t < (refineWithOptimization K r).1.splits.length)
    (hk0 : indexBase (refineWithOptimization K r).1.splits t ≤ (k : Int))
    (hk1 : (k : Int) < indexBase (refineWithOptimization K r).1.splits t
      + ((refineWithOptimization K r).1.splits.getD t default).num_indices) :
    elem (refineWithOptimization K r).1.new_points
        (vertexBase (refineWithOptimization K r).1.splits t
          + elem (refineWithOptimization K r).1.new_indices (k : Int))
      = elem r.points (elem r.indices (k : Int)) ∧
    (r.normals ≠ [] →
      K.near3 (elem (refineWithOptimization K r).1.new_normals
        (vertexBase (refineWithOptimization K r).1.splits t
          + elem (refineWithOptimization K r).1.new_indices (k : Int))) (cornerNormal r k) = true) ∧
    (r.uv ≠ [] →
      K.near2 (elem (refineWithOptimization K r).1.new_uv
        (vertexBase (refineWithOptimization K r).1.splits t
          + elem (refineWithOptimization K r).1.new_indices (k : Int))) (cornerUV r k) = true) ∧
    (comparesColors r = true →
      K.near4 (elem (refineWithOptimization K r).1.new_colors
        (vertexBase (refineWithOptimization K r).1.splits t
          + elem (refineWithOptimization K r).1.new_indices (k : Int))) (cornerColor r k) = true) := by
  cases hd : dispatch r with
  | none =>
    rw [refine_inactive K r hd, hf.splits] at ht
    simp at ht
  | some d =>
    obtain ⟨a, h⟩ := refine_spec K r hv.1 hf d hd
    obtain ⟨g, hg1, _, _, hg4, hg5, hg6, hkI⟩ := refine_corner K r d a h t k ht hk0 hk1
    obtain ⟨d1, d2, d3⟩ := dispatch_spec r d hd hv.2
    have hsame : a.getD g 0 ≠ k → attrsNear K r (a.getD g 0) k = true := by
      intro hne
      rcases hg6 with h1 | h1
      · exact absurd h1 hne
      · rw [same_eq K r d hd hv.2] at h1
        simp only [Bool.and_eq_true] at h1
        exact h1.2
    rw [hg1]
    refine ⟨?_, ?_, ?_, ?_⟩
    · rw [h.points, elem_map_nat _ _ _ hg4]
      show elem r.points (idx r (a.getD g 0)) = elem r.points (idx r k)
      rw [hg5]
    · intro hn
      have hne : r.normals.isEmpty = false := by simpa using hn
      simp only [hne, Bool.false_eq_true, if_false] at d1
      rw [h.normals _ d1, elem_map_nat _ _ _ hg4, keyN_eq_cornerNormal]
      by_cases hgk : a.getD g 0 = k
      · rw [hgk]; exact hreflN k hkI
      · have := hsame hgk
        simp only [attrsNear, Bool.and_eq_true, Bool.or_eq_true, hne] at this
        simpa using this.1.1
    · intro hu
      have hne : r.uv.isEmpty = false := by simpa using hu
      simp only [hne, Bool.false_eq_true, if_false] at d2
      rw [h.uv _ d2, elem_map_nat _ _ _ hg4, keyU_eq_cornerUV]
      by_cases hgk : a.getD g 0 = k
      · rw [hgk]; exact hreflU k hkI
      · have := hsame hgk
        simp only [attrsNear, Bool.and_eq_true, Bool.or_eq_true, hne] at this
        simpa using this.1.2
    · intro hc
      simp only [hc, if_true] at d3
      rw [h.colors _ d3, elem_map_nat _ _ _ hg4, keyC_eq_cornerColor]
      by_cases hgk : a.getD g 0 = k
      · rw [hgk]; exact hreflC k hkI
      · have := hsame hgk
        simp only [attrsNear, Bool.and_eq_true, Bool.or_eq_true, hc] at this
        simpa using this.2

end

theorem sum_take_add (counts : List Int) (fb nf : Nat) :
    (counts.take (fb + nf)).sum = (counts.take fb).sum + ((counts.drop fb).take nf).sum := by
  rw [List.take_add, List.sum_append]

theorem triTotal_add (counts : List Int) (fb nf : Nat) :
    triTotal counts (fb + nf) - triTotal counts fb
      = (((counts.drop fb).take nf).map (fun c => (c - 2) * 3)).sum := by
  unfold triTotal
  rw [List.take_add, List.map_append, List.sum_append]
  omega

section

variable {F2 F3 F4 W : Type} [Inhabited F2] [Inhabited F3] [Inhabited F4] [Inhabited W]

open MeshRefiner

set_option linter.unusedSectionVars false

/-- C4. After optimized refine of a freshly prepared mesh with well-formed topology, for
any `split_unit`, every value of `new_indices` that belongs to split `t` lies in
`[0, num_vertices)` of that split: indices are local to their split and never negative. -/
theorem C4_new_indices_local_to_split (K : NearEqual F2 F3 F4) (r : MeshRefiner F2 F3 F4 W)
    (hv : ValidTopology r.counts r.indices r.points.length) (hf : Fresh r)
    (t k : Nat) (ht : t < (refineWithOptimization K r).1.splits.length)
    (hk0 : indexBase (refineWithOptimization K r).1.splits t ≤ (k : Int))
    (hk1 : (k : Int) < indexBase (refineWithOptimization K r).1.splits t
      + ((refineWithOptimization K r).1.splits.getD t default).num_indices) :
    0 ≤ elem (refineWithOptimization K r).1.new_indices (k : Int) ∧
    elem (refineWithOptimization K r).1.new_indices (k : Int)
      < ((refineWithOptimization K r).1.splits.getD t default).num_vertices := by
  cases hd : dispatch r with
  | none =>
    rw [refine_inactive K r hd, hf.splits] at ht
    simp at ht
  | some d =>
    obtain ⟨a, h⟩ := refine_spec K r hv hf d hd
    obtain ⟨g, _, h2, h3, _⟩ := refine_corner K r d a h t k ht hk0 hk1
    exact ⟨h2, h3⟩

set_option maxRecDepth 100000 in
/-- Witness for C4: corner 5 of the three-face mesh lies in split 1. -/
theorem C4_new_indices_local_to_split_witness :
    ValidTopology threeFaceMesh.counts threeFaceMesh.indices threeFaceMesh.points.length ∧
    Fresh threeFaceMesh ∧
    (1 : Nat) < (refineWithOptimization exactNear threeFaceMesh).1.splits.length ∧
    indexBase (refineWithOptimization exactNear threeFaceMesh).1.splits 1 ≤ ((5 : Nat) : Int) ∧
    (0 ≤ elem (refineWithOptimization exactNear threeFaceMesh).1.new_indices ((5 : Nat) : Int) ∧
      elem (refineWithOptimization exactNear threeFaceMesh).1.new_indices ((5 : Nat) : Int)
        < ((refineWithOptimization exactNear threeFaceMesh).1.splits.getD 1 default).num_vertices) :=
  ⟨by decide, ⟨rfl, rfl, rfl, rfl, rfl, rfl, rfl, Or.inl rfl, rfl⟩, by decide, by decide,
    C4_new_indices_local_to_split exactNear threeFaceMesh (by decide)
      ⟨rfl, rfl, rfl, rfl, rfl, rfl, rfl, Or.inl rfl, rfl⟩ 1 5 (by decide) (by decide) (by decide)⟩

/-- C6, as amended. After optimized refine of a freshly prepared valid mesh whose
attribute buffers have length `P` or `I`, the split records account for the whole mesh:
their `num_faces` sum to `F`, their `num_indices` to `I = |new_indices|`, their
`num_vertices` to `|new_points|`, their `num_indices_triangulated` to
`Σ (counts[f] - 2) * 3`; and split `t` covers the `num_faces` consecutive faces that
follow those of the earlier splits, its `num_indices` and `num_indices_triangulated`
being the sums of `counts[f]` and of `(counts[f] - 2) * 3` over these faces. -/
theorem C6_splits_account_for_mesh (K : NearEqual F2 F3 F4) (r : MeshRefiner F2 F3 F4 W)
    (hv : ValidMesh r) (ha : AttrsValid r) (hf : Fresh r) :
    faceBase (refineWithOptimization K r).1.splits (refineWithOptimization K r).1.splits.length
      = (r.counts.length : Int) ∧
    indexBase (refineWithOptimization K r).1.splits (refineWithOptimization K r).1.splits.length
      = (r.indices.length : Int) ∧
    (refineWithOptimization K r).1.new_indices.length = r.indices.length ∧
    vertexBase (refineWithOptimization K r).1.splits (refineWithOptimization K r).1.splits.length
      = ((refineWithOptimization K r).1.new_points.length : Int) ∧
    triBase (refineWithOptimization K r).1.splits (refineWithOptimization K r).1.splits.length
      = (r.counts.map (fun c => (c - 2) * 3)).sum ∧
    ∀ t : Nat, t < (refineWithOptimization K r).1.splits.length →
      ∃ fb nf : Nat,
        faceBase (refineWithOptimization K r).1.splits t = (fb : Int) ∧
        ((refineWithOptimization K r).1.splits.getD t default).num_faces = (nf : Int) ∧
        fb + nf ≤ r.counts.length ∧
        indexBase (refineWithOptimization K r).1.splits t = (r.counts.take fb).sum ∧
        ((refineWithOptimization K r).1.splits.getD t default).num_indices
          = ((r.counts.drop fb).take nf).sum ∧
        triBase (refineWithOptimization K r).1.splits t
          = ((r.counts.take fb).map (fun c => (c - 2) * 3)).sum ∧
        ((refineWithOptimization K r).1.splits.getD t default).num_indices_triangulated
          = (((r.counts.drop fb).take nf).map (fun c => (c - 2) * 3)).sum := by
  obtain ⟨d, hd⟩ := dispatch_active r ha hv.2
  obtain ⟨a, h⟩ := refine_spec K r hv.1 hf d hd
  refine ⟨h.faces_total, h.indices_total, h.len_ni, ?_, ?_, ?_⟩
  · rw [h.vertices_total, h.points, List.length_map]
  · rw [h.tri_total]; simp [triTotal]
  · intro t ht
    obtain ⟨fb, vb, h1, h2, h3, h4, h5⟩ := h.closed t ht
    obtain ⟨nf, nv, s1, s2, s3, s4, s5, _⟩ := h5.shape
    refine ⟨fb, nf, h1, s1, s3, ?_, ?_, ?_, ?_⟩
    · rw [h2, faceStart_int r.counts hv.1.nonneg]
    · rw [s4, faceStart_int r.counts hv.1.nonneg, faceStart_int r.counts hv.1.nonneg,
        sum_take_add]
      omega
    · rw [h4]; rfl
    · rw [s5, triTotal_add]

set_option maxRecDepth 100000 in
/-- Witness for C6 (amended): the cube. -/
theorem C6_splits_account_for_mesh_witness :
    ValidMesh cubeMesh ∧ AttrsValid cubeMesh ∧ Fresh cubeMesh ∧
    faceBase (refineWithOptimization exactNear cubeMesh).1.splits
      (refineWithOptimization exactNear cubeMesh).1.splits.length = (cubeMesh.counts.length : Int) :=
  ⟨⟨by decide, Or.inl (by decide)⟩, ⟨by decide, by decide, by decide⟩,
    ⟨rfl, rfl, rfl, rfl, rfl, rfl, rfl, Or.inl rfl, rfl⟩,
    (C6_splits_account_for_mesh exactNear cubeMesh ⟨by decide, Or.inl (by decide)⟩
      ⟨by decide, by decide, by decide⟩ ⟨rfl, rfl, rfl, rfl, rfl, rfl, rfl, Or.inl rfl, rfl⟩).1⟩

set_option maxRecDepth 100000 in
/-- Counterexample to C6 as stated: a triangle without normals and texture coordinates
is accepted by optimized refine (it returns `true`), but no split is recorded, so the
`num_faces` of the splits sum to 0 and not to `F = 1`. -/
theorem C6_counterexample :
    ValidTopology bareTriangle.counts bareTriangle.indices bareTriangle.points.length ∧
    (refineWithOptimization exactNear bareTriangle).2 = true ∧
    (refineWithOptimization exactNear bareTriangle).1.splits = [] ∧
    ¬ (faceBase (refineWithOptimization exactNear bareTriangle).1.splits
        (refineWithOptimization exactNear bareTriangle).1.splits.length
          = (bareTriangle.counts.length : Int)) := by
  decide

/-- C7, as amended. For every freshly prepared mesh with well-formed topology and at
least one face, and every `split_unit > 0` such that every `counts[f] <= split_unit`,
each split emitted by optimized refine has `num_vertices <= split_unit` and contains at
least one face. -/
theorem C7_split_budget (K : NearEqual F2 F3 F4) (r : MeshRefiner F2 F3 F4 W)
    (hv : ValidTopology r.counts r.indices r.points.length) (hf : Fresh r)
    (hsu : 0 < r.split_unit) (hall : ∀ c ∈ r.counts, c ≤ r.split_unit)
    (hF : 0 < r.counts.length) (sp : Split) (hsp : sp ∈ (refineWithOptimization K r).1.splits) :
    sp.num_vertices ≤ r.split_unit ∧ 1 ≤ sp.num_faces := by
  cases hd : dispatch r with
  | none =>
    rw [refine_inactive K r hd, hf.splits] at hsp
    simp at hsp
  | some d =>
    obtain ⟨a, h⟩ := refine_spec K r hv hf d hd
    obtain ⟨t, ht, hget⟩ := List.mem_iff_getElem.mp hsp
    obtain ⟨fb, vb, _, _, _, _, h5⟩ := h.closed t ht
    have : (refineWithOptimization K r).1.splits.getD t default = sp := by
      rw [List.getD_eq_getElem _ _ ht]; exact hget
    rw [this] at h5
    exact h5.budget hsu hF hall

set_option maxRecDepth 100000 in
/-- Witness for C7 (amended): the three-face mesh with budget 4, second split. -/
theorem C7_split_budget_witness :
    ValidTopology threeFaceMesh.counts threeFaceMesh.indices threeFaceMesh.points.length ∧
    0 < threeFaceMesh.split_unit ∧ (∀ c ∈ threeFaceMesh.counts, c ≤ threeFaceMesh.split_unit) ∧
    (((refineWithOptimization exactNear threeFaceMesh).1.splits.getD 1 default).num_vertices
        ≤ threeFaceMesh.split_unit ∧
      1 ≤ ((refineWithOptimization exactNear threeFaceMesh).1.splits.getD 1 default).num_faces) :=
  ⟨by decide, by decide, by decide,
    C7_split_budget exactNear threeFaceMesh (by decide)
      ⟨rfl, rfl, rfl, rfl, rfl, rfl, rfl, Or.inl rfl, rfl⟩ (by decide) (by decide) (by decide) _
      (by decide)⟩

set_option maxRecDepth 100000 in
/-- Counterexample to C7 as stated: a valid mesh with one point, its normal and no
face.  The hypotheses of the claim hold, yet refine emits one split, and that split
contains no face. -/
theorem C7_counterexample :
    ValidMesh pointOnlyMesh ∧ 0 < pointOnlyMesh.split_unit ∧
    (∀ c ∈ pointOnlyMesh.counts, c ≤ pointOnlyMesh.split_unit) ∧
    (refineWithOptimization exactNear pointOnlyMesh).1.splits = [{}] ∧
    ¬ (∀ sp ∈ (refineWithOptimization exactNear pointOnlyMesh).1.splits,
        sp.num_vertices ≤ pointOnlyMesh.split_unit ∧ 1 ≤ sp.num_faces) :=
  ⟨⟨by decide, Or.inl (by decide)⟩, by decide, by decide, by decide, by decide⟩

end

section

variable {F2 F3 F4 W : Type} [Inhabited F2] [Inhabited F3] [Inhabited F4] [Inhabited W]

namespace MeshRefiner

set_option linter.unusedSectionVars false

theorem same_eq_sameTuple (K : NearEqual F2 F3 F4) (r : MeshRefiner F2 F3 F4 W) (d : Profile)
    (hd : dispatch r = some d) (hne : r.normals ≠ [] ∨ r.uv ≠ [])
    (hpt : ∀ k : Nat, k < r.indices.length →
      K.near3 (elem r.points (elem r.indices (k : Int)))
        (elem r.points (elem r.indices (k : Int))) = true)
    (j k : Nat) (hk : k < r.indices.length) (hjk : idx r j = idx r k) :
    d.same K r j k = sameTuple K r j k := by
  rw [same_eq K r d hd hne]
  unfold sameTuple
  have h1 : keyP r j = keyP r k := by unfold keyP; rw [hjk]
  have h2 : K.near3 (keyP r k) (keyP r k) = true := hpt k hk
  have h3 : elem r.indices (j : Int) = elem r.indices (k : Int) := hjk
  rw [h1, h2, h3]
  simp

theorem sorted_lists_eq_length (a b : List Nat) (ha : a.Pairwise (· < ·))
    (hb : b.Pairwise (· < ·)) (h : ∀ k, k ∈ a ↔ k ∈ b) : a.length = b.length := by
  have hna : a.Nodup := ha.imp (fun h => Nat.ne_of_lt h)
  have hnb : b.Nodup := hb.imp (fun h => Nat.ne_of_lt h)
  exact ((List.perm_ext_iff_of_nodup hna hnb).mpr h).length_eq

end MeshRefiner

end

section

variable {F2 F3 F4 W : Type} [Inhabited F2] [Inhabited F3] [Inhabited F4] [Inhabited W]

open MeshRefiner

/-- C2. With `split_unit = 0`, after optimized refine of a freshly prepared valid mesh
whose attribute buffers have length `P` or `I`, the number of output vertices equals
the number of distinct (point index, compared attributes) tuples over all corners,
`near_equal` being an equivalence on the values present. -/
theorem C2_vertex_count_is_distinct_tuples (K : NearEqual F2 F3 F4)
    (r : MeshRefiner F2 F3 F4 W) (hv : ValidMesh r) (ha : AttrsValid r) (hf : Fresh r)
    (hsu : r.split_unit = 0) (heq : NearEquivalence K r) :
    (refineWithOptimization K r).1.new_points.length = distinctTuples K r := by
  obtain ⟨d, hd⟩ := dispatch_active r ha hv.2
  obtain ⟨a, h⟩ := refine_spec K r hv.1 hf d hd
  obtain ⟨hgreedy, hout⟩ := h.single (by omega)
  obtain ⟨hpt, _, _, htrans⟩ := heq
  rw [h.points, List.length_map]
  unfold distinctTuples
  apply sorted_lists_eq_length a _ h.sorted
    (List.Pairwise.sublist (List.filter_sublist _) (List.pairwise_lt_range _))
  intro k
  simp only [List.mem_filter, List.mem_range, List.all_eq_true, Bool.not_eq_true']
  constructor
  · intro hka
    have hkI := h.alloc_lt k hka
    refine ⟨hkI, ?_⟩
    intro j hj
    by_contra hne
    have hst : sameTuple K r j k = true := by simpa using hne
    have hidx : idx r j = idx r k := by
      unfold sameTuple at hst
      simp only [Bool.and_eq_true, decide_eq_true_eq] at hst
      exact hst.1
    obtain ⟨g, hg1, hg2, hg3, hg4⟩ := hout j (by omega)
    have hgI : a.getD g 0 < r.indices.length := h.alloc_lt _ (getD_mem_of_lt a g hg1)
    have hfalse := (hgreedy k hkI).mp hka g hg1 (by omega) (by rw [hg2, hidx])
    rw [same_eq_sameTuple K r d hd hv.2 hpt _ k hkI (by rw [hg2, hidx])] at hfalse
    rcases hg4 with h1 | h1
    · rw [h1, hst] at hfalse; exact absurd hfalse (by simp)
    · rw [same_eq_sameTuple K r d hd hv.2 hpt _ j (by omega) hg2] at h1
      have := htrans _ hgI j (by omega) k hkI h1 hst
      rw [this] at hfalse; exact absurd hfalse (by simp)
  · intro ⟨hkI, hfirst⟩
    apply (hgreedy k hkI).mpr
    intro m hm hlt hidx
    rw [same_eq_sameTuple K r d hd hv.2 hpt _ k hkI hidx]
    exact hfirst _ hlt

end

section

variable {F2 F3 F4 W : Type} [Inhabited F2] [Inhabited F3] [Inhabited F4] [Inhabited W]

namespace MeshRefiner

set_option linter.unusedSectionVars false

theorem elem_mem {α : Type} [Inhabited α] (xs : List α) (i : Int) (h0 : 0 ≤ i)
    (h1 : i < (xs.length : Int)) : elem xs i ∈ xs := by
  have h2 : i.toNat < xs.length := by omega
  have : elem xs i = xs[i.toNat] := by
    rw [elem_toNat xs i h0, List.getD_eq_getElem _ _ h2]
  rw [this]; exact List.getElem_mem _

/-- When there are as many corners as points and every point is used, no point is used
twice. -/
theorem idx_injective_of_cover (r : MeshRefiner F2 F3 F4 W)
    (hv : ValidTopology r.counts r.indices r.points.length) (hPI : r.points.length = r.indices.length)
    (hcov : EveryPointUsed r) (j k : Nat) (hj : j < r.indices.length) (hk : k < r.indices.length)
    (hjk : idx r j = idx r k) : j = k := by
  have hmem : ∀ x, x ∈ ((List.range r.indices.length).map (fun k => (idx r k).toNat)).dedup
      ↔ x ∈ List.range r.points.length := by
    intro x
    rw [List.mem_dedup, List.mem_map, List.mem_range]
    constructor
    · rintro ⟨k, hk, rfl⟩
      have := hv.index_range k (List.mem_range.mp hk)
      unfold idx; omega
    · intro hx
      obtain ⟨k, hk, hkx⟩ := hcov x hx
      exact ⟨k, List.mem_range.mpr hk, by unfold idx; omega⟩
  have hperm := (List.perm_ext_iff_of_nodup (List.nodup_dedup _) (List.nodup_range _)).mpr hmem
  have hlen := hperm.length_eq
  rw [List.length_range] at hlen
  have heq : ((List.range r.indices.length).map (fun k => (idx r k).toNat)).dedup
      = (List.range r.indices.length).map (fun k => (idx r k).toNat) :=
    (List.dedup_sublist _).eq_of_length (by rw [hlen, hPI]; simp)
  have hnd : ((List.range r.indices.length).map (fun k => (idx r k).toNat)).Nodup := by
    rw [← heq]; exact List.nodup_dedup _
  have hinj := List.inj_on_of_nodup_map hnd (List.mem_range.mpr hj) (List.mem_range.mpr hk)
  exact hinj (by show (idx r j).toNat = (idx r k).toNat; rw [hjk])

theorem same_of_same_point (K : NearEqual F2 F3 F4) (r : MeshRefiner F2 F3 F4 W) (d : Profile)
    (hv : ValidMesh r) (hd : dispatch r = some d) (hpv : PerVertexAttrs r)
    (hcov : EveryPointUsed r) (hrefl : NearReflexive K r)
    (j k : Nat) (hj : j < r.indices.length) (hk : k < r.indices.length)
    (hjk : idx r j = idx r k) : d.same K r j k = true := by
  obtain ⟨hk0, hk1⟩ := hv.1.index_range k hk
  have hpt : K.near3 (keyP r j) (keyP r k) = true := by
    unfold keyP; rw [hjk]
    exact hrefl.1 _ (elem_mem _ _ hk0 hk1)
  -- an attribute buffer read for corners `j` and `k` yields the same, present value
  have hci : ∀ len : Nat, len = r.points.length →
      cornerIndex len r j = cornerIndex len r k ∧ 0 ≤ cornerIndex len r k ∧
        cornerIndex len r k < (len : Int) := by
    intro len hlen
    unfold cornerIndex
    by_cases hI : (len : Int) = (r.indices.length : Int)
    · have hjk' : j = k :=
        idx_injective_of_cover r hv.1 (by omega) hcov j k hj hk hjk
      rw [if_pos hI, if_pos hI, hjk']
      exact ⟨rfl, by omega, by omega⟩
    · rw [if_neg hI, if_neg hI]
      exact ⟨hjk, hk0, by omega⟩
  rw [same_eq K r d hd hv.2, hpt]
  unfold attrsNear
  simp only [Bool.true_and, Bool.and_eq_true, Bool.or_eq_true]
  refine ⟨⟨?_, ?_⟩, ?_⟩
  · rcases hpv.1 with h | h
    · left; simp [h]
    · right
      obtain ⟨e1, e2, e3⟩ := hci _ h
      unfold cornerNormal
      rw [e1]; exact hrefl.2.1 _ (elem_mem _ _ e2 e3)
  · rcases hpv.2.1 with h | h
    · left; simp [h]
    · right
      obtain ⟨e1, e2, e3⟩ := hci _ h
      unfold cornerUV
      rw [e1]; exact hrefl.2.2.1 _ (elem_mem _ _ e2 e3)
  · rcases hpv.2.2 with h | h
    · left; simp [comparesColors, h]
    · right
      obtain ⟨e1, e2, e3⟩ := hci _ h
      unfold cornerColor
      rw [e1]; exact hrefl.2.2.2 _ (elem_mem _ _ e2 e3)

theorem map_getD_range {α : Type} [Inhabited α] (xs : List α) :
    (List.range xs.length).map (fun v => xs.getD v default) = xs := by
  apply List.ext_getElem
  · simp
  · intro n h1 h2
    simp [List.getD_eq_getElem?_getD, List.getElem?_eq_getElem h2]

end MeshRefiner

end

section

variable {F2 F3 F4 W : Type} [Inhabited F2] [Inhabited F3] [Inhabited F4] [Inhabited W]

open MeshRefiner

/-- C3, as amended. For every freshly prepared valid mesh refined with `optimize = true`
and `split_unit = 0` in which every present attribute buffer is per-vertex (length `P`)
and every point is referenced by at least one corner, `|new_points| = P` and
`new_points` is a permutation of `points`; `near_equal` is taken to be reflexive on the
values of the input buffers. -/
theorem C3_per_vertex_refine_is_permutation (K : NearEqual F2 F3 F4)
    (r : MeshRefiner F2 F3 F4 W) (hv : ValidMesh r) (hf : Fresh r) (hsu : r.split_unit = 0)
    (hpv : PerVertexAttrs r) (hcov : EveryPointUsed r) (hrefl : NearReflexive K r) :
    (refineWithOptimization K r).1.new_points.length = r.points.length ∧
    List.Perm (refineWithOptimization K r).1.new_points r.points := by
  have ha : AttrsValid r :=
    ⟨hpv.1.imp id Or.inl, hpv.2.1.imp id Or.inl, hpv.2.2.imp id Or.inl⟩
  obtain ⟨d, hd⟩ := dispatch_active r ha hv.2
  obtain ⟨a, h⟩ := refine_spec K r hv.1 hf d hd
  obtain ⟨hgreedy, hout⟩ := h.single (by omega)
  -- a corner allocates exactly when it is the first corner of its point
  have hfirst : ∀ k : Nat, k < r.indices.length →
      (k ∈ a ↔ ∀ j : Nat, j < k → idx r j ≠ idx r k) := by
    intro k hk
    rw [hgreedy k hk]
    constructor
    · intro hg j hj hjk
      obtain ⟨g, hg1, hg2, hg3, _⟩ := hout j (by omega)
      have hgI : a.getD g 0 < r.indices.length := h.alloc_lt _ (getD_mem_of_lt a g hg1)
      have h1 := hg g hg1 (by omega) (by rw [hg2, hjk])
      have h2 := same_of_same_point K r d hv hd hpv hcov hrefl _ k hgI hk (by rw [hg2, hjk])
      rw [h2] at h1; exact absurd h1 (by simp)
    · intro hf' m _ hlt hidx
      exact absurd hidx (hf' _ hlt)
  have hidx0 : ∀ k ∈ a, 0 ≤ idx r k ∧ idx r k < (r.points.length : Int) :=
    fun k hk => hv.1.index_range k (h.alloc_lt k hk)
  have hnd : (a.map (fun k => (idx r k).toNat)).Nodup := by
    apply List.Nodup.map_on _ (h.sorted.imp (fun h => Nat.ne_of_lt h))
    intro x hx y hy hxy
    have hx0 := hidx0 x hx
    have hy0 := hidx0 y hy
    have hxy' : idx r x = idx r y := by omega
    rcases Nat.lt_trichotomy x y with hlt | heq | hgt
    · exact absurd hxy' ((hfirst y (h.alloc_lt y hy)).mp hy x hlt)
    · exact heq
    · exact absurd hxy'.symm ((hfirst x (h.alloc_lt x hx)).mp hx y hgt)
  have hmem : ∀ v, v ∈ a.map (fun k => (idx r k).toNat) ↔ v ∈ List.range r.points.length := by
    intro v
    rw [List.mem_map, List.mem_range]
    constructor
    · rintro ⟨k, hk, rfl⟩
      have := hidx0 k hk
      omega
    · intro hvP
      have hex : ∃ k : Nat, k < r.indices.length ∧ elem r.indices (k : Int) = (v : Int) :=
        hcov v hvP
      classical
      refine ⟨Nat.find hex, ?_, ?_⟩
      · apply (hfirst _ (Nat.find_spec hex).1).mpr
        intro j hj hjk
        have hmin := Nat.find_min hex hj
        apply hmin
        refine ⟨lt_trans hj (Nat.find_spec hex).1, ?_⟩
        have := (Nat.find_spec hex).2
        unfold idx at hjk
        rw [hjk]; exact this
      · have := (Nat.find_spec hex).2
        unfold idx
        rw [this]; simp
  have hperm := (List.perm_ext_iff_of_nodup hnd (List.nodup_range _)).mpr hmem
  have hpts : (refineWithOptimization K r).1.new_points
      = (a.map (fun k => (idx r k).toNat)).map (fun v => r.points.getD v default) := by
    rw [h.points, List.map_map]
    apply List.map_congr_left
    intro k hk
    have := hidx0 k hk
    show elem r.points (idx r k) = _
    rw [elem_toNat _ _ this.1]
    rfl
  have hfinal : List.Perm (refineWithOptimization K r).1.new_points r.points := by
    rw [hpts]
    have := hperm.map (fun v => r.points.getD v default)
    rw [map_getD_range] at this
    exact this
  exact ⟨hfinal.length_eq, hfinal⟩

set_option maxRecDepth 100000 in
/-- Witness for C3 (amended): the quad with one normal per point. -/
theorem C3_per_vertex_refine_is_permutation_witness :
    ValidMesh quadMesh ∧ PerVertexAttrs quadMesh ∧ EveryPointUsed quadMesh ∧
    NearReflexive exactNear quadMesh ∧
    (refineWithOptimization exactNear quadMesh).1.new_points.length = quadMesh.points.length ∧
    List.Perm (refineWithOptimization exactNear quadMesh).1.new_points quadMesh.points :=
  ⟨⟨by decide, Or.inl (by decide)⟩, ⟨by decide, by decide, by decide⟩, by decide,
    ⟨by decide, by decide, by decide, by decide⟩,
    C3_per_vertex_refine_is_permutation exactNear quadMesh ⟨by decide, Or.inl (by decide)⟩
      ⟨rfl, rfl, rfl, rfl, rfl, rfl, rfl, Or.inl rfl, rfl⟩ rfl ⟨by decide, by decide, by decide⟩
      (by decide) ⟨by decide, by decide, by decide, by decide⟩⟩

set_option maxRecDepth 100000 in
/-- Counterexample to C3 as stated: a valid mesh with per-vertex normals in which the
fourth point is used by no face.  Optimized refine with `split_unit = 0` emits three
vertices, not `P = 4`. -/
theorem C3_counterexample :
    ValidMesh looseMesh ∧ PerVertexAttrs looseMesh ∧ looseMesh.split_unit = 0 ∧
    NearReflexive exactNear looseMesh ∧
    (refineWithOptimization exactNear looseMesh).1.new_points.length = 3 ∧
    ¬ ((refineWithOptimization exactNear looseMesh).1.new_points.length
        = looseMesh.points.length) :=
  ⟨⟨by decide, Or.inl (by decide)⟩, ⟨by decide, by decide, by decide⟩, rfl,
    ⟨by decide, by decide, by decide, by decide⟩, by decide, by decide⟩

end

section

variable {F2 F3 F4 W : Type} [Inhabited F2] [Inhabited F3] [Inhabited F4] [Inhabited W]

open MeshRefiner

set_option linter.unusedSectionVars false

set_option maxRecDepth 100000 in
/-- C5 (code evaluated at the failing input). Two prepare/refine cycles of one refiner on
the quad with generated tangents: after the first cycle `new_tangents` has the length
of `new_points` (4); after the second cycle `new_points` again has 4 entries but
`new_tangents` has 8, because `prepare` clears every `new_*` buffer except
`new_tangents`. -/
theorem C5_new_tangents_survive_prepare :
    (quadCycle emptyRefiner).new_points.length = 4 ∧
    (quadCycle emptyRefiner).new_tangents.length = 4 ∧
    (quadCycle (quadCycle emptyRefiner)).new_points.length = 4 ∧
    (quadCycle (quadCycle emptyRefiner)).new_normals.length = 4 ∧
    (quadCycle (quadCycle emptyRefiner)).new_uv.length = 4 ∧
    (quadCycle (quadCycle emptyRefiner)).new_tangents.length = 8 := by
  decide

set_option maxRecDepth 100000 in
/-- C8 (code evaluated at the failing input). Three separate faces (triangle, quad,
triangle), one per split, all with material 0.  The run of `new_indices_submeshes`
that belongs to split 1 is `[0,1,2,0,1,2]`, the run of `new_indices_triangulated` is
`[0,1,2,0,2,3]`: not a permutation.  The tally loop of `genSubmesh` reads `counts[fi]`
where the copy loop reads `counts[offset_faces + fi]`. -/
theorem C8_submesh_run_not_permutation :
    ValidMesh threeFaceMesh ∧
    splitRun (genSubmesh (refineWithOptimization exactNear threeFaceMesh).1 [0, 0, 0]).1.new_indices_triangulated
      (genSubmesh (refineWithOptimization exactNear threeFaceMesh).1 [0, 0, 0]).1.splits 1
      = [0, 1, 2, 0, 2, 3] ∧
    splitRun (genSubmesh (refineWithOptimization exactNear threeFaceMesh).1 [0, 0, 0]).1.new_indices_submeshes
      (genSubmesh (refineWithOptimization exactNear threeFaceMesh).1 [0, 0, 0]).1.splits 1
      = [0, 1, 2, 0, 1, 2] ∧
    ¬ List.Perm
      (splitRun (genSubmesh (refineWithOptimization exactNear threeFaceMesh).1 [0, 0, 0]).1.new_indices_submeshes
        (genSubmesh (refineWithOptimization exactNear threeFaceMesh).1 [0, 0, 0]).1.splits 1)
      (splitRun (genSubmesh (refineWithOptimization exactNear threeFaceMesh).1 [0, 0, 0]).1.new_indices_triangulated
        (genSubmesh (refineWithOptimization exactNear threeFaceMesh).1 [0, 0, 0]).1.splits 1) :=
  ⟨⟨by decide, Or.inl (by decide)⟩, by decide, by decide, by decide⟩

set_option maxRecDepth 100000 in
/-- C9 (code evaluated at the failing input). On the fan of four triangles with
materials `[0,1,0,1]` (one split) `genSubmesh` emits material 0 with 6 indices, then
material 1 with 6 indices.  On the three separate faces (triangle, quad, triangle; one
face per split; material 0) it emits one record per split, but the record of split 1,
whose only face is the quad, has `num_indices_tri = 3` instead of `(4 - 2) * 3 = 6`. -/
theorem C9_submesh_records_miscounted :
    (genSubmesh (refineWithOptimization exactNear fanMesh).1 [0, 1, 0, 1]).1.submeshes.map
        (fun sm => (sm.materialID, sm.num_indices_tri)) = [(0, 6), (1, 6)] ∧
    (genSubmesh (refineWithOptimization exactNear fanMesh).1 [0, 1, 0, 1]).1.splits.map
        (fun sp => sp.num_submeshes) = [2] ∧
    (genSubmesh (refineWithOptimization exactNear threeFaceMesh).1 [0, 0, 0]).1.splits.map
        (fun sp => (sp.num_faces, sp.num_submeshes)) = [(1, 1), (1, 1), (1, 1)] ∧
    threeFaceMesh.counts = [3, 4, 3] ∧
    (genSubmesh (refineWithOptimization exactNear threeFaceMesh).1 [0, 0, 0]).1.submeshes.map
        (fun sm => (sm.materialID, sm.num_indices_tri)) = [(0, 3), (0, 3), (0, 3)] := by
  decide

/-- C10. `genSubmesh` returns `false` if and only if the length of `materialIDs`
differs from the number of faces; on failure no Submesh record is left in `submeshes`,
and the splits and `new_indices_submeshes` are unchanged. -/
theorem C10_genSubmesh_failure (r : MeshRefiner F2 F3 F4 W) (materialIDs : List Int) :
    ((genSubmesh r materialIDs).2 = false ↔ materialIDs.length ≠ r.counts.length) ∧
    (materialIDs.length ≠ r.counts.length →
      (genSubmesh r materialIDs).1.submeshes = [] ∧
      (genSubmesh r materialIDs).1.splits = r.splits ∧
      (genSubmesh r materialIDs).1.new_indices_submeshes = r.new_indices_submeshes) := by
  unfold genSubmesh
  by_cases h : materialIDs.length ≠ r.counts.length
  · simp only [h, ne_eq, not_false_eq_true, if_true]
    simp
  · simp only [h, if_false]
    simp

set_option maxRecDepth 100000 in
/-- Witness for C10: one material ID for the six faces of the refined cube. -/
theorem C10_genSubmesh_failure_witness :
    [(0 : Int)].length ≠ (refineWithOptimization exactNear cubeMesh).1.counts.length ∧
    (genSubmesh (refineWithOptimization exactNear cubeMesh).1 [0]).2 = false ∧
    (genSubmesh (refineWithOptimization exactNear cubeMesh).1 [0]).1.submeshes = [] ∧
    (genSubmesh (refineWithOptimization exactNear cubeMesh).1 [0]).1.splits
      = (refineWithOptimization exactNear cubeMesh).1.splits ∧
    (genSubmesh (refineWithOptimization exactNear cubeMesh).1 [0]).1.new_indices_submeshes
      = (refineWithOptimization exactNear cubeMesh).1.new_indices_submeshes :=
  ⟨by decide,
    (C10_genSubmesh_failure (refineWithOptimization exactNear cubeMesh).1 [0]).1.mpr (by decide),
    (C10_genSubmesh_failure (refineWithOptimization exactNear cubeMesh).1 [0]).2 (by decide)⟩

end

section

open MeshRefiner

set_option maxRecDepth 100000 in
/-- Witness for C1: corner 9 of the cube (split 0). -/
theorem C1_refine_preserves_corners_witness :
    ValidMesh cubeMesh ∧ Fresh cubeMesh ∧
    (elem (refineWithOptimization exactNear cubeMesh).1.new_points
        (vertexBase (refineWithOptimization exactNear cubeMesh).1.splits 0
          + elem (refineWithOptimization exactNear cubeMesh).1.new_indices ((9 : Nat) : Int))
      = elem cubeMesh.points (elem cubeMesh.indices ((9 : Nat) : Int)) ∧
    (cubeMesh.normals ≠ [] →
      exactNear.near3 (elem (refineWithOptimization exactNear cubeMesh).1.new_normals
        (vertexBase (refineWithOptimization exactNear cubeMesh).1.splits 0
          + elem (refineWithOptimization exactNear cubeMesh).1.new_indices ((9 : Nat) : Int)))
        (cornerNormal cubeMesh 9) = true) ∧
    (cubeMesh.uv ≠ [] →
      exactNear.near2 (elem (refineWithOptimization exactNear cubeMesh).1.new_uv
        (vertexBase (refineWithOptimization exactNear cubeMesh).1.splits 0
          + elem (refineWithOptimization exactNear cubeMesh).1.new_indices ((9 : Nat) : Int)))
        (cornerUV cubeMesh 9) = true) ∧
    (comparesColors cubeMesh = true →
      exactNear.near4 (elem (refineWithOptimization exactNear cubeMesh).1.new_colors
        (vertexBase (refineWithOptimization exactNear cubeMesh).1.splits 0
          + elem (refineWithOptimization exactNear cubeMesh).1.new_indices ((9 : Nat) : Int)))
        (cornerColor cubeMesh 9) = true)) :=
  ⟨⟨by decide, Or.inl (by decide)⟩, ⟨rfl, rfl, rfl, rfl, rfl, rfl, rfl, Or.inl rfl, rfl⟩,
    C1_refine_preserves_corners exactNear cubeMesh ⟨by decide, Or.inl (by decide)⟩
      ⟨rfl, rfl, rfl, rfl, rfl, rfl, rfl, Or.inl rfl, rfl⟩ (by decide) (by decide) (by decide) 0 9
      (by decide) (by decide) (by decide)⟩

set_option maxRecDepth 1000000 in
set_option maxHeartbeats 4000000 in
/-- Witness for C2: the cube of 8 points and 6 quads with per-corner face normals yields
24 output vertices, the number of distinct tuples, and 36 triangulated indices. -/
theorem C2_vertex_count_is_distinct_tuples_witness :
    ValidMesh cubeMesh ∧ AttrsValid cubeMesh ∧ Fresh cubeMesh ∧ cubeMesh.split_unit = 0 ∧
    NearEquivalence exactNear cubeMesh ∧
    (refineWithOptimization exactNear cubeMesh).1.new_points.length
      = distinctTuples exactNear cubeMesh ∧
    (refineWithOptimization exactNear cubeMesh).1.new_points.length = 24 ∧
    (refineWithOptimization exactNear cubeMesh).1.new_indices_triangulated.length = 36 :=
  ⟨⟨by decide, Or.inl (by decide)⟩, ⟨by decide, by decide, by decide⟩,
    ⟨rfl, rfl, rfl, rfl, rfl, rfl, rfl, Or.inl rfl, rfl⟩, rfl,
    ⟨by decide, by decide, by decide, by decide⟩,
    C2_vertex_count_is_distinct_tuples exactNear cubeMesh ⟨by decide, Or.inl (by decide)⟩
      ⟨by decide, by decide, by decide⟩ ⟨rfl, rfl, rfl, rfl, rfl, rfl, rfl, Or.inl rfl, rfl⟩ rfl
      ⟨by decide, by decide, by decide, by decide⟩,
    by decide, by decide⟩

end

theorem sum_replicate_three (n : Nat) : (List.replicate n (3 : Int)).sum = 3 * (n : Int) := by
  induction n with
  | zero => simp
  | succ n ih => rw [List.replicate_succ, List.sum_cons, ih]; push_cast; ring

theorem triangleOffsets_spec (n : Nat) :
    (List.range n).foldl (fun (o : List Int) (i : Nat) => store o i ((i : Int) * 3))
        (resize ([] : List Int) n 0)
      = (CountIndices (List.replicate n 3)).1 := by
  have key := foldl_range_inv
    (fun i (o : List Int) => o.length = n ∧ ∀ j : Nat, j < i → elem o (j : Int) = (j : Int) * 3)
    (fun (o : List Int) (i : Nat) => store o i ((i : Int) * 3)) n (resize ([] : List Int) n 0)
    ⟨length_resize _ _ _, by intro j hj; omega⟩
    (by
      intro o i hi ⟨hl, ho⟩
      refine ⟨by rw [length_store]; exact hl, ?_⟩
      intro j hj
      by_cases hji : j = i
      · subst hji
        rw [elem_store_same _ _ _ (by omega) (by omega)]
      · rw [elem_store_other _ _ _ _ (by omega)]
        exact ho j (by omega))
  obtain ⟨hlen, hval⟩ := key
  rw [(CountIndices_spec _).1]
  apply List.ext_getElem
  · simp [hlen]
  · intro f h1 h2
    have hf : f < n := by rw [hlen] at h1; exact h1
    have := hval f hf
    rw [elem_of_lt _ f h1] at this
    rw [this]
    simp only [List.length_replicate, List.getElem_map, List.getElem_range]
    rw [List.take_replicate, sum_replicate_three, Nat.min_eq_left (Nat.le_of_lt hf)]
    ring

section

variable {F2 F3 F4 W : Type} [Inhabited F2] [Inhabited F3] [Inhabited F4] [Inhabited W]

namespace MeshRefiner

set_option linter.unusedSectionVars false

/-- The state left by `prepare`, with the attribute views then set by the caller, is
the state the refine theorems start from. -/
theorem prepare_fresh (r0 : MeshRefiner F2 F3 F4 W) (counts_ indices_ : List Int)
    (points_ : List F3) (normals_ : List F3) (uv_ : List F2) (colors_ : List F4)
    (weights_ : List W) :
    Fresh { prepare r0 counts_ indices_ points_ with
            normals := normals_, uv := uv_, colors := colors_, weights4 := weights_ } := by
  unfold prepare
  by_cases h : counts_.isEmpty = true
  · simp only [h, if_true]
    refine ⟨rfl, rfl, rfl, rfl, rfl, rfl, rfl, Or.inl rfl, ?_⟩
    simp only [resize_nil]
    have := triangleOffsets_spec ((indices_.length : Int) / 3).toNat
    rw [resize_nil] at this
    exact this
  · simp only [h]
    exact ⟨rfl, rfl, rfl, rfl, rfl, rfl, rfl, Or.inl rfl, rfl⟩

/-- Generating tangents does not disturb the state the refine theorems start from. -/
theorem genTangents_fresh
    (G : List F4 → List F3 → List F3 → List F2 → List Int → List Int → List Int → List F4)
    (r : MeshRefiner F2 F3 F4 W) (h : Fresh r) : Fresh (genTangents G r) := by
  refine ⟨h.splits, h.new_points, h.new_normals, h.new_uv, h.new_colors, h.new_indices,
    h.old2new, ?_, h.offsets⟩
  rcases h.csr with h0 | ⟨h1, h2⟩
  · exact Or.inl h0
  · exact Or.inr ⟨h1, h2.counts_eq, h2.offsets_eq, h2.slots, h2.faces⟩

end MeshRefiner

end

theorem sum_map_natCast (l : List Nat) : ((l.map (fun (x : Nat) => (x : Int))).sum) = (l.sum : Int) := by
  induction l with
  | nil => simp
  | cons x xs ih => rw [List.map_cons, List.sum_cons, List.sum_cons, ih]; push_cast; rfl

/-- A list of length `n` that contains every number below `n` is a rearrangement of
`0 .. n-1`. -/
theorem perm_range_of_cover (l : List Int) (n : Nat) (hlen : l.length = n)
    (hall : ∀ k : Nat, k < n → (k : Int) ∈ l) :
    List.Perm l ((List.range n).map (fun (k : Nat) => (k : Int))) := by
  have hnd : ((List.range n).map (fun (k : Nat) => (k : Int))).Nodup := by
    apply List.Nodup.map _ (List.nodup_range n)
    intro a b hab
    exact Int.ofNat.inj hab
  have hsub : (List.range n).map (fun (k : Nat) => (k : Int)) ⊆ l := by
    intro x hx
    simp only [List.mem_map, List.mem_range] at hx
    obtain ⟨k, hk, rfl⟩ := hx
    exact hall k hk
  have hsp := List.subperm_of_subset hnd hsub
  exact (hsp.perm_of_length_le (by simp [hlen])).symm

section

variable {F2 F3 F4 W : Type} [Inhabited F2] [Inhabited F3] [Inhabited F4] [Inhabited W]

namespace MeshRefiner

set_option linter.unusedSectionVars false

theorem countPass_length (counts indices vc : List Int) :
    (countPass counts indices vc).1.length = vc.length := by
  unfold countPass
  have key := foldl_list_inv
    (fun _ (st : List Int × Int) => st.1.length = vc.length)
    (fun (st : List Int × Int) (c : Int) =>
      ((List.range c.toNat).foldl
          (fun (v : List Int) (i : Nat) =>
            store v (elem indices (st.2 + i)) (elem v (elem indices (st.2 + i)) + 1))
          st.1,
       st.2 + c))
    counts (vc, 0) rfl
    (by
      intro st i _ hst
      exact foldl_range_inv (fun _ (v : List Int) => v.length = vc.length) _ _ st.1 hst
        (by intro v j _ hv; rw [length_store]; exact hv))
  exact key

theorem buildConnection_counts_length (r : MeshRefiner F2 F3 F4 W) :
    (buildConnection r).v2f_counts.length = r.points.length := by
  unfold buildConnection
  by_cases h : r.v2f_counts.length = r.points.length
  · rw [if_pos h]; exact h
  · rw [if_neg h]
    show (countPass r.counts r.indices (List.replicate r.points.length 0)).1.length = _
    rw [countPass_length, List.length_replicate]

/-- A second call of `buildConnection` returns at once. -/
theorem buildConnection_idem (r : MeshRefiner F2 F3 F4 W) :
    buildConnection (buildConnection r) = buildConnection r := by
  have h := buildConnection_counts_length r
  have hp : (buildConnection r).points = r.points := buildConnection_points r
  generalize buildConnection r = b at h hp
  unfold buildConnection
  rw [if_pos (by rw [h, hp])]

/-- The connection index of a well-formed mesh: the arrays have the lengths `P` and `I`
and describe, for every point, its corners in ascending order. -/
theorem buildConnection_full (r : MeshRefiner F2 F3 F4 W)
    (hv : ValidTopology r.counts r.indices r.points.length) (h0 : Unconnected r) :
    Connected (buildConnection r) ∧
    (buildConnection r).v2f_counts.length = r.points.length ∧
    (buildConnection r).v2f_offsets.length = r.points.length ∧
    (buildConnection r).shared_faces.length = r.indices.length ∧
    (buildConnection r).shared_indices.length = r.indices.length := by
  obtain ⟨h1, h2, h3, h4⟩ := h0
  refine ⟨buildConnection_connected r hv h1, buildConnection_counts_length r, ?_⟩
  by_cases hP : r.points.length = 0
  · have hI : r.indices = [] := by
      cases hi : r.indices with
      | nil => rfl
      | cons x xs =>
        have := hv.2.2 x (by rw [hi]; simp)
        omega
    have hb : buildConnection r = r := by
      unfold buildConnection
      rw [if_pos (by rw [h1, hP]; rfl)]
    rw [hb, h2, h3, h4, hP, hI]
    simp
  · have hne : ¬ r.v2f_counts.length = r.points.length := by
      rw [h1]; simpa using Ne.symm hP
    have hc := countPass_spec r.counts r.indices r.points.length hv
    have ho := offsetPass_spec r.indices r.points.length
      (countPass r.counts r.indices (List.replicate r.points.length 0)).1
      (resize r.v2f_offsets r.points.length 0) (length_resize _ _ _) hc.2
    have hs := scatterPass_spec r.counts r.indices
      (offsetPass r.points.length
        (countPass r.counts r.indices (List.replicate r.points.length 0)).1
        (resize r.v2f_offsets r.points.length 0)).1
      r.points.length hv ho.2
      (resize r.shared_faces r.indices.length 0) (resize r.shared_indices r.indices.length 0)
      (length_resize _ _ _) (length_resize _ _ _)
    unfold buildConnection
    rw [if_neg hne]
    exact ⟨ho.1, hs.len_sf, hs.len_si⟩

end MeshRefiner

end

theorem take_map_range {β : Type} (f : Nat → β) (n v : Nat) (h : v ≤ n) :
    ((List.range n).map f).take v = (List.range v).map f := by
  rw [← List.map_take, List.take_range, Nat.min_eq_left h]

theorem view_eq_of_elem (xs : List Int) (s n : Nat) (ys : List Int)
    (hlen : ys.length = n) (hfit : s + n ≤ xs.length)
    (h : ∀ c : Nat, c < n → elem xs ((s : Int) + c) = elem ys (c : Int)) :
    view xs (s : Int) (n : Int) = ys := by
  unfold view
  apply List.ext_getElem
  · simp [hlen]; omega
  · intro c h1 h2
    have hc : c < n := by rw [hlen] at h2; exact h2
    have e := h c hc
    have e1 : ((s : Int) + (c : Int)) = ((s + c : Nat) : Int) := by push_cast; rfl
    rw [e1, elem_of_lt xs (s + c) (by omega), elem_of_lt ys c h2] at e
    simp only [Int.toNat_ofNat, List.getElem_take, List.getElem_drop]
    exact e

section

variable {F2 F3 F4 W : Type} [Inhabited F2] [Inhabited F3] [Inhabited F4] [Inhabited W]

open MeshRefiner

set_option linter.unusedSectionVars false

/-- Every corner of a well-formed mesh is carried by the slot of its point that is
numbered by the earlier corners of the point. -/
theorem corner_slot (indices : List Int) (numPoints : Nat)
    (h : ∀ v ∈ indices, 0 ≤ v ∧ v < (numPoints : Int)) (k : Nat) (hk : k < indices.length) :
    ∃ vn c : Nat, elem indices (k : Int) = (vn : Int) ∧ vn < numPoints ∧
      c < occ indices indices.length (vn : Int) ∧
      (cornersOf indices indices.length (vn : Int)).getD c 0 = k ∧
      offOf indices vn + c < indices.length := by
  have hmem : elem indices (k : Int) ∈ indices := by
    rw [elem_of_lt indices k hk]; exact List.getElem_mem _
  obtain ⟨h0, h1⟩ := h _ hmem
  obtain ⟨vn, hvn⟩ : ∃ vn : Nat, elem indices (k : Int) = (vn : Int) :=
    ⟨_, (Int.toNat_of_nonneg h0).symm⟩
  have hP : vn < numPoints := by omega
  have hlt : occ indices k (vn : Int) < occ indices indices.length (vn : Int) :=
    occ_lt_of_corner indices _ hk hvn
  have hlast := cornersOf_last indices k hk
  rw [hvn] at hlast
  have hend := offOf_succ_le indices hP
  have htot := offOf_total indices numPoints h
  exact ⟨vn, occ indices k (vn : Int), hvn, hP, hlt, hlast, by omega⟩

/-- C11. After `buildConnection` on a well-formed mesh whose connection index has not
been built yet: the sum of `v2f_counts` is `I`, `v2f_offsets` is the exclusive prefix sum
of `v2f_counts`, and `shared_indices` is a rearrangement of `0 .. I-1`, so that every
corner `k` is carried by exactly one slot. -/
theorem C11_csr_consistency (r : MeshRefiner F2 F3 F4 W)
    (hv : ValidTopology r.counts r.indices r.points.length) (h0 : Unconnected r) :
    (buildConnection r).v2f_counts.sum = (r.indices.length : Int) ∧
    (buildConnection r).v2f_offsets
      = (List.range r.points.length).map
          (fun (v : Nat) => ((buildConnection r).v2f_counts.take v).sum) ∧
    List.Perm (buildConnection r).shared_indices
      ((List.range r.indices.length).map (fun (k : Nat) => (k : Int))) ∧
    ∀ k : Nat, k < r.indices.length →
      ∃! t : Nat, t < (buildConnection r).shared_indices.length ∧
        elem (buildConnection r).shared_indices (t : Int) = (k : Int) := by
  obtain ⟨hc, l1, l2, _, l4⟩ := buildConnection_full r hv h0
  have hcnt := hc.counts_eq
  have hoff := hc.offsets_eq
  have hsl := hc.slots
  rw [buildConnection_points] at hcnt hoff hsl
  rw [buildConnection_indices] at hcnt hoff hsl
  generalize buildConnection r = b at l1 l2 l4 hcnt hoff hsl ⊢
  have hcounts : b.v2f_counts
      = ((List.range r.points.length).map
          (fun (w : Nat) => occ r.indices r.indices.length (w : Int))).map
          (fun (x : Nat) => (x : Int)) := by
    apply List.ext_getElem
    · simp [l1]
    · intro v h1 h2
      have hvP : v < r.points.length := by rw [l1] at h1; exact h1
      have := hcnt v hvP
      rw [elem_of_lt _ v h1] at this
      rw [this]; simp
  have hmemAll : ∀ k : Nat, k < r.indices.length →
      ∃ t : Nat, t < b.shared_indices.length ∧ elem b.shared_indices (t : Int) = (k : Int) := by
    intro k hk
    obtain ⟨vn, c, _, hP, hcl, hck, hfit⟩ := corner_slot r.indices r.points.length hv.2.2 k hk
    refine ⟨offOf r.indices vn + c, by rw [l4]; exact hfit, ?_⟩
    have := hsl vn hP c hcl
    rw [hck] at this
    rw [← this]; push_cast; rfl
  have hperm : List.Perm b.shared_indices
      ((List.range r.indices.length).map (fun (k : Nat) => (k : Int))) := by
    apply perm_range_of_cover _ _ l4
    intro k hk
    obtain ⟨t, ht, he⟩ := hmemAll k hk
    rw [elem_of_lt _ t ht] at he
    rw [← he]; exact List.getElem_mem _
  have hnd : b.shared_indices.Nodup := by
    rw [hperm.nodup_iff]
    apply List.Nodup.map _ (List.nodup_range _)
    intro x y hxy
    exact Int.ofNat.inj hxy
  refine ⟨?_, ?_, hperm, ?_⟩
  · rw [hcounts, sum_map_natCast,
      sum_occ_eq r.indices r.points.length hv.2.2 r.indices.length (le_refl _)]
  · apply List.ext_getElem
    · simp [l2]
    · intro v h1 h2
      have hvP : v < r.points.length := by rw [l2] at h1; exact h1
      have := hoff v hvP
      rw [elem_of_lt _ v h1] at this
      rw [this]
      simp only [List.getElem_map, List.getElem_range]
      rw [hcounts, ← List.map_take, take_map_range _ _ _ (Nat.le_of_lt hvP), sum_map_natCast]
      rfl
  · intro k hk
    obtain ⟨t, ht, he⟩ := hmemAll k hk
    refine ⟨t, ⟨ht, he⟩, ?_⟩
    rintro t' ⟨ht', he'⟩
    rw [elem_of_lt _ t ht] at he
    rw [elem_of_lt _ t' ht'] at he'
    exact (List.Nodup.getElem_inj_iff hnd).mp (he'.trans he.symm)

/-- Witness for C11: the quad of scenario 1. -/
theorem C11_csr_consistency_witness :
    ValidTopology quadMesh.counts quadMesh.indices quadMesh.points.length ∧
    Unconnected quadMesh ∧
    ((buildConnection quadMesh).v2f_counts.sum = (quadMesh.indices.length : Int) ∧
    (buildConnection quadMesh).v2f_offsets
      = (List.range quadMesh.points.length).map
          (fun (v : Nat) => ((buildConnection quadMesh).v2f_counts.take v).sum) ∧
    List.Perm (buildConnection quadMesh).shared_indices
      ((List.range quadMesh.indices.length).map (fun (k : Nat) => (k : Int))) ∧
    ∀ k : Nat, k < quadMesh.indices.length →
      ∃! t : Nat, t < (buildConnection quadMesh).shared_indices.length ∧
        elem (buildConnection quadMesh).shared_indices (t : Int) = (k : Int)) :=
  ⟨by decide, ⟨rfl, rfl, rfl, rfl⟩,
    C11_csr_consistency quadMesh (by decide) ⟨rfl, rfl, rfl, rfl⟩⟩

/-- C12. After `buildConnection` on a well-formed, prepared mesh, for every point `v` the
slots `v2f_offsets[v] .. v2f_offsets[v] + v2f_counts[v] - 1` of `shared_indices` hold
exactly the corners `k` with `indices[k] = v`, in strictly ascending order, and the same
slot of `shared_faces` holds the face `f` with `offsets[f] ≤ k < offsets[f] + counts[f]`;
a second call of `buildConnection` changes nothing. -/
theorem C12_csr_lists_corners (r : MeshRefiner F2 F3 F4 W)
    (hv : ValidTopology r.counts r.indices r.points.length) (h0 : Unconnected r)
    (hoffs : r.offsets = (CountIndices r.counts).1) :
    (∀ v : Nat, v < r.points.length →
      view (buildConnection r).shared_indices (elem (buildConnection r).v2f_offsets (v : Int))
          (elem (buildConnection r).v2f_counts (v : Int))
        = ((List.range r.indices.length).filter
            (fun (k : Nat) => decide (elem r.indices (k : Int) = (v : Int)))).map
            (fun (k : Nat) => (k : Int)) ∧
      (view (buildConnection r).shared_indices (elem (buildConnection r).v2f_offsets (v : Int))
          (elem (buildConnection r).v2f_counts (v : Int))).Pairwise (· < ·) ∧
      ∀ c : Nat, (c : Int) < elem (buildConnection r).v2f_counts (v : Int) →
        ∃ f : Nat,
          elem (buildConnection r).shared_faces
            (elem (buildConnection r).v2f_offsets (v : Int) + c) = (f : Int) ∧
          f < r.counts.length ∧
          elem r.offsets (f : Int)
            ≤ elem (buildConnection r).shared_indices
                (elem (buildConnection r).v2f_offsets (v : Int) + c) ∧
          elem (buildConnection r).shared_indices
              (elem (buildConnection r).v2f_offsets (v : Int) + c)
            < elem r.offsets (f : Int) + elem r.counts (f : Int)) ∧
    buildConnection (buildConnection r) = buildConnection r := by
  refine ⟨?_, buildConnection_idem r⟩
  obtain ⟨hc, _, _, _, l4⟩ := buildConnection_full r hv h0
  have hcnt := hc.counts_eq
  have hoff := hc.offsets_eq
  have hsl := hc.slots
  have hfa := hc.faces
  rw [buildConnection_points] at hcnt hoff hsl hfa
  rw [buildConnection_indices] at hcnt hoff hsl hfa
  rw [buildConnection_counts] at hfa
  generalize buildConnection r = b at l4 hcnt hoff hsl hfa ⊢
  intro v hvP
  rw [hcnt v hvP, hoff v hvP]
  have hend := offOf_succ_le r.indices hvP
  have htot := offOf_total r.indices r.points.length hv.2.2
  have hview : view b.shared_indices (offOf r.indices v : Int)
      (occ r.indices r.indices.length (v : Int) : Int)
      = (cornersOf r.indices r.indices.length (v : Int)).map (fun (k : Nat) => (k : Int)) := by
    apply view_eq_of_elem
    · simp [occ]
    · rw [l4]; omega
    · intro c hcl
      rw [hsl v hvP c hcl]
      unfold occ at hcl
      rw [elem_of_lt _ c (by simpa using hcl), List.getD_eq_getElem _ _ hcl]
      simp
  refine ⟨hview, ?_, ?_⟩
  · rw [hview]
    apply List.Pairwise.map _ _ (cornersOf_sorted r.indices r.indices.length (v : Int))
    intro x y hxy
    exact Int.ofNat_lt.mpr hxy
  · intro c hcl
    have hcl' : c < occ r.indices r.indices.length (v : Int) := by omega
    obtain ⟨f, hf1, hf2, hf3, hf4⟩ := hfa v hvP c hcl'
    refine ⟨f, hf1, hf2, ?_⟩
    rw [hsl v hvP c hcl', hoffs, CountIndices_offsets r.counts hv.nonneg f hf2]
    have hsucc := faceStart_succ r.counts f hf2
    have hc3 : 3 ≤ elem r.counts (f : Int) := by
      apply hv.1; rw [elem_of_lt r.counts f hf2]; exact List.getElem_mem _
    constructor
    · exact Int.ofNat_le.mpr hf3
    · omega

/-- Witness for C12: the quad of scenario 1; the slots of point 2 hold corner 2 of
face 0. -/
theorem C12_csr_lists_corners_witness :
    ValidTopology quadMesh.counts quadMesh.indices quadMesh.points.length ∧
    Unconnected quadMesh ∧ quadMesh.offsets = (CountIndices quadMesh.counts).1 ∧
    view (buildConnection quadMesh).shared_indices
        (elem (buildConnection quadMesh).v2f_offsets ((2 : Nat) : Int))
        (elem (buildConnection quadMesh).v2f_counts ((2 : Nat) : Int))
      = ((List.range quadMesh.indices.length).filter
          (fun (k : Nat) => decide (elem quadMesh.indices (k : Int) = ((2 : Nat) : Int)))).map
          (fun (k : Nat) => (k : Int)) ∧
    buildConnection (buildConnection quadMesh) = buildConnection quadMesh :=
  ⟨by decide, ⟨rfl, rfl, rfl, rfl⟩, rfl,
    ((C12_csr_lists_corners quadMesh (by decide) ⟨rfl, rfl, rfl, rfl⟩ rfl).1 2 (by decide)).1,
    (C12_csr_lists_corners quadMesh (by decide) ⟨rfl, rfl, rfl, rfl⟩ rfl).2⟩

end

theorem triangleOffsets_values (n : Nat) :
    (List.range n).foldl (fun (o : List Int) (i : Nat) => store o i ((i : Int) * 3))
        (resize ([] : List Int) n 0)
      = (List.range n).map (fun (f : Nat) => 3 * (f : Int)) := by
  rw [triangleOffsets_spec, (CountIndices_spec _).1, List.length_replicate]
  apply List.map_congr_left
  intro f hf
  have hfn : f < n := List.mem_range.mp hf
  rw [List.take_replicate, sum_replicate_three, Nat.min_eq_left (Nat.le_of_lt hfn)]

theorem sum_tri_replicate_three (n : Nat) :
    ((List.replicate n (3 : Int)).map (fun c => (c - 2) * 3)).sum = 3 * (n : Int) := by
  rw [List.map_replicate]
  exact sum_replicate_three n

section

variable {F2 F3 F4 W : Type} [Inhabited F2] [Inhabited F3] [Inhabited F4] [Inhabited W]

open MeshRefiner

set_option linter.unusedSectionVars false

/-- What `prepare` does to the buffers the refiner owns: every output and intermediate
buffer that it clears, and `new_tangents`, which it does not touch. -/
theorem prepare_clears (r : MeshRefiner F2 F3 F4 W) (counts_ indices_ : List Int)
    (points_ : List F3) :
    (prepare r counts_ indices_ points_).new_points = [] ∧
    (prepare r counts_ indices_ points_).new_normals = [] ∧
    (prepare r counts_ indices_ points_).new_uv = [] ∧
    (prepare r counts_ indices_ points_).new_colors = [] ∧
    (prepare r counts_ indices_ points_).new_weights4 = [] ∧
    (prepare r counts_ indices_ points_).new_indices = [] ∧
    (prepare r counts_ indices_ points_).new_indices_triangulated = [] ∧
    (prepare r counts_ indices_ points_).new_indices_submeshes = [] ∧
    (prepare r counts_ indices_ points_).normals_tmp = [] ∧
    (prepare r counts_ indices_ points_).tangents_tmp = [] ∧
    Unconnected (prepare r counts_ indices_ points_) ∧
    (prepare r counts_ indices_ points_).old2new = [] ∧
    (prepare r counts_ indices_ points_).splits = [] ∧
    (prepare r counts_ indices_ points_).submeshes = [] ∧
    (prepare r counts_ indices_ points_).new_tangents = r.new_tangents := by
  unfold prepare Unconnected
  by_cases h : counts_.isEmpty = true <;> simp [h]

/-- C13. `prepare` with an empty `counts` array and an index buffer of length `I`
materializes `counts = [3, 3, …]` of length `I / 3` and `offsets[f] = 3 * f`, and sets
`num_indices_tri = I`; the sum of `(counts[f] - 2) * 3` is `3 * (I / 3)`, so for a triangle
list (`I` a multiple of 3) `num_indices_tri` is the sum over `f` of `(counts[f] - 2) * 3`. -/
theorem C13_prepare_triangle_soup (r : MeshRefiner F2 F3 F4 W) (indices_ : List Int)
    (points_ : List F3) :
    (prepare r [] indices_ points_).counts = List.replicate (indices_.length / 3) 3 ∧
    (prepare r [] indices_ points_).offsets
      = (List.range (indices_.length / 3)).map (fun (f : Nat) => 3 * (f : Int)) ∧
    (prepare r [] indices_ points_).num_indices_tri = (indices_.length : Int) ∧
    ((prepare r [] indices_ points_).counts.map (fun c => (c - 2) * 3)).sum
      = 3 * ((indices_.length / 3 : Nat) : Int) ∧
    (indices_.length % 3 = 0 →
      (prepare r [] indices_ points_).num_indices_tri
        = ((prepare r [] indices_ points_).counts.map (fun c => (c - 2) * 3)).sum) := by
  have hn : ((indices_.length : Int) / 3).toNat = indices_.length / 3 := by omega
  have hc : (prepare r [] indices_ points_).counts = List.replicate (indices_.length / 3) 3 := by
    unfold prepare
    simp only [List.isEmpty_nil, if_true]
    rw [hn, resize_nil]
  have ho : (prepare r [] indices_ points_).offsets
      = (List.range (indices_.length / 3)).map (fun (f : Nat) => 3 * (f : Int)) := by
    unfold prepare
    simp only [List.isEmpty_nil, if_true]
    rw [hn]
    exact triangleOffsets_values _
  have ht : (prepare r [] indices_ points_).num_indices_tri = (indices_.length : Int) := by
    unfold prepare
    simp only [List.isEmpty_nil, if_true]
  refine ⟨hc, ho, ht, ?_, ?_⟩
  · rw [hc, sum_tri_replicate_three]
  · intro h3
    rw [ht, hc, sum_tri_replicate_three]
    omega

/-- Witness for C13: scenario 5 of the specification, `counts = []` and
`indices = [0,1,2, 2,3,0]`. -/
theorem C13_prepare_triangle_soup_witness :
    [(0 : Int), 1, 2, 2, 3, 0].length % 3 = 0 ∧
    (prepare emptyRefiner [] [0, 1, 2, 2, 3, 0] []).counts = [3, 3] ∧
    (prepare emptyRefiner [] [0, 1, 2, 2, 3, 0] []).offsets = [0, 3] ∧
    (prepare emptyRefiner [] [0, 1, 2, 2, 3, 0] []).num_indices_tri = 6 ∧
    (prepare emptyRefiner [] [0, 1, 2, 2, 3, 0] []).num_indices_tri
      = ((prepare emptyRefiner [] [0, 1, 2, 2, 3, 0] []).counts.map (fun c => (c - 2) * 3)).sum :=
  ⟨rfl, (C13_prepare_triangle_soup emptyRefiner [0, 1, 2, 2, 3, 0] []).1,
    (C13_prepare_triangle_soup emptyRefiner [0, 1, 2, 2, 3, 0] []).2.1,
    (C13_prepare_triangle_soup emptyRefiner [0, 1, 2, 2, 3, 0] []).2.2.1,
    (C13_prepare_triangle_soup emptyRefiner [0, 1, 2, 2, 3, 0] []).2.2.2.2 rfl⟩

set_option maxRecDepth 100000 in
/-- C14 (code evaluated at the failing input). A refiner that has run one
prepare / genTangents / refine cycle on the quad, not followed by `swapNewData`, is
prepared again: the other output buffers are empty, `new_tangents` still holds the four
tangents of the previous run. -/
theorem C14_prepare_keeps_new_tangents :
    (quadCycle emptyRefiner).new_tangents.length = 4 ∧
    (prepare (quadCycle emptyRefiner) [4] [0, 1, 2, 3]
      [(0, 0, 0), (1, 0, 0), (1, 1, 0), (0, 1, 0)]).new_points = [] ∧
    (prepare (quadCycle emptyRefiner) [4] [0, 1, 2, 3]
      [(0, 0, 0), (1, 0, 0), (1, 1, 0), (0, 1, 0)]).new_normals = [] ∧
    (prepare (quadCycle emptyRefiner) [4] [0, 1, 2, 3]
      [(0, 0, 0), (1, 0, 0), (1, 1, 0), (0, 1, 0)]).new_tangents.length = 4 ∧
    (prepare (quadCycle emptyRefiner) [4] [0, 1, 2, 3]
      [(0, 0, 0), (1, 0, 0), (1, 1, 0), (0, 1, 0)]).new_tangents ≠ [] := by
  decide

end

theorem length_writeAt (buf : List Int) (pos : Int) (xs : List Int) :
    (writeAt buf pos xs).length = buf.length := by
  induction xs generalizing buf pos with
  | nil => rfl
  | cons x rest ih =>
    show (writeAt (store buf pos x) (pos + 1) rest).length = _
    rw [ih, length_store]

theorem CopyWithIndices_spec {α : Type} [Inhabited α] (dst src : List α) (indices : List Int) :
    (CopyWithIndices dst src indices).length = dst.length ∧
    ∀ k : Nat, k < indices.length → k < dst.length →
      elem (CopyWithIndices dst src indices) (k : Int) = elem src (elem indices (k : Int)) := by
  unfold CopyWithIndices
  have key := foldl_range_inv
    (fun i (d : List α) => d.length = dst.length ∧
      ∀ k : Nat, k < i → k < dst.length → elem d (k : Int) = elem src (elem indices (k : Int)))
    (fun (d : List α) (k : Nat) => store d k (elem src (elem indices k)))
    indices.length dst
    ⟨rfl, by intro k hk; omega⟩
    (by
      intro d i _ ⟨hl, hd⟩
      refine ⟨by rw [length_store]; exact hl, ?_⟩
      intro k hk hkd
      by_cases hki : k = i
      · subst hki
        rw [elem_store_same _ _ _ (by omega) (by omega)]
      · rw [elem_store_other _ _ _ _ (by omega)]
        exact hd k (by omega) hkd)
  exact key

/-- The gather into a buffer that was resized to the number of indices. -/
theorem gather_spec {α : Type} [Inhabited α] (old src : List α) (indices : List Int) :
    (CopyWithIndices (resize old indices.length default) src indices).length = indices.length ∧
    ∀ k : Nat, k < indices.length →
      elem (CopyWithIndices (resize old indices.length default) src indices) (k : Int)
        = elem src (elem indices (k : Int)) := by
  have h := CopyWithIndices_spec (resize old indices.length default) src indices
  rw [length_resize] at h
  exact ⟨h.1, fun k hk => h.2 k hk hk⟩

section

variable {F2 F3 F4 W : Type} [Inhabited F2] [Inhabited F3] [Inhabited F4] [Inhabited W]

namespace MeshRefiner

set_option linter.unusedSectionVars false

theorem flatten_false (r : MeshRefiner F2 F3 F4 W) (h : ¬ flattenCond r) :
    flatten r = (r, false) := by
  unfold flatten
  unfold flattenCond at h
  rw [if_neg h]

theorem flattenNormals_eq (r : MeshRefiner F2 F3 F4 W) :
    flattenNormals r =
      { r with
        new_normals := if expands r.normals r.indices
          then gathered r.new_normals r.normals r.indices else r.new_normals,
        normals := if expands r.normals r.indices
          then gathered r.new_normals r.normals r.indices else r.normals } := by
  unfold flattenNormals expands gathered
  by_cases h : (¬ r.normals.isEmpty = true ∧ (r.normals.length : Int) ≠ (r.indices.length : Int))
  · rw [if_pos h, if_pos h, if_pos h]
  · rw [if_neg h, if_neg h, if_neg h]

theorem flattenUV_eq (r : MeshRefiner F2 F3 F4 W) :
    flattenUV r =
      { r with
        new_uv := if expands r.uv r.indices
          then gathered r.new_uv r.uv r.indices else r.new_uv,
        uv := if expands r.uv r.indices
          then gathered r.new_uv r.uv r.indices else r.uv } := by
  unfold flattenUV expands gathered
  by_cases h : (¬ r.uv.isEmpty = true ∧ (r.uv.length : Int) ≠ (r.indices.length : Int))
  · rw [if_pos h, if_pos h, if_pos h]
  · rw [if_neg h, if_neg h, if_neg h]

theorem flattenColors_eq (r : MeshRefiner F2 F3 F4 W) :
    flattenColors r =
      { r with
        new_colors := if expands r.colors r.indices
          then gathered r.new_colors r.colors r.indices else r.new_colors } := by
  unfold flattenColors expands gathered
  by_cases h : (¬ r.colors.isEmpty = true ∧ (r.colors.length : Int) ≠ (r.indices.length : Int))
  · rw [if_pos h, if_pos h]
  · rw [if_neg h, if_neg h]

theorem flattenWeights_eq (r : MeshRefiner F2 F3 F4 W) :
    flattenWeights r =
      { r with
        new_weights4 := if expands r.weights4 r.indices
          then gathered r.new_weights4 r.weights4 r.indices else r.new_weights4,
        weights4 := if expands r.weights4 r.indices
          then gathered r.new_weights4 r.weights4 r.indices else r.weights4 } := by
  unfold flattenWeights expands gathered
  by_cases h : (¬ r.weights4.isEmpty = true
      ∧ (r.weights4.length : Int) ≠ (r.indices.length : Int))
  · rw [if_pos h, if_pos h, if_pos h]
  · rw [if_neg h, if_neg h, if_neg h]

theorem flatten_true (r : MeshRefiner F2 F3 F4 W) (h : flattenCond r) :
    flatten r =
      ({ r with
          new_points := gathered r.new_points r.points r.indices,
          points := gathered r.new_points r.points r.indices,
          new_normals := if expands r.normals r.indices
            then gathered r.new_normals r.normals r.indices else r.new_normals,
          normals := if expands r.normals r.indices
            then gathered r.new_normals r.normals r.indices else r.normals,
          new_uv := if expands r.uv r.indices
            then gathered r.new_uv r.uv r.indices else r.new_uv,
          uv := if expands r.uv r.indices
            then gathered r.new_uv r.uv r.indices else r.uv,
          new_colors := if expands r.colors r.indices
            then gathered r.new_colors r.colors r.indices else r.new_colors,
          new_weights4 := if expands r.weights4 r.indices
            then gathered r.new_weights4 r.weights4 r.indices else r.new_weights4,
          weights4 := if expands r.weights4 r.indices
            then gathered r.new_weights4 r.weights4 r.indices else r.weights4 }, true) := by
  unfold flatten
  unfold flattenCond at h
  rw [if_pos h, flattenWeights_eq, flattenColors_eq, flattenUV_eq, flattenNormals_eq]
  rfl

theorem walk_splits (counts : List Int) (swap_faces : Bool) (gs : List (Int × Int × Int))
    (st : WalkLoop) :
    (gs.foldl (walkCallback counts swap_faces) st).splits
      = st.splits ++ gs.map (fun g =>
          ({ num_faces := g.1, num_vertices := g.2.1, num_indices := g.2.1,
             num_indices_triangulated := g.2.2 } : Split)) := by
  induction gs generalizing st with
  | nil => simp
  | cons g rest ih =>
    rw [List.foldl_cons, ih]
    simp [walkCallback]

/-- The second block of `refineDumb` writes the split records and the triangulated
indices and nothing else. -/
theorem splitAndTriangulate_frame (r : MeshRefiner F2 F3 F4 W) (fl : Bool) :
    ∃ (sp : List Split) (tri : List Int),
      splitAndTriangulate r fl = { r with splits := sp, new_indices_triangulated := tri } := by
  unfold splitAndTriangulate
  by_cases h1 : (r.points.length : Int) > r.split_unit
  · simp only [h1, if_true]
    exact ⟨_, _, rfl⟩
  · simp only [h1, if_false]
    by_cases h2 : r.triangulate = true
    · simp only [h2, if_true]
      exact ⟨_, _, rfl⟩
    · simp only [h2]
      exact ⟨_, _, rfl⟩

/-- The split records written by the second block of `refineDumb`. -/
theorem splitAndTriangulate_splits (r : MeshRefiner F2 F3 F4 W) (fl : Bool) :
    (splitAndTriangulate r fl).splits =
      if (r.points.length : Int) > r.split_unit then
        (SplitGroups r.counts r.split_unit).map (fun g =>
          ({ num_faces := g.1, num_vertices := g.2.1, num_indices := g.2.1,
             num_indices_triangulated := g.2.2 } : Split))
      else if r.triangulate = true then
        [{ num_faces := r.counts.length, num_vertices := r.points.length,
           num_indices := r.indices.length,
           num_indices_triangulated := (r.num_indices_tri.toNat : Int) }]
      else [] := by
  unfold splitAndTriangulate
  by_cases h1 : (r.points.length : Int) > r.split_unit
  · simp only [h1, if_true]
    rw [walk_splits]
    rfl
  · simp only [h1, if_false]
    by_cases h2 : r.triangulate = true
    · simp only [h2, if_true]
      cases fl <;> simp [length_writeAt, length_resize]
    · simp only [h2]
      rfl

end MeshRefiner

end

section

variable {F2 F3 F4 W : Type} [Inhabited F2] [Inhabited F3] [Inhabited F4] [Inhabited W]

open MeshRefiner

set_option linter.unusedSectionVars false

theorem expands_iff {α : Type} (attr : List α) (indices : List Int) :
    expands attr indices ↔ attr ≠ [] ∧ attr.length ≠ indices.length := by
  unfold expands
  rw [List.isEmpty_iff]
  constructor
  · rintro ⟨h1, h2⟩
    exact ⟨h1, fun h => h2 (by rw [h])⟩
  · rintro ⟨h1, h2⟩
    exact ⟨h1, fun h => h2 (by exact_mod_cast h)⟩

theorem flatten_snd (r : MeshRefiner F2 F3 F4 W) :
    (flatten r).2 = true ↔ flattenCond r := by
  by_cases h : flattenCond r
  · rw [flatten_true r h]; simp [h]
  · rw [flatten_false r h]; simp [h]

theorem refineDumb_frame (r : MeshRefiner F2 F3 F4 W) :
    ∃ (sp : List Split) (tri : List Int),
      (refineDumb r).1 = { (flatten r).1 with splits := sp, new_indices_triangulated := tri } := by
  unfold refineDumb
  exact splitAndTriangulate_frame (flatten r).1 (flatten r).2

/-- The flatten step of dumb refine.  It flattens if and only if `P > split_unit` or
`|normals| = I` or `|uv| = I`.  When it flattens, `new_points` has length `I` with
`new_points[k] = points[indices[k]]`; a normals, uv or weights4 buffer that is neither
empty nor of length `I` is replaced by its gathered per-corner buffer
(`new_attr[k] = attr[indices[k]]`), and a buffer of length `I` is left untouched.  When it
does not flatten, no `new_*` attribute buffer is written. -/
theorem refineDumb_flatten (r : MeshRefiner F2 F3 F4 W) :
    ((flatten r).2 = true ↔
      ((r.points.length : Int) > r.split_unit ∨ r.normals.length = r.indices.length
        ∨ r.uv.length = r.indices.length)) ∧
    ((flatten r).2 = true →
      (refineDumb r).1.new_points.length = r.indices.length ∧
      (∀ k : Nat, k < r.indices.length →
        elem (refineDumb r).1.new_points (k : Int) = elem r.points (elem r.indices (k : Int))) ∧
      (r.normals ≠ [] → r.normals.length ≠ r.indices.length →
        (refineDumb r).1.normals = (refineDumb r).1.new_normals ∧
        (refineDumb r).1.new_normals.length = r.indices.length ∧
        ∀ k : Nat, k < r.indices.length →
          elem (refineDumb r).1.new_normals (k : Int) = elem r.normals (elem r.indices (k : Int))) ∧
      (r.uv ≠ [] → r.uv.length ≠ r.indices.length →
        (refineDumb r).1.uv = (refineDumb r).1.new_uv ∧
        (refineDumb r).1.new_uv.length = r.indices.length ∧
        ∀ k : Nat, k < r.indices.length →
          elem (refineDumb r).1.new_uv (k : Int) = elem r.uv (elem r.indices (k : Int))) ∧
      (r.weights4 ≠ [] → r.weights4.length ≠ r.indices.length →
        (refineDumb r).1.weights4 = (refineDumb r).1.new_weights4 ∧
        (refineDumb r).1.new_weights4.length = r.indices.length ∧
        ∀ k : Nat, k < r.indices.length →
          elem (refineDumb r).1.new_weights4 (k : Int)
            = elem r.weights4 (elem r.indices (k : Int))) ∧
      (r.normals.length = r.indices.length →
        (refineDumb r).1.normals = r.normals ∧ (refineDumb r).1.new_normals = r.new_normals) ∧
      (r.uv.length = r.indices.length →
        (refineDumb r).1.uv = r.uv ∧ (refineDumb r).1.new_uv = r.new_uv) ∧
      (r.colors.length = r.indices.length →
        (refineDumb r).1.colors = r.colors ∧ (refineDumb r).1.new_colors = r.new_colors) ∧
      (r.weights4.length = r.indices.length →
        (refineDumb r).1.weights4 = r.weights4 ∧
        (refineDumb r).1.new_weights4 = r.new_weights4)) ∧
    ((flatten r).2 = false →
      (refineDumb r).1.new_points = r.new_points ∧
      (refineDumb r).1.new_normals = r.new_normals ∧
      (refineDumb r).1.new_tangents = r.new_tangents ∧
      (refineDumb r).1.new_uv = r.new_uv ∧
      (refineDumb r).1.new_colors = r.new_colors ∧
      (refineDumb r).1.new_weights4 = r.new_weights4) := by
  obtain ⟨sp, tri, hrd⟩ := refineDumb_frame r
  refine ⟨?_, ?_, ?_⟩
  · rw [flatten_snd]
    unfold flattenCond
    constructor
    · rintro (h | h | h)
      · exact Or.inl h
      · exact Or.inr (Or.inl (by exact_mod_cast h))
      · exact Or.inr (Or.inr (by exact_mod_cast h))
    · rintro (h | h | h)
      · exact Or.inl h
      · exact Or.inr (Or.inl (by rw [h]))
      · exact Or.inr (Or.inr (by rw [h]))
  · intro hfl
    have hc : flattenCond r := (flatten_snd r).mp hfl
    rw [hrd, flatten_true r hc]
    have gp := gather_spec r.new_points r.points r.indices
    have gn := gather_spec r.new_normals r.normals r.indices
    have gu := gather_spec r.new_uv r.uv r.indices
    have gw := gather_spec r.new_weights4 r.weights4 r.indices
    refine ⟨gp.1, gp.2, ?_, ?_, ?_, ?_, ?_, ?_, ?_⟩
    · intro h1 h2
      have he : expands r.normals r.indices := (expands_iff _ _).mpr ⟨h1, h2⟩
      simp only [if_pos he]
      exact ⟨by first | rfl | trivial, gn.1, gn.2⟩
    · intro h1 h2
      have he : expands r.uv r.indices := (expands_iff _ _).mpr ⟨h1, h2⟩
      simp only [if_pos he]
      exact ⟨by first | rfl | trivial, gu.1, gu.2⟩
    · intro h1 h2
      have he : expands r.weights4 r.indices := (expands_iff _ _).mpr ⟨h1, h2⟩
      simp only [if_pos he]
      exact ⟨by first | rfl | trivial, gw.1, gw.2⟩
    · intro h1
      have he : ¬ expands r.normals r.indices := fun h => ((expands_iff _ _).mp h).2 h1
      simp only [if_neg he]
      exact ⟨by first | rfl | trivial, by first | rfl | trivial⟩
    · intro h1
      have he : ¬ expands r.uv r.indices := fun h => ((expands_iff _ _).mp h).2 h1
      simp only [if_neg he]
      exact ⟨by first | rfl | trivial, by first | rfl | trivial⟩
    · intro h1
      have he : ¬ expands r.colors r.indices := fun h => ((expands_iff _ _).mp h).2 h1
      simp only [if_neg he]
      exact ⟨by first | rfl | trivial, by first | rfl | trivial⟩
    · intro h1
      have he : ¬ expands r.weights4 r.indices := fun h => ((expands_iff _ _).mp h).2 h1
      simp only [if_neg he]
      exact ⟨by first | rfl | trivial, by first | rfl | trivial⟩
  · intro hfl
    have hc : ¬ flattenCond r := by
      intro h
      rw [(flatten_snd r).mpr h] at hfl
      exact Bool.noConfusion hfl
    rw [hrd, flatten_false r hc]
    exact ⟨rfl, rfl, rfl, rfl, rfl, rfl⟩

set_option maxRecDepth 100000 in
/-- The fan of four triangles (6 points, 12 indices, one normal per point,
`split_unit = 0`) is flattened and its normals are gathered. -/
theorem refineDumb_flatten_fan :
    (flatten fanMesh).2 = true ∧ fanMesh.normals ≠ [] ∧
    fanMesh.normals.length ≠ fanMesh.indices.length ∧
    ((refineDumb fanMesh).1.normals = (refineDumb fanMesh).1.new_normals ∧
      (refineDumb fanMesh).1.new_normals.length = fanMesh.indices.length ∧
      ∀ k : Nat, k < fanMesh.indices.length →
        elem (refineDumb fanMesh).1.new_normals (k : Int)
          = elem fanMesh.normals (elem fanMesh.indices (k : Int))) :=
  ⟨by decide, by decide, by decide,
    ((refineDumb_flatten fanMesh).2.1 (by decide)).2.2.1 (by decide) (by decide)⟩

set_option maxRecDepth 100000 in
/-- C15 (code evaluated at the failing input). Dumb refine of one triangle with corners
`1, 2, 0` and the per-vertex weights `[10, 11, 12]` (`P = I = 3`, `split_unit = 0`)
flattens the mesh: the points are gathered, `new_points[k] = points[indices[k]]`, and
reassigned, while the test `weights4.size() != num_indices` of line 244 skips the
weights, so `weights4` still is `[10, 11, 12]`, `new_weights4` is empty, and corner 0,
which holds point 1, carries the weight of point 0. -/
theorem C15_dumb_weights_not_gathered :
    (flatten tieWeights).2 = true ∧
    tieWeights.weights4.length = tieWeights.points.length ∧
    (refineDumb tieWeights).1.new_points = [(1, 0, 0), (0, 1, 0), (0, 0, 0)] ∧
    (refineDumb tieWeights).1.points = (refineDumb tieWeights).1.new_points ∧
    (refineDumb tieWeights).1.weights4 = [10, 11, 12] ∧
    (refineDumb tieWeights).1.new_weights4 = [] ∧
    elem (refineDumb tieWeights).1.weights4 0 = 10 ∧
    elem tieWeights.weights4 (elem tieWeights.indices 0) = 11 := by
  have h := ((refineDumb_flatten tieWeights).2.1 (by decide)).2.2.2.2.2.2.2.2 (by decide)
  exact ⟨by decide, by decide, by decide, by decide, by rw [h.1]; rfl, by rw [h.2]; rfl,
    by decide, by decide⟩

theorem flatten_points_length (r : MeshRefiner F2 F3 F4 W) :
    ((flatten r).1.points.length : Int)
      = if (flatten r).2 = true then (r.indices.length : Int) else (r.points.length : Int) := by
  by_cases h : flattenCond r
  · rw [flatten_true r h]
    simp only [if_true]
    exact congrArg Nat.cast (gather_spec r.new_points r.points r.indices).1
  · rw [flatten_false r h]
    simp

theorem flatten_inputs (r : MeshRefiner F2 F3 F4 W) :
    (flatten r).1.counts = r.counts ∧ (flatten r).1.indices = r.indices ∧
    (flatten r).1.split_unit = r.split_unit ∧ (flatten r).1.triangulate = r.triangulate ∧
    (flatten r).1.num_indices_tri = r.num_indices_tri := by
  by_cases h : flattenCond r
  · rw [flatten_true r h]
    exact ⟨rfl, rfl, rfl, rfl, rfl⟩
  · rw [flatten_false r h]
    exact ⟨rfl, rfl, rfl, rfl, rfl⟩

/-- C16, as amended. Dumb refine decides between its two output paths on the point
count after the flatten step, which is `I` when it flattened and `P` otherwise: when
that count exceeds `split_unit` the split records are those the walker of `mu::Split`
hands to the callback (with `num_indices = num_vertices`); otherwise, if `triangulate` is
set, there is exactly one split covering the whole mesh (`num_faces = F`,
`num_indices = I`, `num_indices_triangulated = num_indices_tri`); otherwise none. -/
theorem C16_dumb_split_paths (r : MeshRefiner F2 F3 F4 W) (htri : 0 ≤ r.num_indices_tri) :
    (refineDumb r).1.splits =
      if (if (flatten r).2 = true then (r.indices.length : Int) else (r.points.length : Int))
          > r.split_unit then
        (SplitGroups r.counts r.split_unit).map (fun g =>
          ({ num_faces := g.1, num_vertices := g.2.1, num_indices := g.2.1,
             num_indices_triangulated := g.2.2 } : Split))
      else if r.triangulate = true then
        [{ num_faces := r.counts.length,
           num_vertices :=
             if (flatten r).2 = true then (r.indices.length : Int) else (r.points.length : Int),
           num_indices := r.indices.length,
           num_indices_triangulated := r.num_indices_tri }]
      else [] := by
  unfold refineDumb
  rw [splitAndTriangulate_splits, flatten_points_length]
  obtain ⟨h1, h2, h3, h4, h5⟩ := flatten_inputs r
  rw [h1, h2, h3, h4, h5, Int.toNat_of_nonneg htri]

set_option maxRecDepth 100000 in
/-- Witness for C16: the quad of scenario 1 with `split_unit = 10` is not flattened and
gets one split covering the whole mesh. -/
theorem C16_dumb_split_paths_witness :
    0 ≤ ({ quadMesh with split_unit := 10 } :
        MeshRefiner (Int × Int) (Int × Int × Int) (Int × Int × Int × Int) Int).num_indices_tri ∧
    (refineDumb { quadMesh with split_unit := 10 }).1.splits
      = [{ num_faces := 1, num_vertices := 4, num_indices := 4, num_indices_triangulated := 6 }] :=
  ⟨by decide, (C16_dumb_split_paths { quadMesh with split_unit := 10 } (by decide)).trans
    (by decide)⟩

set_option maxRecDepth 100000 in
/-- Counterexample to C16 as stated: on two triangles with per-corner normals and
`split_unit = 4` the point count `P = 4` does not exceed `split_unit` and `triangulate` is
set, yet dumb refine runs the walker on the flattened count `I = 6` and emits two splits
of one face each instead of one split covering the mesh. -/
theorem C16_counterexample :
    ¬ ((seamQuad.points.length : Int) > seamQuad.split_unit) ∧
    seamQuad.triangulate = true ∧
    (refineDumb seamQuad).1.splits
      = [{ num_faces := 1, num_vertices := 3, num_indices := 3, num_indices_triangulated := 3 },
         { num_faces := 1, num_vertices := 3, num_indices := 3, num_indices_triangulated := 3 }] ∧
    (refineDumb seamQuad).1.splits.length ≠ 1 := by
  decide

end

section

variable {F2 F3 F4 W : Type} [Inhabited F2] [Inhabited F3] [Inhabited F4] [Inhabited W]

namespace MeshRefiner

set_option linter.unusedSectionVars false

/-- A branch of `refineWithOptimization` applies only when the normals and the texture
coordinates, if present, and the colours, if compared, have length `P` or `I`. -/
theorem dispatch_valid (r : MeshRefiner F2 F3 F4 W) (d : Profile) (h : dispatch r = some d) :
    (r.normals.isEmpty = true ∨ (r.normals.length : Int) = (r.points.length : Int)
      ∨ (r.normals.length : Int) = (r.indices.length : Int)) ∧
    (r.uv.isEmpty = true ∨ (r.uv.length : Int) = (r.points.length : Int)
      ∨ (r.uv.length : Int) = (r.indices.length : Int)) ∧
    (comparesColors r = true → (r.colors.length : Int) = (r.points.length : Int)
      ∨ (r.colors.length : Int) = (r.indices.length : Int)) := by
  unfold dispatch at h
  unfold comparesColors
  dsimp only at h
  by_cases hU : ¬ r.uv.isEmpty = true
  · rw [if_pos hU] at h
    by_cases hN : ¬ r.normals.isEmpty = true
    · rw [if_pos hN] at h
      by_cases hT : ¬ r.tangents_tmp.isEmpty = true
      · rw [if_pos hT] at h
        by_cases hC : ¬ r.colors.isEmpty = true
        · rw [if_pos hC] at h
          by_cases h0 : (r.normals.length : Int) = (r.indices.length : Int) ∧ (r.uv.length : Int) = (r.indices.length : Int) ∧ (r.colors.length : Int) = (r.indices.length : Int)
          · rw [if_pos h0] at h
            (clear h; simp_all)
          · rw [if_neg h0] at h
            by_cases h1 : (r.normals.length : Int) = (r.indices.length : Int) ∧ (r.uv.length : Int) = (r.indices.length : Int) ∧ (r.colors.length : Int) = (r.points.length : Int)
            · rw [if_pos h1] at h
              (clear h; simp_all)
            · rw [if_neg h1] at h
              by_cases h2 : (r.normals.length : Int) = (r.indices.length : Int) ∧ (r.uv.length : Int) = (r.points.length : Int) ∧ (r.colors.length : Int) = (r.indices.length : Int)
              · rw [if_pos h2] at h
                (clear h; simp_all)
              · rw [if_neg h2] at h
                by_cases h3 : (r.normals.length : Int) = (r.indices.length : Int) ∧ (r.uv.length : Int) = (r.points.length : Int) ∧ (r.colors.length : Int) = (r.points.length : Int)
                · rw [if_pos h3] at h
                  (clear h; simp_all)
                · rw [if_neg h3] at h
                  by_cases h4 : (r.normals.length : Int) = (r.points.length : Int) ∧ (r.uv.length : Int) = (r.indices.length : Int) ∧ (r.colors.length : Int) = (r.indices.length : Int)
                  · rw [if_pos h4] at h
                    (clear h; simp_all)
                  · rw [if_neg h4] at h
                    by_cases h5 : (r.normals.length : Int) = (r.points.length : Int) ∧ (r.uv.length : Int) = (r.indices.length : Int) ∧ (r.colors.length : Int) = (r.points.length : Int)
                    · rw [if_pos h5] at h
                      (clear h; simp_all)
                    · rw [if_neg h5] at h
                      by_cases h6 : (r.normals.length : Int) = (r.points.length : Int) ∧ (r.uv.length : Int) = (r.points.length : Int) ∧ (r.colors.length : Int) = (r.indices.length : Int)
                      · rw [if_pos h6] at h
                        (clear h; simp_all)
                      · rw [if_neg h6] at h
                        by_cases h7 : (r.normals.length : Int) = (r.points.length : Int) ∧ (r.uv.length : Int) = (r.points.length : Int) ∧ (r.colors.length : Int) = (r.points.length : Int)
                        · rw [if_pos h7] at h
                          (clear h; simp_all)
                        · rw [if_neg h7] at h
                          exact absurd h (by simp)
        · rw [if_neg hC] at h
          by_cases h0 : (r.normals.length : Int) = (r.indices.length : Int) ∧ (r.uv.length : Int) = (r.indices.length : Int)
          · rw [if_pos h0] at h
            (clear h; simp_all)
          · rw [if_neg h0] at h
            by_cases h1 : (r.normals.length : Int) = (r.indices.length : Int) ∧ (r.uv.length : Int) = (r.points.length : Int)
            · rw [if_pos h1] at h
              (clear h; simp_all)
            · rw [if_neg h1] at h
              by_cases h2 : (r.normals.length : Int) = (r.points.length : Int) ∧ (r.uv.length : Int) = (r.indices.length : Int)
              · rw [if_pos h2] at h
                (clear h; simp_all)
              · rw [if_neg h2] at h
                by_cases h3 : (r.normals.length : Int) = (r.points.length : Int) ∧ (r.uv.length : Int) = (r.points.length : Int)
                · rw [if_pos h3] at h
                  (clear h; simp_all)
                · rw [if_neg h3] at h
                  exact absurd h (by simp)
      · rw [if_neg hT] at h
        by_cases h0 : (r.normals.length : Int) = (r.indices.length : Int) ∧ (r.uv.length : Int) = (r.indices.length : Int)
        · rw [if_pos h0] at h
          (clear h; simp_all)
        · rw [if_neg h0] at h
          by_cases h1 : (r.normals.length : Int) = (r.indices.length : Int) ∧ (r.uv.length : Int) = (r.points.length : Int)
          · rw [if_pos h1] at h
            (clear h; simp_all)
          · rw [if_neg h1] at h
            by_cases h2 : (r.normals.length : Int) = (r.points.length : Int) ∧ (r.uv.length : Int) = (r.indices.length : Int)
            · rw [if_pos h2] at h
              (clear h; simp_all)
            · rw [if_neg h2] at h
              by_cases h3 : (r.normals.length : Int) = (r.points.length : Int) ∧ (r.uv.length : Int) = (r.points.length : Int)
              · rw [if_pos h3] at h
                (clear h; simp_all)
              · rw [if_neg h3] at h
                exact absurd h (by simp)
    · rw [if_neg hN] at h
      by_cases h0 : (r.uv.length : Int) = (r.indices.length : Int)
      · rw [if_pos h0] at h
        (clear h; simp_all)
      · rw [if_neg h0] at h
        by_cases h1 : (r.uv.length : Int) = (r.points.length : Int)
        · rw [if_pos h1] at h
          (clear h; simp_all)
        · rw [if_neg h1] at h
          exact absurd h (by simp)
  · rw [if_neg hU] at h
    by_cases h0 : (r.normals.length : Int) = (r.indices.length : Int)
    · rw [if_pos h0] at h
      (clear h; simp_all)
    · rw [if_neg h0] at h
      by_cases h1 : (r.normals.length : Int) = (r.points.length : Int)
      · rw [if_pos h1] at h
        (clear h; simp_all)
      · rw [if_neg h1] at h
        exact absurd h (by simp)

end MeshRefiner

end

section

variable {F2 F3 F4 W : Type} [Inhabited F2] [Inhabited F3] [Inhabited F4] [Inhabited W]

open MeshRefiner

set_option linter.unusedSectionVars false

theorem swapPoints_eq (s : MeshRefiner F2 F3 F4 W × SwapTargets F2 F3 F4 W) :
    swapPoints s =
      ({ s.1 with new_points := if s.1.new_points.isEmpty then s.1.new_points else s.2.p },
       { s.2 with p := if s.1.new_points.isEmpty then s.2.p else s.1.new_points }) := by
  unfold swapPoints
  by_cases h : s.1.new_points.isEmpty = true <;> simp [h]

theorem swapNormals_eq (s : MeshRefiner F2 F3 F4 W × SwapTargets F2 F3 F4 W) :
    swapNormals s =
      ({ s.1 with
          new_normals := if s.1.new_normals.isEmpty then s.1.new_normals else s.2.n,
          normals_tmp := if s.1.new_normals.isEmpty then
              (if s.1.normals_tmp.isEmpty then s.1.normals_tmp else s.2.n)
            else s.1.normals_tmp },
       { s.2 with n := if s.1.new_normals.isEmpty then
              (if s.1.normals_tmp.isEmpty then s.2.n else s.1.normals_tmp)
            else s.1.new_normals }) := by
  unfold swapNormals
  by_cases h : s.1.new_normals.isEmpty = true <;>
    by_cases h' : s.1.normals_tmp.isEmpty = true <;> simp [h, h']

theorem swapTangents_eq (s : MeshRefiner F2 F3 F4 W × SwapTargets F2 F3 F4 W) :
    swapTangents s =
      ({ s.1 with
          new_tangents := if s.1.new_tangents.isEmpty then s.1.new_tangents else s.2.t,
          tangents_tmp := if s.1.new_tangents.isEmpty then
              (if s.1.tangents_tmp.isEmpty then s.1.tangents_tmp else s.2.t)
            else s.1.tangents_tmp },
       { s.2 with t := if s.1.new_tangents.isEmpty then
              (if s.1.tangents_tmp.isEmpty then s.2.t else s.1.tangents_tmp)
            else s.1.new_tangents }) := by
  unfold swapTangents
  by_cases h : s.1.new_tangents.isEmpty = true <;>
    by_cases h' : s.1.tangents_tmp.isEmpty = true <;> simp [h, h']

theorem swapUV_eq (s : MeshRefiner F2 F3 F4 W × SwapTargets F2 F3 F4 W) :
    swapUV s =
      ({ s.1 with new_uv := if s.1.new_uv.isEmpty then s.1.new_uv else s.2.u },
       { s.2 with u := if s.1.new_uv.isEmpty then s.2.u else s.1.new_uv }) := by
  unfold swapUV
  by_cases h : s.1.new_uv.isEmpty = true <;> simp [h]

theorem swapColors_eq (s : MeshRefiner F2 F3 F4 W × SwapTargets F2 F3 F4 W) :
    swapColors s =
      ({ s.1 with new_colors := if s.1.new_colors.isEmpty then s.1.new_colors else s.2.c },
       { s.2 with c := if s.1.new_colors.isEmpty then s.2.c else s.1.new_colors }) := by
  unfold swapColors
  by_cases h : s.1.new_colors.isEmpty = true <;> simp [h]

theorem swapWeights_eq (s : MeshRefiner F2 F3 F4 W × SwapTargets F2 F3 F4 W) :
    swapWeights s =
      ({ s.1 with
          new_weights4 := if s.1.new_weights4.isEmpty then s.1.new_weights4 else s.2.w },
       { s.2 with w := if s.1.new_weights4.isEmpty then s.2.w else s.1.new_weights4 }) := by
  unfold swapWeights
  by_cases h : s.1.new_weights4.isEmpty = true <;> simp [h]

theorem swapIndices_eq (s : MeshRefiner F2 F3 F4 W × SwapTargets F2 F3 F4 W) :
    swapIndices s =
      ({ s.1 with
          new_indices_submeshes :=
            if s.1.new_indices_submeshes.isEmpty then s.1.new_indices_submeshes else s.2.idx,
          new_indices_triangulated := if s.1.new_indices_submeshes.isEmpty then
              (if s.1.new_indices_triangulated.isEmpty then s.1.new_indices_triangulated
                else s.2.idx)
            else s.1.new_indices_triangulated },
       { s.2 with idx := if s.1.new_indices_submeshes.isEmpty then
              (if s.1.new_indices_triangulated.isEmpty then s.2.idx
                else s.1.new_indices_triangulated)
            else s.1.new_indices_submeshes }) := by
  unfold swapIndices
  by_cases h : s.1.new_indices_submeshes.isEmpty = true <;>
    by_cases h' : s.1.new_indices_triangulated.isEmpty = true <;> simp [h, h']

/-- What `swapPoints` leaves alone and what it hands to its destination. -/
theorem swapPoints_frame (s : MeshRefiner F2 F3 F4 W × SwapTargets F2 F3 F4 W) :
    (swapPoints s).1.new_normals = s.1.new_normals ∧
    (swapPoints s).1.normals_tmp = s.1.normals_tmp ∧
    (swapPoints s).1.new_tangents = s.1.new_tangents ∧
    (swapPoints s).1.tangents_tmp = s.1.tangents_tmp ∧
    (swapPoints s).1.new_uv = s.1.new_uv ∧
    (swapPoints s).1.new_colors = s.1.new_colors ∧
    (swapPoints s).1.new_weights4 = s.1.new_weights4 ∧
    (swapPoints s).1.new_indices_submeshes = s.1.new_indices_submeshes ∧
    (swapPoints s).1.new_indices_triangulated = s.1.new_indices_triangulated ∧
    (swapPoints s).2.p = (if s.1.new_points.isEmpty then s.2.p else s.1.new_points) ∧
    (swapPoints s).2.n = s.2.n ∧
    (swapPoints s).2.t = s.2.t ∧
    (swapPoints s).2.u = s.2.u ∧
    (swapPoints s).2.c = s.2.c ∧
    (swapPoints s).2.w = s.2.w ∧
    (swapPoints s).2.idx = s.2.idx := by
  rw [swapPoints_eq]
  exact ⟨rfl, rfl, rfl, rfl, rfl, rfl, rfl, rfl, rfl, rfl, rfl, rfl, rfl, rfl, rfl, rfl⟩

/-- What `swapNormals` leaves alone and what it hands to its destination. -/
theorem swapNormals_frame (s : MeshRefiner F2 F3 F4 W × SwapTargets F2 F3 F4 W) :
    (swapNormals s).1.new_points = s.1.new_points ∧
    (swapNormals s).1.new_tangents = s.1.new_tangents ∧
    (swapNormals s).1.tangents_tmp = s.1.tangents_tmp ∧
    (swapNormals s).1.new_uv = s.1.new_uv ∧
    (swapNormals s).1.new_colors = s.1.new_colors ∧
    (swapNormals s).1.new_weights4 = s.1.new_weights4 ∧
    (swapNormals s).1.new_indices_submeshes = s.1.new_indices_submeshes ∧
    (swapNormals s).1.new_indices_triangulated = s.1.new_indices_triangulated ∧
    (swapNormals s).2.p = s.2.p ∧
    (swapNormals s).2.n = (if s.1.new_normals.isEmpty then (if s.1.normals_tmp.isEmpty then s.2.n else s.1.normals_tmp) else s.1.new_normals) ∧
    (swapNormals s).2.t = s.2.t ∧
    (swapNormals s).2.u = s.2.u ∧
    (swapNormals s).2.c = s.2.c ∧
    (swapNormals s).2.w = s.2.w ∧
    (swapNormals s).2.idx = s.2.idx := by
  rw [swapNormals_eq]
  exact ⟨rfl, rfl, rfl, rfl, rfl, rfl, rfl, rfl, rfl, rfl, rfl, rfl, rfl, rfl, rfl⟩

/-- What `swapTangents` leaves alone and what it hands to its destination. -/
theorem swapTangents_frame (s : MeshRefiner F2 F3 F4 W × SwapTargets F2 F3 F4 W) :
    (swapTangents s).1.new_points = s.1.new_points ∧
    (swapTangents s).1.new_normals = s.1.new_normals ∧
    (swapTangents s).1.normals_tmp = s.1.normals_tmp ∧
    (swapTangents s).1.new_uv = s.1.new_uv ∧
    (swapTangents s).1.new_colors = s.1.new_colors ∧
    (swapTangents s).1.new_weights4 = s.1.new_weights4 ∧
    (swapTangents s).1.new_indices_submeshes = s.1.new_indices_submeshes ∧
    (swapTangents s).1.new_indices_triangulated = s.1.new_indices_triangulated ∧
    (swapTangents s).2.p = s.2.p ∧
    (swapTangents s).2.n = s.2.n ∧
    (swapTangents s).2.t = (if s.1.new_tangents.isEmpty then (if s.1.tangents_tmp.isEmpty then s.2.t else s.1.tangents_tmp) else s.1.new_tangents) ∧
    (swapTangents s).2.u = s.2.u ∧
    (swapTangents s).2.c = s.2.c ∧
    (swapTangents s).2.w = s.2.w ∧
    (swapTangents s).2.idx = s.2.idx := by
  rw [swapTangents_eq]
  exact ⟨rfl, rfl, rfl, rfl, rfl, rfl, rfl, rfl, rfl, rfl, rfl, rfl, rfl, rfl, rfl⟩

/-- What `swapUV` leaves alone and what it hands to its destination. -/
theorem swapUV_frame (s : MeshRefiner F2 F3 F4 W × SwapTargets F2 F3 F4 W) :
    (swapUV s).1.new_points = s.1.new_points ∧
    (swapUV s).1.new_normals = s.1.new_normals ∧
    (swapUV s).1.normals_tmp = s.1.normals_tmp ∧
    (swapUV s).1.new_tangents = s.1.new_tangents ∧
    (swapUV s).1.tangents_tmp = s.1.tangents_tmp ∧
    (swapUV s).1.new_colors = s.1.new_colors ∧
    (swapUV s).1.new_weights4 = s.1.new_weights4 ∧
    (swapUV s).1.new_indices_submeshes = s.1.new_indices_submeshes ∧
    (swapUV s).1.new_indices_triangulated = s.1.new_indices_triangulated ∧
    (swapUV s).2.p = s.2.p ∧
    (swapUV s).2.n = s.2.n ∧
    (swapUV s).2.t = s.2.t ∧
    (swapUV s).2.u = (if s.1.new_uv.isEmpty then s.2.u else s.1.new_uv) ∧
    (swapUV s).2.c = s.2.c ∧
    (swapUV s).2.w = s.2.w ∧
    (swapUV s).2.idx = s.2.idx := by
  rw [swapUV_eq]
  exact ⟨rfl, rfl, rfl, rfl, rfl, rfl, rfl, rfl, rfl, rfl, rfl, rfl, rfl, rfl, rfl, rfl⟩

/-- What `swapColors` leaves alone and what it hands to its destination. -/
theorem swapColors_frame (s : MeshRefiner F2 F3 F4 W × SwapTargets F2 F3 F4 W) :
    (swapColors s).1.new_points = s.1.new_points ∧
    (swapColors s).1.new_normals = s.1.new_normals ∧
    (swapColors s).1.normals_tmp = s.1.normals_tmp ∧
    (swapColors s).1.new_tangents = s.1.new_tangents ∧
    (swapColors s).1.tangents_tmp = s.1.tangents_tmp ∧
    (swapColors s).1.new_uv = s.1.new_uv ∧
    (swapColors s).1.new_weights4 = s.1.new_weights4 ∧
    (swapColors s).1.new_indices_submeshes = s.1.new_indices_submeshes ∧
    (swapColors s).1.new_indices_triangulated = s.1.new_indices_triangulated ∧
    (swapColors s).2.p = s.2.p ∧
    (swapColors s).2.n = s.2.n ∧
    (swapColors s).2.t = s.2.t ∧
    (swapColors s).2.u = s.2.u ∧
    (swapColors s).2.c = (if s.1.new_colors.isEmpty then s.2.c else s.1.new_colors) ∧
    (swapColors s).2.w = s.2.w ∧
    (swapColors s).2.idx = s.2.idx := by
  rw [swapColors_eq]
  exact ⟨rfl, rfl, rfl, rfl, rfl, rfl, rfl, rfl, rfl, rfl, rfl, rfl, rfl, rfl, rfl, rfl⟩

/-- What `swapWeights` leaves alone and what it hands to its destination. -/
theorem swapWeights_frame (s : MeshRefiner F2 F3 F4 W × SwapTargets F2 F3 F4 W) :
    (swapWeights s).1.new_points = s.1.new_points ∧
    (swapWeights s).1.new_normals = s.1.new_normals ∧
    (swapWeights s).1.normals_tmp = s.1.normals_tmp ∧
    (swapWeights s).1.new_tangents = s.1.new_tangents ∧
    (swapWeights s).1.tangents_tmp = s.1.tangents_tmp ∧
    (swapWeights s).1.new_uv = s.1.new_uv ∧
    (swapWeights s).1.new_colors = s.1.new_colors ∧
    (swapWeights s).1.new_indices_submeshes = s.1.new_indices_submeshes ∧
    (swapWeights s).1.new_indices_triangulated = s.1.new_indices_triangulated ∧
    (swapWeights s).2.p = s.2.p ∧
    (swapWeights s).2.n = s.2.n ∧
    (swapWeights s).2.t = s.2.t ∧
    (swapWeights s).2.u = s.2.u ∧
    (swapWeights s).2.c = s.2.c ∧
    (swapWeights s).2.w = (if s.1.new_weights4.isEmpty then s.2.w else s.1.new_weights4) ∧
    (swapWeights s).2.idx = s.2.idx := by
  rw [swapWeights_eq]
  exact ⟨rfl, rfl, rfl, rfl, rfl, rfl, rfl, rfl, rfl, rfl, rfl, rfl, rfl, rfl, rfl, rfl⟩

/-- What `swapIndices` leaves alone and what it hands to its destination. -/
theorem swapIndices_frame (s : MeshRefiner F2 F3 F4 W × SwapTargets F2 F3 F4 W) :
    (swapIndices s).1.new_points = s.1.new_points ∧
    (swapIndices s).1.new_normals = s.1.new_normals ∧
    (swapIndices s).1.normals_tmp = s.1.normals_tmp ∧
    (swapIndices s).1.new_tangents = s.1.new_tangents ∧
    (swapIndices s).1.tangents_tmp = s.1.tangents_tmp ∧
    (swapIndices s).1.new_uv = s.1.new_uv ∧
    (swapIndices s).1.new_colors = s.1.new_colors ∧
    (swapIndices s).1.new_weights4 = s.1.new_weights4 ∧
    (swapIndices s).2.p = s.2.p ∧
    (swapIndices s).2.n = s.2.n ∧
    (swapIndices s).2.t = s.2.t ∧
    (swapIndices s).2.u = s.2.u ∧
    (swapIndices s).2.c = s.2.c ∧
    (swapIndices s).2.w = s.2.w ∧
    (swapIndices s).2.idx = (if s.1.new_indices_submeshes.isEmpty then (if s.1.new_indices_triangulated.isEmpty then s.2.idx else s.1.new_indices_triangulated) else s.1.new_indices_submeshes) := by
  rw [swapIndices_eq]
  exact ⟨rfl, rfl, rfl, rfl, rfl, rfl, rfl, rfl, rfl, rfl, rfl, rfl, rfl, rfl, rfl⟩

/-- C17. The destinations after `swapNewData`: the index destination receives
`new_indices_submeshes` if it is non-empty, otherwise `new_indices_triangulated` if that
is non-empty; the normal destination receives `new_normals` if non-empty, otherwise
`normals_tmp` if non-empty; the tangent destination receives `new_tangents` if non-empty,
otherwise `tangents_tmp` if non-empty; points, uv, colours and weights receive their
`new_*` buffer if non-empty; a destination whose candidate sources are all empty keeps its
content. -/
theorem C17_swap_preferences (r : MeshRefiner F2 F3 F4 W) (d : SwapTargets F2 F3 F4 W) :
    (swapNewData r d).2.idx =
      (if r.new_indices_submeshes.isEmpty then
        (if r.new_indices_triangulated.isEmpty then d.idx else r.new_indices_triangulated)
       else r.new_indices_submeshes) ∧
    (swapNewData r d).2.n =
      (if r.new_normals.isEmpty then (if r.normals_tmp.isEmpty then d.n else r.normals_tmp)
       else r.new_normals) ∧
    (swapNewData r d).2.t =
      (if r.new_tangents.isEmpty then (if r.tangents_tmp.isEmpty then d.t else r.tangents_tmp)
       else r.new_tangents) ∧
    (swapNewData r d).2.p = (if r.new_points.isEmpty then d.p else r.new_points) ∧
    (swapNewData r d).2.u = (if r.new_uv.isEmpty then d.u else r.new_uv) ∧
    (swapNewData r d).2.c = (if r.new_colors.isEmpty then d.c else r.new_colors) ∧
    (swapNewData r d).2.w = (if r.new_weights4.isEmpty then d.w else r.new_weights4) := by
  unfold swapNewData
  obtain ⟨h0_new_normals, h0_normals_tmp, h0_new_tangents, h0_tangents_tmp, h0_new_uv, h0_new_colors, h0_new_weights4, h0_new_indices_submeshes, h0_new_indices_triangulated, h0_p, h0_n, h0_t, h0_u, h0_c, h0_w, h0_idx⟩ := swapPoints_frame (r, d)
  generalize swapPoints (r, d) = s0 at *
  obtain ⟨h1_new_points, h1_new_tangents, h1_tangents_tmp, h1_new_uv, h1_new_colors, h1_new_weights4, h1_new_indices_submeshes, h1_new_indices_triangulated, h1_p, h1_n, h1_t, h1_u, h1_c, h1_w, h1_idx⟩ := swapNormals_frame s0
  generalize swapNormals s0 = s1 at *
  obtain ⟨h2_new_points, h2_new_normals, h2_normals_tmp, h2_new_uv, h2_new_colors, h2_new_weights4, h2_new_indices_submeshes, h2_new_indices_triangulated, h2_p, h2_n, h2_t, h2_u, h2_c, h2_w, h2_idx⟩ := swapTangents_frame s1
  generalize swapTangents s1 = s2 at *
  obtain ⟨h3_new_points, h3_new_normals, h3_normals_tmp, h3_new_tangents, h3_tangents_tmp, h3_new_colors, h3_new_weights4, h3_new_indices_submeshes, h3_new_indices_triangulated, h3_p, h3_n, h3_t, h3_u, h3_c, h3_w, h3_idx⟩ := swapUV_frame s2
  generalize swapUV s2 = s3 at *
  obtain ⟨h4_new_points, h4_new_normals, h4_normals_tmp, h4_new_tangents, h4_tangents_tmp, h4_new_uv, h4_new_weights4, h4_new_indices_submeshes, h4_new_indices_triangulated, h4_p, h4_n, h4_t, h4_u, h4_c, h4_w, h4_idx⟩ := swapColors_frame s3
  generalize swapColors s3 = s4 at *
  obtain ⟨h5_new_points, h5_new_normals, h5_normals_tmp, h5_new_tangents, h5_tangents_tmp, h5_new_uv, h5_new_colors, h5_new_indices_submeshes, h5_new_indices_triangulated, h5_p, h5_n, h5_t, h5_u, h5_c, h5_w, h5_idx⟩ := swapWeights_frame s4
  generalize swapWeights s4 = s5 at *
  obtain ⟨h6_new_points, h6_new_normals, h6_normals_tmp, h6_new_tangents, h6_tangents_tmp, h6_new_uv, h6_new_colors, h6_new_weights4, h6_p, h6_n, h6_t, h6_u, h6_c, h6_w, h6_idx⟩ := swapIndices_frame s5
  generalize swapIndices s5 = s6 at *
  simp only [Prod.fst, Prod.snd] at *
  exact ⟨by rw [h6_idx, h5_new_indices_submeshes, h4_new_indices_submeshes, h3_new_indices_submeshes, h2_new_indices_submeshes, h1_new_indices_submeshes, h0_new_indices_submeshes, h5_new_indices_triangulated, h4_new_indices_triangulated, h3_new_indices_triangulated, h2_new_indices_triangulated, h1_new_indices_triangulated, h0_new_indices_triangulated, h5_idx, h4_idx, h3_idx, h2_idx, h1_idx, h0_idx],
    by rw [h6_n, h5_n, h4_n, h3_n, h2_n, h1_n, h0_new_normals, h0_normals_tmp, h0_n],
    by rw [h6_t, h5_t, h4_t, h3_t, h2_t, h1_new_tangents, h0_new_tangents, h1_tangents_tmp, h0_tangents_tmp, h1_t, h0_t],
    by rw [h6_p, h5_p, h4_p, h3_p, h2_p, h1_p, h0_p],
    by rw [h6_u, h5_u, h4_u, h3_u, h2_new_uv, h1_new_uv, h0_new_uv, h2_u, h1_u, h0_u],
    by rw [h6_c, h5_c, h4_c, h3_new_colors, h2_new_colors, h1_new_colors, h0_new_colors, h3_c, h2_c, h1_c, h0_c],
    by rw [h6_w, h5_w, h4_new_weights4, h3_new_weights4, h2_new_weights4, h1_new_weights4, h0_new_weights4, h4_w, h3_w, h2_w, h1_w, h0_w]⟩

/-- C18, as amended. `refine` never reports failure: in both modes it returns `true` for
every input.  Optimized refine, given a non-empty normals or uv buffer, or a colours
buffer that takes part in the comparison, whose length is neither `P` nor `I`, returns
`true` and leaves the refiner as it was. -/
theorem C18_refine_never_fails (K : NearEqual F2 F3 F4) (r : MeshRefiner F2 F3 F4 W) :
    (∀ optimize : Bool, (refine K r optimize).2 = true) ∧
    (((r.normals ≠ [] ∧ r.normals.length ≠ r.points.length
          ∧ r.normals.length ≠ r.indices.length) ∨
      (r.uv ≠ [] ∧ r.uv.length ≠ r.points.length ∧ r.uv.length ≠ r.indices.length) ∨
      (comparesColors r = true ∧ r.colors.length ≠ r.points.length
          ∧ r.colors.length ≠ r.indices.length)) →
      refine K r true = (r, true)) := by
  constructor
  · intro optimize
    cases optimize
    · rfl
    · show (refineWithOptimization K r).2 = true
      rw [refineWithOptimization_eq]
  · intro hbad
    show refineWithOptimization K r = (r, true)
    rw [refineWithOptimization_eq]
    cases hd : dispatch r with
    | none => rfl
    | some d =>
      exfalso
      obtain ⟨h1, h2, h3⟩ := dispatch_valid r d hd
      rcases hbad with ⟨a, b, c⟩ | ⟨a, b, c⟩ | ⟨a, b, c⟩
      · rcases h1 with h | h | h
        · exact a (List.isEmpty_iff.mp h)
        · exact b (by exact_mod_cast h)
        · exact c (by exact_mod_cast h)
      · rcases h2 with h | h | h
        · exact a (List.isEmpty_iff.mp h)
        · exact b (by exact_mod_cast h)
        · exact c (by exact_mod_cast h)
      · rcases h3 a with h | h
        · exact b (by exact_mod_cast h)
        · exact c (by exact_mod_cast h)

set_option maxRecDepth 100000 in
/-- Witness for C18: the triangle with two normals. -/
theorem C18_refine_never_fails_witness :
    (shortNormals.normals ≠ [] ∧ shortNormals.normals.length ≠ shortNormals.points.length
      ∧ shortNormals.normals.length ≠ shortNormals.indices.length) ∧
    refine exactNear shortNormals true = (shortNormals, true) :=
  ⟨by decide, (C18_refine_never_fails exactNear shortNormals).2 (Or.inl (by decide))⟩

set_option maxRecDepth 100000 in
/-- Counterexample to C18 as stated: the normals buffer of the triangle has two
entries, a length that is neither `P = 3` nor `I = 3`, and `refine` returns `true` in
both modes. -/
theorem C18_counterexample :
    shortNormals.normals ≠ [] ∧
    shortNormals.normals.length ≠ shortNormals.points.length ∧
    shortNormals.normals.length ≠ shortNormals.indices.length ∧
    (refine exactNear shortNormals true).2 = true ∧
    (refine exactNear shortNormals false).2 = true := by
  decide

end

/-- A strictly ascending list whose entries from position `ov` on are exactly the
numbers of `[st, n)` has `n - st` entries from `ov` on. -/
theorem length_of_interval (a : List Nat) (ov st n : Nat) (hov : ov ≤ a.length) (hst : st ≤ n)
    (hs : a.Pairwise (· < ·))
    (h1 : ∀ k : Nat, st ≤ k → k < n → ∃ g : Nat, ov ≤ g ∧ g < a.length ∧ a.getD g 0 = k)
    (h2 : ∀ g : Nat, ov ≤ g → g < a.length → st ≤ a.getD g 0 ∧ a.getD g 0 < n) :
    a.length = ov + (n - st) := by
  have hb : (a.drop ov).Pairwise (· < ·) := List.Pairwise.sublist (List.drop_sublist _ _) hs
  have hc : (List.range' st (n - st)).Pairwise (· < ·) := List.pairwise_lt_range' _ _
  have hmem : ∀ k, k ∈ a.drop ov ↔ k ∈ List.range' st (n - st) := by
    intro k
    rw [List.mem_range'_1]
    constructor
    · intro hk
      obtain ⟨i, hi, rfl⟩ := List.mem_iff_getElem.mp hk
      rw [List.length_drop] at hi
      have := h2 (ov + i) (by omega) (by omega)
      rw [List.getD_eq_getElem _ _ (by omega)] at this
      rw [List.getElem_drop]
      omega
    · rintro ⟨hk0, hk1⟩
      obtain ⟨g, hg0, hg1, hg2⟩ := h1 k hk0 (by omega)
      rw [List.getD_eq_getElem _ _ hg1] at hg2
      rw [List.mem_iff_getElem]
      refine ⟨g - ov, by rw [List.length_drop]; omega, ?_⟩
      rw [List.getElem_drop]
      have : ov + (g - ov) = g := by omega
      simp only [this]
      exact hg2
  have hl := MeshRefiner.sorted_lists_eq_length _ _ hb hc hmem
  rw [List.length_drop, List.length_range'] at hl
  omega

section

variable {F2 F3 F4 W : Type} [Inhabited F2] [Inhabited F3] [Inhabited F4] [Inhabited W]

namespace MeshRefiner

set_option linter.unusedSectionVars false

/-- When no point is shared, every corner of the current split has allocated a vertex. -/
theorem current_split_full (K : NearEqual F2 F3 F4) (d : Profile) (r0 : MeshRefiner F2 F3 F4 W)
    (st ov n : Nat) (a : List Nat) (r : MeshRefiner F2 F3 F4 W)
    (h : CornerInv K d r0 st ov n a r) (hn : n ≤ r0.indices.length)
    (hinj : NoSharedVertices r0) : a.length = ov + (n - st) := by
  apply length_of_interval a ov st n h.ov_le h.st_le h.sorted
  · intro k hk0 hk1
    obtain ⟨g, _, hg1, hg2, hg3, _, _⟩ := h.out k hk0 hk1
    refine ⟨g, hg1, hg2, ?_⟩
    have hlt := h.alloc_lt _ (getD_mem_of_lt a g hg2)
    exact hinj _ (by omega) _ (by omega) hg3
  · intro g hg0 hg1
    exact ⟨h.alloc_cur g hg0 hg1, h.alloc_lt _ (getD_mem_of_lt a g hg1)⟩

end MeshRefiner

end

section

variable {F2 F3 F4 W : Type} [Inhabited F2] [Inhabited F3] [Inhabited F4] [Inhabited W]

namespace MeshRefiner

set_option linter.unusedSectionVars false

/-- The counters of the current split, read off the face invariant. -/
theorem faceInv_counters (K : NearEqual F2 F3 F4) (d : Profile) (r0 : MeshRefiner F2 F3 F4 W)
    (hv : ValidTopology r0.counts r0.indices r0.points.length) (hinj : NoSharedVertices r0)
    (fi fst ov : Nat) (a : List Nat) (s : RefineLoop F2 F3 F4 W)
    (h : FaceInv K d r0 fi fst ov a s) (hfi : fi ≤ r0.counts.length) :
    s.num_faces = (fi : Int) - (fst : Int) ∧
    (s.r.new_points.length : Int) - s.offset_vertices
      = (faceStart r0.counts fi : Int) - (faceStart r0.counts fst : Int) ∧
    (s.r.new_indices.length : Int) - s.offset_indices
      = (faceStart r0.counts fi : Int) - (faceStart r0.counts fst : Int) ∧
    faceStart r0.counts fst ≤ faceStart r0.counts fi := by
  have hmono : faceStart r0.counts fst ≤ faceStart r0.counts fi := h.corner.st_le
  have hI : faceStart r0.counts fi ≤ r0.indices.length := by
    rcases Nat.lt_or_ge fi r0.counts.length with h1 | h1
    · have := faceStart_succ r0.counts fi h1
      have := faceStart_mono r0.counts fi
      have := hv.total
      omega
    · have : fi = r0.counts.length := by omega
      rw [this, hv.total]
  have hfull := current_split_full K d r0 _ ov _ a s.r h.corner hI hinj
  refine ⟨h.nfaces, ?_, ?_, hmono⟩
  · rw [h.corner.rep.length, h.off_v, hfull]; push_cast; omega
  · rw [h.corner.len_ni, h.off_i]

theorem drop_eq_cons_elem (xs : List Int) (i : Nat) (h : i < xs.length) :
    xs.drop i = elem xs (i : Int) :: xs.drop (i + 1) := by
  rw [elem_of_lt xs i h]
  exact List.drop_eq_getElem_cons h

/-- One face of `doRefine` on a mesh without shared vertices, whose faces all fit the
budget: the loop closes a split exactly where the walker closes a group. -/
theorem refineFace_walk (K : NearEqual F2 F3 F4) (d : Profile) (r0 : MeshRefiner F2 F3 F4 W)
    (hv : ValidTopology r0.counts r0.indices r0.points.length) (hc : Connected r0)
    (hoffs : ∀ f : Nat, f < r0.counts.length →
      elem r0.offsets (f : Int) = (faceStart r0.counts f : Int))
    (hinj : NoSharedVertices r0) (hS : 0 < r0.split_unit)
    (hle : ∀ c ∈ r0.counts, c ≤ r0.split_unit)
    (fi : Nat) (s : RefineLoop F2 F3 F4 W) (hfi : fi < r0.counts.length)
    (h : WalkInv K d r0 fi s) : WalkInv K d r0 (fi + 1) (refineFace (d.body K) s fi) := by
  obtain ⟨⟨fst, ov, a, hinv, hlt⟩, hwalk⟩ := h
  obtain ⟨c1, c2, c3, c4⟩ := faceInv_counters K d r0 hv hinj fi fst ov a s hinv (Nat.le_of_lt hfi)
  have hmem : elem r0.counts (fi : Int) ∈ r0.counts := by
    rw [elem_of_lt r0.counts fi hfi]; exact List.getElem_mem _
  have hc3 : 3 ≤ elem r0.counts (fi : Int) := hv.1 _ hmem
  have hcS : elem r0.counts (fi : Int) ≤ r0.split_unit := hle _ hmem
  have hsucc := faceStart_succ r0.counts fi hfi
  have hsuccI : (faceStart r0.counts (fi + 1) : Int)
      = (faceStart r0.counts fi : Int) + elem r0.counts (fi : Int) := by
    rw [hsucc]; push_cast; omega
  have htri := triTotal_succ r0.counts fi hfi
  have hnv : (a.length : Int) - (ov : Int)
      = (faceStart r0.counts fi : Int) - (faceStart r0.counts fst : Int) := by
    rw [← c2, hinv.corner.rep.length, hinv.off_v]
  rw [drop_eq_cons_elem r0.counts fi hfi] at hwalk
  unfold splitWalk at hwalk
  unfold refineFace
  simp only [hinv.corner.inputs.offsets, hinv.corner.inputs.counts,
    hinv.corner.inputs.split_unit, hoffs fi hfi, hinv.corner.rep.length, hinv.off_v]
  by_cases hcond : r0.split_unit > 0 ∧
      (a.length : Int) - (ov : Int) + elem r0.counts (fi : Int) > r0.split_unit
  · rw [if_pos hcond]
    have h1 := close_spec K d r0 fi fst ov a s hinv hfi hlt hcond.1 hcond.2
    have hfst : fst < fi := by
      rcases Nat.lt_or_ge fst fi with h0 | h0
      · exact h0
      · have : fst = fi := Nat.le_antisymm hinv.fst_le h0
        subst this
        omega
    have hwc : s.num_faces > 0 ∧
        (s.r.new_points.length : Int) - s.offset_vertices + elem r0.counts (fi : Int)
          > r0.split_unit := by
      constructor
      · rw [c1]; omega
      · rw [c2, ← hnv]; exact hcond.2
    rw [if_pos hwc] at hwalk
    obtain ⟨a1, hin1⟩ := face_corners K d r0 hv hc fi fi a.length a _ h1 hfi
    obtain ⟨a', h2⟩ := finish_face K d r0 hv hc fi fi a.length a _ h1 hfi
      (by intro _ _; omega)
    obtain ⟨e1, e2, _, _⟩ := faceInv_counters K d r0 hv hinj (fi + 1) fi a.length a' _ h2 hfi
    refine ⟨⟨fi, a.length, a', h2, fun _ => Nat.lt_succ_self _⟩, ?_⟩
    rw [e1, e2, ← hwalk]
    have hsp : ∀ (x y : Int) (z : RefineLoop F2 F3 F4 W),
        ({ z with num_faces := x, num_indices_triangulated := y } : RefineLoop F2 F3 F4 W).r.splits
          = z.r.splits := fun _ _ _ => rfl
    have hnt : ∀ (x y : Int) (z : RefineLoop F2 F3 F4 W),
        ({ z with num_faces := x, num_indices_triangulated := y }
          : RefineLoop F2 F3 F4 W).num_indices_triangulated = y := fun _ _ _ => rfl
    rw [hsp, hnt, hin1.splits, hin1.ntri]
    have hcl : closingSplit s
        = groupRecord (s.num_faces, (s.r.new_points.length : Int) - s.offset_vertices,
            s.num_indices_triangulated) := by
      unfold closingSplit groupRecord
      simp only [c2, c3]
    show (s.r.splits ++ [closingSplit s]) ++ _ = _
    rw [hcl, List.map_cons, List.append_assoc, List.singleton_append]
    have ha : ((fi + 1 : Nat) : Int) - (fi : Int) = 1 := by push_cast; omega
    have hb : (faceStart r0.counts (fi + 1) : Int) - (faceStart r0.counts fi : Int)
        = elem r0.counts (fi : Int) := by omega
    have hd0 : (0 : Int) + (elem r0.counts (fi : Int) - 2) * 3
        = (elem r0.counts (fi : Int) - 2) * 3 := by omega
    rw [ha, hb]
    show _ ++ groupRecord _ :: List.map groupRecord (splitWalk _ _ (1, _, 0 + _)) = _
    rw [hd0]
  · rw [if_neg hcond]
    have hwc : ¬ (s.num_faces > 0 ∧
        (s.r.new_points.length : Int) - s.offset_vertices + elem r0.counts (fi : Int)
          > r0.split_unit) := by
      rintro ⟨_, h2⟩
      apply hcond
      refine ⟨hS, ?_⟩
      rw [hnv, ← c2]; exact h2
    rw [if_neg hwc] at hwalk
    obtain ⟨a1, hin1⟩ := face_corners K d r0 hv hc fi fst ov a s hinv hfi
    obtain ⟨a', h2⟩ := finish_face K d r0 hv hc fi fst ov a s hinv hfi
      (by
        intro hsu _
        by_contra hgt
        exact hcond ⟨hsu, by omega⟩)
    obtain ⟨e1, e2, _, _⟩ := faceInv_counters K d r0 hv hinj (fi + 1) fst ov a' _ h2 hfi
    refine ⟨⟨fst, ov, a', h2, fun _ => Nat.lt_succ_of_le hinv.fst_le⟩, ?_⟩
    rw [e1, e2, ← hwalk]
    have hsp : ∀ (x y : Int) (z : RefineLoop F2 F3 F4 W),
        ({ z with num_faces := x, num_indices_triangulated := y } : RefineLoop F2 F3 F4 W).r.splits
          = z.r.splits := fun _ _ _ => rfl
    have hnt : ∀ (x y : Int) (z : RefineLoop F2 F3 F4 W),
        ({ z with num_faces := x, num_indices_triangulated := y }
          : RefineLoop F2 F3 F4 W).num_indices_triangulated = y := fun _ _ _ => rfl
    rw [hsp, hnt, hin1.splits, hin1.ntri, c1, c2]
    have ha : ((fi + 1 : Nat) : Int) - (fst : Int) = (fi : Int) - (fst : Int) + 1 := by
      push_cast; omega
    have hb : (faceStart r0.counts (fi + 1) : Int) - (faceStart r0.counts fst : Int)
        = (faceStart r0.counts fi : Int) - (faceStart r0.counts fst : Int)
          + elem r0.counts (fi : Int) := by omega
    rw [ha, hb]

end MeshRefiner

end

theorem elem_map_cast_range (n k : Nat) (h : k < n) :
    elem ((List.range n).map (fun (j : Nat) => (j : Int))) (k : Int) = (k : Int) := by
  rw [elem_of_lt _ k (by simpa using h)]
  simp

section

variable {F2 F3 F4 W : Type} [Inhabited F2] [Inhabited F3] [Inhabited F4] [Inhabited W]

namespace MeshRefiner

set_option linter.unusedSectionVars false

/-- `doRefine` on a freshly prepared mesh without shared vertices whose faces all fit the
budget: the split records are those of the greedy walk over `counts`. -/
theorem doRefine_walk (K : NearEqual F2 F3 F4) (d : Profile) (r : MeshRefiner F2 F3 F4 W)
    (hv : ValidTopology r.counts r.indices r.points.length) (hf : Fresh r)
    (hinj : NoSharedVertices r) (hS : 0 < r.split_unit)
    (hle : ∀ c ∈ r.counts, c ≤ r.split_unit) (hF : 0 < r.counts.length) :
    (doRefine (d.body K) r).splits = (SplitGroups r.counts r.split_unit).map groupRecord := by
  have hv' : ValidTopology (buildConnection r).counts (buildConnection r).indices
      (buildConnection r).points.length := by simpa using hv
  have hc : Connected (buildConnection r) := by
    rcases hf.csr with h0 | ⟨h1, h2⟩
    · exact buildConnection_connected r hv h0
    · have : buildConnection r = r := by unfold buildConnection; rw [if_pos h1]
      rw [this]; exact h2
  have hoffs : ∀ f : Nat, f < (buildConnection r).counts.length →
      elem (buildConnection r).offsets (f : Int) = (faceStart (buildConnection r).counts f : Int) := by
    intro f hfl
    simp only [buildConnection_offsets, buildConnection_counts] at hfl ⊢
    rw [hf.offsets]
    exact CountIndices_offsets r.counts hv.nonneg f hfl
  have hinj' : NoSharedVertices (buildConnection r) := by
    unfold NoSharedVertices
    simpa using hinj
  have hnp : (refineStart r).new_points = [] := by simp [refineStart, hf.new_points]
  have hsp : (refineStart r).splits = [] := by simp [refineStart, hf.splits]
  have key := foldl_range_inv
    (fun fi (s : RefineLoop F2 F3 F4 W) => WalkInv K d (buildConnection r) fi s)
    (refineFace (d.body K)) r.counts.length { r := refineStart r }
    ⟨⟨0, 0, [], faceInv_start K d r hf, by intro h; omega⟩, by
      show (refineStart r).splits ++ List.map groupRecord
        (splitWalk _ (List.drop 0 _) (0, ((refineStart r).new_points.length : Int) - 0, 0)) = _
      rw [hsp, hnp]
      rfl⟩
    (by
      intro s fi hfi hw
      exact refineFace_walk K d (buildConnection r) hv' hc hoffs hinj' (by simpa using hS)
        (by simpa using hle) fi s (by simpa using hfi) hw)
  have hstart : (List.range (refineStart r).counts.length).foldl (refineFace (d.body K))
      ({ r := refineStart r } : RefineLoop F2 F3 F4 W)
      = (List.range r.counts.length).foldl (refineFace (d.body K)) { r := refineStart r } := by
    simp [refineStart]
  have hdo : doRefine (d.body K) r
      = (if (add_new_split ((List.range r.counts.length).foldl (refineFace (d.body K))
            { r := refineStart r })).r.triangulate
         then triangulateSplits (add_new_split ((List.range r.counts.length).foldl
            (refineFace (d.body K)) { r := refineStart r })).r
         else (add_new_split ((List.range r.counts.length).foldl (refineFace (d.body K))
            { r := refineStart r })).r) := by
    rw [← hstart]; rfl
  generalize (List.range r.counts.length).foldl (refineFace (d.body K))
    ({ r := refineStart r } : RefineLoop F2 F3 F4 W) = s at key hdo
  obtain ⟨⟨fst, ov, a, hinv, hlt⟩, hwalk⟩ := key
  obtain ⟨c1, c2, c3, _⟩ := faceInv_counters K d (buildConnection r) hv' hinj'
    r.counts.length fst ov a s hinv (by simp)
  have hfst := hlt hF
  have hdrop : (buildConnection r).counts.drop r.counts.length = [] := by simp
  rw [hdrop] at hwalk
  unfold splitWalk at hwalk
  rw [if_pos (by rw [c1]; omega)] at hwalk
  have hcl : closingSplit s
      = groupRecord (s.num_faces, (s.r.new_points.length : Int) - s.offset_vertices,
          s.num_indices_triangulated) := by
    unfold closingSplit groupRecord
    simp only [c2, c3]
  have hfinal : (add_new_split s).r.splits
      = (SplitGroups r.counts r.split_unit).map groupRecord := by
    rw [add_new_split_eq]
    show s.r.splits ++ [closingSplit s] = _
    rw [hcl]
    simpa using hwalk
  rw [hdo]
  split
  · obtain ⟨x, hx⟩ := triangulateSplits_frame (add_new_split s).r
    rw [hx]
    exact hfinal
  · exact hfinal

/-- Optimized refine of 100 independent triangles with `split_unit = 90`, for any point
and attribute values and any `near_equal`: four splits of 30, 30, 30 and 10 faces. -/
theorem hundred_triangles_splits (K : NearEqual F2 F3 F4) (r : MeshRefiner F2 F3 F4 W)
    (hf : Fresh r) (hc : r.counts = List.replicate 100 3)
    (hi : r.indices = (List.range 300).map (fun (k : Nat) => (k : Int)))
    (hp : r.points.length = 300) (hsu : r.split_unit = 90)
    (hne : r.normals ≠ [] ∨ r.uv ≠ []) (ha : AttrsValid r) :
    (refineWithOptimization K r).1.splits
      = [{ num_faces := 30, num_vertices := 90, num_indices := 90, num_indices_triangulated := 90 },
         { num_faces := 30, num_vertices := 90, num_indices := 90, num_indices_triangulated := 90 },
         { num_faces := 30, num_vertices := 90, num_indices := 90, num_indices_triangulated := 90 },
         { num_faces := 10, num_vertices := 30, num_indices := 30, num_indices_triangulated := 30 }] := by
  obtain ⟨d, hd⟩ := dispatch_active r ha hne
  have hv : ValidTopology r.counts r.indices r.points.length := by
    rw [hc, hi, hp]
    refine ⟨?_, ?_, ?_⟩
    · intro c hcm
      have := List.eq_of_mem_replicate hcm
      omega
    · rw [sum_replicate_three]; simp
    · intro v hvm
      simp only [List.mem_map, List.mem_range] at hvm
      obtain ⟨k, hk, rfl⟩ := hvm
      omega
  have hinj : NoSharedVertices r := by
    intro j hj k hk hjk
    rw [hi] at hj hk hjk
    simp only [List.length_map, List.length_range] at hj hk
    rw [elem_map_cast_range 300 j hj, elem_map_cast_range 300 k hk] at hjk
    exact Int.ofNat.inj hjk
  have hle : ∀ c ∈ r.counts, c ≤ r.split_unit := by
    intro c hcm
    rw [hc] at hcm
    rw [List.eq_of_mem_replicate hcm, hsu]
    omega
  rw [refineWithOptimization_eq, hd]
  show (doRefine (d.body K) r).splits = _
  rw [doRefine_walk K d r hv hf hinj (by omega) hle (by rw [hc]; simp), hc, hsu]
  decide

end MeshRefiner

end

section

variable {F2 F3 F4 W : Type} [Inhabited F2] [Inhabited F3] [Inhabited F4] [Inhabited W]

open MeshRefiner

/-- C20, as amended. Split by budget: a freshly prepared mesh of 100 independent
triangles (300 points, no shared vertices) with normals or texture coordinates of valid
length, refined with `split_unit = 90`, has exactly 4 splits, of 30, 30, 30 and 10 faces
(a split is closed whenever the next triangle would bring it above 90 vertices). -/
theorem C20_split_by_budget (K : NearEqual F2 F3 F4) (r : MeshRefiner F2 F3 F4 W)
    (hf : Fresh r) (hc : r.counts = List.replicate 100 3)
    (hi : r.indices = (List.range 300).map (fun (k : Nat) => (k : Int)))
    (hp : r.points.length = 300) (hsu : r.split_unit = 90)
    (hne : r.normals ≠ [] ∨ r.uv ≠ []) (ha : AttrsValid r) :
    (refineWithOptimization K r).1.splits.length = 4 ∧
    (refineWithOptimization K r).1.splits.map (fun sp => sp.num_faces) = [30, 30, 30, 10] ∧
    (refineWithOptimization K r).1.splits.map (fun sp => sp.num_vertices) = [90, 90, 90, 30] := by
  rw [hundred_triangles_splits K r hf hc hi hp hsu hne ha]
  exact ⟨rfl, rfl, rfl⟩

set_option maxRecDepth 100000 in
/-- Witness for C20: scenario 3 with one normal per point. -/
theorem C20_split_by_budget_witness :
    Fresh hundredTriangles ∧ hundredTriangles.counts = List.replicate 100 3 ∧
    hundredTriangles.indices = (List.range 300).map (fun (k : Nat) => (k : Int)) ∧
    hundredTriangles.points.length = 300 ∧ hundredTriangles.split_unit = 90 ∧
    AttrsValid hundredTriangles ∧
    (refineWithOptimization exactNear hundredTriangles).1.splits.map (fun sp => sp.num_faces)
      = [30, 30, 30, 10] :=
  ⟨⟨rfl, rfl, rfl, rfl, rfl, rfl, rfl, Or.inl rfl, rfl⟩, rfl, rfl, by decide, rfl,
    ⟨Or.inr (Or.inl (by decide)), Or.inl rfl, Or.inl rfl⟩,
    (C20_split_by_budget exactNear hundredTriangles
      ⟨rfl, rfl, rfl, rfl, rfl, rfl, rfl, Or.inl rfl, rfl⟩ rfl rfl (by decide) rfl
      (Or.inl (by decide)) ⟨Or.inr (Or.inl (by decide)), Or.inl rfl, Or.inl rfl⟩).2.1⟩

set_option maxRecDepth 100000 in
/-- Counterexample to C20 as stated: 100 independent triangles with one normal per
point and `split_unit = 90` are refined into four splits, not two, and the second split
holds 30 faces, not the remaining 70. -/
theorem C20_counterexample :
    (refineWithOptimization exactNear hundredTriangles).1.splits.length = 4 ∧
    (refineWithOptimization exactNear hundredTriangles).1.splits.length ≠ 2 ∧
    ((refineWithOptimization exactNear hundredTriangles).1.splits.getD 0 default).num_faces = 30 ∧
    ((refineWithOptimization exactNear hundredTriangles).1.splits.getD 1 default).num_faces = 30 := by
  rw [hundred_triangles_splits exactNear hundredTriangles
    ⟨rfl, rfl, rfl, rfl, rfl, rfl, rfl, Or.inl rfl, rfl⟩ rfl rfl (by decide) rfl
    (Or.inl (by decide)) ⟨Or.inr (Or.inl (by decide)), Or.inl rfl, Or.inl rfl⟩]
  decide

end

theorem grows_mono {s s' : List Int} (h : ∀ v, v ∈ s → v ∈ s') :
    ∀ {xs : List Int}, Grows s xs → Grows s' xs := by
  intro xs
  induction xs generalizing s s' with
  | nil => intro _; trivial
  | cons x xs ih =>
    rintro ⟨h1, h2⟩
    refine ⟨fun v hv0 hv1 => h v (h1 v hv0 hv1), ih ?_ h2⟩
    intro v hv
    rcases List.mem_cons.mp hv with hv | hv
    · exact List.mem_cons.mpr (Or.inl hv)
    · exact List.mem_cons.mpr (Or.inr (h v hv))

theorem grows_append {s xs ys : List Int} :
    Grows s (xs ++ ys) ↔ Grows s xs ∧ Grows (xs ++ s) ys := by
  induction xs generalizing s with
  | nil => simp [Grows]
  | cons x xs ih =>
    show ((∀ v : Int, 0 ≤ v → v < x → v ∈ s) ∧ Grows (x :: s) (xs ++ ys)) ↔
      ((∀ v : Int, 0 ≤ v → v < x → v ∈ s) ∧ Grows (x :: s) xs) ∧ Grows (x :: xs ++ s) ys
    rw [ih]
    have e : Grows (xs ++ x :: s) ys ↔ Grows (x :: xs ++ s) ys := by
      constructor
      · exact grows_mono (by intro v hv; simp at hv ⊢; tauto)
      · exact grows_mono (by intro v hv; simp at hv ⊢; tauto)
    rw [e]
    tauto

theorem grows_closed {s xs : List Int} (hs : DownClosed s) (h : Grows s xs) :
    DownClosed (xs ++ s) := by
  induction xs generalizing s with
  | nil => simpa using hs
  | cons x xs ih =>
    obtain ⟨h1, h2⟩ := h
    have hs' : DownClosed (x :: s) := by
      intro y hy v hv0 hv1
      rcases List.mem_cons.mp hy with hy | hy
      · subst hy; exact List.mem_cons.mpr (Or.inr (h1 v hv0 hv1))
      · exact List.mem_cons.mpr (Or.inr (hs y hy v hv0 hv1))
    have := ih hs' h2
    intro y hy v hv0 hv1
    have hy' : y ∈ xs ++ x :: s := by simp at hy ⊢; tauto
    have := this y hy' v hv0 hv1
    simp at this ⊢; tauto

theorem grows_of_seen {s xs : List Int} (hs : DownClosed s) (h : ∀ x ∈ xs, x ∈ s) :
    Grows s xs := by
  induction xs generalizing s with
  | nil => trivial
  | cons x xs ih =>
    have hx : x ∈ s := h x (List.mem_cons_self _ _)
    refine ⟨fun v hv0 hv1 => hs x hx v hv0 hv1, ?_⟩
    have hs' : DownClosed (x :: s) := by
      intro y hy v hv0 hv1
      rcases List.mem_cons.mp hy with hy | hy
      · subst hy; exact List.mem_cons.mpr (Or.inr (hs y hx v hv0 hv1))
      · exact List.mem_cons.mpr (Or.inr (hs y hy v hv0 hv1))
    exact ih hs' (fun y hy => List.mem_cons.mpr (Or.inr (h y (List.mem_cons.mpr (Or.inr hy)))))

/-- Restricted growth, read position by position. -/
theorem grows_position {s xs : List Int} (h : Grows s xs) (p : Nat) (hp : p < xs.length)
    (v : Int) (hv0 : 0 ≤ v) (hv1 : v < xs[p]) :
    v ∈ s ∨ ∃ q : Nat, ∃ hq : q < xs.length, q < p ∧ xs[q] = v := by
  induction xs generalizing s p with
  | nil => simp at hp
  | cons x xs ih =>
    obtain ⟨h1, h2⟩ := h
    cases p with
    | zero => exact Or.inl (h1 v hv0 (by simpa using hv1))
    | succ p =>
      have hp' : p < xs.length := by simpa using hp
      rcases ih h2 p hp' (by simpa using hv1) with hm | ⟨q, hq, hqp, hqv⟩
      · rcases List.mem_cons.mp hm with hm | hm
        · exact Or.inr ⟨0, by simp, by omega, by simp [hm]⟩
        · exact Or.inl hm
      · exact Or.inr ⟨q + 1, by simpa using hq, by omega, by simpa using hqv⟩

theorem grows_of_position {s xs : List Int}
    (h : ∀ (p : Nat) (hp : p < xs.length) (v : Int), 0 ≤ v → v < xs[p] →
      v ∈ s ∨ ∃ q : Nat, ∃ hq : q < xs.length, q < p ∧ xs[q] = v) : Grows s xs := by
  induction xs generalizing s with
  | nil => trivial
  | cons x xs ih =>
    constructor
    · intro v hv0 hv1
      rcases h 0 (by simp) v hv0 (by simpa using hv1) with hm | ⟨q, _, hq, _⟩
      · exact hm
      · omega
    · apply ih
      intro p hp v hv0 hv1
      rcases h (p + 1) (by simpa using hp) v hv0 (by simpa using hv1) with hm | ⟨q, hq, hqp, hqv⟩
      · exact Or.inl (List.mem_cons.mpr (Or.inr hm))
      · cases q with
        | zero => exact Or.inl (List.mem_cons.mpr (Or.inl (by simpa using hqv.symm)))
        | succ q => exact Or.inr ⟨q, by simpa using hq, by omega, by simpa using hqv⟩

theorem fanTriangles_cons2 (sw : Bool) (c0 a b : Int) (rest : List Int) :
    fanTriangles sw c0 (a :: b :: rest)
      = (if sw then [c0, b, a] else [c0, a, b]) ++ fanTriangles sw c0 (b :: rest) := by
  rw [fanTriangles]

theorem fanTriangles_single (sw : Bool) (c0 a : Int) : fanTriangles sw c0 [a] = [] := by
  simp [fanTriangles]

theorem fanTriangles_nil (sw : Bool) (c0 : Int) : fanTriangles sw c0 [] = [] := by
  simp [fanTriangles]

theorem fanTriangles_length (sw : Bool) (c0 b : Int) (rest : List Int) :
    (fanTriangles sw c0 (b :: rest)).length = 3 * rest.length := by
  induction rest generalizing b with
  | nil => rw [fanTriangles_single]; rfl
  | cons c rest ih =>
    rw [fanTriangles_cons2, List.length_append, ih]
    cases sw <;> simp <;> omega

theorem fanTriangles_mem (c0 b : Int) (rest : List Int) (x : Int)
    (h : x ∈ fanTriangles false c0 (b :: rest)) : x = c0 ∨ x = b ∨ x ∈ rest := by
  induction rest generalizing b with
  | nil => rw [fanTriangles_single] at h; simp at h
  | cons c rest ih =>
    rw [fanTriangles_cons2] at h
    simp only [Bool.false_eq_true, if_false, List.mem_append, List.mem_cons,
      List.mem_singleton, List.not_mem_nil, or_false] at h
    rcases h with (h | h | h) | h
    · exact Or.inl h
    · exact Or.inr (Or.inl h)
    · exact Or.inr (Or.inr (List.mem_cons.mpr (Or.inl h)))
    · rcases ih c h with h | h | h
      · exact Or.inl h
      · exact Or.inr (Or.inr (List.mem_cons.mpr (Or.inl h)))
      · exact Or.inr (Or.inr (List.mem_cons.mpr (Or.inr h)))

theorem fanTriangles_cover (c0 b c : Int) (rest : List Int) :
    c0 ∈ fanTriangles false c0 (b :: c :: rest) ∧ b ∈ fanTriangles false c0 (b :: c :: rest) ∧
      ∀ x ∈ c :: rest, x ∈ fanTriangles false c0 (b :: c :: rest) := by
  induction rest generalizing b c with
  | nil =>
    rw [fanTriangles_cons2, fanTriangles_single]
    simp
  | cons e rest ih =>
    rw [fanTriangles_cons2]
    obtain ⟨_, h2, h3⟩ := ih c e
    refine ⟨by simp, by simp, ?_⟩
    intro x hx
    rcases List.mem_cons.mp hx with hx | hx
    · subst hx; simp
    · exact List.mem_append.mpr (Or.inr (h3 x hx))

theorem fanTriangles_grows (c0 : Int) :
    ∀ (rest : List Int) (b : Int) (s : List Int), DownClosed s → c0 ∈ s → b ∈ s →
      Grows s rest → Grows s (fanTriangles false c0 (b :: rest)) := by
  intro rest
  induction rest with
  | nil => intro b s _ _ _ _; rw [fanTriangles_single]; trivial
  | cons c rest ih =>
    intro b s hs hc0 hb hg
    obtain ⟨hc, hrest⟩ := hg
    rw [fanTriangles_cons2]
    simp only [Bool.false_eq_true, if_false]
    rw [grows_append]
    have hg3 : Grows s [c0, b, c] :=
      ⟨fun v hv0 hv1 => hs c0 hc0 v hv0 hv1,
        fun v hv0 hv1 => List.mem_cons.mpr (Or.inr (hs b hb v hv0 hv1)),
        fun v hv0 hv1 => List.mem_cons.mpr (Or.inr (List.mem_cons.mpr (Or.inr (hc v hv0 hv1)))),
        trivial⟩
    refine ⟨hg3, ?_⟩
    apply ih c ([c0, b, c] ++ s) (grows_closed hs hg3) (by simp) (by simp)
    exact grows_mono (by intro v hv; simp at hv ⊢; tauto) hrest

/-- The fan of a face with at least three corners has the corners of the face as its
values and keeps restricted growth. -/
theorem faceFan_spec (c0 a b : Int) (rest s : List Int) (hs : DownClosed s)
    (hg : Grows s (c0 :: a :: b :: rest)) :
    Grows s (faceFan false (c0 :: a :: b :: rest)) ∧
    ∀ x, x ∈ faceFan false (c0 :: a :: b :: rest) ↔ x ∈ c0 :: a :: b :: rest := by
  obtain ⟨h0, ha, hb, hrest⟩ := hg
  show Grows s (fanTriangles false c0 (a :: b :: rest)) ∧ _
  constructor
  · rw [fanTriangles_cons2]
    simp only [Bool.false_eq_true, if_false]
    rw [grows_append]
    have hg3 : Grows s [c0, a, b] := ⟨h0, ha, hb, trivial⟩
    refine ⟨hg3, ?_⟩
    apply fanTriangles_grows c0 rest b ([c0, a, b] ++ s) (grows_closed hs hg3) (by simp) (by simp)
    exact grows_mono (by intro v hv; simp at hv ⊢; tauto) hrest
  · intro x
    show x ∈ fanTriangles false c0 (a :: b :: rest) ↔ _
    constructor
    · intro hx
      rcases fanTriangles_mem c0 a (b :: rest) x hx with h | h | h
      · simp [h]
      · simp [h]
      · exact List.mem_cons.mpr (Or.inr (List.mem_cons.mpr (Or.inr h)))
    · intro hx
      obtain ⟨h1, h2, h3⟩ := fanTriangles_cover c0 a b rest
      rcases List.mem_cons.mp hx with hx | hx
      · rw [hx]; exact h1
      · rcases List.mem_cons.mp hx with hx | hx
        · rw [hx]; exact h2
        · exact h3 x hx

theorem writeAt_segment {α : Type} (xs : List α) : ∀ (pre mid post : List α),
    mid.length = xs.length →
    writeAt (pre ++ mid ++ post) (pre.length : Int) xs = pre ++ xs ++ post := by
  induction xs with
  | nil =>
    intro pre mid post h
    have : mid = [] := List.length_eq_zero.mp (by simpa using h)
    subst this
    rfl
  | cons x rest ih =>
    intro pre mid post h
    match mid, h with
    | m :: mid, h =>
      show writeAt (store (pre ++ m :: mid ++ post) (pre.length : Int) x)
        ((pre.length : Int) + 1) rest = _
      have hs : store (pre ++ m :: mid ++ post) (pre.length : Int) x
          = (pre ++ [x]) ++ mid ++ post := by
        simp [store]
      rw [hs]
      have := ih (pre ++ [x]) mid post (by simpa using h)
      rw [List.length_append, List.length_singleton] at this
      rw [show ((pre.length : Int) + 1) = ((pre.length + 1 : Nat) : Int) by push_cast; rfl, this]
      simp

theorem writeAt_whole {α : Type} (buf xs : List α) (h : buf.length = xs.length) :
    writeAt buf 0 xs = xs := by
  have := writeAt_segment xs [] buf [] h
  simpa using this

theorem TriangulateWithIndices_cons (sw : Bool) (c : Int) (counts indices : List Int) :
    TriangulateWithIndices sw (c :: counts) indices
      = faceFan sw (indices.take c.toNat) ++ TriangulateWithIndices sw counts (indices.drop c.toNat) := by
  rw [TriangulateWithIndices]
  cases indices.take c.toNat <;> rfl

theorem TriangulateWithIndices_nil (sw : Bool) (indices : List Int) :
    TriangulateWithIndices sw [] indices = [] := by
  rw [TriangulateWithIndices]

theorem faceFan_length (sw : Bool) (face : List Int) (h : 3 ≤ face.length) :
    ((faceFan sw face).length : Int) = ((face.length : Int) - 2) * 3 := by
  match face, h with
  | c0 :: b :: rest, h =>
    show ((fanTriangles sw c0 (b :: rest)).length : Int) = _
    rw [fanTriangles_length]
    simp only [List.length_cons]
    push_cast
    ring

/-- The fan triangulation of a well-formed mesh has `Σ (counts[f] - 2) * 3` entries. -/
theorem TriangulateWithIndices_length (sw : Bool) : ∀ (counts indices : List Int),
    (∀ c ∈ counts, 3 ≤ c) → (counts.map Int.toNat).sum = indices.length →
    ((TriangulateWithIndices sw counts indices).length : Int)
      = (counts.map (fun c => (c - 2) * 3)).sum := by
  intro counts
  induction counts with
  | nil => intro indices _ _; rw [TriangulateWithIndices_nil]; rfl
  | cons c cs ih =>
    intro indices h3 hsum
    have hc : 3 ≤ c := h3 c (List.mem_cons_self _ _)
    simp only [List.map_cons, List.sum_cons] at hsum
    have hlen : (indices.take c.toNat).length = c.toNat := by
      rw [List.length_take]; omega
    rw [TriangulateWithIndices_cons, List.length_append, List.map_cons, List.sum_cons]
    push_cast
    rw [faceFan_length sw _ (by omega), hlen,
      ih (indices.drop c.toNat) (fun x hx => h3 x (List.mem_cons_of_mem _ hx))
        (by rw [List.length_drop]; omega)]
    rw [Int.toNat_of_nonneg (by omega)]

/-- Fan triangulation without winding swap keeps the values of the index buffer and the
order in which they first occur. -/
theorem TriangulateWithIndices_grows : ∀ (counts indices s : List Int),
    DownClosed s → Grows s indices → (∀ c ∈ counts, 3 ≤ c) →
    (counts.map Int.toNat).sum = indices.length →
    Grows s (TriangulateWithIndices false counts indices) ∧
    ∀ x, x ∈ TriangulateWithIndices false counts indices ↔ x ∈ indices := by
  intro counts
  induction counts with
  | nil =>
    intro indices s _ _ _ hsum
    have : indices = [] := List.length_eq_zero.mp (by simpa using hsum.symm)
    subst this
    rw [TriangulateWithIndices_nil]
    exact ⟨trivial, fun x => Iff.rfl⟩
  | cons c cs ih =>
    intro indices s hs hg h3 hsum
    have hc : 3 ≤ c := h3 c (List.mem_cons_self _ _)
    simp only [List.map_cons, List.sum_cons] at hsum
    have hlen : (indices.take c.toNat).length = c.toNat := by
      rw [List.length_take]; omega
    rw [TriangulateWithIndices_cons]
    have hsplit : indices = indices.take c.toNat ++ indices.drop c.toNat :=
      (List.take_append_drop _ _).symm
    rw [hsplit, grows_append] at hg
    obtain ⟨hg1, hg2⟩ := hg
    generalize indices.take c.toNat = face at hlen hg1 hg2 hsplit
    generalize hrest : indices.drop c.toNat = rest at hg2 hsplit
    have hrl : (cs.map Int.toNat).sum = rest.length := by
      have := congrArg List.length hsplit
      rw [List.length_append] at this
      omega
    match face, hlen with
    | c0 :: a :: b :: more, hlen =>
      obtain ⟨f1, f2⟩ := faceFan_spec c0 a b more s hs hg1
      have hs' := grows_closed hs f1
      have hg2' : Grows (faceFan false (c0 :: a :: b :: more) ++ s) rest := by
        apply grows_mono _ hg2
        intro v hv
        rcases List.mem_append.mp hv with hv | hv
        · exact List.mem_append.mpr (Or.inl ((f2 v).mpr hv))
        · exact List.mem_append.mpr (Or.inr hv)
      obtain ⟨i1, i2⟩ := ih rest _ hs' hg2' (fun x hx => h3 x (List.mem_cons_of_mem _ hx)) hrl
      refine ⟨grows_append.mpr ⟨f1, i1⟩, ?_⟩
      intro x
      rw [hsplit, List.mem_append, List.mem_append, f2 x, i2 x]
    | [], hlen => simp at hlen; omega
    | [_], hlen => simp at hlen; omega
    | [_, _], hlen => simp at hlen; omega

/-- Triangulating a triangle list without winding swap returns it. -/
theorem TriangulateWithIndices_triangles : ∀ (n : Nat) (indices : List Int),
    indices.length = 3 * n →
    TriangulateWithIndices false (List.replicate n 3) indices = indices := by
  intro n
  induction n with
  | zero =>
    intro indices h
    have : indices = [] := List.length_eq_zero.mp (by simpa using h)
    subst this
    rfl
  | succ n ih =>
    intro indices h
    match indices, h with
    | a :: b :: c :: rest, h =>
      rw [List.replicate_succ, TriangulateWithIndices_cons]
      have e1 : (a :: b :: c :: rest).take (3 : Int).toNat = [a, b, c] := by
        show (a :: b :: c :: rest).take 3 = _
        simp
      have e2 : (a :: b :: c :: rest).drop (3 : Int).toNat = rest := by
        show (a :: b :: c :: rest).drop 3 = _
        simp
      rw [e1, e2, ih rest (by simp at h; omega)]
      show fanTriangles false a [b, c] ++ rest = _
      rw [fanTriangles_cons2, fanTriangles_single]
      simp
    | [], h => simp at h
    | [_], h => simp at h; omega
    | [_, _], h => simp at h; omega

section

variable {F2 F3 F4 W : Type} [Inhabited F2] [Inhabited F3] [Inhabited F4] [Inhabited W]

namespace MeshRefiner

set_option linter.unusedSectionVars false

/-- Tangents are copied exactly when texture coordinates, normals and generated tangents
are all present, and they are read per corner only when the normals or the texture
coordinates are. -/
theorem dispatch_tangents (r : MeshRefiner F2 F3 F4 W) (d : Profile) (h : dispatch r = some d) :
    (d.t = none ↔ (r.uv.isEmpty = true ∨ r.normals.isEmpty = true
      ∨ r.tangents_tmp.isEmpty = true)) ∧
    (d.t = some true → d.n = some true ∨ d.u = some true) := by
  unfold dispatch at h
  dsimp only at h
  by_cases hU : ¬ r.uv.isEmpty = true
  · rw [if_pos hU] at h
    by_cases hN : ¬ r.normals.isEmpty = true
    · rw [if_pos hN] at h
      by_cases hT : ¬ r.tangents_tmp.isEmpty = true
      · rw [if_pos hT] at h
        by_cases hC : ¬ r.colors.isEmpty = true
        · rw [if_pos hC] at h
          by_cases h0 : (r.normals.length : Int) = (r.indices.length : Int) ∧ (r.uv.length : Int) = (r.indices.length : Int) ∧ (r.colors.length : Int) = (r.indices.length : Int)
          · rw [if_pos h0] at h
            (injection h with h; subst h; simp_all)
          · rw [if_neg h0] at h
            by_cases h1 : (r.normals.length : Int) = (r.indices.length : Int) ∧ (r.uv.length : Int) = (r.indices.length : Int) ∧ (r.colors.length : Int) = (r.points.length : Int)
            · rw [if_pos h1] at h
              (injection h with h; subst h; simp_all)
            · rw [if_neg h1] at h
              by_cases h2 : (r.normals.length : Int) = (r.indices.length : Int) ∧ (r.uv.length : Int) = (r.points.length : Int) ∧ (r.colors.length : Int) = (r.indices.length : Int)
              · rw [if_pos h2] at h
                (injection h with h; subst h; simp_all)
              · rw [if_neg h2] at h
                by_cases h3 : (r.normals.length : Int) = (r.indices.length : Int) ∧ (r.uv.length : Int) = (r.points.length : Int) ∧ (r.colors.length : Int) = (r.points.length : Int)
                · rw [if_pos h3] at h
                  (injection h with h; subst h; simp_all)
                · rw [if_neg h3] at h
                  by_cases h4 : (r.normals.length : Int) = (r.points.length : Int) ∧ (r.uv.length : Int) = (r.indices.length : Int) ∧ (r.colors.length : Int) = (r.indices.length : Int)
                  · rw [if_pos h4] at h
                    (injection h with h; subst h; simp_all)
                  · rw [if_neg h4] at h
                    by_cases h5 : (r.normals.length : Int) = (r.points.length : Int) ∧ (r.uv.length : Int) = (r.indices.length : Int) ∧ (r.colors.length : Int) = (r.points.length : Int)
                    · rw [if_pos h5] at h
                      (injection h with h; subst h; simp_all)
                    · rw [if_neg h5] at h
                      by_cases h6 : (r.normals.length : Int) = (r.points.length : Int) ∧ (r.uv.length : Int) = (r.points.length : Int) ∧ (r.colors.length : Int) = (r.indices.length : Int)
                      · rw [if_pos h6] at h
                        (injection h with h; subst h; simp_all)
                      · rw [if_neg h6] at h
                        by_cases h7 : (r.normals.length : Int) = (r.points.length : Int) ∧ (r.uv.length : Int) = (r.points.length : Int) ∧ (r.colors.length : Int) = (r.points.length : Int)
                        · rw [if_pos h7] at h
                          (injection h with h; subst h; simp_all)
                        · rw [if_neg h7] at h
                          exact absurd h (by simp)
        · rw [if_neg hC] at h
          by_cases h0 : (r.normals.length : Int) = (r.indices.length : Int) ∧ (r.uv.length : Int) = (r.indices.length : Int)
          · rw [if_pos h0] at h
            (injection h with h; subst h; simp_all)
          · rw [if_neg h0] at h
            by_cases h1 : (r.normals.length : Int) = (r.indices.length : Int) ∧ (r.uv.length : Int) = (r.points.length : Int)
            · rw [if_pos h1] at h
              (injection h with h; subst h; simp_all)
            · rw [if_neg h1] at h
              by_cases h2 : (r.normals.length : Int) = (r.points.length : Int) ∧ (r.uv.length : Int) = (r.indices.length : Int)
              · rw [if_pos h2] at h
                (injection h with h; subst h; simp_all)
              · rw [if_neg h2] at h
                by_cases h3 : (r.normals.length : Int) = (r.points.length : Int) ∧ (r.uv.length : Int) = (r.points.length : Int)
                · rw [if_pos h3] at h
                  (injection h with h; subst h; simp_all)
                · rw [if_neg h3] at h
                  exact absurd h (by simp)
      · rw [if_neg hT] at h
        by_cases h0 : (r.normals.length : Int) = (r.indices.length : Int) ∧ (r.uv.length : Int) = (r.indices.length : Int)
        · rw [if_pos h0] at h
          (injection h with h; subst h; simp_all)
        · rw [if_neg h0] at h
          by_cases h1 : (r.normals.length : Int) = (r.indices.length : Int) ∧ (r.uv.length : Int) = (r.points.length : Int)
          · rw [if_pos h1] at h
            (injection h with h; subst h; simp_all)
          · rw [if_neg h1] at h
            by_cases h2 : (r.normals.length : Int) = (r.points.length : Int) ∧ (r.uv.length : Int) = (r.indices.length : Int)
            · rw [if_pos h2] at h
              (injection h with h; subst h; simp_all)
            · rw [if_neg h2] at h
              by_cases h3 : (r.normals.length : Int) = (r.points.length : Int) ∧ (r.uv.length : Int) = (r.points.length : Int)
              · rw [if_pos h3] at h
                (injection h with h; subst h; simp_all)
              · rw [if_neg h3] at h
                exact absurd h (by simp)
    · rw [if_neg hN] at h
      by_cases h0 : (r.uv.length : Int) = (r.indices.length : Int)
      · rw [if_pos h0] at h
        (injection h with h; subst h; simp_all)
      · rw [if_neg h0] at h
        by_cases h1 : (r.uv.length : Int) = (r.points.length : Int)
        · rw [if_pos h1] at h
          (injection h with h; subst h; simp_all)
        · rw [if_neg h1] at h
          exact absurd h (by simp)
  · rw [if_neg hU] at h
    by_cases h0 : (r.normals.length : Int) = (r.indices.length : Int)
    · rw [if_pos h0] at h
      (injection h with h; subst h; simp_all)
    · rw [if_neg h0] at h
      by_cases h1 : (r.normals.length : Int) = (r.points.length : Int)
      · rw [if_pos h1] at h
        (injection h with h; subst h; simp_all)
      · rw [if_neg h1] at h
        exact absurd h (by simp)

end MeshRefiner

end

theorem sorted_getD_lt (a : List Nat) (h : a.Pairwise (· < ·)) (i j : Nat) (hij : i < j)
    (hj : j < a.length) : a.getD i 0 < a.getD j 0 := by
  rw [List.getD_eq_getElem _ _ (by omega : i < a.length), List.getD_eq_getElem _ _ hj]
  exact List.pairwise_iff_getElem.mp h i j (by omega) hj hij

theorem sorted_getD_inj (a : List Nat) (h : a.Pairwise (· < ·)) (i j : Nat)
    (hi : i < a.length) (hj : j < a.length) (hij : a.getD i 0 = a.getD j 0) : i = j := by
  rcases Nat.lt_trichotomy i j with c | c | c
  · have := sorted_getD_lt a h i j c hj; omega
  · exact c
  · have := sorted_getD_lt a h j i c hi; omega

theorem view_whole {α : Type} (xs : List α) (len : Int) (h : len = (xs.length : Int)) :
    view xs 0 len = xs := by
  unfold view
  rw [h]
  simp

section

variable {F2 F3 F4 W : Type} [Inhabited F2] [Inhabited F3] [Inhabited F4] [Inhabited W]

namespace MeshRefiner

set_option linter.unusedSectionVars false

/-- With `split_unit = 0` and `triangulate = true`, the triangulated index buffer is the
fan triangulation of the whole of `new_indices`. -/
theorem refined_triangulated (K : NearEqual F2 F3 F4) (d : Profile)
    (r rf : MeshRefiner F2 F3 F4 W) (a : List Nat) (h : Refined K d r rf a)
    (hv : ValidTopology r.counts r.indices r.points.length)
    (hsu : r.split_unit ≤ 0) (htri : rf.triangulate = true) :
    rf.new_indices_triangulated
      = TriangulateWithIndices rf.swap_faces r.counts rf.new_indices := by
  obtain ⟨old, ho⟩ := h.tri htri
  obtain ⟨sp, hsp⟩ : ∃ sp, rf.splits = [sp] := List.length_eq_one.mp (h.one hsu)
  have hF := h.faces_total
  have hI := h.indices_total
  have hT := h.tri_total
  rw [hsp] at hF hI hT
  simp only [faceBase, indexBase, triBase, List.length_singleton, List.take_succ_cons,
    List.take_zero, List.map_cons, List.map_nil, List.sum_cons, List.sum_nil, add_zero] at hF hI hT
  have hsum : (r.counts.map Int.toNat).sum = rf.new_indices.length := by
    have := hv.total
    unfold faceStart at this
    rw [List.take_length] at this
    rw [this, h.len_ni]
  have hlen := TriangulateWithIndices_length rf.swap_faces r.counts rf.new_indices hv.1 hsum
  have hT' : sp.num_indices_triangulated = (r.counts.map (fun c => (c - 2) * 3)).sum := by
    rw [hT]; unfold triTotal; rw [List.take_length]
  rw [ho]
  unfold triangulateSplits
  simp only [hsp, List.foldl_cons, List.foldl_nil, zero_add]
  rw [h.frame.1, view_whole r.counts _ hF, view_whole rf.new_indices _ (by rw [hI, h.len_ni])]
  apply writeAt_whole
  rw [length_resize]
  have e : ((sp.num_indices_triangulated).toNat : Int)
      = ((TriangulateWithIndices rf.swap_faces r.counts rf.new_indices).length : Int) := by
    rw [hlen, ← hT']
    apply Int.toNat_of_nonneg
    rw [hT', ← hlen]
    exact Int.natCast_nonneg _
  exact_mod_cast e

/-- With `split_unit = 0`, `new_indices` numbers the output vertices in the order in
which the corners first need them: every entry names a vertex, the corner that
allocated vertex `g` maps to `g`, and an entry exceeds only numbers that occur
earlier. -/
theorem refined_indices (K : NearEqual F2 F3 F4) (d : Profile)
    (r rf : MeshRefiner F2 F3 F4 W) (a : List Nat) (h : Refined K d r rf a)
    (hsu : r.split_unit ≤ 0) :
    (∀ k : Nat, k < r.indices.length →
      ∃ g : Nat, g < a.length ∧ a.getD g 0 ≤ k ∧ elem rf.new_indices (k : Int) = (g : Int)) ∧
    (∀ g : Nat, g < a.length → elem rf.new_indices ((a.getD g 0 : Nat) : Int) = (g : Int)) ∧
    Grows [] rf.new_indices := by
  have hout := h.single_out hsu
  have hgreedy := (h.single hsu).1
  have h1 : ∀ k : Nat, k < r.indices.length →
      ∃ g : Nat, g < a.length ∧ a.getD g 0 ≤ k ∧ elem rf.new_indices (k : Int) = (g : Int) := by
    intro k hk
    obtain ⟨g, e1, e2, _, e4, _⟩ := hout k hk
    exact ⟨g, e2, e4, e1⟩
  have h2 : ∀ g : Nat, g < a.length →
      elem rf.new_indices ((a.getD g 0 : Nat) : Int) = (g : Int) := by
    intro g hg
    have hmem : a.getD g 0 ∈ a := getD_mem_of_lt a g hg
    have hk := h.alloc_lt _ hmem
    obtain ⟨g', e1, e2, e3, e4, e5⟩ := hout _ hk
    rw [e1]
    rcases e5 with e5 | e5
    · rw [sorted_getD_inj a h.sorted g' g e2 hg e5]
    · by_cases c : a.getD g' 0 = a.getD g 0
      · rw [sorted_getD_inj a h.sorted g' g e2 hg c]
      · have := (hgreedy _ hk).mp hmem g' e2 (by omega) e3
        rw [this] at e5
        exact absurd e5 (by simp)
  refine ⟨h1, h2, ?_⟩
  apply grows_of_position
  intro p hp v hv0 hv1
  right
  rw [h.len_ni] at hp
  obtain ⟨g, e1, e2, e3⟩ := h1 p hp
  have hp' : p < rf.new_indices.length := by rw [h.len_ni]; exact hp
  rw [← elem_of_lt _ p hp', e3] at hv1
  obtain ⟨g', rfl⟩ := Int.eq_ofNat_of_zero_le hv0
  have hg' : g' < g := by omega
  have hlt := sorted_getD_lt a h.sorted g' g hg' e1
  have hq : a.getD g' 0 < rf.new_indices.length := by omega
  refine ⟨a.getD g' 0, hq, by omega, ?_⟩
  rw [← elem_of_lt _ _ hq]
  exact h2 g' (by omega)

end MeshRefiner

end

theorem sorted_gap (a : List Nat) (h : a.Pairwise (· < ·)) (i : Nat) :
    ∀ j : Nat, i ≤ j → j < a.length → a.getD i 0 + (j - i) ≤ a.getD j 0 := by
  intro j
  induction j with
  | zero => intro hij _; have : i = 0 := by omega
            subst this; simp
  | succ j ih =>
    intro hij hj
    by_cases c : i = j + 1
    · subst c; simp
    · have h1 := ih (by omega) (by omega)
      have h2 := sorted_getD_lt a h j (j + 1) (by omega) hj
      omega

/-- A strictly increasing list of `n` numbers below `n` is `0, 1, …, n-1`. -/
theorem sorted_full (a : List Nat) (h : a.Pairwise (· < ·)) (n : Nat)
    (hlt : ∀ k ∈ a, k < n) (hlen : a.length = n) (g : Nat) (hg : g < n) : a.getD g 0 = g := by
  have h1 := sorted_gap a h 0 g (by omega) (by omega)
  have h2 := sorted_gap a h g (n - 1) (by omega) (by omega)
  have h3 := hlt (a.getD (n - 1) 0) (getD_mem_of_lt a (n - 1) (by omega))
  omega

theorem map_eq_of_index {β : Type} [Inhabited β] (xs : List β) (a : List Nat) (f : Nat → β)
    (hlen : a.length = xs.length)
    (hf : ∀ g : Nat, g < a.length → f (a.getD g 0) = elem xs (g : Int)) : a.map f = xs := by
  apply List.ext_getElem
  · simpa using hlen
  · intro n h1 h2
    have hn : n < a.length := by simpa using h1
    rw [List.getElem_map, ← elem_of_lt xs n h2, ← hf n hn, List.getD_eq_getElem _ _ hn]

section

variable {F2 F3 F4 W : Type} [Inhabited F2] [Inhabited F3] [Inhabited F4] [Inhabited W]

namespace MeshRefiner

set_option linter.unusedSectionVars false

/-- On a mesh whose attribute buffers are per-vertex, whose points are all used and
whose index buffer numbers the points in the order of their first use, a run with
`split_unit = 0` allocates one vertex per point, in the order of the points. -/
theorem canonical_corners (K : NearEqual F2 F3 F4) (d : Profile)
    (r rf : MeshRefiner F2 F3 F4 W) (a : List Nat)
    (hv : ValidMesh r) (hd : dispatch r = some d) (h : Refined K d r rf a)
    (hsu : r.split_unit ≤ 0) (hpv : PerVertexAttrs r) (hcov : EveryPointUsed r)
    (hrefl : NearReflexive K r) (hg : Grows [] r.indices) :
    a.length = r.points.length ∧
    ∀ g : Nat, g < a.length → idx r (a.getD g 0) = (g : Int) ∧
      (r.points.length = r.indices.length → a.getD g 0 = g) := by
  obtain ⟨hgreedy, hout⟩ := h.single hsu
  have hI : ∀ g : Nat, g < a.length → a.getD g 0 < r.indices.length :=
    fun g hg' => h.alloc_lt _ (getD_mem_of_lt a g hg')
  have hdist : ∀ g' g : Nat, g' < g → g < a.length → idx r (a.getD g' 0) ≠ idx r (a.getD g 0) := by
    intro g' g hlt hgl heq
    have h1 := (hgreedy _ (hI g hgl)).mp (getD_mem_of_lt a g hgl) g' (by omega)
      (sorted_getD_lt a h.sorted g' g hlt hgl) heq
    have h2 := same_of_same_point K r d hv hd hpv hcov hrefl _ _ (hI g' (by omega)) (hI g hgl) heq
    rw [h2] at h1
    exact absurd h1 (by simp)
  have hidx : ∀ g : Nat, g < a.length → idx r (a.getD g 0) = (g : Int) := by
    intro g
    induction g using Nat.strong_induction_on with
    | _ g ih =>
      intro hgl
      obtain ⟨w0, w1⟩ := hv.1.index_range _ (hI g hgl)
      change 0 ≤ idx r (a.getD g 0) at w0
      obtain ⟨w, hw⟩ := Int.eq_ofNat_of_zero_le w0
      rw [hw]
      have hge : g ≤ w := by
        by_contra c
        have hlt : w < g := by omega
        have := ih w hlt (by omega)
        exact hdist w g hlt hgl (by rw [this, hw])
      have hle : w ≤ g := by
        by_contra c
        have hp := hI g hgl
        have hval : ((g : Nat) : Int) < r.indices[a.getD g 0] := by
          rw [← elem_of_lt _ _ hp]
          change (g : Int) < idx r (a.getD g 0)
          rw [hw]; omega
        rcases grows_position hg (a.getD g 0) hp (g : Int) (by omega) hval with hm | ⟨q, hq, hqp, hqv⟩
        · simp at hm
        · obtain ⟨m, hm1, hm2, hm3, _⟩ := hout q hq
          have hmg : m < g := by
            by_contra c2
            rcases Nat.lt_or_ge g m with c3 | c3
            · have := sorted_getD_lt a h.sorted g m c3 hm1; omega
            · have : m = g := by omega
              subst this; omega
          have e1 := ih m hmg hm1
          have e2 : idx r q = (g : Int) := by
            unfold idx; rw [elem_of_lt _ _ hq]; exact hqv
          rw [hm2, e2] at e1
          omega
      have : w = g := by omega
      rw [this]
  have hlen : a.length = r.points.length := by
    apply Nat.le_antisymm
    · by_contra c
      have hpos : 0 < a.length := by omega
      have e := hidx (a.length - 1) (by omega)
      have := (hv.1.index_range _ (hI (a.length - 1) (by omega))).2
      change idx r (a.getD (a.length - 1) 0) < _ at this
      rw [e] at this
      omega
    · by_contra c
      have hpos : 0 < r.points.length := by omega
      obtain ⟨k, hk, hkv⟩ := hcov (r.points.length - 1) (by omega)
      obtain ⟨m, hm1, hm2, _⟩ := hout k hk
      have e := hidx m hm1
      rw [hm2] at e
      change elem r.indices (k : Int) = _ at e
      rw [hkv] at e
      omega
  refine ⟨hlen, fun g hgl => ⟨hidx g hgl, fun hPI => ?_⟩⟩
  exact sorted_full a h.sorted r.indices.length (fun k hk => h.alloc_lt k hk)
    (by rw [hlen, hPI]) g (by rw [← hPI, ← hlen]; exact hgl)

end MeshRefiner

end

section

variable {F2 F3 F4 W : Type} [Inhabited F2] [Inhabited F3] [Inhabited F4] [Inhabited W]

namespace MeshRefiner

set_option linter.unusedSectionVars false

/-- The branch `refineWithOptimization` takes on a mesh in refined form: an attribute is
handled exactly when its buffer is present, and it is read per corner only when there
are as many corners as points. -/
theorem refinedForm_profile {K : NearEqual F2 F3 F4} {r : MeshRefiner F2 F3 F4 W}
    (c : RefinedForm K r) :
    ∃ d : Profile, dispatch r = some d ∧
      (∀ b, d.n = some b → r.normals.length = r.points.length ∧
        (b = true → r.points.length = r.indices.length)) ∧
      (d.n = none → r.normals = []) ∧
      (∀ b, d.u = some b → r.uv.length = r.points.length ∧
        (b = true → r.points.length = r.indices.length)) ∧
      (d.u = none → r.uv = []) ∧
      (∀ b, d.c = some b → r.colors.length = r.points.length ∧
        (b = true → r.points.length = r.indices.length)) ∧
      (d.c = none → r.colors = []) ∧
      (∀ b, d.t = some b → r.tangents_tmp.length = r.points.length ∧
        (b = true → r.points.length = r.indices.length)) ∧
      (d.t = none → r.tangents_tmp = []) := by
  by_cases hP : r.points.length = 0
  · have hI : r.indices = [] := by
      cases hi : r.indices with
      | nil => rfl
      | cons x xs =>
        have := c.topo.2.2 x (by rw [hi]; simp)
        omega
    have hn : r.normals = [] := by
      rcases c.attrs.1 with h | h
      · exact h
      · exact List.length_eq_zero.mp (by omega)
    have hu : r.uv = [] := by
      rcases c.attrs.2.1 with h | h
      · exact h
      · exact List.length_eq_zero.mp (by omega)
    have hc : r.colors = [] := by
      rcases c.attrs.2.2 with h | h
      · exact h
      · exact List.length_eq_zero.mp (by omega)
    have ht : r.tangents_tmp = [] := by
      rcases c.tangents with h | h
      · exact h
      · exact List.length_eq_zero.mp (by omega)
    refine ⟨⟨some true, none, none, none⟩, ?_, ?_, ?_, ?_, ?_, ?_, ?_, ?_, ?_⟩
    · unfold dispatch; simp [hn, hu, hI]
    · intro b _; rw [hn, hI, hP]; simp
    · intro h; exact absurd h (by simp)
    · intro b h; exact absurd h (by simp)
    · intro _; exact hu
    · intro b h; exact absurd h (by simp)
    · intro _; exact hc
    · intro b h; exact absurd h (by simp)
    · intro _; exact ht
  · have hne := c.active (by omega)
    have hav : AttrsValid r :=
      ⟨c.attrs.1.imp id Or.inl, c.attrs.2.1.imp id Or.inl, c.attrs.2.2.imp id Or.inl⟩
    obtain ⟨d, hd⟩ := dispatch_active r hav hne
    obtain ⟨s1, s2, s3⟩ := dispatch_spec r d hd hne
    obtain ⟨t1, t2⟩ := dispatch_tangents r d hd
    have fn : ∀ b, d.n = some b → r.normals.length = r.points.length ∧
        (b = true → r.points.length = r.indices.length) := by
      intro b hb
      rw [s1] at hb
      by_cases he : r.normals.isEmpty = true
      · rw [if_pos he] at hb; exact absurd hb (by simp)
      · rw [if_neg he] at hb
        have hl : r.normals.length = r.points.length := by
          rcases c.attrs.1 with h | h
          · rw [h] at he; exact absurd rfl he
          · exact h
        refine ⟨hl, fun hbt => ?_⟩
        injection hb with hb
        rw [hbt] at hb
        have := of_decide_eq_true hb
        omega
    have fu : ∀ b, d.u = some b → r.uv.length = r.points.length ∧
        (b = true → r.points.length = r.indices.length) := by
      intro b hb
      rw [s2] at hb
      by_cases he : r.uv.isEmpty = true
      · rw [if_pos he] at hb; exact absurd hb (by simp)
      · rw [if_neg he] at hb
        have hl : r.uv.length = r.points.length := by
          rcases c.attrs.2.1 with h | h
          · rw [h] at he; exact absurd rfl he
          · exact h
        refine ⟨hl, fun hbt => ?_⟩
        injection hb with hb
        rw [hbt] at hb
        have := of_decide_eq_true hb
        omega
    refine ⟨d, hd, fn, ?_, fu, ?_, ?_, ?_, ?_, ?_⟩
    · intro h
      rw [s1] at h
      by_cases he : r.normals.isEmpty = true
      · exact List.isEmpty_iff.mp he
      · rw [if_neg he] at h; exact absurd h (by simp)
    · intro h
      rw [s2] at h
      by_cases he : r.uv.isEmpty = true
      · exact List.isEmpty_iff.mp he
      · rw [if_neg he] at h; exact absurd h (by simp)
    · intro b hb
      rw [s3] at hb
      by_cases he : comparesColors r = true
      · rw [if_pos he] at hb
        have hce : r.colors ≠ [] := by
          intro h0
          unfold comparesColors at he
          rw [h0] at he
          simp at he
        have hl : r.colors.length = r.points.length := by
          rcases c.attrs.2.2 with h | h
          · exact absurd h hce
          · exact h
        refine ⟨hl, fun hbt => ?_⟩
        injection hb with hb
        rw [hbt] at hb
        have := of_decide_eq_true hb
        omega
      · rw [if_neg he] at hb; exact absurd hb (by simp)
    · intro h
      rw [s3] at h
      by_cases he : comparesColors r = true
      · rw [if_pos he] at h; exact absurd h (by simp)
      · by_contra hc
        exact he (c.colors hc)
    · intro b hb
      have hnn : ¬ (r.uv.isEmpty = true ∨ r.normals.isEmpty = true
          ∨ r.tangents_tmp.isEmpty = true) := by
        intro h
        rw [t1.mpr h] at hb
        exact absurd hb (by simp)
      have hl : r.tangents_tmp.length = r.points.length := by
        rcases c.tangents with h | h
        · exact absurd (Or.inr (Or.inr (by rw [h]; rfl))) hnn
        · exact h.1
      refine ⟨hl, fun hbt => ?_⟩
      rw [hbt] at hb
      rcases t2 hb with h | h
      · exact (fn true h).2 rfl
      · exact (fu true h).2 rfl
    · intro h
      rcases c.tangents with h0 | ⟨_, h1, h2⟩
      · exact h0
      · rcases t1.mp h with e | e | e
        · exact absurd (List.isEmpty_iff.mp e) h1
        · exact absurd (List.isEmpty_iff.mp e) h2
        · exact List.isEmpty_iff.mp e

end MeshRefiner

end

section

variable {F2 F3 F4 W : Type} [Inhabited F2] [Inhabited F3] [Inhabited F4] [Inhabited W]

namespace MeshRefiner

set_option linter.unusedSectionVars false

/-- Optimized refine returns a mesh in refined form as it is: every output buffer equals
the input buffer it is filled from, and the triangulated indices are the indices. -/
theorem refinedForm_refine {K : NearEqual F2 F3 F4} {r : MeshRefiner F2 F3 F4 W}
    (c : RefinedForm K r) :
    (refineWithOptimization K r).1.new_points = r.points ∧
    (refineWithOptimization K r).1.new_normals = r.normals ∧
    (refineWithOptimization K r).1.new_uv = r.uv ∧
    (refineWithOptimization K r).1.new_colors = r.colors ∧
    (refineWithOptimization K r).1.new_tangents = r.tangents_tmp ∧
    (refineWithOptimization K r).1.new_weights4 = r.weights4 ∧
    (refineWithOptimization K r).1.new_indices_triangulated = r.indices := by
  obtain ⟨d, hd, pn, pn0, pu, pu0, pc, pc0, pt, pt0⟩ := refinedForm_profile c
  obtain ⟨a, h⟩ := refine_spec K r c.topo c.fresh d hd
  generalize (refineWithOptimization K r).1 = rf at h
  -- one vertex per point, in the order of the points
  have hcor : a.length = r.points.length ∧
      ∀ g : Nat, g < a.length → idx r (a.getD g 0) = (g : Int) ∧
        (r.points.length = r.indices.length → a.getD g 0 = g) := by
    by_cases hP : r.points.length = 0
    · have hI : r.indices.length = 0 := by
        cases hi : r.indices with
        | nil => rfl
        | cons x xs =>
          have := c.topo.2.2 x (by rw [hi]; simp)
          omega
      have ha : a = [] := by
        cases ha : a with
        | nil => rfl
        | cons x xs =>
          have := h.alloc_lt x (by rw [ha]; simp)
          omega
      subst ha
      exact ⟨by rw [hP]; rfl, fun g hg => absurd hg (by simp)⟩
    · exact canonical_corners K d r rf a ⟨c.topo, c.active (by omega)⟩ hd h c.split_unit
        c.attrs c.used c.near c.grows
  obtain ⟨hlen, hcor⟩ := hcor
  have hpick : ∀ (b : Bool), (b = true → r.points.length = r.indices.length) →
      ∀ g : Nat, g < a.length → pick b (idx r (a.getD g 0)) ((a.getD g 0 : Nat) : Int) = (g : Int) := by
    intro b hb g hg
    obtain ⟨e1, e2⟩ := hcor g hg
    cases b with
    | false => show idx r (a.getD g 0) = _; exact e1
    | true => show ((a.getD g 0 : Nat) : Int) = _; rw [e2 (hb rfl)]
  have hpts : rf.new_points = r.points := by
    rw [h.points]
    apply map_eq_of_index _ _ _ hlen
    intro g hg
    unfold keyP
    rw [(hcor g hg).1]
  have hnor : rf.new_normals = r.normals := by
    cases hdn : d.n with
    | none => rw [h.normals_off hdn, c.fresh.new_normals, pn0 hdn]
    | some b =>
      rw [h.normals b hdn]
      apply map_eq_of_index _ _ _ (by rw [hlen, (pn b hdn).1])
      intro g hg
      unfold keyN
      rw [hpick b (pn b hdn).2 g hg]
  have huv : rf.new_uv = r.uv := by
    cases hdu : d.u with
    | none => rw [h.uv_off hdu, c.fresh.new_uv, pu0 hdu]
    | some b =>
      rw [h.uv b hdu]
      apply map_eq_of_index _ _ _ (by rw [hlen, (pu b hdu).1])
      intro g hg
      unfold keyU
      rw [hpick b (pu b hdu).2 g hg]
  have hcol : rf.new_colors = r.colors := by
    cases hdc : d.c with
    | none => rw [h.colors_off hdc, c.fresh.new_colors, pc0 hdc]
    | some b =>
      rw [h.colors b hdc]
      apply map_eq_of_index _ _ _ (by rw [hlen, (pc b hdc).1])
      intro g hg
      unfold keyC
      rw [hpick b (pc b hdc).2 g hg]
  have htan : rf.new_tangents = r.tangents_tmp := by
    cases hdt : d.t with
    | none => rw [h.tangents_off hdt, c.new_tangents, pt0 hdt]
    | some b =>
      rw [h.tangents b hdt, c.new_tangents, List.nil_append]
      apply map_eq_of_index _ _ _ (by rw [hlen, (pt b hdt).1])
      intro g hg
      unfold keyT
      rw [hpick b (pt b hdt).2 g hg]
  have hwts : rf.new_weights4 = r.weights4 := by
    rw [h.weights, c.new_weights4, List.nil_append]
    by_cases he : r.weights4.isEmpty = true
    · rw [if_pos he, List.isEmpty_iff.mp he]
    · rw [if_neg he]
      have hl : r.weights4.length = r.points.length := by
        rcases c.weights with h0 | h0
        · rw [h0] at he; exact absurd rfl he
        · exact h0
      apply map_eq_of_index _ _ _ (by rw [hlen, hl])
      intro g hg
      unfold keyW
      rw [(hcor g hg).1]
  have hni : rf.new_indices = r.indices := by
    apply List.ext_getElem h.len_ni
    intro k h1 h2
    obtain ⟨g, e1, e2, e3, _⟩ := h.single_out c.split_unit k h2
    rw [← elem_of_lt _ k h1, ← elem_of_lt _ k h2, e1, ← (hcor g e2).1, e3]
    rfl
  refine ⟨hpts, hnor, huv, hcol, htan, hwts, ?_⟩
  rw [refined_triangulated K d r rf a h c.topo c.split_unit (by rw [h.frame.2.2.2.2.1, c.triangulate]),
    h.frame.2.2.2.2.2, c.swap_faces, hni]
  obtain ⟨n, hn⟩ := c.triangles
  rw [hn]
  apply TriangulateWithIndices_triangles
  have := c.topo.2.1
  rw [hn, sum_replicate_three] at this
  omega

end MeshRefiner

end

theorem sum_tri_factor (counts : List Int) :
    (counts.map (fun c => (c - 2) * 3)).sum = 3 * (counts.map (fun c => c - 2)).sum := by
  induction counts with
  | nil => simp
  | cons c cs ih => rw [List.map_cons, List.sum_cons, ih, List.map_cons, List.sum_cons]; ring

section

variable {F2 F3 F4 W : Type} [Inhabited F2] [Inhabited F3] [Inhabited F4] [Inhabited W]

namespace MeshRefiner

set_option linter.unusedSectionVars false

theorem refinedAsInput_fields (s rf : MeshRefiner F2 F3 F4 W) :
    (refinedAsInput s rf).counts
      = List.replicate ((rf.new_indices_triangulated.length : Int) / 3).toNat 3 ∧
    (refinedAsInput s rf).indices = rf.new_indices_triangulated ∧
    (refinedAsInput s rf).points = rf.new_points ∧
    (refinedAsInput s rf).normals = rf.new_normals ∧
    (refinedAsInput s rf).uv = rf.new_uv ∧
    (refinedAsInput s rf).colors = rf.new_colors ∧
    (refinedAsInput s rf).weights4 = rf.new_weights4 ∧
    (refinedAsInput s rf).tangents_tmp = rf.new_tangents ∧
    (refinedAsInput s rf).new_tangents = s.new_tangents ∧
    (refinedAsInput s rf).new_weights4 = [] ∧
    (refinedAsInput s rf).split_unit = s.split_unit ∧
    (refinedAsInput s rf).triangulate = s.triangulate ∧
    (refinedAsInput s rf).swap_faces = s.swap_faces := by
  unfold refinedAsInput prepare
  simp [resize_nil]

theorem refinedAsInput_fresh (s rf : MeshRefiner F2 F3 F4 W) : Fresh (refinedAsInput s rf) := by
  have h := prepare_fresh s [] rf.new_indices_triangulated rf.new_points rf.new_normals
    rf.new_uv rf.new_colors rf.new_weights4
  refine ⟨h.splits, h.new_points, h.new_normals, h.new_uv, h.new_colors, h.new_indices,
    h.old2new, ?_, h.offsets⟩
  rcases h.csr with h0 | ⟨h1, h2⟩
  · exact Or.inl h0
  · exact Or.inr ⟨h1, h2.counts_eq, h2.offsets_eq, h2.slots, h2.faces⟩

/-- The output of a run with `split_unit = 0`, `triangulate = true` and no winding swap,
prepared again, is a mesh in refined form. -/
theorem refinedAsInput_form (K : NearEqual F2 F3 F4) (r s : MeshRefiner F2 F3 F4 W)
    (hv : ValidMesh r) (hf : Fresh r) (ha : AttrsValid r)
    (hsu : r.split_unit = 0) (htr : r.triangulate = true) (hsw : r.swap_faces = false)
    (hnt : r.new_tangents = []) (hnw : r.new_weights4 = [])
    (hs1 : s.split_unit = 0) (hs2 : s.triangulate = true) (hs3 : s.swap_faces = false)
    (hs4 : s.new_tangents = [])
    (hrefl : NearReflexive K (refinedAsInput s (refineWithOptimization K r).1)) :
    RefinedForm K (refinedAsInput s (refineWithOptimization K r).1) := by
  obtain ⟨d, hd⟩ := dispatch_active r ha hv.2
  obtain ⟨a, h⟩ := refine_spec K r hv.1 hf d hd
  obtain ⟨s1, s2, s3⟩ := dispatch_spec r d hd hv.2
  obtain ⟨t1, _⟩ := dispatch_tangents r d hd
  generalize (refineWithOptimization K r).1 = rf at h hrefl
  obtain ⟨n1, n2, n3⟩ := refined_indices K d r rf a h (by omega)
  have hT := refined_triangulated K d r rf a h hv.1 (by omega) (by rw [h.frame.2.2.2.2.1, htr])
  rw [h.frame.2.2.2.2.2, hsw] at hT
  have hsum : (r.counts.map Int.toNat).sum = rf.new_indices.length := by
    have := hv.1.total
    unfold faceStart at this
    rw [List.take_length] at this
    rw [this, h.len_ni]
  obtain ⟨tg, tm⟩ := TriangulateWithIndices_grows r.counts rf.new_indices []
    (by intro x hx; simp at hx) n3 hv.1.1 hsum
  have tl := TriangulateWithIndices_length false r.counts rf.new_indices hv.1.1 hsum
  rw [sum_tri_factor] at tl
  rw [← hT] at tg tm tl
  obtain ⟨f1, f2, f3, f4, f5, f6, f7, f8, f9, f10, f11, f12, f13⟩ := refinedAsInput_fields s rf
  have hVp : rf.new_points.length = a.length := by rw [h.points, List.length_map]
  -- the lengths of the output attribute buffers
  have ln : ∀ b, d.n = some b → rf.new_normals.length = a.length := by
    intro b hb; rw [h.normals b hb, List.length_map]
  have lu : ∀ b, d.u = some b → rf.new_uv.length = a.length := by
    intro b hb; rw [h.uv b hb, List.length_map]
  have lc : ∀ b, d.c = some b → rf.new_colors.length = a.length := by
    intro b hb; rw [h.colors b hb, List.length_map]
  have lt : ∀ b, d.t = some b → rf.new_tangents.length = a.length := by
    intro b hb; rw [h.tangents b hb, hnt, List.nil_append, List.length_map]
  have hmemN : ∀ v ∈ rf.new_indices, ∃ g : Nat, g < a.length ∧ v = (g : Int) := by
    intro v hvm
    obtain ⟨k, hk, rfl⟩ := List.getElem_of_mem hvm
    obtain ⟨g, e1, _, e3⟩ := n1 k (by rw [← h.len_ni]; exact hk)
    rw [elem_of_lt _ k hk] at e3
    exact ⟨g, e1, e3⟩
  have hne_of_len : ∀ {β : Type} (xs : List β), 0 < a.length → xs.length = a.length → xs ≠ [] := by
    intro β xs h0 hl hx
    rw [hx] at hl
    simp at hl
    omega
  have hdn : r.normals ≠ [] → ∃ b, d.n = some b := by
    intro hn
    rw [s1, if_neg (by simpa using hn)]
    exact ⟨_, rfl⟩
  have hdu : r.uv ≠ [] → ∃ b, d.u = some b := by
    intro hn
    rw [s2, if_neg (by simpa using hn)]
    exact ⟨_, rfl⟩
  -- a run that copies tangents handles normals and texture coordinates as well
  have htnu : ∀ bt, d.t = some bt → (∃ b, d.n = some b) ∧ (∃ b, d.u = some b) := by
    intro bt hbt
    have hnn : ¬ (r.uv.isEmpty = true ∨ r.normals.isEmpty = true
        ∨ r.tangents_tmp.isEmpty = true) := by
      intro hx
      rw [t1.mpr hx] at hbt
      exact absurd hbt (by simp)
    constructor
    · apply hdn
      intro hx
      exact hnn (Or.inr (Or.inl (by rw [hx]; rfl)))
    · apply hdu
      intro hx
      exact hnn (Or.inl (by rw [hx]; rfl))
  constructor
  · -- topo
    rw [f1, f2, f3]
    refine ⟨fun c hc => ?_, ?_, ?_⟩
    · rw [List.eq_of_mem_replicate hc]
    · rw [sum_replicate_three]
      have : 0 ≤ (rf.new_indices_triangulated.length : Int) := Int.natCast_nonneg _
      omega
    · intro v hvm
      obtain ⟨g, e1, e2⟩ := hmemN v ((tm v).mp hvm)
      rw [hVp, e2]
      omega
  · exact refinedAsInput_fresh s rf
  · exact ⟨_, f1⟩
  · -- attrs
    rw [PerVertexAttrs, f3, f4, f5, f6, hVp]
    refine ⟨?_, ?_, ?_⟩
    · cases hdn' : d.n with
      | none => left; rw [h.normals_off hdn', hf.new_normals]
      | some b => right; exact ln b hdn'
    · cases hdu' : d.u with
      | none => left; rw [h.uv_off hdu', hf.new_uv]
      | some b => right; exact lu b hdu'
    · cases hdc' : d.c with
      | none => left; rw [h.colors_off hdc', hf.new_colors]
      | some b => right; exact lc b hdc'
  · -- used
    intro v hvP
    rw [f3, hVp] at hvP
    rw [f2]
    have hk := h.alloc_lt _ (getD_mem_of_lt a v hvP)
    have hk' : a.getD v 0 < rf.new_indices.length := by rw [h.len_ni]; exact hk
    have hm : (v : Int) ∈ rf.new_indices := by
      rw [← n2 v hvP, elem_of_lt _ _ hk']
      exact List.getElem_mem _
    obtain ⟨k, hk2, hk3⟩ := List.getElem_of_mem ((tm _).mpr hm)
    exact ⟨k, hk2, by rw [elem_of_lt _ k hk2]; exact hk3⟩
  · exact hrefl
  · rw [f2]; exact tg
  · -- active
    intro hpos
    rw [f3, hVp] at hpos
    rw [f4, f5]
    rcases hv.2 with hn | hu
    · obtain ⟨b, hb⟩ := hdn hn
      exact Or.inl (hne_of_len _ hpos (ln b hb))
    · obtain ⟨b, hb⟩ := hdu hu
      exact Or.inr (hne_of_len _ hpos (lu b hb))
  · -- colors
    intro hc
    rw [f6] at hc
    cases hdc' : d.c with
    | none => rw [h.colors_off hdc', hf.new_colors] at hc; exact absurd rfl hc
    | some b =>
      have hpos : 0 < a.length := by
        rcases Nat.eq_zero_or_pos a.length with h0 | h0
        · have := lc b hdc'
          rw [h0] at this
          exact absurd (List.length_eq_zero.mp this) hc
        · exact h0
      have hcc : comparesColors r = true := by
        by_contra hx
        rw [s3, if_neg hx] at hdc'
        exact absurd hdc' (by simp)
      have hdt : ∃ bt, d.t = some bt := by
        cases hdt' : d.t with
        | some bt => exact ⟨bt, rfl⟩
        | none =>
          have := t1.mp hdt'
          unfold comparesColors at hcc
          simp only [Bool.and_eq_true, Bool.not_eq_true'] at hcc
          rcases this with e | e | e
          · rw [e] at hcc; simp at hcc
          · rw [e] at hcc; simp at hcc
          · rw [e] at hcc; simp at hcc
      obtain ⟨bt, hbt⟩ := hdt
      obtain ⟨⟨bn, hbn⟩, ⟨bu, hbu⟩⟩ := htnu bt hbt
      unfold comparesColors
      rw [f4, f5, f6, f8]
      have e1 := hne_of_len _ hpos (ln bn hbn)
      have e2 := hne_of_len _ hpos (lu bu hbu)
      have e3 := hne_of_len _ hpos (lt bt hbt)
      simp [e1, e2, e3, hc]
  · -- tangents
    rw [f8, f3, f4, f5, hVp]
    cases hdt' : d.t with
    | none => left; rw [h.tangents_off hdt', hnt]
    | some bt =>
      rcases Nat.eq_zero_or_pos a.length with h0 | h0
      · left
        have := lt bt hdt'
        rw [h0] at this
        exact List.length_eq_zero.mp this
      · right
        obtain ⟨⟨bn, hbn⟩, ⟨bu, hbu⟩⟩ := htnu bt hdt'
        exact ⟨lt bt hdt', hne_of_len _ h0 (lu bu hbu), hne_of_len _ h0 (ln bn hbn)⟩
  · -- weights
    rw [f7, f3, hVp, h.weights, hnw, List.nil_append]
    by_cases he : r.weights4.isEmpty = true
    · left; rw [if_pos he]
    · right; rw [if_neg he, List.length_map]
  · rw [f9]; exact hs4
  · exact f10
  · rw [f11, hs1]
  · rw [f12]; exact hs2
  · rw [f13]; exact hs3

end MeshRefiner

end

section

variable {F2 F3 F4 W : Type} [Inhabited F2] [Inhabited F3] [Inhabited F4] [Inhabited W]

open MeshRefiner

set_option linter.unusedSectionVars false

/-- C19, as amended. Take a freshly prepared valid mesh `r` with normals or texture
coordinates and valid attribute lengths, `split_unit = 0`, `triangulate = true` and
`swap_faces = false`, on a refiner whose `new_tangents` and `new_weights4` are empty.
Refine it with `optimize = true`, prepare the output (`new_points`, the output attribute
buffers, `new_indices_triangulated` as a triangle list) on a refiner `s` with the same
options and an empty `new_tangents`, and refine again; `near_equal` is taken to be
reflexive on the values of the output buffers. The second run returns the vertex buffers
and the triangulated index buffer of the first: the same lists, hence of the same length
and with `near_equal` positions, normals, texture coordinates and colours entry by
entry. -/
theorem C19_refine_idempotent (K : NearEqual F2 F3 F4) (r s : MeshRefiner F2 F3 F4 W)
    (hv : ValidMesh r) (hf : Fresh r) (ha : AttrsValid r)
    (hsu : r.split_unit = 0) (htr : r.triangulate = true) (hsw : r.swap_faces = false)
    (hnt : r.new_tangents = []) (hnw : r.new_weights4 = [])
    (hs1 : s.split_unit = 0) (hs2 : s.triangulate = true) (hs3 : s.swap_faces = false)
    (hs4 : s.new_tangents = [])
    (hrefl : NearReflexive K (refinedAsInput s (refineWithOptimization K r).1)) :
    (refineTwice K s r).new_points = (refineWithOptimization K r).1.new_points ∧
    (refineTwice K s r).new_normals = (refineWithOptimization K r).1.new_normals ∧
    (refineTwice K s r).new_uv = (refineWithOptimization K r).1.new_uv ∧
    (refineTwice K s r).new_colors = (refineWithOptimization K r).1.new_colors ∧
    (refineTwice K s r).new_tangents = (refineWithOptimization K r).1.new_tangents ∧
    (refineTwice K s r).new_weights4 = (refineWithOptimization K r).1.new_weights4 ∧
    (refineTwice K s r).new_indices_triangulated
      = (refineWithOptimization K r).1.new_indices_triangulated ∧
    (∀ i : Nat, i < (refineWithOptimization K r).1.new_points.length →
      K.near3 (elem (refineTwice K s r).new_points (i : Int))
        (elem (refineWithOptimization K r).1.new_points (i : Int)) = true) ∧
    (∀ i : Nat, i < (refineWithOptimization K r).1.new_normals.length →
      K.near3 (elem (refineTwice K s r).new_normals (i : Int))
        (elem (refineWithOptimization K r).1.new_normals (i : Int)) = true) ∧
    (∀ i : Nat, i < (refineWithOptimization K r).1.new_uv.length →
      K.near2 (elem (refineTwice K s r).new_uv (i : Int))
        (elem (refineWithOptimization K r).1.new_uv (i : Int)) = true) ∧
    (∀ i : Nat, i < (refineWithOptimization K r).1.new_colors.length →
      K.near4 (elem (refineTwice K s r).new_colors (i : Int))
        (elem (refineWithOptimization K r).1.new_colors (i : Int)) = true) := by
  have c := refinedAsInput_form K r s hv hf ha hsu htr hsw hnt hnw hs1 hs2 hs3 hs4 hrefl
  obtain ⟨e1, e2, e3, e4, e5, e6, e7⟩ := refinedForm_refine c
  obtain ⟨_, f2, f3, f4, f5, f6, f7, f8, _⟩ :=
    refinedAsInput_fields s (refineWithOptimization K r).1
  rw [f3] at e1
  rw [f4] at e2
  rw [f5] at e3
  rw [f6] at e4
  rw [f8] at e5
  rw [f7] at e6
  rw [f2] at e7
  obtain ⟨g1, g2, g3, g4⟩ := hrefl
  rw [f3] at g1
  rw [f4] at g2
  rw [f5] at g3
  rw [f6] at g4
  unfold refineTwice
  refine ⟨e1, e2, e3, e4, e5, e6, e7, ?_, ?_, ?_, ?_⟩
  · intro i hi
    rw [e1]
    exact g1 _ (elem_mem _ _ (by omega) (by omega))
  · intro i hi
    rw [e2]
    exact g2 _ (elem_mem _ _ (by omega) (by omega))
  · intro i hi
    rw [e3]
    exact g3 _ (elem_mem _ _ (by omega) (by omega))
  · intro i hi
    rw [e4]
    exact g4 _ (elem_mem _ _ (by omega) (by omega))

set_option maxRecDepth 100000 in
/-- Witness for C19 (amended): the quad with one normal per point. The first run gives
four vertices and the triangles `0 1 2, 0 2 3`; the second run returns the same. -/
theorem C19_refine_idempotent_witness :
    ValidMesh quadMesh ∧ AttrsValid quadMesh ∧ quadMesh.swap_faces = false ∧
    NearReflexive exactNear
      (refinedAsInput emptyRefiner (refineWithOptimization exactNear quadMesh).1) ∧
    (refineWithOptimization exactNear quadMesh).1.new_indices_triangulated = [0, 1, 2, 0, 2, 3] ∧
    (refineTwice exactNear emptyRefiner quadMesh).new_points
      = (refineWithOptimization exactNear quadMesh).1.new_points ∧
    (refineTwice exactNear emptyRefiner quadMesh).new_normals
      = (refineWithOptimization exactNear quadMesh).1.new_normals ∧
    (refineTwice exactNear emptyRefiner quadMesh).new_indices_triangulated
      = (refineWithOptimization exactNear quadMesh).1.new_indices_triangulated :=
  have h := C19_refine_idempotent exactNear quadMesh emptyRefiner
    ⟨by decide, Or.inl (by decide)⟩
    ⟨rfl, rfl, rfl, rfl, rfl, rfl, rfl, Or.inl rfl, rfl⟩ ⟨by decide, by decide, by decide⟩
    rfl rfl rfl rfl rfl rfl rfl rfl rfl ⟨by decide, by decide, by decide, by decide⟩
  ⟨⟨by decide, Or.inl (by decide)⟩, ⟨by decide, by decide, by decide⟩, rfl,
    ⟨by decide, by decide, by decide, by decide⟩, by decide, h.1, h.2.1, h.2.2.2.2.2.2.1⟩

set_option maxRecDepth 100000 in
/-- Counterexample to C19 as stated: one triangle with one normal per point, refined with
`optimize = true`, `split_unit = 0`, `triangulate = true` and `swap_faces = true`. The
first run emits the vertices in corner order and the triangle `0 2 1`; the second run,
with the same options on that output, emits the second and third vertex in exchanged
order, so the vertex buffers differ at index 1 although `near_equal` is reflexive. -/
theorem C19_counterexample :
    ValidMesh swapTriangle ∧ AttrsValid swapTriangle ∧ swapTriangle.split_unit = 0 ∧
    swapTriangle.triangulate = true ∧
    NearReflexive exactNear (refinedAsInput { emptyRefiner with swap_faces := true }
      (refineWithOptimization exactNear swapTriangle).1) ∧
    (refineWithOptimization exactNear swapTriangle).1.new_points
      = [(0, 0, 0), (1, 0, 0), (0, 1, 0)] ∧
    (refineWithOptimization exactNear swapTriangle).1.new_indices_triangulated = [0, 2, 1] ∧
    (refineTwice exactNear { emptyRefiner with swap_faces := true } swapTriangle).new_points
      = [(0, 0, 0), (0, 1, 0), (1, 0, 0)] ∧
    exactNear.near3
      (elem (refineTwice exactNear { emptyRefiner with swap_faces := true } swapTriangle).new_points 1)
      (elem (refineWithOptimization exactNear swapTriangle).1.new_points 1) = false :=
  ⟨⟨by decide, Or.inl (by decide)⟩, ⟨by decide, by decide, by decide⟩, rfl, rfl,
    ⟨by decide, by decide, by decide, by decide⟩, by decide, by decide, by decide, by decide⟩

end

section

variable {F2 F3 F4 W : Type} [Inhabited F2] [Inhabited F3] [Inhabited F4] [Inhabited W]

open MeshRefiner

set_option linter.unusedSectionVars false

/-- When dumb refine flattens, a colour buffer that is neither empty nor of length `I`
is gathered into `new_colors`, and the `colors` attribute is left as it was
(`colors = colors`, line 242). -/
theorem refineDumb_colors (r : MeshRefiner F2 F3 F4 W) (hfl : (flatten r).2 = true)
    (hc : r.colors ≠ []) (hl : r.colors.length ≠ r.indices.length) :
    (refineDumb r).1.new_colors.length = r.indices.length ∧
    (∀ k : Nat, k < r.indices.length →
      elem (refineDumb r).1.new_colors (k : Int) = elem r.colors (elem r.indices (k : Int))) ∧
    (refineDumb r).1.colors = r.colors := by
  obtain ⟨sp, tri, hrd⟩ := refineDumb_frame r
  have hcond : flattenCond r := (flatten_snd r).mp hfl
  have he : expands r.colors r.indices := by
    refine ⟨by simpa using hc, ?_⟩
    intro h
    exact hl (by exact_mod_cast h)
  have hg := gather_spec r.new_colors r.colors r.indices
  rw [hrd, flatten_true r hcond]
  simp only [if_pos he]
  exact ⟨hg.1, hg.2, by first | rfl | trivial⟩

set_option maxRecDepth 100000 in
/-- C22 (code evaluated at the failing input). Dumb refine of two triangles on four
points with one colour per point flattens the mesh: the six gathered colours are in
`new_colors`, the points are reassigned to the flattened buffer of length `I = 6`, and
the `colors` attribute still is the per-vertex buffer of length `P = 4`. -/
theorem C22_dumb_colors_not_reassigned :
    (flatten colorQuad).2 = true ∧
    (refineDumb colorQuad).1.points.length = 6 ∧
    (refineDumb colorQuad).1.new_colors
      = [(1, 0, 0, 1), (0, 1, 0, 1), (0, 0, 1, 1), (1, 0, 0, 1), (0, 0, 1, 1), (1, 1, 1, 1)] ∧
    (refineDumb colorQuad).1.colors = colorQuad.colors ∧
    (refineDumb colorQuad).1.colors.length = 4 ∧
    (refineDumb colorQuad).1.colors ≠ (refineDumb colorQuad).1.new_colors := by
  have h := refineDumb_colors colorQuad (by decide) (by decide) (by decide)
  exact ⟨by decide, by decide, by decide, h.2.2, by decide, by decide⟩

end

section

variable {F2 F3 F4 W : Type} [Inhabited F2] [Inhabited F3] [Inhabited F4] [Inhabited W]

open MeshRefiner

set_option linter.unusedSectionVars false

/-- C23, as amended. On a freshly prepared valid mesh, for every corner `k` lying in
split `t`, the output vertex `v = vertexBase t + new_indices[k]` of optimized refine
holds `normals[indices[k]]` and `uv[indices[k]]` when the buffer has length `P` and
`P ≠ I`, `colors[indices[k]]` when the colour buffer has length `P`, `P ≠ I` and the
selected variant copies colours (uv, normals and generated tangents present), and
`weights4[indices[k]]` whenever weights are present (the refiner's `new_weights4` being
empty before the run).  A normals, uv or copied colour buffer of length `I`, which is
every such buffer when `P = I`, is read per corner: there is a corner `k'` of the same
point such that `v` holds `points[indices[k']]` and `attr[k']` for each of these
buffers. -/
theorem C23_per_vertex_lookup (K : NearEqual F2 F3 F4) (r : MeshRefiner F2 F3 F4 W)
    (hv : ValidMesh r) (hf : Fresh r) (hnw : r.new_weights4 = [])
    (t k : Nat) (ht : t < (refineWithOptimization K r).1.splits.length)
    (hk0 : indexBase (refineWithOptimization K r).1.splits t ≤ (k : Int))
    (hk1 : (k : Int) < indexBase (refineWithOptimization K r).1.splits t
      + ((refineWithOptimization K r).1.splits.getD t default).num_indices) :
    (r.normals ≠ [] → r.normals.length = r.points.length →
      r.points.length ≠ r.indices.length →
      elem (refineWithOptimization K r).1.new_normals
          (vertexBase (refineWithOptimization K r).1.splits t
            + elem (refineWithOptimization K r).1.new_indices (k : Int))
        = elem r.normals (elem r.indices (k : Int))) ∧
    (r.uv ≠ [] → r.uv.length = r.points.length →
      r.points.length ≠ r.indices.length →
      elem (refineWithOptimization K r).1.new_uv
          (vertexBase (refineWithOptimization K r).1.splits t
            + elem (refineWithOptimization K r).1.new_indices (k : Int))
        = elem r.uv (elem r.indices (k : Int))) ∧
    (comparesColors r = true → r.colors.length = r.points.length →
      r.points.length ≠ r.indices.length →
      elem (refineWithOptimization K r).1.new_colors
          (vertexBase (refineWithOptimization K r).1.splits t
            + elem (refineWithOptimization K r).1.new_indices (k : Int))
        = elem r.colors (elem r.indices (k : Int))) ∧
    (r.weights4 ≠ [] →
      elem (refineWithOptimization K r).1.new_weights4
          (vertexBase (refineWithOptimization K r).1.splits t
            + elem (refineWithOptimization K r).1.new_indices (k : Int))
        = elem r.weights4 (elem r.indices (k : Int))) ∧
    (∃ k' : Nat, k' < r.indices.length ∧
      elem r.indices (k' : Int) = elem r.indices (k : Int) ∧
      elem (refineWithOptimization K r).1.new_points
          (vertexBase (refineWithOptimization K r).1.splits t
            + elem (refineWithOptimization K r).1.new_indices (k : Int))
        = elem r.points (elem r.indices (k' : Int)) ∧
      (r.normals ≠ [] → r.normals.length = r.indices.length →
        elem (refineWithOptimization K r).1.new_normals
            (vertexBase (refineWithOptimization K r).1.splits t
              + elem (refineWithOptimization K r).1.new_indices (k : Int))
          = elem r.normals (k' : Int)) ∧
      (r.uv ≠ [] → r.uv.length = r.indices.length →
        elem (refineWithOptimization K r).1.new_uv
            (vertexBase (refineWithOptimization K r).1.splits t
              + elem (refineWithOptimization K r).1.new_indices (k : Int))
          = elem r.uv (k' : Int)) ∧
      (comparesColors r = true → r.colors.length = r.indices.length →
        elem (refineWithOptimization K r).1.new_colors
            (vertexBase (refineWithOptimization K r).1.splits t
              + elem (refineWithOptimization K r).1.new_indices (k : Int))
          = elem r.colors (k' : Int))) := by
  cases hd : dispatch r with
  | none =>
    rw [refine_inactive K r hd, hf.splits] at ht
    simp at ht
  | some d =>
    obtain ⟨a, h⟩ := refine_spec K r hv.1 hf d hd
    obtain ⟨g, hg1, _, _, hg4, hg5, _, hkI⟩ := refine_corner K r d a h t k ht hk0 hk1
    obtain ⟨d1, d2, d3⟩ := dispatch_spec r d hd hv.2
    rw [hg1]
    refine ⟨?_, ?_, ?_, ?_, ?_⟩
    · intro hn hl hPI
      have hne : r.normals.isEmpty = false := by simpa using hn
      have hdec : decide ((r.normals.length : Int) = (r.indices.length : Int)) = false := by
        apply decide_eq_false
        rw [hl]
        exact_mod_cast hPI
      simp only [hne, Bool.false_eq_true, if_false, hdec] at d1
      rw [h.normals _ d1, elem_map_nat _ _ _ hg4]
      show elem r.normals (idx r (a.getD g 0)) = elem r.normals (idx r k)
      rw [hg5]
    · intro hn hl hPI
      have hne : r.uv.isEmpty = false := by simpa using hn
      have hdec : decide ((r.uv.length : Int) = (r.indices.length : Int)) = false := by
        apply decide_eq_false
        rw [hl]
        exact_mod_cast hPI
      simp only [hne, Bool.false_eq_true, if_false, hdec] at d2
      rw [h.uv _ d2, elem_map_nat _ _ _ hg4]
      show elem r.uv (idx r (a.getD g 0)) = elem r.uv (idx r k)
      rw [hg5]
    · intro hc hl hPI
      have hdec : decide ((r.colors.length : Int) = (r.indices.length : Int)) = false := by
        apply decide_eq_false
        rw [hl]
        exact_mod_cast hPI
      simp only [hc, if_true, hdec] at d3
      rw [h.colors _ d3, elem_map_nat _ _ _ hg4]
      show elem r.colors (idx r (a.getD g 0)) = elem r.colors (idx r k)
      rw [hg5]
    · intro hw
      have hne : r.weights4.isEmpty = false := by simpa using hw
      rw [h.weights, hnw, List.nil_append]
      simp only [hne, Bool.false_eq_true, if_false]
      rw [elem_map_nat _ _ _ hg4]
      show elem r.weights4 (idx r (a.getD g 0)) = elem r.weights4 (idx r k)
      rw [hg5]
    · refine ⟨a.getD g 0, h.alloc_lt _ (getD_mem_of_lt a g hg4), hg5, ?_, ?_, ?_, ?_⟩
      · rw [h.points, elem_map_nat _ _ _ hg4]
        rfl
      · intro hn hl
        have hne : r.normals.isEmpty = false := by simpa using hn
        have hdec : decide ((r.normals.length : Int) = (r.indices.length : Int)) = true := by
          apply decide_eq_true
          exact_mod_cast hl
        simp only [hne, Bool.false_eq_true, if_false, hdec] at d1
        rw [h.normals _ d1, elem_map_nat _ _ _ hg4]
        rfl
      · intro hn hl
        have hne : r.uv.isEmpty = false := by simpa using hn
        have hdec : decide ((r.uv.length : Int) = (r.indices.length : Int)) = true := by
          apply decide_eq_true
          exact_mod_cast hl
        simp only [hne, Bool.false_eq_true, if_false, hdec] at d2
        rw [h.uv _ d2, elem_map_nat _ _ _ hg4]
        rfl
      · intro hc hl
        have hdec : decide ((r.colors.length : Int) = (r.indices.length : Int)) = true := by
          apply decide_eq_true
          exact_mod_cast hl
        simp only [hc, if_true, hdec] at d3
        rw [h.colors _ d3, elem_map_nat _ _ _ hg4]
        rfl

set_option maxRecDepth 100000 in
/-- Witness for C23 (amended): corner 3 of the painted quad (point 0, second triangle)
maps to the output vertex holding the normal of point 0. -/
theorem C23_per_vertex_lookup_witness :
    ValidMesh paintedQuad ∧ paintedQuad.normals.length = paintedQuad.points.length ∧
    paintedQuad.points.length ≠ paintedQuad.indices.length ∧
    elem (refineWithOptimization exactNear paintedQuad).1.new_normals
        (vertexBase (refineWithOptimization exactNear paintedQuad).1.splits 0
          + elem (refineWithOptimization exactNear paintedQuad).1.new_indices ((3 : Nat) : Int))
      = elem paintedQuad.normals (elem paintedQuad.indices ((3 : Nat) : Int)) :=
  ⟨⟨by decide, Or.inl (by decide)⟩, by decide, by decide,
    (C23_per_vertex_lookup exactNear paintedQuad ⟨by decide, Or.inl (by decide)⟩
      ⟨rfl, rfl, rfl, rfl, rfl, rfl, rfl, Or.inl rfl, rfl⟩ rfl 0 3 (by decide) (by decide)
      (by decide)).1 (by decide) (by decide) (by decide)⟩

set_option maxRecDepth 100000 in
/-- Counterexample to C23 as stated. First, `P = I` with an index buffer that is not the
identity: the triangle with corners `1, 2, 0` and a normals buffer of length `3 = P`;
the output vertex of corner 0 holds `normals[0]`, not `normals[indices[0]] = normals[1]`.
Second, colours without generated tangents: the painted quad has a per-vertex colour
buffer, and optimized refine leaves `new_colors` empty. -/
theorem C23_counterexample :
    (ValidMesh turnedTriangle ∧
      turnedTriangle.normals.length = turnedTriangle.points.length ∧
      turnedTriangle.points.length = turnedTriangle.indices.length ∧
      elem (refineWithOptimization exactNear turnedTriangle).1.new_normals
          (vertexBase (refineWithOptimization exactNear turnedTriangle).1.splits 0
            + elem (refineWithOptimization exactNear turnedTriangle).1.new_indices 0)
        = (1, 0, 0) ∧
      elem turnedTriangle.normals (elem turnedTriangle.indices 0) = (0, 1, 0)) ∧
    (ValidMesh paintedQuad ∧ paintedQuad.colors.length = paintedQuad.points.length ∧
      paintedQuad.points.length ≠ paintedQuad.indices.length ∧
      (refineWithOptimization exactNear paintedQuad).1.new_points.length = 4 ∧
      (refineWithOptimization exactNear paintedQuad).1.new_colors = []) :=
  ⟨⟨⟨by decide, Or.inl (by decide)⟩, by decide, by decide, by decide, by decide⟩,
    ⟨⟨by decide, Or.inl (by decide)⟩, by decide, by decide, by decide, by decide⟩⟩

end

section

variable {F2 F3 F4 W : Type} [Inhabited F2] [Inhabited F3] [Inhabited F4] [Inhabited W]

namespace MeshRefiner

set_option linter.unusedSectionVars false

theorem refineFace_open (body : MeshRefiner F2 F3 F4 W → Int → Int → MeshRefiner F2 F3 F4 W × Int)
    (s : RefineLoop F2 F3 F4 W) (fi : Nat) :
    refineFace body s fi =
      { (List.range (elem s.r.counts fi).toNat).foldl (refineCorner body (elem s.r.offsets fi))
          (openFace s fi) with
        num_faces := ((List.range (elem s.r.counts fi).toNat).foldl
          (refineCorner body (elem s.r.offsets fi)) (openFace s fi)).num_faces + 1,
        num_indices_triangulated := ((List.range (elem s.r.counts fi).toNat).foldl
          (refineCorner body (elem s.r.offsets fi)) (openFace s fi)).num_indices_triangulated
            + (elem s.r.counts fi - 2) * 3 } := rfl

theorem faceState_succ (body : MeshRefiner F2 F3 F4 W → Int → Int → MeshRefiner F2 F3 F4 W × Int)
    (r : MeshRefiner F2 F3 F4 W) (fi : Nat) :
    faceState body r (fi + 1) = refineFace body (faceState body r fi) fi := by
  unfold faceState
  rw [List.range_succ, List.foldl_append]
  rfl

theorem cornerState_succ (body : MeshRefiner F2 F3 F4 W → Int → Int → MeshRefiner F2 F3 F4 W × Int)
    (r : MeshRefiner F2 F3 F4 W) (fi ci : Nat) :
    cornerState body r fi (ci + 1)
      = refineCorner body (elem (faceState body r fi).r.offsets fi) (cornerState body r fi ci) ci := by
  unfold cornerState
  rw [List.range_succ, List.foldl_append]
  rfl

/-- The face loop of `doRefine` is the run through the face states, closed by the last
`add_new_split` and the triangulation. -/
theorem doRefine_faceState (body : MeshRefiner F2 F3 F4 W → Int → Int → MeshRefiner F2 F3 F4 W × Int)
    (r : MeshRefiner F2 F3 F4 W) :
    doRefine body r
      = (if (add_new_split (faceState body r r.counts.length)).r.triangulate
         then triangulateSplits (add_new_split (faceState body r r.counts.length)).r
         else (add_new_split (faceState body r r.counts.length)).r) := by
  have hstart : (List.range (refineStart r).counts.length).foldl (refineFace body)
      ({ r := refineStart r } : RefineLoop F2 F3 F4 W) = faceState body r r.counts.length := by
    simp [refineStart, faceState]
  rw [← hstart]
  rfl

/-- The walk of `findOrAddVertex*` does not reach `return 0` when some slot of the list
is unassigned. -/
theorem reachesReturn0_free (r : MeshRefiner F2 F3 F4 W) (off : Int) (test : Int → Bool)
    (l : List Nat) (q : Nat) (hq : q ∈ l)
    (hun : elem r.old2new (elem r.shared_indices (off + q)) = -1) :
    reachesReturn0 r off test l = false := by
  induction l with
  | nil => simp at hq
  | cons c rest ih =>
    unfold reachesReturn0
    dsimp only
    by_cases h1 : (elem r.old2new (elem r.shared_indices (off + c)) != -1
        && test (elem r.old2new (elem r.shared_indices (off + c)))) = true
    · rw [if_pos h1]
    · rw [if_neg h1]
      by_cases h2 : elem r.old2new (elem r.shared_indices (off + c)) = -1
      · rw [if_pos h2]
      · rw [if_neg h2]
        rcases List.mem_cons.mp hq with h3 | h3
        · rw [h3] at hun; exact absurd hun h2
        · exact ih h3

/-- The face invariant holds before every face. -/
theorem faceLoop_upto (K : NearEqual F2 F3 F4) (d : Profile) (r : MeshRefiner F2 F3 F4 W)
    (hv : ValidTopology r.counts r.indices r.points.length) (hf : Fresh r)
    (fi : Nat) (hfi : fi ≤ r.counts.length) :
    ∃ (fst ov : Nat) (a : List Nat),
      FaceInv K d (buildConnection r) fi fst ov a (faceState (d.body K) r fi) ∧
      (0 < fi → fst < fi) := by
  have hv' : ValidTopology (buildConnection r).counts (buildConnection r).indices
      (buildConnection r).points.length := by simpa using hv
  have hc : Connected (buildConnection r) := by
    rcases hf.csr with h0 | ⟨h1, h2⟩
    · exact buildConnection_connected r hv h0
    · have : buildConnection r = r := by unfold buildConnection; rw [if_pos h1]
      rw [this]; exact h2
  have hoffs : ∀ f : Nat, f < (buildConnection r).counts.length →
      elem (buildConnection r).offsets (f : Int) = (faceStart (buildConnection r).counts f : Int) := by
    intro f hfl
    simp only [buildConnection_offsets, buildConnection_counts] at hfl ⊢
    rw [hf.offsets]
    exact CountIndices_offsets r.counts hv.nonneg f hfl
  have key := foldl_range_inv
    (fun fi (s : RefineLoop F2 F3 F4 W) => ∃ (fst ov : Nat) (a : List Nat),
      FaceInv K d (buildConnection r) fi fst ov a s ∧ (0 < fi → fst < fi))
    (refineFace (d.body K)) fi { r := refineStart r }
    ⟨0, 0, [], faceInv_start K d r hf, by intro h; omega⟩
    (by
      intro s i hi ⟨fst, ov, a, hinv, hlt⟩
      obtain ⟨fst', ov', a', h1, h2⟩ := refineFace_spec K d (buildConnection r) hv' hc hoffs
        i fst ov a s hinv (by simp only [buildConnection_counts]; omega) hlt
      exact ⟨fst', ov', a', h1, fun _ => h2⟩)
  exact key

/-- The budget test before face `fi`: either it fires, the current split is closed and
the next one starts at this face with an empty cache, or the state is left alone. -/
theorem openFace_spec (K : NearEqual F2 F3 F4) (d : Profile) (r0 : MeshRefiner F2 F3 F4 W)
    (fi fst ov : Nat) (a : List Nat) (s : RefineLoop F2 F3 F4 W)
    (h : FaceInv K d r0 fi fst ov a s) (hfi : fi < r0.counts.length)
    (hlt : 0 < fi → fst < fi) :
    ((r0.split_unit > 0 ∧
        (a.length : Int) - (ov : Int) + elem r0.counts (fi : Int) > r0.split_unit) ∧
      FaceInv K d r0 fi fi a.length a (openFace s fi) ∧
      (openFace s fi).r.splits = s.r.splits ++ [closingSplit s]) ∨
    (¬ (r0.split_unit > 0 ∧
        (a.length : Int) - (ov : Int) + elem r0.counts (fi : Int) > r0.split_unit) ∧
      openFace s fi = s) := by
  unfold openFace
  simp only [h.corner.inputs.counts, h.corner.inputs.split_unit, h.corner.rep.length, h.off_v]
  by_cases hcond : r0.split_unit > 0 ∧
      (a.length : Int) - (ov : Int) + elem r0.counts (fi : Int) > r0.split_unit
  · rw [if_pos hcond]
    exact Or.inl ⟨hcond, close_spec K d r0 fi fst ov a s h hfi hlt hcond.1 hcond.2, rfl⟩
  · rw [if_neg hcond]
    exact Or.inr ⟨hcond, rfl⟩

/-- The corner invariant holds before every corner of a face. -/
theorem corners_upto (K : NearEqual F2 F3 F4) (d : Profile) (r0 : MeshRefiner F2 F3 F4 W)
    (hv : ValidTopology r0.counts r0.indices r0.points.length) (hc : Connected r0)
    (fi fst ov : Nat) (a : List Nat) (s1 : RefineLoop F2 F3 F4 W)
    (h : FaceInv K d r0 fi fst ov a s1) (hfi : fi < r0.counts.length)
    (ci : Nat) (hci : ci ≤ (elem r0.counts (fi : Int)).toNat) :
    ∃ a' : List Nat, InnerInv K d r0 fi fst ov a s1 ci a'
      ((List.range ci).foldl (refineCorner (d.body K) (faceStart r0.counts fi : Int)) s1) := by
  apply foldl_range_inv
    (fun ci s => ∃ a' : List Nat, InnerInv K d r0 fi fst ov a s1 ci a' s)
    (refineCorner (d.body K) (faceStart r0.counts fi : Int))
  · exact ⟨a, ⟨by simpa using h.corner, ⟨[], by simp, by simp⟩, rfl, rfl, rfl, rfl, rfl,
      ⟨[], by simp⟩⟩⟩
  · intro s j hj ⟨a', hinv⟩
    have hn := hv.corner_lt fi hfi j (by omega)
    obtain ⟨a2, h1, h2, h3, h4, h5, h6, h7, x, h8⟩ :=
      refineCorner_spec K d r0 hv hc (faceStart r0.counts fst) ov (faceStart r0.counts fi + j) a'
        s (faceStart r0.counts fi : Int) j (by push_cast; rfl)
        (by rw [hinv.off_v]; exact h.off_v) hn hinv.corner
    obtain ⟨e, he1, he2⟩ := hinv.ext
    obtain ⟨ys, hys⟩ := hinv.newidx
    refine ⟨a2, ⟨h1, ?_, ?_, ?_, ?_, ?_, ?_, ?_⟩⟩
    · rcases h2 with h2 | h2
      · exact ⟨e, by rw [h2, he1], Nat.le_succ_of_le he2⟩
      · refine ⟨e ++ [faceStart r0.counts fi + j], ?_, ?_⟩
        · rw [h2, he1, List.append_assoc]
        · simp; omega
    · rw [h3]; exact hinv.splits
    · rw [h4]; exact hinv.off_v
    · rw [h5]; exact hinv.off_i
    · rw [h6]; exact hinv.nfaces
    · rw [h7]; exact hinv.ntri
    · exact ⟨ys ++ [x], by rw [h8, hys, List.append_assoc]⟩

end MeshRefiner

end

section

variable {F2 F3 F4 W : Type} [Inhabited F2] [Inhabited F3] [Inhabited F4] [Inhabited W]

open MeshRefiner

set_option linter.unusedSectionVars false

/-- What holds whenever `doRefine` calls its lambda, for any variant `d`: the call for
corner `ci` of face `fi` finds the first `q` slots of the point's incidence list
assigned and slot `q` free, with `q` below the length of the list and below the number
of corners of the point processed in the current split, this corner included. -/
theorem call_state (K : NearEqual F2 F3 F4) (d : Profile) (r : MeshRefiner F2 F3 F4 W)
    (hv : ValidTopology r.counts r.indices r.points.length) (hf : Fresh r)
    (fi ci : Nat) (hfi : fi < r.counts.length) (hci : (ci : Int) < elem r.counts (fi : Int)) :
    ∃ (q k vn : Nat),
      calledCorner (d.body K) r fi ci = (k : Int) ∧
      calledPoint (d.body K) r fi ci = (vn : Int) ∧
      k < r.indices.length ∧ vn < r.points.length ∧
      elem (cornerState (d.body K) r fi ci).r.v2f_counts (vn : Int)
        = (occ r.indices r.indices.length (vn : Int) : Int) ∧
      q < occ r.indices r.indices.length (vn : Int) ∧
      (∀ c : Nat, c < occ r.indices r.indices.length (vn : Int) →
        (elem (cornerState (d.body K) r fi ci).r.old2new
            (elem (cornerState (d.body K) r fi ci).r.shared_indices
              (elem (cornerState (d.body K) r fi ci).r.v2f_offsets (vn : Int) + c)) ≠ -1
          ↔ c < q)) ∧
      q + occ r.indices (cornerState (d.body K) r fi ci).offset_indices.toNat (vn : Int)
        < occ r.indices (k + 1) (vn : Int) ∧
      ((∃ c : Nat, c < q ∧
          d.test K (cornerState (d.body K) r fi ci).r (vn : Int) (k : Int)
            (elem (cornerState (d.body K) r fi ci).r.old2new
              (elem (cornerState (d.body K) r fi ci).r.shared_indices
                (elem (cornerState (d.body K) r fi ci).r.v2f_offsets (vn : Int) + c))) = true ∧
          d.body K (cornerState (d.body K) r fi ci).r (vn : Int) (k : Int)
            = ((cornerState (d.body K) r fi ci).r,
               elem (cornerState (d.body K) r fi ci).r.old2new
                (elem (cornerState (d.body K) r fi ci).r.shared_indices
                  (elem (cornerState (d.body K) r fi ci).r.v2f_offsets (vn : Int) + c))))
        ∨ d.body K (cornerState (d.body K) r fi ci).r (vn : Int) (k : Int)
            = (d.add (cornerState (d.body K) r fi ci).r (vn : Int) (k : Int)
                (recordAt (cornerState (d.body K) r fi ci).r
                  (elem (cornerState (d.body K) r fi ci).r.shared_indices
                    (elem (cornerState (d.body K) r fi ci).r.v2f_offsets (vn : Int) + q))),
               ((cornerState (d.body K) r fi ci).r.new_points.length : Int))) := by
  have hv' : ValidTopology (buildConnection r).counts (buildConnection r).indices
      (buildConnection r).points.length := by simpa using hv
  have hc : Connected (buildConnection r) := by
    rcases hf.csr with h0 | ⟨h1, h2⟩
    · exact buildConnection_connected r hv h0
    · have : buildConnection r = r := by unfold buildConnection; rw [if_pos h1]
      rw [this]; exact h2
  have hoffs : elem (buildConnection r).offsets (fi : Int)
      = (faceStart (buildConnection r).counts fi : Int) := by
    simp only [buildConnection_offsets, buildConnection_counts]
    rw [hf.offsets]
    exact CountIndices_offsets r.counts hv.nonneg fi hfi
  have eI : (buildConnection r).indices = r.indices := buildConnection_indices r
  have eC : (buildConnection r).counts = r.counts := buildConnection_counts r
  have eP : (buildConnection r).points = r.points := buildConnection_points r
  have hfi' : fi < (buildConnection r).counts.length := by rw [eC]; exact hfi
  obtain ⟨fst, ov, a, hinv, hlt⟩ := faceLoop_upto K d r hv hf fi (Nat.le_of_lt hfi)
  have hopen : ∃ fst' ov' : Nat,
      FaceInv K d (buildConnection r) fi fst' ov' a (openFace (faceState (d.body K) r fi) fi) := by
    rcases openFace_spec K d (buildConnection r) fi fst ov a _ hinv hfi' hlt with
      ⟨_, h1, _⟩ | ⟨_, h1⟩
    · exact ⟨fi, a.length, h1⟩
    · rw [h1]; exact ⟨fst, ov, hinv⟩
  obtain ⟨fst', ov', h1⟩ := hopen
  have hoff : elem (faceState (d.body K) r fi).r.offsets (fi : Int)
      = (faceStart (buildConnection r).counts fi : Int) := by
    rw [hinv.corner.inputs.offsets]; exact hoffs
  have hci' : ci < (elem (buildConnection r).counts (fi : Int)).toNat := by
    rw [eC]; omega
  obtain ⟨a', hin⟩ := corners_upto K d (buildConnection r) hv' hc fi fst' ov' a _ h1 hfi' ci
    (Nat.le_of_lt hci')
  have hS : cornerState (d.body K) r fi ci
      = (List.range ci).foldl
          (refineCorner (d.body K) (faceStart (buildConnection r).counts fi : Int))
          (openFace (faceState (d.body K) r fi) fi) := by
    unfold cornerState
    rw [hoff]
  have hcc : calledCorner (d.body K) r fi ci
      = ((faceStart (buildConnection r).counts fi + ci : Nat) : Int) := by
    unfold calledCorner
    rw [hoff]; push_cast; rfl
  unfold calledPoint
  rw [hcc, hS]
  generalize (List.range ci).foldl
      (refineCorner (d.body K) (faceStart (buildConnection r).counts fi : Int))
      (openFace (faceState (d.body K) r fi) fi) = S at hin
  have hn := hv'.corner_lt fi hfi' ci hci'
  obtain ⟨vn, q, hvn, hvP, hq1, hq, hq2, hcase⟩ :=
    body_outcome K d (buildConnection r) hv' hc _ ov' _ a' S.r hn hin.corner
  have hslot : ∀ c : Nat, c < occ (buildConnection r).indices (buildConnection r).indices.length
      (vn : Int) →
      elem S.r.shared_indices (elem S.r.v2f_offsets (vn : Int) + c)
        = (((cornersOf (buildConnection r).indices (buildConnection r).indices.length
            (vn : Int)).getD c 0 : Nat) : Int) := by
    intro c hcl
    rw [hin.corner.inputs.shared_indices, hin.corner.inputs.v2f_offsets, hc.offsets_eq vn hvP]
    exact hc.slots vn hvP c hcl
  have hidx : elem S.r.indices ((faceStart (buildConnection r).counts fi + ci : Nat) : Int)
      = (vn : Int) := by
    rw [hin.corner.inputs.indices]; exact hvn
  have hoi : S.offset_indices.toNat = faceStart (buildConnection r).counts fst' := by
    rw [hin.off_i, h1.off_i]
    simp
  have hocc : occ (buildConnection r).indices (faceStart (buildConnection r).counts fi + ci + 1)
      (vn : Int)
      = occ (buildConnection r).indices (faceStart (buildConnection r).counts fi + ci) (vn : Int)
        + 1 := by
    rw [occ_succ]
    have : elem (buildConnection r).indices
        ((faceStart (buildConnection r).counts fi + ci : Nat) : Int) = (vn : Int) := hvn
    rw [if_pos this]
  refine ⟨q, faceStart (buildConnection r).counts fi + ci, vn, rfl, hidx, ?_, ?_, ?_, ?_, ?_, ?_, ?_⟩
  · rw [← eI]; exact hn
  · rw [← eP]; exact hvP
  · rw [hin.corner.inputs.v2f_counts, hc.counts_eq vn hvP, eI]
  · rw [← eI]; exact hq
  · intro c hcl
    rw [← eI] at hcl
    rw [hslot c hcl]
    exact hq2 c hcl
  · rw [hoi, ← eI, hocc]
    omega
  · rw [hvn] at hcase
    rw [hidx] at hcase
    rcases hcase with ⟨c, hcq, ht, hres⟩ | ⟨_, hres⟩
    · left
      refine ⟨c, hcq, ?_, ?_⟩
      · rw [hslot c (by omega)]; exact ht
      · rw [hslot c (by omega)]; exact hres
    · right
      rw [hslot q hq, hres, hin.corner.rep.length]

/-- C24. The fall-through `return 0` of the `findOrAddVertex*` functions is not reached
during optimized refine.  For every freshly prepared valid mesh, every `split_unit`,
every `near_equal` and every variant `d` of the lambda: when `doRefine` calls the lambda
for corner `ci` of face `fi` (corner `k`, point `vi`), the slots of the incidence list of
`vi` that are assigned in `old2new` are exactly its first `q` slots, `q` is smaller than
the length `v2f_counts[vi]` of the list and smaller than the number of corners of `vi`
among the corners of the current split up to and including `k`; so the walk leaves
through one of the two `return` statements inside the loop: it reuses the vertex of an
assigned slot that passes the test, or it records a new vertex in slot `q`. -/
theorem C24_return0_unreachable (K : NearEqual F2 F3 F4) (d : Profile)
    (r : MeshRefiner F2 F3 F4 W)
    (hv : ValidTopology r.counts r.indices r.points.length) (hf : Fresh r)
    (fi ci : Nat) (hfi : fi < r.counts.length) (hci : (ci : Int) < elem r.counts (fi : Int)) :
    reachesReturn0 (cornerState (d.body K) r fi ci).r
        (elem (cornerState (d.body K) r fi ci).r.v2f_offsets (calledPoint (d.body K) r fi ci))
        (d.test K (cornerState (d.body K) r fi ci).r (calledPoint (d.body K) r fi ci)
          (calledCorner (d.body K) r fi ci))
        (List.range (elem (cornerState (d.body K) r fi ci).r.v2f_counts
          (calledPoint (d.body K) r fi ci)).toNat) = false ∧
    ∃ (q k : Nat), calledCorner (d.body K) r fi ci = (k : Int) ∧
      (q : Int) < elem (cornerState (d.body K) r fi ci).r.v2f_counts
        (calledPoint (d.body K) r fi ci) ∧
      (∀ c : Nat, (c : Int) < elem (cornerState (d.body K) r fi ci).r.v2f_counts
          (calledPoint (d.body K) r fi ci) →
        (elem (cornerState (d.body K) r fi ci).r.old2new
            (elem (cornerState (d.body K) r fi ci).r.shared_indices
              (elem (cornerState (d.body K) r fi ci).r.v2f_offsets
                (calledPoint (d.body K) r fi ci) + c)) ≠ -1
          ↔ c < q)) ∧
      q + occ r.indices (cornerState (d.body K) r fi ci).offset_indices.toNat
          (calledPoint (d.body K) r fi ci)
        < occ r.indices (k + 1) (calledPoint (d.body K) r fi ci) ∧
      ((∃ c : Nat, c < q ∧
          d.test K (cornerState (d.body K) r fi ci).r (calledPoint (d.body K) r fi ci)
            (calledCorner (d.body K) r fi ci)
            (elem (cornerState (d.body K) r fi ci).r.old2new
              (elem (cornerState (d.body K) r fi ci).r.shared_indices
                (elem (cornerState (d.body K) r fi ci).r.v2f_offsets
                  (calledPoint (d.body K) r fi ci) + c))) = true ∧
          d.body K (cornerState (d.body K) r fi ci).r (calledPoint (d.body K) r fi ci)
              (calledCorner (d.body K) r fi ci)
            = ((cornerState (d.body K) r fi ci).r,
               elem (cornerState (d.body K) r fi ci).r.old2new
                (elem (cornerState (d.body K) r fi ci).r.shared_indices
                  (elem (cornerState (d.body K) r fi ci).r.v2f_offsets
                    (calledPoint (d.body K) r fi ci) + c))))
        ∨ d.body K (cornerState (d.body K) r fi ci).r (calledPoint (d.body K) r fi ci)
              (calledCorner (d.body K) r fi ci)
            = (d.add (cornerState (d.body K) r fi ci).r (calledPoint (d.body K) r fi ci)
                (calledCorner (d.body K) r fi ci)
                (recordAt (cornerState (d.body K) r fi ci).r
                  (elem (cornerState (d.body K) r fi ci).r.shared_indices
                    (elem (cornerState (d.body K) r fi ci).r.v2f_offsets
                      (calledPoint (d.body K) r fi ci) + q))),
               ((cornerState (d.body K) r fi ci).r.new_points.length : Int))) := by
  obtain ⟨q, k, vn, e1, e2, _, _, e5, e6, e7, e8, e9⟩ := call_state K d r hv hf fi ci hfi hci
  rw [e1, e2, e5]
  constructor
  · apply reachesReturn0_free _ _ _ _ q
    · simp only [Int.toNat_ofNat, List.mem_range]
      exact e6
    · by_contra hne
      exact absurd ((e7 q e6).mp hne) (lt_irrefl q)
  · refine ⟨q, k, rfl, by exact_mod_cast e6, ?_, e8, e9⟩
    intro c hcl
    exact e7 c (by exact_mod_cast hcl)

set_option maxRecDepth 100000 in
/-- Witness for C24: corner 0 of the second triangle of the painted quad (point 0, whose
first slot is assigned) with the variant that compares per-vertex normals. -/
theorem C24_return0_unreachable_witness :
    ValidTopology paintedQuad.counts paintedQuad.indices paintedQuad.points.length ∧
    calledPoint ((⟨some false, none, none, none⟩ : Profile).body exactNear) paintedQuad 1 0 = 0 ∧
    reachesReturn0
      (cornerState ((⟨some false, none, none, none⟩ : Profile).body exactNear) paintedQuad 1 0).r
      (elem (cornerState ((⟨some false, none, none, none⟩ : Profile).body exactNear)
          paintedQuad 1 0).r.v2f_offsets
        (calledPoint ((⟨some false, none, none, none⟩ : Profile).body exactNear) paintedQuad 1 0))
      ((⟨some false, none, none, none⟩ : Profile).test exactNear
        (cornerState ((⟨some false, none, none, none⟩ : Profile).body exactNear)
          paintedQuad 1 0).r
        (calledPoint ((⟨some false, none, none, none⟩ : Profile).body exactNear) paintedQuad 1 0)
        (calledCorner ((⟨some false, none, none, none⟩ : Profile).body exactNear) paintedQuad 1 0))
      (List.range (elem (cornerState ((⟨some false, none, none, none⟩ : Profile).body exactNear)
          paintedQuad 1 0).r.v2f_counts
        (calledPoint ((⟨some false, none, none, none⟩ : Profile).body exactNear)
          paintedQuad 1 0)).toNat) = false :=
  ⟨by decide, by decide,
    (C24_return0_unreachable exactNear ⟨some false, none, none, none⟩ paintedQuad (by decide)
      ⟨rfl, rfl, rfl, rfl, rfl, rfl, rfl, Or.inl rfl, rfl⟩ 1 0 (by decide) (by decide)).1⟩

end

section

variable {F2 F3 F4 W : Type} [Inhabited F2] [Inhabited F3] [Inhabited F4] [Inhabited W]

namespace MeshRefiner

set_option linter.unusedSectionVars false

/-- When the corners processed in the current split name pairwise distinct points, every
one of them has allocated a vertex. -/
theorem split_full_of_distinct (K : NearEqual F2 F3 F4) (d : Profile)
    (r0 : MeshRefiner F2 F3 F4 W) (st ov n : Nat) (a : List Nat) (r : MeshRefiner F2 F3 F4 W)
    (h : CornerInv K d r0 st ov n a r)
    (hinj : ∀ j : Nat, st ≤ j → j < n → ∀ k : Nat, st ≤ k → k < n →
      idx r0 j = idx r0 k → j = k) : a.length = ov + (n - st) := by
  apply length_of_interval a ov st n h.ov_le h.st_le h.sorted
  · intro k hk0 hk1
    obtain ⟨g, _, hg1, hg2, hg3, hg4, _⟩ := h.out k hk0 hk1
    refine ⟨g, hg1, hg2, ?_⟩
    have hst := h.alloc_cur g hg1 hg2
    exact hinj _ hst (by omega) _ hk0 hk1 hg3
  · intro g hg0 hg1
    exact ⟨h.alloc_cur g hg0 hg1, h.alloc_lt _ (getD_mem_of_lt a g hg1)⟩

theorem getD_append_last (l : List Split) (c : Split) :
    (l ++ [c]).getD l.length default = c := by
  simp [List.getD_eq_getElem?_getD]

theorem getD_append_before (l : List Split) (c : Split) (t : Nat) (h : t < l.length) :
    (l ++ [c]).getD t default = l.getD t default := by
  simp [List.getD_eq_getElem?_getD, List.getElem?_append_left h]

/-- One face of `doRefine` in the presence of a face `f` that exceeds the budget and
whose corners name distinct points: right after `f` the current split starts at `f` and
holds `counts[f]` vertices, and once a later face has been handled the split record of
`f` holds one face. -/
theorem oversized_step (K : NearEqual F2 F3 F4) (d : Profile) (r0 : MeshRefiner F2 F3 F4 W)
    (hv : ValidTopology r0.counts r0.indices r0.points.length) (hc : Connected r0)
    (hoffs : ∀ g : Nat, g < r0.counts.length →
      elem r0.offsets (g : Int) = (faceStart r0.counts g : Int))
    (hS : 0 < r0.split_unit) (f : Nat) (hfF : f < r0.counts.length)
    (hbig : r0.split_unit < elem r0.counts (f : Int)) (hdist : DistinctCorners r0 f)
    (fi : Nat) (hfi : fi < r0.counts.length) (s : RefineLoop F2 F3 F4 W)
    (hq : (∃ (fst ov : Nat) (a : List Nat), FaceInv K d r0 fi fst ov a s ∧ (0 < fi → fst < fi) ∧
        (fi = f + 1 → fst = f ∧ (a.length : Int) - (ov : Int) = elem r0.counts (f : Int))) ∧
      (f + 1 < fi → ∃ t : Nat, t < s.r.splits.length ∧ faceBase s.r.splits t = (f : Int) ∧
        (s.r.splits.getD t default).num_faces = 1)) :
    (∃ (fst ov : Nat) (a : List Nat),
        FaceInv K d r0 (fi + 1) fst ov a (refineFace (d.body K) s fi) ∧
        (0 < fi + 1 → fst < fi + 1) ∧
        (fi + 1 = f + 1 → fst = f ∧ (a.length : Int) - (ov : Int) = elem r0.counts (f : Int))) ∧
      (f + 1 < fi + 1 → ∃ t : Nat, t < (refineFace (d.body K) s fi).r.splits.length ∧
        faceBase (refineFace (d.body K) s fi).r.splits t = (f : Int) ∧
        ((refineFace (d.body K) s fi).r.splits.getD t default).num_faces = 1) := by
  obtain ⟨⟨fst, ov, a, hinv, hlt, hjust⟩, hdone⟩ := hq
  have hmem : elem r0.counts (fi : Int) ∈ r0.counts := by
    rw [elem_of_lt r0.counts fi hfi]; exact List.getElem_mem _
  have hc3 : 3 ≤ elem r0.counts (fi : Int) := hv.1 _ hmem
  have hovle : (ov : Int) ≤ (a.length : Int) := by exact_mod_cast hinv.corner.ov_le
  rw [refineFace_open, hinv.corner.inputs.offsets, hinv.corner.inputs.counts, hoffs fi hfi]
  have hsp : ∀ (x y : Int) (z : RefineLoop F2 F3 F4 W),
      ({ z with num_faces := x, num_indices_triangulated := y } : RefineLoop F2 F3 F4 W).r.splits
        = z.r.splits := fun _ _ _ => rfl
  rcases openFace_spec K d r0 fi fst ov a s hinv hfi hlt with ⟨hcond, h1, hsplits⟩ | ⟨hcond, hsame⟩
  · -- the budget test fires before face `fi`
    obtain ⟨a1, hin1⟩ := face_corners K d r0 hv hc fi fi a.length a _ h1 hfi
    obtain ⟨a', h2⟩ := finish_face K d r0 hv hc fi fi a.length a _ h1 hfi
      (by
        intro _ hall
        have := hall _ hmem
        omega)
    rw [hsp, hin1.splits, hsplits]
    refine ⟨⟨fi, a.length, a', h2, fun _ => Nat.lt_succ_self _, ?_⟩, ?_⟩
    · intro hff
      have hff' : fi = f := by omega
      subst hff'
      refine ⟨rfl, ?_⟩
      have hfull := split_full_of_distinct K d r0 _ _ _ a' _ h2.corner
        (by
          intro j hj0 hj1 k hk0 hk1 hjk
          have hsucc := faceStart_succ r0.counts fi hfi
          have := hdist (j - faceStart r0.counts fi) (by omega) (k - faceStart r0.counts fi)
            (by omega)
            (by
              have e1 : faceStart r0.counts fi + (j - faceStart r0.counts fi) = j := by omega
              have e2 : faceStart r0.counts fi + (k - faceStart r0.counts fi) = k := by omega
              rw [e1, e2]; exact hjk)
          omega)
      have hsucc := faceStart_succ r0.counts fi hfi
      rw [hfull, hsucc]
      push_cast
      omega
    · intro hlate
      rcases Nat.lt_or_ge (f + 1) fi with hgt | hle
      · obtain ⟨t, ht1, ht2, ht3⟩ := hdone hgt
        refine ⟨t, by rw [List.length_append]; omega, ?_, ?_⟩
        · rw [faceBase_append_le _ _ _ (Nat.le_of_lt ht1)]; exact ht2
        · rw [getD_append_before _ _ _ ht1]; exact ht3
      · have hff : fi = f + 1 := by omega
        obtain ⟨e1, _⟩ := hjust hff
        refine ⟨s.r.splits.length, by rw [List.length_append]; simp, ?_, ?_⟩
        · rw [faceBase_append_le _ _ _ (le_refl _), hinv.fbase, e1]
        · rw [getD_append_last]
          show s.num_faces = 1
          rw [hinv.nfaces, e1, hff]
          push_cast
          omega
  · -- the budget test does not fire
    rw [hsame]
    obtain ⟨a1, hin1⟩ := face_corners K d r0 hv hc fi fst ov a s hinv hfi
    obtain ⟨a', h2⟩ := finish_face K d r0 hv hc fi fst ov a s hinv hfi
      (by
        intro hsu _
        by_contra hgt
        exact hcond ⟨hsu, by omega⟩)
    rw [hsp, hin1.splits]
    refine ⟨⟨fst, ov, a', h2, fun _ => Nat.lt_succ_of_le hinv.fst_le, ?_⟩, ?_⟩
    · intro hff
      have hff' : fi = f := by omega
      subst hff'
      exact absurd ⟨hS, by omega⟩ hcond
    · intro hlate
      rcases Nat.lt_or_ge (f + 1) fi with hgt | hle
      · exact hdone hgt
      · have hff : fi = f + 1 := by omega
        obtain ⟨_, e2⟩ := hjust hff
        have hc3f : 3 ≤ elem r0.counts (f : Int) := by omega
        exact absurd ⟨hS, by omega⟩ hcond

end MeshRefiner

end

section

variable {F2 F3 F4 W : Type} [Inhabited F2] [Inhabited F3] [Inhabited F4] [Inhabited W]

open MeshRefiner

set_option linter.unusedSectionVars false

/-- The split records of `doRefine` are those of the face loop followed by the record
of the last `add_new_split`. -/
theorem doRefine_splits (body : MeshRefiner F2 F3 F4 W → Int → Int → MeshRefiner F2 F3 F4 W × Int)
    (r : MeshRefiner F2 F3 F4 W) :
    (doRefine body r).splits
      = (faceState body r r.counts.length).r.splits
          ++ [closingSplit (faceState body r r.counts.length)] := by
  rw [doRefine_faceState]
  by_cases ht : (add_new_split (faceState body r r.counts.length)).r.triangulate = true
  · rw [if_pos ht]
    obtain ⟨x, hx⟩ := triangulateSplits_frame (add_new_split (faceState body r r.counts.length)).r
    rw [hx, add_new_split_eq]
  · rw [if_neg ht, add_new_split_eq]

/-- A face that exceeds the budget and whose corners name distinct points gets a split
record of its own from `doRefine`. -/
theorem oversized_alone (K : NearEqual F2 F3 F4) (d : Profile) (r : MeshRefiner F2 F3 F4 W)
    (hv : ValidTopology r.counts r.indices r.points.length) (hf : Fresh r)
    (hS : 0 < r.split_unit) (f : Nat) (hfF : f < r.counts.length)
    (hbig : r.split_unit < elem r.counts (f : Int)) (hdist : DistinctCorners r f) :
    ∃ t : Nat, t < (doRefine (d.body K) r).splits.length ∧
      faceBase (doRefine (d.body K) r).splits t = (f : Int) ∧
      ((doRefine (d.body K) r).splits.getD t default).num_faces = 1 := by
  have hv' : ValidTopology (buildConnection r).counts (buildConnection r).indices
      (buildConnection r).points.length := by simpa using hv
  have hc : Connected (buildConnection r) := by
    rcases hf.csr with h0 | ⟨h1, h2⟩
    · exact buildConnection_connected r hv h0
    · have : buildConnection r = r := by unfold buildConnection; rw [if_pos h1]
      rw [this]; exact h2
  have hoffs : ∀ g : Nat, g < (buildConnection r).counts.length →
      elem (buildConnection r).offsets (g : Int) = (faceStart (buildConnection r).counts g : Int) := by
    intro g hgl
    simp only [buildConnection_offsets, buildConnection_counts] at hgl ⊢
    rw [hf.offsets]
    exact CountIndices_offsets r.counts hv.nonneg g hgl
  have hdist' : DistinctCorners (buildConnection r) f := by
    unfold DistinctCorners at hdist ⊢
    simpa using hdist
  have key := foldl_range_inv
    (fun fi (s : RefineLoop F2 F3 F4 W) =>
      (∃ (fst ov : Nat) (a : List Nat), FaceInv K d (buildConnection r) fi fst ov a s ∧
        (0 < fi → fst < fi) ∧
        (fi = f + 1 → fst = f ∧
          (a.length : Int) - (ov : Int) = elem (buildConnection r).counts (f : Int))) ∧
      (f + 1 < fi → ∃ t : Nat, t < s.r.splits.length ∧ faceBase s.r.splits t = (f : Int) ∧
        (s.r.splits.getD t default).num_faces = 1))
    (refineFace (d.body K)) r.counts.length { r := refineStart r }
    ⟨⟨0, 0, [], faceInv_start K d r hf, by intro h; omega, by intro h; omega⟩,
      by intro h; omega⟩
    (by
      intro s i hi hq
      exact oversized_step K d (buildConnection r) hv' hc hoffs (by simpa using hS) f
        (by simpa using hfF) (by simpa using hbig) hdist' i (by simpa using hi) s hq)
  change _ ∧ _ at key
  obtain ⟨⟨fst, ov, a, hinv, _, hjust⟩, hdone⟩ := key
  rw [doRefine_splits]
  change FaceInv K d (buildConnection r) r.counts.length fst ov a
    (faceState (d.body K) r r.counts.length) at hinv
  change f + 1 < r.counts.length → ∃ t : Nat,
    t < (faceState (d.body K) r r.counts.length).r.splits.length ∧
    faceBase (faceState (d.body K) r r.counts.length).r.splits t = (f : Int) ∧
    ((faceState (d.body K) r r.counts.length).r.splits.getD t default).num_faces = 1 at hdone
  generalize faceState (d.body K) r r.counts.length = sF at hinv hdone
  rcases Nat.lt_or_ge (f + 1) r.counts.length with hgt | hle
  · obtain ⟨t, ht1, ht2, ht3⟩ := hdone hgt
    refine ⟨t, by rw [List.length_append]; omega, ?_, ?_⟩
    · rw [faceBase_append_le _ _ _ (Nat.le_of_lt ht1)]; exact ht2
    · rw [getD_append_before _ _ _ ht1]; exact ht3
  · have hff : r.counts.length = f + 1 := by omega
    obtain ⟨e1, _⟩ := hjust hff
    refine ⟨sF.r.splits.length, by rw [List.length_append]; simp, ?_, ?_⟩
    · rw [faceBase_append_le _ _ _ (le_refl _), hinv.fbase, e1]
    · rw [getD_append_last]
      show sF.num_faces = 1
      rw [hinv.nfaces, e1, hff]
      push_cast
      omega

/-- C21, as amended. For every freshly prepared valid mesh with normals or texture
coordinates and valid attribute lengths and every `split_unit > 0`: if face `f` has
`counts[f] > split_unit` and its corners name pairwise distinct points, optimized refine
returns `true` and emits a split that starts at face `f` and contains exactly one
face. -/
theorem C21_oversized_face_alone (K : NearEqual F2 F3 F4) (r : MeshRefiner F2 F3 F4 W)
    (hv : ValidMesh r) (hf : Fresh r) (ha : AttrsValid r)
    (hS : 0 < r.split_unit) (f : Nat) (hfF : f < r.counts.length)
    (hbig : r.split_unit < elem r.counts (f : Int)) (hdist : DistinctCorners r f) :
    (refineWithOptimization K r).2 = true ∧
    ∃ t : Nat, t < (refineWithOptimization K r).1.splits.length ∧
      faceBase (refineWithOptimization K r).1.splits t = (f : Int) ∧
      ((refineWithOptimization K r).1.splits.getD t default).num_faces = 1 := by
  obtain ⟨d, hd⟩ := dispatch_active r ha hv.2
  rw [refineWithOptimization_eq, hd]
  exact ⟨rfl, oversized_alone K d r hv.1 hf hS f hfF hbig hdist⟩

set_option maxRecDepth 100000 in
/-- Witness for C21 (amended): a pentagon and a triangle with `split_unit = 4`; the
pentagon is face 0 and the split with index 1 holds it alone. -/
theorem C21_oversized_face_alone_witness :
    ValidMesh pentagonMesh ∧ 0 < pentagonMesh.split_unit ∧
    pentagonMesh.split_unit < elem pentagonMesh.counts ((0 : Nat) : Int) ∧
    DistinctCorners pentagonMesh 0 ∧
    ((refineWithOptimization exactNear pentagonMesh).2 = true ∧
      ∃ t : Nat, t < (refineWithOptimization exactNear pentagonMesh).1.splits.length ∧
        faceBase (refineWithOptimization exactNear pentagonMesh).1.splits t = ((0 : Nat) : Int) ∧
        ((refineWithOptimization exactNear pentagonMesh).1.splits.getD t default).num_faces = 1) :=
  ⟨⟨by decide, Or.inl (by decide)⟩, by decide, by decide, by decide,
    C21_oversized_face_alone exactNear pentagonMesh ⟨by decide, Or.inl (by decide)⟩
      ⟨rfl, rfl, rfl, rfl, rfl, rfl, rfl, Or.inl rfl, rfl⟩ ⟨by decide, by decide, by decide⟩
      (by decide) 0 (by decide) (by decide) (by decide)⟩

set_option maxRecDepth 100000 in
/-- Counterexample to C21 as stated: a valid mesh whose face 0 has five corners, all
naming point 0, followed by a triangle, refined with `split_unit = 4`.  Face 0 exceeds
the budget but allocates a single vertex, so the triangle joins its split: the splits
hold 0 and 2 faces, and the one containing face 0 holds two. -/
theorem C21_counterexample :
    ValidMesh foldedFace ∧ AttrsValid foldedFace ∧ 0 < foldedFace.split_unit ∧
    foldedFace.split_unit < elem foldedFace.counts 0 ∧
    (refineWithOptimization exactNear foldedFace).2 = true ∧
    (refineWithOptimization exactNear foldedFace).1.splits.map (fun sp => sp.num_faces) = [0, 2] ∧
    ¬ ∃ t : Nat, t < (refineWithOptimization exactNear foldedFace).1.splits.length ∧
      ((refineWithOptimization exactNear foldedFace).1.splits.getD t default).num_faces = 1 :=
  ⟨⟨by decide, Or.inl (by decide)⟩, ⟨by decide, by decide, by decide⟩, by decide, by decide,
    by decide, by decide, by decide⟩

end

end mu
